import Mathlib

/-! # Recon scanning engine of `firmware/application/apps/ui_recon.cpp`

A shallow embedding of the scan-list traversal and squelch/lock state machine
of `ReconView`, with the theorems that settle the specification's claims.

Modelling conventions.

* The class `ReconView` becomes the record `ReconView` below; a member function
  becomes a function on that record.  The members that a tick never writes are
  grouped in `Settings`, the caches of `handle_retune` in `RetuneCache`.  Widget
  calls that only draw (styles, texts) are dropped; calls to the audio,
  recording, radio and persistence collaborators are appended to the `effects`
  trace of the record.
* A block of statements of the source is a small function of its own, so that
  a function body is one conditional over its argument; the doc comment of each
  gives the lines it renders.
* The member declarations live in the header `ui_recon.hpp`, which this
  development does not read.  Signed members are `Int`, unsigned ones `Nat`,
  booleans `Bool`.  The explicit casts written in the code
  (`(uint32_t)current_index`, `(unsigned)...`) and the two statements that bring
  unsigned 32-bit values into the signed 32-bit dwell timer (`timer =
  recon_lock_duration` and `timer -= time_interval`) are modelled with an
  explicit reduction modulo `2 ^ 32` (`toU32`, `toI32`); the other arithmetic
  stays within the range of its type under the hypotheses of the theorems and
  is exact.
* `frequency_list[i]` with `i` outside the vector is undefined behaviour: the
  functions that index the vector return `Option`, `none` standing for such a
  read.
* `field_mode.selected_index_value() == SPEC_MODULATION` is the flag
  `spec_mode`; every read of it in a tick precedes `handle_retune`.  What a
  widget does when `handle_retune` sets its index (`change_mode`) is on the
  side of the user interface and is recorded as an effect only.
-/

namespace Recon

/-! ## Data model -/

/-- Modelled from the spec: the entry kind tag (Single / Range / RepeaterPair) of
the frequency manager header, which is not among the sources; the constructor
names are the ones `ui_recon.cpp` uses. -/
inductive freqman_entry_type where
  | SINGLE
  | RANGE
  | HAMRADIO
  deriving DecidableEq, Repr

/-- Modelled from the spec: one scan target, with the field names
`ui_recon.cpp` reads (`frequency_a`, `frequency_b`, `type`, `modulation`,
`bandwidth`, `step`, `description`); `-1` is the "unset" sentinel. -/
structure freqman_entry where
  frequency_a : Int
  frequency_b : Int
  type : freqman_entry_type
  modulation : Int
  bandwidth : Int
  step : Int
  description : String
  deriving DecidableEq, Repr

/-- Requests sent to the external collaborators, in the order they are made. -/
inductive Effect where
  /-- The call `audio::output::stop()` -/
  | audio_stop
  /-- The call `audio::output::start()` (through `audio_output_start`) -/
  | audio_start
  /-- The call `record_view->stop()` -/
  | record_stop
  /-- The call `record_view->start()` -/
  | record_start
  /-- The call of `recon_save_freq` reaching the output file with the record to store -/
  | save_freq (entry : freqman_entry)
  /-- The call `receiver_model.set_target_frequency(f)` -/
  | retune (f : Int)
  /-- The call `field_mode.set_selected_index(m)` -/
  | set_modulation (m : Int)
  /-- The call `field_bw.set_selected_index(b)` -/
  | set_bandwidth (b : Int)
  deriving DecidableEq, Repr

/-- The members of `ReconView` that `on_statistics_update` only reads: the
user's settings and the direction. -/
structure Settings where
  fwd : Bool
  continuous : Bool
  wait : Int
  squelch : Int
  recon_lock_nb_match : Nat
  recon_lock_duration : Nat
  recon_match_mode : Nat
  scanner_mode : Bool
  manual_mode : Bool
  autosave : Bool
  auto_record_locked : Bool
  update_ranges : Bool
  spec_mode : Bool
  deriving Repr

/-- The members that only `handle_retune` and the list loaders write. -/
structure RetuneCache where
  last_freq : Int
  last_index : Int
  last_entry_modulation : Int
  last_entry_bandwidth : Int
  last_entry_step : Int
  frequency_range_min : Int
  frequency_range_max : Int
  deriving Repr

/-- The members of `ReconView` that the engine reads and writes. -/
structure ReconView where
  cfg : Settings
  last : RetuneCache
  frequency_list : List freqman_entry
  current_index : Int
  freq : Int
  minfreq : Int
  maxfreq : Int
  step : Int
  recon : Bool
  stepper : Int
  index_stepper : Int
  timer : Int
  db : Int
  freq_lock : Nat
  status : Int
  continuous_lock : Bool
  has_looped : Bool
  entry_has_changed : Bool
  is_recording : Bool
  effects : List Effect
  deriving Repr

/-- Modelled from the spec: the match-mode constant `RECON_MATCH_CONTINUOUS`
of the settings header (absent); only its being different from
`RECON_MATCH_SPARSE` matters. -/
def RECON_MATCH_CONTINUOUS : Nat := 0

/-- Modelled from the spec: the match-mode constant `RECON_MATCH_SPARSE` of the
settings header (absent). -/
def RECON_MATCH_SPARSE : Nat := 1

/-- The cast `(uint32_t)x` of a 32-bit signed value. -/
def toU32 (x : Int) : Int := x % 4294967296

/-- The conversion to `int32_t`: of a size, of an unsigned 32-bit member, or of
the result of 32-bit unsigned arithmetic stored in a signed member. -/
def toI32 (x : Int) : Int := (x + 2147483648) % 4294967296 - 2147483648

/-- The read `frequency_list[i]`; `none` when `i` is outside the vector. -/
def entry_at (l : List freqman_entry) (i : Int) : Option freqman_entry :=
  if 0 ≤ i then l.get? i.toNat else none

/-- Settings of a view scanning forward in Continuous match mode with looping
enabled; concrete runs are written as updates of it. -/
def blank_settings : Settings :=
  { fwd := true, continuous := true, wait := 0, squelch := 0, recon_lock_nb_match := 3,
    recon_lock_duration := 100, recon_match_mode := RECON_MATCH_CONTINUOUS,
    scanner_mode := false, manual_mode := false, autosave := false,
    auto_record_locked := false, update_ranges := false, spec_mode := false }

/-- A view with an empty list and nothing pending; concrete runs are written
as updates of it. -/
def blank : ReconView :=
  { cfg := blank_settings,
    last := { last_freq := 0, last_index := -1, last_entry_modulation := -1,
              last_entry_bandwidth := -1, last_entry_step := -1,
              frequency_range_min := 0, frequency_range_max := 0 },
    frequency_list := [], current_index := 0, freq := 0, minfreq := 0, maxfreq := 0,
    step := 0, recon := true, stepper := 0, index_stepper := 0, timer := 0, db := 0,
    freq_lock := 0, status := -1, continuous_lock := false, has_looped := false,
    entry_has_changed := false, is_recording := false, effects := [] }

/-! ## Collaborator calls -/

/-- The function `recon_stop_recording()`, lines 39-46. -/
def recon_stop_recording (s : ReconView) : ReconView :=
  if s.is_recording then
    { s with is_recording := false, effects := s.effects ++ [Effect.record_stop] }
  else s

/-- The statement `if (field_mode.selected_index_value() != SPEC_MODULATION)
audio::output::stop();`. -/
def audio_output_stop (s : ReconView) : ReconView :=
  if s.cfg.spec_mode then s else { s with effects := s.effects ++ [Effect.audio_stop] }

/-- The function `audio_output_start()`, lines 259-263 (the volume write is
dropped). -/
def audio_output_start (s : ReconView) : ReconView :=
  if s.cfg.spec_mode then s else { s with effects := s.effects ++ [Effect.audio_start] }

/-- The record `recon_save_freq` builds from `frequency_list[freq_index]`,
lines 99-104. -/
def saved_entry (s : ReconView) (e : freqman_entry) : freqman_entry :=
  { e with frequency_a := s.freq, frequency_b := 0,
           modulation := s.last.last_entry_modulation,
           bandwidth := s.last.last_entry_bandwidth,
           type := freqman_entry_type.SINGLE }

/-- The request `recon_save_freq` makes to the output file once it has its
record. -/
def push_save (s : ReconView) (e : freqman_entry) : ReconView :=
  { s with effects := s.effects ++ [Effect.save_freq (saved_entry s e)] }

/-- The call `recon_save_freq(freq_file_path, freq_index, false)`, lines
93-143, as far as the engine is concerned: the guard of line 96, the read of
`frequency_list[freq_index]`, and the record handed to the output file (whose
scan and append are the persistence side). -/
def recon_save_freq (s : ReconView) (freq_index : Int) : Option ReconView :=
  if s.frequency_list.length = 0 ∨
      (s.frequency_list.length ≠ 0 ∧ s.current_index > (s.frequency_list.length : Int)) then
    some s
  else (entry_at s.frequency_list freq_index).map (push_save s)

/-- The assignments `timer = 0; freq_lock = 0; continuous_lock = false;` that
open `recon_pause` and `recon_resume`. -/
def clear_lock (s : ReconView) : ReconView :=
  { s with timer := 0, freq_lock := 0, continuous_lock := false }

/-- The function `recon_pause()`, lines 1279-1290. -/
def recon_pause (s : ReconView) : ReconView :=
  audio_output_start { clear_lock s with recon := false }

/-- The function `recon_resume()`, lines 1292-1303. -/
def recon_resume (s : ReconView) : ReconView :=
  audio_output_stop { clear_lock s with recon := true }

/-- Lines 1306-1313 and 1322-1329: the sign of a manual delta sets the
direction. -/
def set_direction (s : ReconView) (v : Int) : ReconView :=
  if v > 0 then { s with cfg.fwd := true }
  else if v < 0 then { s with cfg.fwd := false }
  else s

/-- Lines 1314-1315: the pending index jump is stored when the list is not
empty. -/
def set_index_stepper (s : ReconView) (v : Int) : ReconView :=
  if s.frequency_list.length > 0 then { s with index_stepper := v } else s

/-- Lines 1330-1331: the pending manual step is stored when the list is not
empty. -/
def set_stepper (s : ReconView) (v : Int) : ReconView :=
  if s.frequency_list.length > 0 then { s with stepper := v } else s

/-- Lines 1317-1318 and 1333-1334: `freq_lock = 0; timer = 0;`. -/
def reset_lock (s : ReconView) : ReconView :=
  { s with freq_lock := 0, timer := 0 }

/-- The function `on_index_delta(v)`, lines 1305-1319. -/
def on_index_delta (s : ReconView) (v : Int) : ReconView :=
  reset_lock (set_index_stepper (set_direction s v) v)

/-- The function `on_stepper_delta(v)`, lines 1321-1335. -/
def on_stepper_delta (s : ReconView) (v : Int) : ReconView :=
  reset_lock (set_stepper (set_direction s v) v)

/-! ## The squelch / lock state machine (lines 1046-1126) -/

/-- Line 1046: `db = statistics.max_db`. -/
def store_sample (s : ReconView) (max_db : Int) : ReconView :=
  { s with db := max_db }

/-- Lines 1048-1054: the re-arm of the dwell timer.  The assignment `timer =
recon_lock_duration` stores the unsigned 32-bit setting in the signed 32-bit
timer. -/
def rearm (s : ReconView) : ReconView :=
  if s.timer = 0 then
    { s with status := 0, continuous_lock := false, freq_lock := 0,
             timer := toI32 (s.cfg.recon_lock_duration : Int) }
  else s

/-- Lines 1059-1063: recording and audio are stopped when `wait != 0`. -/
def locking_mute (s : ReconView) : ReconView :=
  if s.cfg.wait ≠ 0 then audio_output_stop (recon_stop_recording s) else s

/-- Lines 1057-1064: entry in the LOCKING status. -/
def locking_enter (s : ReconView) : ReconView :=
  if s.status ≠ 1 then locking_mute { s with status := 1 } else s

/-- Lines 1065-1077: the sample is compared with the squelch. -/
def locking_sample (s : ReconView) : ReconView :=
  if s.db > s.cfg.squelch then
    { s with continuous_lock := true, freq_lock := s.freq_lock + 1 }
  else if s.cfg.recon_match_mode = RECON_MATCH_CONTINUOUS then
    if s.freq_lock > 0 then { s with timer := 0, continuous_lock := false } else s
  else s

/-- Lines 1055-1078: the LOCKING block. -/
def locking (s : ReconView) : ReconView :=
  if s.freq_lock < s.cfg.recon_lock_nb_match then locking_sample (locking_enter s) else s

/-- Lines 1085-1087 and 1099-1101: the guarded save of the current entry. -/
def autosave_current (s : ReconView) : Option ReconView :=
  if (!s.cfg.scanner_mode) && s.cfg.autosave && decide (s.frequency_list.length > 0) then
    recon_save_freq s s.current_index
  else some s

/-- Lines 1092-1097: start of the recording on a lock. -/
def record_on_lock (s : ReconView) : ReconView :=
  if s.cfg.auto_record_locked && !s.is_recording then
    { s with is_recording := true, effects := s.effects ++ [Effect.record_start] }
  else s

/-- Lines 1082-1083: `continuous_lock = false; status = 2;`. -/
def mark_locked (s : ReconView) : ReconView :=
  { s with continuous_lock := false, status := 2 }

/-- Lines 1088-1102: audio start, recording start and the second save, when
`wait != 0`. -/
def lock_effects (s : ReconView) : Option ReconView :=
  if s.cfg.wait ≠ 0 then autosave_current (record_on_lock (audio_output_start s))
  else some s

/-- Lines 1103-1105: `if (wait >= 0) timer = wait;`. -/
def set_wait_timer (s : ReconView) : ReconView :=
  if s.cfg.wait ≥ 0 then { s with timer := s.cfg.wait } else s

/-- Lines 1081-1106: the body run once when the LOCKED block is entered. -/
def lock_transition (s : ReconView) : Option ReconView :=
  (autosave_current (mark_locked s)).bind fun s2 =>
  (lock_effects s2).map set_wait_timer

/-- Lines 1107-1112: the refresh of the dwell timer while `wait < 0`; `abs` is
the one of the C library, which is defined on every `int` but the least one. -/
def stay_refresh (s : ReconView) : ReconView :=
  if s.cfg.wait < 0 then
    if s.db > s.cfg.squelch then { s with timer := |s.cfg.wait| } else s
  else s

/-- Lines 1079-1113: the LOCKED block. -/
def locked (s : ReconView) : Option ReconView :=
  if s.freq_lock ≥ s.cfg.recon_lock_nb_match then
    (if s.status ≠ 2 then lock_transition s else some s).map stay_refresh
  else some s

/-- Lines 1046-1114: the sample is stored and, when scanning is active, the
lock evaluation runs. -/
def lock_stage (s : ReconView) (max_db : Int) : Option ReconView :=
  if s.recon then locked (locking (rearm (store_sample s max_db)))
  else some (store_sample s max_db)

/-- Lines 1120-1122: the decrement proper.  In `timer -= time_interval` the
signed 32-bit timer and the unsigned 32-bit `systime_t` are subtracted modulo
`2 ^ 32` and the result is stored back in the signed timer. -/
def timer_decrement (s : ReconView) (time_interval : Nat) : ReconView :=
  if (!s.continuous_lock) || decide (s.cfg.recon_match_mode = RECON_MATCH_SPARSE) then
    { s with timer := toI32 (s.timer - (time_interval : Int)) }
  else s

/-- Lines 1123-1125: `if (timer < 0) timer = 0;`. -/
def timer_floor (s : ReconView) : ReconView :=
  if s.timer < 0 then { s with timer := 0 } else s

/-- Lines 1119-1126: the decrement of the dwell timer by the elapsed time. -/
def timer_stage (s : ReconView) (time_interval : Nat) : ReconView :=
  if s.timer ≠ 0 then timer_floor (timer_decrement s time_interval) else s

/-! ## Cursor and stepper (lines 1127-1274) -/

/-- The test `(fwd && stepper == 0) || stepper > 0` of the motion code. -/
def moving_forward (s : ReconView) : Bool :=
  (s.cfg.fwd && decide (s.stepper = 0)) || decide (s.stepper > 0)

/-- The test `(!fwd && stepper == 0) || stepper < 0` of the motion code. -/
def moving_reverse (s : ReconView) : Bool :=
  ((!s.cfg.fwd) && decide (s.stepper = 0)) || decide (s.stepper < 0)

/-- The statements `current_index++; entry_has_changed = true;`. -/
def cursor_inc (s : ReconView) : ReconView :=
  { s with current_index := s.current_index + 1, entry_has_changed := true }

/-- The statements `current_index--; entry_has_changed = true;`. -/
def cursor_dec (s : ReconView) : ReconView :=
  { s with current_index := s.current_index - 1, entry_has_changed := true }

/-- The wrap `if ((uint32_t)current_index >= frequency_list.size())
{ has_looped = true; current_index = 0; }`. -/
def wrap_high (s : ReconView) : ReconView :=
  if toU32 s.current_index ≥ (s.frequency_list.length : Int) then
    { s with has_looped := true, current_index := 0 }
  else s

/-- The wrap `if (current_index < 0) { has_looped = true;
current_index = frequency_list.size() - 1; }`. -/
def wrap_low (s : ReconView) : ReconView :=
  if s.current_index < 0 then
    { s with has_looped := true, current_index := (s.frequency_list.length : Int) - 1 }
  else s

/-- The forward cursor move of lines 1143-1149, 1168-1174 and 1190-1196. -/
def cursor_next (s : ReconView) : ReconView := wrap_high (cursor_inc s)

/-- The reverse cursor move of lines 1157-1163, 1177-1183 and 1203-1209. -/
def cursor_prev (s : ReconView) : ReconView := wrap_low (cursor_dec s)

/-- Line 1139: `freq += step`. -/
def range_step_up (s : ReconView) : ReconView :=
  { s with freq := s.freq + s.step }

/-- Line 1153: `freq -= step`. -/
def range_step_down (s : ReconView) : ReconView :=
  { s with freq := s.freq - s.step }

/-- Lines 1141-1150: past `maxfreq` the cursor moves on. -/
def range_check_high (s : ReconView) : ReconView :=
  if s.freq > s.maxfreq then cursor_next s else s

/-- Lines 1155-1164: below `minfreq` the cursor moves back. -/
def range_check_low (s : ReconView) : ReconView :=
  if s.freq < s.minfreq then cursor_prev s else s

/-- Lines 1139-1150: the forward step inside a RANGE entry. -/
def range_forward (s : ReconView) : ReconView := range_check_high (range_step_up s)

/-- Lines 1153-1164: the reverse step inside a RANGE entry. -/
def range_reverse (s : ReconView) : ReconView := range_check_low (range_step_down s)

/-- Lines 1136-1165: one step inside a RANGE entry. -/
def advance_range (s : ReconView) : ReconView :=
  if moving_forward s then range_forward s
  else if moving_reverse s then range_reverse s
  else s

/-- Lines 1166-1184: one step from a SINGLE entry. -/
def advance_single (s : ReconView) : ReconView :=
  if moving_forward s then cursor_next s
  else if moving_reverse s then cursor_prev s
  else s

/-- Lines 1187-1197: the forward step on a HAMRADIO entry. -/
def hamradio_forward (s : ReconView) : ReconView :=
  if s.minfreq ≠ s.maxfreq ∧ s.freq = s.minfreq then { s with freq := s.maxfreq }
  else cursor_next s

/-- Lines 1200-1210: the reverse step on a HAMRADIO entry. -/
def hamradio_reverse (s : ReconView) : ReconView :=
  if s.minfreq ≠ s.maxfreq ∧ s.freq = s.maxfreq then { s with freq := s.minfreq }
  else cursor_prev s

/-- Lines 1185-1211: one step on a HAMRADIO entry. -/
def advance_hamradio (s : ReconView) : ReconView :=
  if moving_forward s then hamradio_forward s
  else if moving_reverse s then hamradio_reverse s
  else s

/-- Lines 1217-1221: the boundary index for the direction of the motion. -/
def boundary_index (s : ReconView) : ReconView :=
  if moving_forward s then { s with current_index := 0 }
  else if moving_reverse s then
    { s with current_index := (s.frequency_list.length : Int) - 1 }
  else s

/-- Lines 1213-1222: the cursor is put on the list boundary when the motion
has looped and continuous looping is off. -/
def loop_boundary (s : ReconView) : ReconView :=
  if s.has_looped && !s.cfg.continuous then
    boundary_index { s with entry_has_changed := true }
  else s

/-- Lines 1136-1212: the step for the kind of the entry under the cursor. -/
def advance_kind (k : freqman_entry_type) (s : ReconView) : ReconView :=
  match k with
  | freqman_entry_type.RANGE => advance_range s
  | freqman_entry_type.SINGLE => advance_single s
  | freqman_entry_type.HAMRADIO => advance_hamradio s

/-- Lines 1134-1222: the directional advance, taken when `index_stepper == 0`;
the entry under the cursor is read first. -/
def directional_advance (s : ReconView) : Option ReconView :=
  (entry_at s.frequency_list s.current_index).map fun e =>
    loop_boundary (advance_kind e.type s)

/-- Line 1224: `current_index += index_stepper`. -/
def jump_add (s : ReconView) : ReconView :=
  { s with current_index := s.current_index + s.index_stepper }

/-- Lines 1225-1226: `if (current_index < 0) current_index +=
frequency_list.size();`. -/
def jump_wrap_low (s : ReconView) : ReconView :=
  if s.current_index < 0 then
    { s with current_index := s.current_index + (s.frequency_list.length : Int) }
  else s

/-- Lines 1227-1228: `if ((unsigned)current_index >= frequency_list.size())
current_index -= frequency_list.size();`. -/
def jump_wrap_high (s : ReconView) : ReconView :=
  if toU32 s.current_index ≥ (s.frequency_list.length : Int) then
    { s with current_index := s.current_index - (s.frequency_list.length : Int) }
  else s

/-- Lines 1232-1234: audio is restarted when the jump is made while paused. -/
def jump_audio (s : ReconView) : ReconView :=
  if !s.recon then audio_output_start s else s

/-- Lines 1224-1235: the index jump, taken when `index_stepper != 0`. -/
def index_jump (s : ReconView) : ReconView :=
  jump_audio { jump_wrap_high (jump_wrap_low (jump_add s)) with entry_has_changed := true }

/-- The test `(fwd && !stepper && !index_stepper) || stepper > 0 ||
index_stepper > 0` of the reload code. -/
def reload_forward (s : ReconView) : Bool :=
  (s.cfg.fwd && decide (s.stepper = 0) && decide (s.index_stepper = 0))
    || decide (s.stepper > 0) || decide (s.index_stepper > 0)

/-- The test `(!fwd && !stepper && !index_stepper) || stepper < 0 ||
index_stepper < 0` of the reload code. -/
def reload_reverse (s : ReconView) : Bool :=
  ((!s.cfg.fwd) && decide (s.stepper = 0) && decide (s.index_stepper = 0))
    || decide (s.stepper < 0) || decide (s.index_stepper < 0)

/-- Lines 1244-1245 and 1253-1254: the cached bounds are taken from the
entry. -/
def set_bounds (s : ReconView) (e : freqman_entry) : ReconView :=
  { s with minfreq := e.frequency_a, maxfreq := e.frequency_b }

/-- Lines 1246-1250 and 1255-1259: the tuned frequency is put on the near
bound for the direction of the motion. -/
def near_bound (s : ReconView) : ReconView :=
  if reload_forward s then { s with freq := s.minfreq }
  else if reload_reverse s then { s with freq := s.maxfreq }
  else s

/-- Lines 1243-1250 and 1253-1259: the reload from a RANGE or HAMRADIO
entry. -/
def reload_bounds (s : ReconView) (e : freqman_entry) : ReconView :=
  near_bound (set_bounds s e)

/-- Lines 1239-1263: the switch on the kind of the new entry. -/
def reload_from (s : ReconView) (e : freqman_entry) : ReconView :=
  match e.type with
  | freqman_entry_type.SINGLE => { s with freq := e.frequency_a }
  | freqman_entry_type.RANGE => reload_bounds s e
  | freqman_entry_type.HAMRADIO => reload_bounds s e

/-- Lines 1236-1264: the entry under the cursor is reloaded when it changed. -/
def reload_entry (s : ReconView) : Option ReconView :=
  if s.entry_has_changed then
    (entry_at s.frequency_list s.current_index).map (reload_from { s with timer := 0 })
  else some s

/-- Lines 1265-1267: the end-of-list pause. -/
def pause_at_end (s : ReconView) : ReconView :=
  if s.has_looped && !s.cfg.continuous then recon_pause s else s

/-- Line 1269: `if (stepper < 0) stepper++;`. -/
def stepper_up (s : ReconView) : ReconView :=
  if s.stepper < 0 then { s with stepper := s.stepper + 1 } else s

/-- Line 1270: `if (stepper > 0) stepper--;`. -/
def stepper_down (s : ReconView) : ReconView :=
  if s.stepper > 0 then { s with stepper := s.stepper - 1 } else s

/-- Lines 1265-1270: the end-of-list pause and the consumption of the pending
manual motions. -/
def finish_motion (s : ReconView) : ReconView :=
  stepper_down (stepper_up { pause_at_end s with index_stepper := 0 })

/-- Lines 1134-1235: the directional advance or the index jump. -/
def move_cursor (s : ReconView) : Option ReconView :=
  if s.index_stepper = 0 then directional_advance s else some (index_jump s)

/-- Lines 1131-1132: `has_looped = false; entry_has_changed = false;`. -/
def motion_start (s : ReconView) : ReconView :=
  { s with has_looped := false, entry_has_changed := false }

/-- Lines 1131-1271: one motion on a non-empty list (the body of
`if (frequency_list.size() > 0)`). -/
def motion (s : ReconView) : Option ReconView :=
  if s.recon ∨ s.stepper ≠ 0 ∨ s.index_stepper ≠ 0 then
    (move_cursor (motion_start s)).bind fun s1 => (reload_entry s1).map finish_motion
  else some (motion_start s)

/-- The three nested guards of lines 1127-1130: a reason to move, a dwell
timer at zero (or a manual motion), and a non-empty list. -/
def motion_guard (s : ReconView) : Prop :=
  (s.recon ∨ s.stepper ≠ 0 ∨ s.index_stepper ≠ 0)
    ∧ (s.timer = 0 ∨ s.stepper ≠ 0 ∨ s.index_stepper ≠ 0)
    ∧ s.frequency_list.length > 0

instance (s : ReconView) : Decidable (motion_guard s) := by
  unfold motion_guard; exact inferInstance

/-- Lines 1127-1274: the motion with its guards. -/
def motion_stage (s : ReconView) : Option ReconView :=
  if motion_guard s then motion s else some s

/-! ## Retune and the tick -/

/-- Lines 304-307: the radio is retuned when the frequency changed. -/
def retune_freq (s : ReconView) : ReconView :=
  if s.last.last_freq ≠ s.freq then
    { s with last.last_freq := s.freq, effects := s.effects ++ [Effect.retune s.freq] }
  else s

/-- Lines 309-313: the modulation of the entry, unless it is unset. -/
def retune_modulation (s : ReconView) (e : freqman_entry) : ReconView :=
  if s.last.last_entry_modulation ≠ e.modulation ∧ e.modulation ≥ 0 then
    { s with last.last_entry_modulation := e.modulation,
             last.last_entry_bandwidth := -1,
             effects := s.effects ++ [Effect.set_modulation e.modulation] }
  else s

/-- Lines 315-318: the bandwidth of the entry, unless it is unset. -/
def retune_bandwidth (s : ReconView) (e : freqman_entry) : ReconView :=
  if s.last.last_entry_bandwidth ≠ e.bandwidth ∧ e.bandwidth ≥ 0 then
    { s with last.last_entry_bandwidth := e.bandwidth,
             effects := s.effects ++ [Effect.set_bandwidth e.bandwidth] }
  else s

/-- Lines 319-323: the step of the entry, unless it is unset; `step_value` is
the step table `freqman_entry_get_step_value` of the frequency manager (not
among the sources). -/
def retune_step (step_value : Int → Int) (s : ReconView) (e : freqman_entry) : ReconView :=
  if s.last.last_entry_step ≠ e.step ∧ e.step ≥ 0 then
    { s with last.last_entry_step := e.step, step := step_value e.step }
  else s

/-- Lines 326-338: the manual range follows a RANGE entry. -/
def follow_range (s : ReconView) (e : freqman_entry) : ReconView :=
  if e.type = freqman_entry_type.RANGE ∧ s.cfg.update_ranges = true
      ∧ s.cfg.manual_mode = false then
    { s with last.frequency_range_min := e.frequency_a,
             last.frequency_range_max :=
               if e.frequency_b ≠ 0 then e.frequency_b else e.frequency_a }
  else s

/-- Lines 324-356: the bookkeeping done when the cursor moved. -/
def retune_index (s : ReconView) (e : freqman_entry) : ReconView :=
  if s.last.last_index ≠ s.current_index then
    follow_range { s with last.last_index := s.current_index } e
  else s

/-- Lines 309-356: the part of `handle_retune` that reads the entry. -/
def retune_entry (step_value : Int → Int) (s : ReconView) (e : freqman_entry) : ReconView :=
  retune_index (retune_step step_value (retune_bandwidth (retune_modulation s e) e) e) e

/-- The function `handle_retune()`, lines 303-358. -/
def handle_retune (step_value : Int → Int) (s : ReconView) : Option ReconView :=
  if s.frequency_list.length > 0 then
    (entry_at s.frequency_list s.current_index).map (retune_entry step_value (retune_freq s))
  else some (retune_freq s)

/-- The tick `on_statistics_update`, lines 1046-1277, when no list reload is
pending (`freqlist_cleared_for_ui_action` false): `max_db` is the sample and
`time_interval` the elapsed time (100, or the time measured by lines 1028-1032
in SPEC mode).  The closing `recon_redraw()` only draws. -/
def on_statistics_update (step_value : Int → Int) (s : ReconView) (max_db : Int)
    (time_interval : Nat) : Option ReconView :=
  (lock_stage s max_db).bind fun s1 =>
  (motion_stage (timer_stage s1 time_interval)).bind fun s2 =>
  handle_retune step_value s2

/-- A run of ticks, one per sample, with the same elapsed time for each. -/
def run_ticks (step_value : Int → Int) (time_interval : Nat) :
    ReconView → List Int → Option ReconView
  | s, [] => some s
  | s, d :: ds =>
    (on_statistics_update step_value s d time_interval).bind fun s1 =>
      run_ticks step_value time_interval s1 ds

/-! ## Removal of the entry under the cursor (lines 587-687) -/

/-- Lines 592-594 and 596-598: `if (current_index >=
(int32_t)frequency_list.size()) current_index = frequency_list.size() - 1;`. -/
def remove_clamp (s : ReconView) : ReconView :=
  if s.current_index ≥ toI32 (s.frequency_list.length : Int) then
    { s with current_index := toI32 ((s.frequency_list.length : Int) - 1) }
  else s

/-- The vector without its element at the cursor. -/
def erase_at_cursor (s : ReconView) : ReconView :=
  { s with frequency_list := s.frequency_list.eraseIdx s.current_index.toNat }

/-- Line 595: `frequency_list.erase(frequency_list.begin() + current_index)`;
`none` when the iterator does not designate an element of the vector. -/
def remove_erase (s : ReconView) : Option ReconView :=
  if 0 ≤ s.current_index ∧ s.current_index < (s.frequency_list.length : Int) then
    some (erase_at_cursor s)
  else none

/-- Lines 592-598: the removal proper, between its two clamps. -/
def remove_at_cursor (s : ReconView) : Option ReconView :=
  (remove_erase (remove_clamp s)).map remove_clamp

/-- Lines 599-617: the entry under the cursor is read for the display when the
list is not empty (the texts themselves are dropped). -/
def remove_show (s : ReconView) : Option ReconView :=
  if s.frequency_list.length > 0 then
    (entry_at s.frequency_list s.current_index).map fun _ => s
  else some s

/-- Lines 590-630: the branch `!manual_mode`.  The rewrite of the output file in
scanner mode (lines 619-630) reads `frequency_list[n]` for `n < size()` only and
is the persistence side. -/
def remove_from_list (s : ReconView) : Option ReconView :=
  (remove_at_cursor s).bind remove_show

/-- Lines 631-677: the branch `manual_mode`, which reads the entry under the
cursor (line 638) and edits the output file only. -/
def remove_from_output (s : ReconView) : Option ReconView :=
  (entry_at s.frequency_list s.current_index).map fun _ => s

/-- Line 678: `receiver_model.set_target_frequency(
frequency_list[current_index].frequency_a)`. -/
def remove_retune (s : ReconView) : Option ReconView :=
  (entry_at s.frequency_list s.current_index).map fun e =>
    { s with effects := s.effects ++ [Effect.retune e.frequency_a] }

/-- Lines 588-679: the body of `if (frequency_list.size() > 0)`. -/
def remove_body (s : ReconView) : Option ReconView :=
  (if !s.cfg.manual_mode then remove_from_list s else remove_from_output s).bind
    remove_retune

/-- The handler `button_remove.on_select`, lines 587-687.  Lines 680-684 (the
texts and the deletion of the output file when the list is empty) write no
member; lines 685-686 are `timer = 0; freq_lock = 0;`. -/
def button_remove_on_select (s : ReconView) : Option ReconView :=
  (if s.frequency_list.length > 0 then remove_body s else some s).map reset_lock

/-! ## Loading a list (lines 62-68 and 921-1023) -/

/-- The function `reset_indexes()`, lines 62-68 (the description text is
dropped). -/
def reset_indexes (s : ReconView) : ReconView :=
  { s with last.last_entry_modulation := -1, last.last_entry_bandwidth := -1,
           last.last_entry_step := -1, current_index := 0 }

/-- Modelled from the spec: the call `load_freqman_file(file_input,
frequency_list, ...)` of line 940; the loader belongs to the frequency manager,
which is not among the sources.  It replaces the vector by the entries it read:
`loaded` is the vector it leaves, empty when the file is missing or holds no
usable entry.  Its return value only selects texts. -/
def load_freqman_file (s : ReconView) (loaded : List freqman_entry) : ReconView :=
  { s with frequency_list := loaded }

/-- Lines 957-960: the step of the first entry, or the default step `def_step`
read from the step selector at line 926. -/
def load_step (step_value : Int → Int) (def_step : Int) (s : ReconView)
    (e : freqman_entry) : ReconView :=
  if e.step ≥ 0 then { s with step := step_value e.step }
  else { s with step := step_value def_step }

/-- Lines 969-973 and 980-984: the tuned frequency is put on the bound for the
configured direction. -/
def load_near_bound (s : ReconView) : ReconView :=
  if s.cfg.fwd then { s with freq := s.minfreq } else { s with freq := s.maxfreq }

/-- Lines 974-975: the step of a RANGE entry, when it has one. -/
def load_range_step (step_value : Int → Int) (s : ReconView) (e : freqman_entry) :
    ReconView :=
  if e.step ≥ 0 then { s with step := step_value e.step } else s

/-- Lines 962-988: the switch on the kind of the first entry. -/
def load_first (step_value : Int → Int) (s : ReconView) (e : freqman_entry) : ReconView :=
  match e.type with
  | freqman_entry_type.SINGLE => { s with freq := e.frequency_a }
  | freqman_entry_type.RANGE => load_range_step step_value (load_near_bound (set_bounds s e)) e
  | freqman_entry_type.HAMRADIO => load_near_bound (set_bounds s e)

/-- Lines 1007-1017: the manual range follows the entry under the cursor. -/
def load_follow_range (s : ReconView) (e : freqman_entry) : ReconView :=
  if s.cfg.update_ranges = true ∧ s.cfg.manual_mode = false then
    { s with last.frequency_range_min := e.frequency_a,
             last.frequency_range_max :=
               if e.frequency_b ≠ 0 then e.frequency_b else e.frequency_a }
  else s

/-- Lines 993-1020: when the list is not empty, the entry under the cursor is
read for the description and the manual range. -/
def load_show (s : ReconView) : Option ReconView :=
  if s.frequency_list.length ≠ 0 then
    (entry_at s.frequency_list s.current_index).map (load_follow_range s)
  else some s

/-- Lines 957-1023, once `frequency_list[0]` has been read as `e`. -/
def load_apply (step_value : Int → Int) (def_step : Int) (s : ReconView)
    (e : freqman_entry) : Option ReconView :=
  (load_show (reset_indexes (load_first step_value (load_step step_value def_step s e) e))).bind
    (handle_retune step_value)

/-- The function `frequency_file_load`, lines 921-1023: `def_step` is the index
read from the step selector, `loaded` the vector left by the loader.  The calls
`receiver_model.enable()` and `set_squelch_level(0)` are on the side of the
radio. -/
def frequency_file_load (step_value : Int → Int) (def_step : Int) (s : ReconView)
    (loaded : List freqman_entry) : Option ReconView :=
  (entry_at (load_freqman_file (audio_output_stop s) loaded).frequency_list 0).bind
    (load_apply step_value def_step (load_freqman_file (audio_output_stop s) loaded))

/-! ## Starting a manual range (lines 694-750) -/

/-- Lines 696-698: `scanner_mode = false; manual_mode = true; recon_pause();`. -/
def manual_enter (s : ReconView) : ReconView :=
  recon_pause { s with cfg.scanner_mode := false, cfg.manual_mode := true }

/-- Lines 710-722: the RANGE entry built from the manual range; `desc` is the
text composed for its description. -/
def manual_freq_entry (s : ReconView) (def_step : Int) (desc : String) : freqman_entry :=
  { frequency_a := s.last.frequency_range_min, frequency_b := s.last.frequency_range_max,
    type := freqman_entry_type.RANGE, modulation := -1, bandwidth := -1, step := def_step,
    description := desc }

/-- Lines 704-724: audio is stopped and the list becomes the one entry. -/
def manual_list (s : ReconView) (e : freqman_entry) : ReconView :=
  { audio_output_stop s with frequency_list := [e] }

/-- Lines 739-745: the caches of `handle_retune` are cleared, the cursor is put
on the entry and the tuned frequency on its first bound. -/
def manual_reset (s : ReconView) (e : freqman_entry) : ReconView :=
  { s with last.last_entry_modulation := -1, last.last_entry_bandwidth := -1,
           last.last_entry_step := -1, last.last_index := -1, current_index := 0,
           freq := e.frequency_a }

/-- Lines 704-748: the branch taken when the manual range is well formed. -/
def manual_start (step_value : Int → Int) (def_step : Int) (desc : String) (s : ReconView) :
    Option ReconView :=
  (handle_retune step_value
    (manual_reset (manual_list s (manual_freq_entry s def_step desc))
      (manual_freq_entry s def_step desc))).map recon_resume

/-- The handler `button_manual_recon.on_select`, lines 694-750; the two error
popups leave the engine paused. -/
def button_manual_recon_on_select (step_value : Int → Int) (def_step : Int) (desc : String)
    (s : ReconView) : Option ReconView :=
  if (manual_enter s).last.frequency_range_min = 0
      ∨ (manual_enter s).last.frequency_range_max = 0 then
    some (manual_enter s)
  else if (manual_enter s).last.frequency_range_min
      > (manual_enter s).last.frequency_range_max then
    some (manual_enter s)
  else manual_start step_value def_step desc (manual_enter s)

/-! ## The setters of the wait and of the match count (lines 860-873) -/

/-- Lines 863-864: `if (wait == -100) wait = -200;`. -/
def wait_substitute (s : ReconView) : ReconView :=
  if s.cfg.wait = -100 then { s with cfg.wait := -200 } else s

/-- The handler `field_wait.on_change`, lines 860-866 (`colorize_waits` only
draws). -/
def field_wait_on_change (s : ReconView) (v : Int) : ReconView :=
  wait_substitute { s with cfg.wait := v }

/-- Lines 870-871: `if ((unsigned)v < freq_lock) freq_lock = v;`. -/
def nblocks_clamp (s : ReconView) (v : Int) : ReconView :=
  if toU32 v < (s.freq_lock : Int) then { s with freq_lock := (toU32 v).toNat } else s

/-- The handler `field_nblocks.on_change`, lines 868-873: the `int32_t` argument
is converted to the unsigned members. -/
def field_nblocks_on_change (s : ReconView) (v : Int) : ReconView :=
  nblocks_clamp { s with cfg.recon_lock_nb_match := (toU32 v).toNat } v

/-! ## The output file of `recon_save_freq` (lines 109-141) -/

/-- Lines 114-126: the scan of the output file, one character after the other.
The characters are given by their values `(int)one_char[0]`; `line` is the text
collected since the last line feed.  A character above 31 is added to the line;
a line feed (10) compares the line with the record, `line.compare(0,
frequency_to_add.size(), frequency_to_add) == 0`, and clears it; any other
character is skipped.  The result is `found`. -/
def scan_file (record : List Int) : List Int → List Int → Bool
  | _, [] => false
  | line, c :: rest =>
    if c > 31 then scan_file record (line ++ [c]) rest
    else if c = 10 then
      if line.take record.length = record then true else scan_file record [] rest
    else scan_file record line rest

/-- Modelled from the spec: the call `recon_file.write_line(frequency_to_add)`
on a file opened with `append` or `create`; the class `File` is not among the
sources.  The record is written at the end of the file, followed by the line
terminator `eol` of that class. -/
def write_line (eol content record : List Int) : List Int :=
  content ++ record ++ eol

/-- Lines 109-141: what `recon_save_freq` leaves in the output file, `none`
standing for a file that cannot be opened (it is then created); the appends and
the creation are taken to succeed. -/
def save_to_file (eol : List Int) (file : Option (List Int)) (record : List Int) : List Int :=
  match file with
  | some content =>
    if scan_file record [] content then content else write_line eol content record
  | none => write_line eol [] record

/-! ## The settings file (lines 145-239) -/

/-- Modelled from the spec: the constants of the settings header (absent) that
`recon_load_config_from_sd` uses as defaults; their values are left open. -/
structure Defaults where
  RECON_MIN_LOCK_DURATION : Nat
  RECON_DEF_NB_MATCH : Nat
  RECON_DEF_WAIT_DURATION : Int

/-- Modelled from the spec: the number `RECON_SETTINGS_NB_PARAMS` of lines of
the settings file (the header is absent; the spec gives 7 ordered lines). -/
def RECON_SETTINGS_NB_PARAMS : Nat := 7

/-- What `recon_load_config_from_sd` leaves: its return value, the two file
names and the five settings of the engine. -/
structure LoadedConfig where
  result : Bool
  input_file : String
  output_file : String
  cfg : Settings

/-- The text `string(pos, length)` made of the bytes `l`. -/
def text_of (l : List Nat) : String :=
  String.mk (l.map Char.ofNat)

/-- The variables of the reading loop: the number `it` of lines taken so far,
their texts `params[0]`, ..., `params[it - 1]`, and the offset `line_start -
file_data` of the line being read in the current block. -/
structure ReadState where
  it : Nat
  params : List String
  line_start : Nat

/-- Line 174: `params[it] = string(pos, length); it++; line_start = line_end +
1`, the line feed being at offset `line_end` of the block and `line` being the
bytes from `line_start` to it; `length = line_end - line_start - 1` leaves the
last of them out. -/
def take_line (r : ReadState) (line : List Nat) (line_end : Nat) : ReadState :=
  { it := r.it + 1, params := r.params ++ [text_of line.dropLast], line_start := line_end + 1 }

/-- Lines 172-182: the lines of one block.  The calls `strstr(line_start,
"\x0A")` together scan the buffer byte after byte from `line_start`: the bytes
before a line feed are the line, of which `offset` is the place of the next byte
in the buffer; a NUL byte, or the end of the bytes read (the buffer is filled
with NUL bytes behind them), ends the search and the loop.  A line feed at
`line_start` itself gives `length = -1` as a `size_t`, for which
`string(pos, length)` is not defined: `none`.  After a line the loop stops when
the buffer is used up (line 179) or when all the lines are there (line 181). -/
def read_block_lines : List Nat → List Nat → Nat → ReadState → Option ReadState
  | [], _, _, r => some r
  | c :: rest, line, offset, r =>
    if c = 0 then some r
    else if c = 10 then
      if line = [] then none
      else if offset + 1 ≥ 256 then some (take_line r line offset)
      else if r.it + 1 ≥ RECON_SETTINGS_NB_PARAMS then some (take_line r line offset)
      else read_block_lines rest [] (offset + 1) (take_line r line offset)
    else read_block_lines rest (line ++ [c]) (offset + 1) r

/-- The bytes that `settings_file.read(file_data, 256)` delivers after
`seek(file_position)` (lines 162-164); the read is taken to succeed. -/
def read_block (content : List Nat) (file_position : Nat) : List Nat :=
  (content.drop file_position).take 256

/-- Lines 160-188: the reading loop `while (it < nb_params)`, block after block.
A block of fewer than 256 bytes ends the file; otherwise the next block starts
at the line that the block left incomplete, `file_position += 256;
file_position -= (file_data + 256 - line_start)`.  `fuel` bounds the number of
blocks read; `none` stands for a loop still running when the fuel is used up,
and for the undefined `string(pos, length)`. -/
def read_blocks (content : List Nat) : Nat → Nat → ReadState → Option ReadState
  | 0, _, r => if r.it < RECON_SETTINGS_NB_PARAMS then none else some r
  | fuel + 1, file_position, r =>
    if r.it < RECON_SETTINGS_NB_PARAMS then
      match read_block_lines (read_block content file_position) [] 0
          { r with line_start := 0 } with
      | none => none
      | some r1 =>
        if (read_block content file_position).length ≠ 256 then some r1
        else read_blocks content fuel (file_position + r1.line_start) r1
    else some r

/-- Lines 153-189: the lines read from the settings file, `none` standing for a
file that cannot be opened: the loop is then skipped and no line is read. -/
def read_params (fuel : Nat) (file : Option (List Nat)) : Option ReadState :=
  match file with
  | none => some { it := 0, params := [], line_start := 0 }
  | some content => read_blocks content fuel 0 { it := 0, params := [], line_start := 0 }

/-- Lines 192-200: all the settings take their defaults. -/
def config_defaults (k : Defaults) (c : Settings) : LoadedConfig :=
  { result := false, input_file := "RECON", output_file := "RECON_RESULTS",
    cfg := { c with recon_lock_duration := k.RECON_MIN_LOCK_DURATION,
                    recon_lock_nb_match := k.RECON_DEF_NB_MATCH,
                    squelch := -14,
                    recon_match_mode := RECON_MATCH_CONTINUOUS,
                    wait := k.RECON_DEF_WAIT_DURATION } }

/-- Lines 203-238: each setting is parsed from its line, or takes its default
when the line was not read; `strtoll` is the C function, and its result is
converted to the type of the member. -/
def config_parsed (k : Defaults) (strtoll : String → Int) (it : Nat) (params : Nat → String)
    (c : Settings) : LoadedConfig :=
  { result := true,
    input_file := if it > 0 then params 0 else "RECON",
    output_file := if it > 1 then params 1 else "RECON_RESULTS",
    cfg := { c with
      recon_lock_duration :=
        if it > 2 then (toU32 (strtoll (params 2))).toNat else k.RECON_MIN_LOCK_DURATION,
      recon_lock_nb_match :=
        if it > 3 then (toU32 (strtoll (params 3))).toNat else k.RECON_DEF_NB_MATCH,
      squelch := if it > 4 then toI32 (strtoll (params 4)) else -14,
      recon_match_mode :=
        if it > 5 then (toU32 (strtoll (params 5))).toNat else RECON_MATCH_CONTINUOUS,
      wait := if it > 6 then toI32 (strtoll (params 6)) else k.RECON_DEF_WAIT_DURATION } }

/-- Lines 191-238: the settings from the lines read. -/
def config_from (k : Defaults) (strtoll : String → Int) (r : ReadState) (c : Settings) :
    LoadedConfig :=
  if r.it < RECON_SETTINGS_NB_PARAMS then config_defaults k c
  else config_parsed k strtoll r.it (fun i => r.params.getD i "") c

/-- The function `recon_load_config_from_sd`, lines 145-239: `file` is the
content of the settings file, `fuel` the bound on the blocks read; `none` when
the function has not returned, or has no defined result. -/
def recon_load_config_from_sd (k : Defaults) (strtoll : String → Int) (fuel : Nat)
    (file : Option (List Nat)) (c : Settings) : Option LoadedConfig :=
  (read_params fuel file).map fun r => config_from k strtoll r c

/-! ## Auxiliary notions used by the statements -/

/-- The cursor designates an entry, or the list is empty; the list is short
enough for its size to fit the 32-bit signed `current_index`. -/
def cursor_ok (s : ReconView) : Prop :=
  (s.frequency_list.length : Int) < 2147483648 ∧
    (s.frequency_list = [] ∨
      (0 ≤ s.current_index ∧ s.current_index < (s.frequency_list.length : Int)))

instance (s : ReconView) : Decidable (cursor_ok s) := by
  unfold cursor_ok; exact inferInstance

/-- The engine is locked on the tuned frequency: the LOCKED block has been
entered (`status == 2`) and the match count still satisfies its condition
`freq_lock >= recon_lock_nb_match` (line 1079); an engine whose counters a pause
has zeroed is not locked. -/
def is_locked (s : ReconView) : Prop :=
  s.status = 2 ∧ s.freq_lock ≥ s.cfg.recon_lock_nb_match

instance (s : ReconView) : Decidable (is_locked s) := by
  unfold is_locked; exact inferInstance

/-- The motion of lines 1131-1271 performed `n` times in a row. -/
def advances : Nat → ReconView → Option ReconView
  | 0, s => some s
  | n + 1, s => (motion s).bind (advances n)

/-- The number of motions, among `n` in a row, that set `has_looped`. -/
def loops_in : Nat → ReconView → Nat
  | 0, _ => 0
  | n + 1, s =>
    match motion s with
    | none => 0
    | some t => (if t.has_looped then 1 else 0) + loops_in n t

/-- The next `k` motions all go forward and are all made: either scanning runs
forward on its own with looping enabled, or at least `k` manual forward steps
are pending. -/
def forward_run (s : ReconView) (k : Nat) : Prop :=
  (s.stepper = 0 ∧ s.cfg.fwd = true ∧ s.recon = true ∧ s.cfg.continuous = true)
    ∨ (k : Int) ≤ s.stepper

/-- The effect is a request to save the current entry. -/
def is_save : Effect → Bool
  | Effect.save_freq _ => true
  | _ => false

/-- The number of save requests in a trace. -/
def save_count (l : List Effect) : Nat := l.countP is_save

/-- The tick of sample `max_db` runs the lock transition: scanning is active
(line 1047) and, after the re-arm and the LOCKING block, the tests of lines 1079
and 1081 hold. -/
def lock_transition_tick (s : ReconView) (max_db : Int) : Prop :=
  s.recon = true ∧
  (locking (rearm (store_sample s max_db))).freq_lock ≥ s.cfg.recon_lock_nb_match ∧
  (locking (rearm (store_sample s max_db))).status ≠ 2

instance (s : ReconView) (max_db : Int) : Decidable (lock_transition_tick s max_db) := by
  unfold lock_transition_tick; exact inferInstance

/-- The cached state agrees with the entry under the cursor, when there is one:
for a Single entry the tuned frequency is its `frequency_a`; for a Range or a
RepeaterPair the cached bounds are its `frequency_a` and `frequency_b`. -/
def cache_ok (s : ReconView) : Prop :=
  match entry_at s.frequency_list s.current_index with
  | none => True
  | some e =>
    if e.type = freqman_entry_type.SINGLE then s.freq = e.frequency_a
    else s.minfreq = e.frequency_a ∧ s.maxfreq = e.frequency_b

instance (s : ReconView) : Decidable (cache_ok s) := by
  unfold cache_ok; split <;> exact inferInstance

/-! ## Auxiliary notions used by the proofs -/

/-- The LOCKED block without its collaborator calls: what lines 1079-1113 do to
the lock state. -/
def locked_core (s : ReconView) : ReconView :=
  if s.freq_lock ≥ s.cfg.recon_lock_nb_match then
    stay_refresh (if s.status ≠ 2 then set_wait_timer (mark_locked s) else s)
  else s

/-- Lines 1046-1114 without the collaborator calls: what the lock evaluation
does to the lock state. -/
def lock_core (s : ReconView) (max_db : Int) : ReconView :=
  if s.recon then locked_core (locking (rearm (store_sample s max_db)))
  else store_sample s max_db

/-- The state `s` with the two members that the collaborator calls write. -/
def with_io (s : ReconView) (r : Bool) (ef : List Effect) : ReconView :=
  { s with is_recording := r, effects := ef }

/-- The state on which the motion code runs: after the lock evaluation, whose
collaborator calls left `r` and `ef`, and after the timer decrement. -/
def pre_motion (s : ReconView) (max_db : Int) (time_interval : Nat) (r : Bool)
    (ef : List Effect) : ReconView :=
  timer_stage (with_io (lock_core s max_db) r ef) time_interval

/-- Lines 1236-1264 once the new entry `e` has been read. -/
def reload_core (s : ReconView) (e : freqman_entry) : ReconView :=
  if s.entry_has_changed then reload_from { s with timer := 0 } e else s

/-- The state `t` has the members of `a`, except possibly the ones written by
`handle_retune` (`last`, `step`, `effects`) and `is_recording`. -/
structure SameEngine (a t : ReconView) : Prop where
  cfg : t.cfg = a.cfg
  frequency_list : t.frequency_list = a.frequency_list
  current_index : t.current_index = a.current_index
  freq : t.freq = a.freq
  minfreq : t.minfreq = a.minfreq
  maxfreq : t.maxfreq = a.maxfreq
  recon : t.recon = a.recon
  stepper : t.stepper = a.stepper
  index_stepper : t.index_stepper = a.index_stepper
  timer : t.timer = a.timer
  db : t.db = a.db
  freq_lock : t.freq_lock = a.freq_lock
  status : t.status = a.status
  continuous_lock : t.continuous_lock = a.continuous_lock
  has_looped : t.has_looped = a.has_looped
  entry_has_changed : t.entry_has_changed = a.entry_has_changed

/-- What a directional step leaves behind, whatever the kind of the entry: a
cursor inside the list and, when it looped, a cursor on the boundary of the
motion with the change flag set. -/
structure Advanced (s a : ReconView) : Prop where
  cfg : a.cfg = s.cfg
  frequency_list : a.frequency_list = s.frequency_list
  stepper : a.stepper = s.stepper
  lo : 0 ≤ a.current_index
  hi : a.current_index < (s.frequency_list.length : Int)
  fwd_wrap : a.has_looped = true → moving_forward s = true → a.current_index = 0
  rev_wrap : a.has_looped = true → moving_reverse s = true →
    a.current_index = (s.frequency_list.length : Int) - 1
  changed : a.has_looped = true → a.entry_has_changed = true

/-- The engine `u`, started from `s0`, has counted `i` consecutive matches in
Continuous mode and has not moved: before the first tick the dwell timer is 0,
afterwards it is armed to the lock duration and the streak holds. -/
structure Streak (s0 u : ReconView) (i : Nat) : Prop where
  ok : cursor_ok u
  cfg : u.cfg = s0.cfg
  frequency_list : u.frequency_list = s0.frequency_list
  recon : u.recon = true
  stepper : u.stepper = 0
  index_stepper : u.index_stepper = 0
  current_index : u.current_index = s0.current_index
  freq : u.freq = s0.freq
  armed : (u.timer = 0 ∧ i = 0) ∨
    (u.timer = (s0.cfg.recon_lock_duration : Int) ∧ u.freq_lock = i ∧
      u.continuous_lock = true ∧ 0 < i)

/-- The engine `u`, started from `s0` in Sparse mode, has run `i` ticks of `n`
time units each and counted `c` matches, without moving: before the first tick
the dwell timer is 0, afterwards it is what is left of the lock duration. -/
structure SparseRun (s0 u : ReconView) (i c n : Nat) : Prop where
  ok : cursor_ok u
  cfg : u.cfg = s0.cfg
  frequency_list : u.frequency_list = s0.frequency_list
  recon : u.recon = true
  stepper : u.stepper = 0
  index_stepper : u.index_stepper = 0
  armed : (u.timer = 0 ∧ i = 0 ∧ c = 0) ∨
    (u.timer = (s0.cfg.recon_lock_duration : Int) - (i : Int) * (n : Int) ∧
      u.freq_lock = c ∧ 0 < i)

/-- The engine `u` holds the lock it took on the entry and frequency of `s0`:
scanning is active with nothing manual pending, the LOCKED block has been
entered, the match count satisfies its condition and the dwell timer runs. -/
structure Holding (s0 u : ReconView) : Prop where
  ok : cursor_ok u
  cfg : u.cfg = s0.cfg
  frequency_list : u.frequency_list = s0.frequency_list
  recon : u.recon = true
  stepper : u.stepper = 0
  index_stepper : u.index_stepper = 0
  status : u.status = 2
  freq_lock : u.freq_lock ≥ s0.cfg.recon_lock_nb_match
  timer : 0 < u.timer
  current_index : u.current_index = s0.current_index
  freq : u.freq = s0.freq

/-- The engine `u` holds the lock taken from `s0` with `wait >= 0`, and `k`
ticks of `n` time units have been taken from the dwell timer. -/
structure Countdown (s0 u : ReconView) (k n : Nat) : Prop where
  hold : Holding s0 u
  streak : u.continuous_lock = false
  left : u.timer = s0.cfg.wait - (k : Int) * (n : Int)

/-- Lines 1088-1097: the collaborator calls of the lock transition other than
the saves. -/
def lock_calls (s : ReconView) : ReconView :=
  if s.cfg.wait ≠ 0 then record_on_lock (audio_output_start s) else s

/-! ## Concrete entries and states used by the witnesses -/

/-- A Single entry on frequency `f` with no modulation, bandwidth or step of
its own. -/
def single_entry (f : Int) : freqman_entry :=
  { frequency_a := f, frequency_b := 0, type := freqman_entry_type.SINGLE,
    modulation := -1, bandwidth := -1, step := -1, description := "" }

/-- A Range entry from `a` to `b`. -/
def range_entry (a b : Int) : freqman_entry :=
  { frequency_a := a, frequency_b := b, type := freqman_entry_type.RANGE,
    modulation := -1, bandwidth := -1, step := -1, description := "" }

/-- A list of two Single entries, squelch -20, three matches required, scanning
in Continuous mode from a freshly expired dwell timer. -/
def c1_state : ReconView :=
  { blank with frequency_list := [single_entry 100, single_entry 200], freq := 100,
               cfg.squelch := -20 }

/-- The state of `c1_state` two matching samples later: Locking, two matches
counted, the dwell timer armed. -/
def c1_locking : ReconView :=
  { c1_state with timer := 100, freq_lock := 2, status := 1, continuous_lock := true,
                  db := -10 }

/-- Two Single entries, squelch -20, three matches required, Continuous mode,
looping enabled, a fresh re-arm. -/
def c2_state : ReconView :=
  { blank with frequency_list := [single_entry 100, single_entry 200], freq := 100,
               cfg.squelch := -20 }

/-- One Single entry, looping disabled, `wait` = 0, squelch -20, three matches
required, Continuous mode, a fresh re-arm. -/
def c2_stop_at_end : ReconView :=
  { blank with frequency_list := [single_entry 100], freq := 100, cfg.squelch := -20,
               cfg.continuous := false }

/-- Two Single entries, squelch -20, three matches required, Sparse mode, lock
duration 400, looping enabled, a fresh re-arm. -/
def c3_state : ReconView :=
  { blank with frequency_list := [single_entry 100, single_entry 200], freq := 100,
               cfg.squelch := -20, cfg.recon_match_mode := RECON_MATCH_SPARSE,
               cfg.recon_lock_duration := 400 }

/-- One Single entry, looping disabled, `wait` = 0, squelch -20, three matches
required, Sparse mode, lock duration 1000, a fresh re-arm. -/
def c3_stop_at_end : ReconView :=
  { blank with frequency_list := [single_entry 100], freq := 100, cfg.squelch := -20,
               cfg.recon_match_mode := RECON_MATCH_SPARSE, cfg.recon_lock_duration := 1000,
               cfg.continuous := false }

/-- A Single entry followed by a Range entry, the cursor on the Single one,
scanning forward with a 100 kHz step. -/
def c4_state : ReconView :=
  { blank with frequency_list := [single_entry 100, range_entry 1000000 2000000],
               current_index := 0, freq := 100, step := 100000 }

/-- Three Single entries, the cursor on the second one, scanning forward. -/
def c4_singles : ReconView :=
  { blank with frequency_list := [single_entry 100, single_entry 200, single_entry 300],
               current_index := 1, freq := 200 }

/-- Three Single entries, the cursor on the last one, scanning forward. -/
def c5_state : ReconView :=
  { blank with frequency_list := [single_entry 100, single_entry 200, single_entry 300],
               current_index := 2, freq := 300 }

/-- A Range entry from 1 MHz to 2 MHz followed by a Single entry; the cursor is
on the range, tuned to its lower bound, with a 100 kHz step. -/
def c6_state : ReconView :=
  { blank with frequency_list := [range_entry 1000000 2000000, single_entry 5000000],
               current_index := 0, freq := 1000000, minfreq := 1000000,
               maxfreq := 2000000, step := 100000 }

/-- A one-entry list (as the manual range mode builds), the cursor on its entry,
after the index encoder reported a delta of 2. -/
def c8_state : ReconView :=
  on_index_delta
    { blank with frequency_list := [range_entry 1000000 2000000], freq := 1000000,
                 minfreq := 1000000, maxfreq := 2000000, step := 100000 } 2

/-- Three Single entries, the cursor on the first, after the index encoder
reported a delta of -5. -/
def c8_reverse : ReconView :=
  on_index_delta
    { blank with frequency_list := [single_entry 100, single_entry 200, single_entry 300],
                 freq := 100 } (-5)

/-- Two Single entries, squelch -20, scanning active. -/
def c9_state : ReconView :=
  { blank with frequency_list := [single_entry 100, single_entry 200], freq := 100,
               cfg.squelch := -20 }

/-- The view `c9_state` with one match required for a lock. -/
def c9_one_match : ReconView :=
  { c9_state with cfg.recon_lock_nb_match := 1 }

/-- Two Single entries, recon role with autosave, squelch -20, one match
required, `wait` = 300, the radio already tuned to the first entry. -/
def c10_state : ReconView :=
  { blank with frequency_list := [single_entry 100, single_entry 200], freq := 100,
               last.last_freq := 100, cfg.squelch := -20, cfg.recon_lock_nb_match := 1,
               cfg.autosave := true, cfg.wait := 300 }

/-- The view `c10_state` with `wait` = 0. -/
def c10_no_wait : ReconView :=
  { c10_state with cfg.wait := 0 }

/-- Three Single entries, the cursor on the second one. -/
def c18_state : ReconView :=
  { blank with frequency_list := [single_entry 100, single_entry 200, single_entry 300],
               current_index := 1, freq := 200 }

/-- Three Single entries and a cursor past the end of the list. -/
def c19_state : ReconView :=
  { c18_state with current_index := 5 }

/-- A one-entry list while scanning is active, in the Locking phase with two
matches counted. -/
def c20_state : ReconView :=
  { blank with frequency_list := [single_entry 100], freq := 100, timer := 100, freq_lock := 2,
               status := 1, continuous_lock := true }

/-- Two Single entries, squelch -20, one match required, `wait` = 250, a fresh
re-arm: the first matching sample makes the lock transition. -/
def c11_state : ReconView :=
  { blank with frequency_list := [single_entry 100, single_entry 200], freq := 100,
               cfg.squelch := -20, cfg.recon_lock_nb_match := 1, cfg.wait := 250 }

/-- Two Single entries, squelch -20, one match required, `wait` = -300, a fresh
re-arm: the first matching sample makes the lock transition. -/
def c12_state : ReconView :=
  { blank with frequency_list := [single_entry 100, single_entry 200], freq := 100,
               cfg.squelch := -20, cfg.recon_lock_nb_match := 1, cfg.wait := -300 }

/-- Two Single entries, squelch -20, Continuous mode, Locking with one match
counted and the streak holding. -/
def c13_state : ReconView :=
  { blank with frequency_list := [single_entry 100, single_entry 200], freq := 100,
               cfg.squelch := -20, timer := 100, freq_lock := 1, status := 1,
               continuous_lock := true }

/-- Two Single entries, scanning paused. -/
def c14_state : ReconView :=
  { blank with frequency_list := [single_entry 100, single_entry 200], freq := 100,
               recon := false }

/-- Four Single entries, the cursor on the second one. -/
def c15_list : ReconView :=
  { blank with frequency_list := [single_entry 100, single_entry 200, single_entry 300,
                                  single_entry 400],
               current_index := 1, freq := 200 }

/-- The view `c15_list` after the step encoder reported -1 and then the index
encoder +2: a manual step and an index jump are both pending. -/
def c15_state : ReconView :=
  on_index_delta (on_stepper_delta c15_list (-1)) 2

/-- Three Single entries, the cursor on the last one, scanning forward with
looping disabled. -/
def c16_state : ReconView :=
  { blank with frequency_list := [single_entry 100, single_entry 200, single_entry 300],
               current_index := 2, freq := 300, cfg.continuous := false }

/-- A Range entry followed by a Single entry, the cursor on the Single one,
scanning in reverse. -/
def c17_state : ReconView :=
  { blank with frequency_list := [range_entry 1000000 2000000, single_entry 5000000],
               current_index := 1, freq := 5000000, cfg.fwd := false }

/-- An empty list while scanning is active, with `wait` = 300, one match
required and recording on lock enabled. -/
def c21_state : ReconView :=
  { blank with cfg.wait := 300, cfg.recon_lock_nb_match := 1, cfg.auto_record_locked := true }

/-- Two Single entries, the first with modulation 0 and bandwidth 2, the second
with modulation 1 and no bandwidth of its own; the cursor is on the first, whose
settings are the active ones. -/
def c24_state : ReconView :=
  { blank with frequency_list := [{ single_entry 100 with modulation := 0, bandwidth := 2 },
                                  { single_entry 200 with modulation := 1 }],
               freq := 100, last.last_freq := 100, last.last_index := 0,
               last.last_entry_modulation := 0, last.last_entry_bandwidth := 2 }

/-- A manual range from 144 MHz to 146 MHz entered on the view `u`. -/
def c25_range (u : ReconView) : ReconView :=
  { u with last.frequency_range_min := 144000000, last.frequency_range_max := 146000000 }

/-- The view `c2_state` with a lock duration of 3000000000, which the signed
32-bit dwell timer cannot hold. -/
def c2_long_duration : ReconView :=
  { c2_state with cfg.recon_lock_duration := 3000000000 }

/-- The view `c3_state` with a lock duration of 3000000000. -/
def c3_long_duration : ReconView :=
  { c3_state with cfg.recon_lock_duration := 3000000000 }

/-- The view `c11_state` with `wait` = 100. -/
def c11_short_wait : ReconView :=
  { c11_state with cfg.wait := 100 }

/-- Two Single entries, squelch -20, Sparse mode, Locking with one match counted
and 100 left on the dwell timer. -/
def c13_sparse : ReconView :=
  { c13_state with cfg.recon_match_mode := RECON_MATCH_SPARSE }

/-- A Single entry, a Range entry and a Single entry, the cursor on the last
one. -/
def c17_list : ReconView :=
  { blank with frequency_list := [single_entry 100, range_entry 1000 2000, single_entry 5000],
               current_index := 2, freq := 5000 }

/-- The view `c17_list` after the step encoder reported +1 and then the index
encoder -1: a forward manual step and a reverse index jump are both pending. -/
def c17_mixed : ReconView :=
  on_index_delta (on_stepper_delta c17_list 1) (-1)

/-- The value of a run of decimal digits, given by their character codes. -/
def digits_value : List Nat → Int → Int
  | [], acc => acc
  | c :: rest, acc =>
    if 48 ≤ c ∧ c ≤ 57 then digits_value rest (acc * 10 + ((c : Int) - 48)) else acc

/-- What `strtoll(text, nullptr, 10)` returns on a text that starts with an
optional minus sign followed by the decimal digits of a small number: the number
written, 0 when there is no digit.  It stands for `strtoll` in the concrete
runs. -/
def decimal_value (s : String) : Int :=
  match s.data.map Char.toNat with
  | 45 :: rest => - digits_value rest 0
  | l => digits_value l 0

/-- A settings file of seven lines, each ended by CR LF. -/
def c27_crlf_file : List Nat :=
  "MYIN\r\nMYOUT\r\n200\r\n3\r\n-14\r\n0\r\n500\r\n".data.map Char.toNat

/-- The same seven lines, each ended by LF alone. -/
def c27_lf_file : List Nat :=
  "MYIN\nMYOUT\n200\n3\n-14\n0\n500\n".data.map Char.toNat

/-- A settings file that holds the first three lines only. -/
def c27_short_file : List Nat :=
  "MYIN\r\nMYOUT\r\n200\r\n".data.map Char.toNat

/-- A settings file of 300 bytes `A` and no line feed. -/
def c27_long_line : List Nat :=
  List.replicate 300 65

/-- The constants of the settings header taken for the concrete runs. -/
def c27_defaults : Defaults :=
  { RECON_MIN_LOCK_DURATION := 50, RECON_DEF_NB_MATCH := 3, RECON_DEF_WAIT_DURATION := 5000 }

/-! ## Frame lemmas: what each block leaves unchanged -/

@[simp]
theorem recon_stop_recording_frame (s : ReconView) :
    (recon_stop_recording s).cfg = s.cfg ∧ (recon_stop_recording s).last = s.last ∧
      (recon_stop_recording s).frequency_list = s.frequency_list ∧
      (recon_stop_recording s).current_index = s.current_index ∧
      (recon_stop_recording s).freq = s.freq ∧
      (recon_stop_recording s).minfreq = s.minfreq ∧
      (recon_stop_recording s).maxfreq = s.maxfreq ∧
      (recon_stop_recording s).step = s.step ∧ (recon_stop_recording s).recon = s.recon ∧
      (recon_stop_recording s).stepper = s.stepper ∧
      (recon_stop_recording s).index_stepper = s.index_stepper ∧
      (recon_stop_recording s).timer = s.timer ∧ (recon_stop_recording s).db = s.db ∧
      (recon_stop_recording s).freq_lock = s.freq_lock ∧
      (recon_stop_recording s).status = s.status ∧
      (recon_stop_recording s).continuous_lock = s.continuous_lock ∧
      (recon_stop_recording s).has_looped = s.has_looped ∧
      (recon_stop_recording s).entry_has_changed = s.entry_has_changed := by
  unfold recon_stop_recording
  split_ifs <;> simp

@[simp]
theorem audio_output_stop_frame (s : ReconView) :
    (audio_output_stop s).cfg = s.cfg ∧ (audio_output_stop s).last = s.last ∧
      (audio_output_stop s).frequency_list = s.frequency_list ∧
      (audio_output_stop s).current_index = s.current_index ∧
      (audio_output_stop s).freq = s.freq ∧ (audio_output_stop s).minfreq = s.minfreq ∧
      (audio_output_stop s).maxfreq = s.maxfreq ∧ (audio_output_stop s).step = s.step ∧
      (audio_output_stop s).recon = s.recon ∧ (audio_output_stop s).stepper = s.stepper ∧
      (audio_output_stop s).index_stepper = s.index_stepper ∧
      (audio_output_stop s).timer = s.timer ∧ (audio_output_stop s).db = s.db ∧
      (audio_output_stop s).freq_lock = s.freq_lock ∧
      (audio_output_stop s).status = s.status ∧
      (audio_output_stop s).continuous_lock = s.continuous_lock ∧
      (audio_output_stop s).has_looped = s.has_looped ∧
      (audio_output_stop s).entry_has_changed = s.entry_has_changed ∧
      (audio_output_stop s).is_recording = s.is_recording := by
  unfold audio_output_stop
  split_ifs <;> simp

@[simp]
theorem audio_output_start_frame (s : ReconView) :
    (audio_output_start s).cfg = s.cfg ∧ (audio_output_start s).last = s.last ∧
      (audio_output_start s).frequency_list = s.frequency_list ∧
      (audio_output_start s).current_index = s.current_index ∧
      (audio_output_start s).freq = s.freq ∧ (audio_output_start s).minfreq = s.minfreq ∧
      (audio_output_start s).maxfreq = s.maxfreq ∧ (audio_output_start s).step = s.step ∧
      (audio_output_start s).recon = s.recon ∧ (audio_output_start s).stepper = s.stepper ∧
      (audio_output_start s).index_stepper = s.index_stepper ∧
      (audio_output_start s).timer = s.timer ∧ (audio_output_start s).db = s.db ∧
      (audio_output_start s).freq_lock = s.freq_lock ∧
      (audio_output_start s).status = s.status ∧
      (audio_output_start s).continuous_lock = s.continuous_lock ∧
      (audio_output_start s).has_looped = s.has_looped ∧
      (audio_output_start s).entry_has_changed = s.entry_has_changed ∧
      (audio_output_start s).is_recording = s.is_recording := by
  unfold audio_output_start
  split_ifs <;> simp

@[simp]
theorem push_save_frame (s : ReconView) (e : freqman_entry) :
    (push_save s e).cfg = s.cfg ∧ (push_save s e).last = s.last ∧
      (push_save s e).frequency_list = s.frequency_list ∧
      (push_save s e).current_index = s.current_index ∧ (push_save s e).freq = s.freq ∧
      (push_save s e).minfreq = s.minfreq ∧ (push_save s e).maxfreq = s.maxfreq ∧
      (push_save s e).step = s.step ∧ (push_save s e).recon = s.recon ∧
      (push_save s e).stepper = s.stepper ∧
      (push_save s e).index_stepper = s.index_stepper ∧ (push_save s e).timer = s.timer ∧
      (push_save s e).db = s.db ∧ (push_save s e).freq_lock = s.freq_lock ∧
      (push_save s e).status = s.status ∧
      (push_save s e).continuous_lock = s.continuous_lock ∧
      (push_save s e).has_looped = s.has_looped ∧
      (push_save s e).entry_has_changed = s.entry_has_changed ∧
      (push_save s e).is_recording = s.is_recording := by
  simp [push_save]

@[simp]
theorem clear_lock_frame (s : ReconView) :
    (clear_lock s).cfg = s.cfg ∧ (clear_lock s).last = s.last ∧
      (clear_lock s).frequency_list = s.frequency_list ∧
      (clear_lock s).current_index = s.current_index ∧ (clear_lock s).freq = s.freq ∧
      (clear_lock s).minfreq = s.minfreq ∧ (clear_lock s).maxfreq = s.maxfreq ∧
      (clear_lock s).step = s.step ∧ (clear_lock s).recon = s.recon ∧
      (clear_lock s).stepper = s.stepper ∧ (clear_lock s).index_stepper = s.index_stepper ∧
      (clear_lock s).db = s.db ∧ (clear_lock s).status = s.status ∧
      (clear_lock s).has_looped = s.has_looped ∧
      (clear_lock s).entry_has_changed = s.entry_has_changed ∧
      (clear_lock s).is_recording = s.is_recording ∧ (clear_lock s).effects = s.effects := by
  simp [clear_lock]

@[simp]
theorem recon_pause_frame (s : ReconView) :
    (recon_pause s).cfg = s.cfg ∧ (recon_pause s).last = s.last ∧
      (recon_pause s).frequency_list = s.frequency_list ∧
      (recon_pause s).current_index = s.current_index ∧ (recon_pause s).freq = s.freq ∧
      (recon_pause s).minfreq = s.minfreq ∧ (recon_pause s).maxfreq = s.maxfreq ∧
      (recon_pause s).step = s.step ∧ (recon_pause s).stepper = s.stepper ∧
      (recon_pause s).index_stepper = s.index_stepper ∧ (recon_pause s).db = s.db ∧
      (recon_pause s).status = s.status ∧ (recon_pause s).has_looped = s.has_looped ∧
      (recon_pause s).entry_has_changed = s.entry_has_changed ∧
      (recon_pause s).is_recording = s.is_recording := by
  simp [recon_pause]

@[simp]
theorem recon_resume_frame (s : ReconView) :
    (recon_resume s).cfg = s.cfg ∧ (recon_resume s).last = s.last ∧
      (recon_resume s).frequency_list = s.frequency_list ∧
      (recon_resume s).current_index = s.current_index ∧ (recon_resume s).freq = s.freq ∧
      (recon_resume s).minfreq = s.minfreq ∧ (recon_resume s).maxfreq = s.maxfreq ∧
      (recon_resume s).step = s.step ∧ (recon_resume s).stepper = s.stepper ∧
      (recon_resume s).index_stepper = s.index_stepper ∧ (recon_resume s).db = s.db ∧
      (recon_resume s).status = s.status ∧ (recon_resume s).has_looped = s.has_looped ∧
      (recon_resume s).entry_has_changed = s.entry_has_changed ∧
      (recon_resume s).is_recording = s.is_recording := by
  simp [recon_resume]

@[simp]
theorem set_direction_frame (s : ReconView) (v : Int) :
    (set_direction s v).last = s.last ∧
      (set_direction s v).frequency_list = s.frequency_list ∧
      (set_direction s v).current_index = s.current_index ∧
      (set_direction s v).freq = s.freq ∧ (set_direction s v).minfreq = s.minfreq ∧
      (set_direction s v).maxfreq = s.maxfreq ∧ (set_direction s v).step = s.step ∧
      (set_direction s v).recon = s.recon ∧ (set_direction s v).stepper = s.stepper ∧
      (set_direction s v).index_stepper = s.index_stepper ∧
      (set_direction s v).timer = s.timer ∧ (set_direction s v).db = s.db ∧
      (set_direction s v).freq_lock = s.freq_lock ∧ (set_direction s v).status = s.status ∧
      (set_direction s v).continuous_lock = s.continuous_lock ∧
      (set_direction s v).has_looped = s.has_looped ∧
      (set_direction s v).entry_has_changed = s.entry_has_changed ∧
      (set_direction s v).is_recording = s.is_recording ∧
      (set_direction s v).effects = s.effects := by
  unfold set_direction
  split_ifs <;> simp

@[simp]
theorem set_index_stepper_frame (s : ReconView) (v : Int) :
    (set_index_stepper s v).cfg = s.cfg ∧ (set_index_stepper s v).last = s.last ∧
      (set_index_stepper s v).frequency_list = s.frequency_list ∧
      (set_index_stepper s v).current_index = s.current_index ∧
      (set_index_stepper s v).freq = s.freq ∧ (set_index_stepper s v).minfreq = s.minfreq ∧
      (set_index_stepper s v).maxfreq = s.maxfreq ∧ (set_index_stepper s v).step = s.step ∧
      (set_index_stepper s v).recon = s.recon ∧
      (set_index_stepper s v).stepper = s.stepper ∧
      (set_index_stepper s v).timer = s.timer ∧ (set_index_stepper s v).db = s.db ∧
      (set_index_stepper s v).freq_lock = s.freq_lock ∧
      (set_index_stepper s v).status = s.status ∧
      (set_index_stepper s v).continuous_lock = s.continuous_lock ∧
      (set_index_stepper s v).has_looped = s.has_looped ∧
      (set_index_stepper s v).entry_has_changed = s.entry_has_changed ∧
      (set_index_stepper s v).is_recording = s.is_recording ∧
      (set_index_stepper s v).effects = s.effects := by
  unfold set_index_stepper
  split_ifs <;> simp

@[simp]
theorem set_stepper_frame (s : ReconView) (v : Int) :
    (set_stepper s v).cfg = s.cfg ∧ (set_stepper s v).last = s.last ∧
      (set_stepper s v).frequency_list = s.frequency_list ∧
      (set_stepper s v).current_index = s.current_index ∧ (set_stepper s v).freq = s.freq ∧
      (set_stepper s v).minfreq = s.minfreq ∧ (set_stepper s v).maxfreq = s.maxfreq ∧
      (set_stepper s v).step = s.step ∧ (set_stepper s v).recon = s.recon ∧
      (set_stepper s v).index_stepper = s.index_stepper ∧
      (set_stepper s v).timer = s.timer ∧ (set_stepper s v).db = s.db ∧
      (set_stepper s v).freq_lock = s.freq_lock ∧ (set_stepper s v).status = s.status ∧
      (set_stepper s v).continuous_lock = s.continuous_lock ∧
      (set_stepper s v).has_looped = s.has_looped ∧
      (set_stepper s v).entry_has_changed = s.entry_has_changed ∧
      (set_stepper s v).is_recording = s.is_recording ∧
      (set_stepper s v).effects = s.effects := by
  unfold set_stepper
  split_ifs <;> simp

@[simp]
theorem reset_lock_frame (s : ReconView) :
    (reset_lock s).cfg = s.cfg ∧ (reset_lock s).last = s.last ∧
      (reset_lock s).frequency_list = s.frequency_list ∧
      (reset_lock s).current_index = s.current_index ∧ (reset_lock s).freq = s.freq ∧
      (reset_lock s).minfreq = s.minfreq ∧ (reset_lock s).maxfreq = s.maxfreq ∧
      (reset_lock s).step = s.step ∧ (reset_lock s).recon = s.recon ∧
      (reset_lock s).stepper = s.stepper ∧ (reset_lock s).index_stepper = s.index_stepper ∧
      (reset_lock s).db = s.db ∧ (reset_lock s).status = s.status ∧
      (reset_lock s).continuous_lock = s.continuous_lock ∧
      (reset_lock s).has_looped = s.has_looped ∧
      (reset_lock s).entry_has_changed = s.entry_has_changed ∧
      (reset_lock s).is_recording = s.is_recording ∧ (reset_lock s).effects = s.effects := by
  simp [reset_lock]

@[simp]
theorem on_index_delta_frame (s : ReconView) (v : Int) :
    (on_index_delta s v).last = s.last ∧
      (on_index_delta s v).frequency_list = s.frequency_list ∧
      (on_index_delta s v).current_index = s.current_index ∧
      (on_index_delta s v).freq = s.freq ∧ (on_index_delta s v).minfreq = s.minfreq ∧
      (on_index_delta s v).maxfreq = s.maxfreq ∧ (on_index_delta s v).step = s.step ∧
      (on_index_delta s v).recon = s.recon ∧ (on_index_delta s v).stepper = s.stepper ∧
      (on_index_delta s v).db = s.db ∧ (on_index_delta s v).status = s.status ∧
      (on_index_delta s v).continuous_lock = s.continuous_lock ∧
      (on_index_delta s v).has_looped = s.has_looped ∧
      (on_index_delta s v).entry_has_changed = s.entry_has_changed ∧
      (on_index_delta s v).is_recording = s.is_recording ∧
      (on_index_delta s v).effects = s.effects := by
  simp [on_index_delta]

@[simp]
theorem on_stepper_delta_frame (s : ReconView) (v : Int) :
    (on_stepper_delta s v).last = s.last ∧
      (on_stepper_delta s v).frequency_list = s.frequency_list ∧
      (on_stepper_delta s v).current_index = s.current_index ∧
      (on_stepper_delta s v).freq = s.freq ∧ (on_stepper_delta s v).minfreq = s.minfreq ∧
      (on_stepper_delta s v).maxfreq = s.maxfreq ∧ (on_stepper_delta s v).step = s.step ∧
      (on_stepper_delta s v).recon = s.recon ∧
      (on_stepper_delta s v).index_stepper = s.index_stepper ∧
      (on_stepper_delta s v).db = s.db ∧ (on_stepper_delta s v).status = s.status ∧
      (on_stepper_delta s v).continuous_lock = s.continuous_lock ∧
      (on_stepper_delta s v).has_looped = s.has_looped ∧
      (on_stepper_delta s v).entry_has_changed = s.entry_has_changed ∧
      (on_stepper_delta s v).is_recording = s.is_recording ∧
      (on_stepper_delta s v).effects = s.effects := by
  simp [on_stepper_delta]

@[simp]
theorem store_sample_frame (s : ReconView) (d : Int) :
    (store_sample s d).cfg = s.cfg ∧ (store_sample s d).last = s.last ∧
      (store_sample s d).frequency_list = s.frequency_list ∧
      (store_sample s d).current_index = s.current_index ∧
      (store_sample s d).freq = s.freq ∧ (store_sample s d).minfreq = s.minfreq ∧
      (store_sample s d).maxfreq = s.maxfreq ∧ (store_sample s d).step = s.step ∧
      (store_sample s d).recon = s.recon ∧ (store_sample s d).stepper = s.stepper ∧
      (store_sample s d).index_stepper = s.index_stepper ∧
      (store_sample s d).timer = s.timer ∧ (store_sample s d).freq_lock = s.freq_lock ∧
      (store_sample s d).status = s.status ∧
      (store_sample s d).continuous_lock = s.continuous_lock ∧
      (store_sample s d).has_looped = s.has_looped ∧
      (store_sample s d).entry_has_changed = s.entry_has_changed ∧
      (store_sample s d).is_recording = s.is_recording ∧
      (store_sample s d).effects = s.effects := by
  simp [store_sample]

@[simp]
theorem rearm_frame (s : ReconView) :
    (rearm s).cfg = s.cfg ∧ (rearm s).last = s.last ∧
      (rearm s).frequency_list = s.frequency_list ∧
      (rearm s).current_index = s.current_index ∧ (rearm s).freq = s.freq ∧
      (rearm s).minfreq = s.minfreq ∧ (rearm s).maxfreq = s.maxfreq ∧
      (rearm s).step = s.step ∧ (rearm s).recon = s.recon ∧ (rearm s).stepper = s.stepper ∧
      (rearm s).index_stepper = s.index_stepper ∧ (rearm s).db = s.db ∧
      (rearm s).has_looped = s.has_looped ∧
      (rearm s).entry_has_changed = s.entry_has_changed ∧
      (rearm s).is_recording = s.is_recording ∧ (rearm s).effects = s.effects := by
  unfold rearm
  split_ifs <;> simp

@[simp]
theorem locking_mute_frame (s : ReconView) :
    (locking_mute s).cfg = s.cfg ∧ (locking_mute s).last = s.last ∧
      (locking_mute s).frequency_list = s.frequency_list ∧
      (locking_mute s).current_index = s.current_index ∧ (locking_mute s).freq = s.freq ∧
      (locking_mute s).minfreq = s.minfreq ∧ (locking_mute s).maxfreq = s.maxfreq ∧
      (locking_mute s).step = s.step ∧ (locking_mute s).recon = s.recon ∧
      (locking_mute s).stepper = s.stepper ∧
      (locking_mute s).index_stepper = s.index_stepper ∧ (locking_mute s).timer = s.timer ∧
      (locking_mute s).db = s.db ∧ (locking_mute s).freq_lock = s.freq_lock ∧
      (locking_mute s).status = s.status ∧
      (locking_mute s).continuous_lock = s.continuous_lock ∧
      (locking_mute s).has_looped = s.has_looped ∧
      (locking_mute s).entry_has_changed = s.entry_has_changed := by
  unfold locking_mute
  split_ifs <;> simp

@[simp]
theorem locking_enter_frame (s : ReconView) :
    (locking_enter s).cfg = s.cfg ∧ (locking_enter s).last = s.last ∧
      (locking_enter s).frequency_list = s.frequency_list ∧
      (locking_enter s).current_index = s.current_index ∧ (locking_enter s).freq = s.freq ∧
      (locking_enter s).minfreq = s.minfreq ∧ (locking_enter s).maxfreq = s.maxfreq ∧
      (locking_enter s).step = s.step ∧ (locking_enter s).recon = s.recon ∧
      (locking_enter s).stepper = s.stepper ∧
      (locking_enter s).index_stepper = s.index_stepper ∧
      (locking_enter s).timer = s.timer ∧ (locking_enter s).db = s.db ∧
      (locking_enter s).freq_lock = s.freq_lock ∧
      (locking_enter s).continuous_lock = s.continuous_lock ∧
      (locking_enter s).has_looped = s.has_looped ∧
      (locking_enter s).entry_has_changed = s.entry_has_changed := by
  unfold locking_enter
  split_ifs <;> simp

@[simp]
theorem locking_sample_frame (s : ReconView) :
    (locking_sample s).cfg = s.cfg ∧ (locking_sample s).last = s.last ∧
      (locking_sample s).frequency_list = s.frequency_list ∧
      (locking_sample s).current_index = s.current_index ∧
      (locking_sample s).freq = s.freq ∧ (locking_sample s).minfreq = s.minfreq ∧
      (locking_sample s).maxfreq = s.maxfreq ∧ (locking_sample s).step = s.step ∧
      (locking_sample s).recon = s.recon ∧ (locking_sample s).stepper = s.stepper ∧
      (locking_sample s).index_stepper = s.index_stepper ∧ (locking_sample s).db = s.db ∧
      (locking_sample s).status = s.status ∧ (locking_sample s).has_looped = s.has_looped ∧
      (locking_sample s).entry_has_changed = s.entry_has_changed ∧
      (locking_sample s).is_recording = s.is_recording ∧
      (locking_sample s).effects = s.effects := by
  unfold locking_sample
  split_ifs <;> simp

@[simp]
theorem locking_frame (s : ReconView) :
    (locking s).cfg = s.cfg ∧ (locking s).last = s.last ∧
      (locking s).frequency_list = s.frequency_list ∧
      (locking s).current_index = s.current_index ∧ (locking s).freq = s.freq ∧
      (locking s).minfreq = s.minfreq ∧ (locking s).maxfreq = s.maxfreq ∧
      (locking s).step = s.step ∧ (locking s).recon = s.recon ∧
      (locking s).stepper = s.stepper ∧ (locking s).index_stepper = s.index_stepper ∧
      (locking s).db = s.db ∧ (locking s).has_looped = s.has_looped ∧
      (locking s).entry_has_changed = s.entry_has_changed := by
  unfold locking
  split_ifs <;> simp

@[simp]
theorem record_on_lock_frame (s : ReconView) :
    (record_on_lock s).cfg = s.cfg ∧ (record_on_lock s).last = s.last ∧
      (record_on_lock s).frequency_list = s.frequency_list ∧
      (record_on_lock s).current_index = s.current_index ∧
      (record_on_lock s).freq = s.freq ∧ (record_on_lock s).minfreq = s.minfreq ∧
      (record_on_lock s).maxfreq = s.maxfreq ∧ (record_on_lock s).step = s.step ∧
      (record_on_lock s).recon = s.recon ∧ (record_on_lock s).stepper = s.stepper ∧
      (record_on_lock s).index_stepper = s.index_stepper ∧
      (record_on_lock s).timer = s.timer ∧ (record_on_lock s).db = s.db ∧
      (record_on_lock s).freq_lock = s.freq_lock ∧ (record_on_lock s).status = s.status ∧
      (record_on_lock s).continuous_lock = s.continuous_lock ∧
      (record_on_lock s).has_looped = s.has_looped ∧
      (record_on_lock s).entry_has_changed = s.entry_has_changed := by
  unfold record_on_lock
  split_ifs <;> simp

@[simp]
theorem mark_locked_frame (s : ReconView) :
    (mark_locked s).cfg = s.cfg ∧ (mark_locked s).last = s.last ∧
      (mark_locked s).frequency_list = s.frequency_list ∧
      (mark_locked s).current_index = s.current_index ∧ (mark_locked s).freq = s.freq ∧
      (mark_locked s).minfreq = s.minfreq ∧ (mark_locked s).maxfreq = s.maxfreq ∧
      (mark_locked s).step = s.step ∧ (mark_locked s).recon = s.recon ∧
      (mark_locked s).stepper = s.stepper ∧
      (mark_locked s).index_stepper = s.index_stepper ∧ (mark_locked s).timer = s.timer ∧
      (mark_locked s).db = s.db ∧ (mark_locked s).freq_lock = s.freq_lock ∧
      (mark_locked s).has_looped = s.has_looped ∧
      (mark_locked s).entry_has_changed = s.entry_has_changed ∧
      (mark_locked s).is_recording = s.is_recording ∧ (mark_locked s).effects = s.effects := by
  simp [mark_locked]

@[simp]
theorem set_wait_timer_frame (s : ReconView) :
    (set_wait_timer s).cfg = s.cfg ∧ (set_wait_timer s).last = s.last ∧
      (set_wait_timer s).frequency_list = s.frequency_list ∧
      (set_wait_timer s).current_index = s.current_index ∧
      (set_wait_timer s).freq = s.freq ∧ (set_wait_timer s).minfreq = s.minfreq ∧
      (set_wait_timer s).maxfreq = s.maxfreq ∧ (set_wait_timer s).step = s.step ∧
      (set_wait_timer s).recon = s.recon ∧ (set_wait_timer s).stepper = s.stepper ∧
      (set_wait_timer s).index_stepper = s.index_stepper ∧ (set_wait_timer s).db = s.db ∧
      (set_wait_timer s).freq_lock = s.freq_lock ∧ (set_wait_timer s).status = s.status ∧
      (set_wait_timer s).continuous_lock = s.continuous_lock ∧
      (set_wait_timer s).has_looped = s.has_looped ∧
      (set_wait_timer s).entry_has_changed = s.entry_has_changed ∧
      (set_wait_timer s).is_recording = s.is_recording ∧
      (set_wait_timer s).effects = s.effects := by
  unfold set_wait_timer
  split_ifs <;> simp

@[simp]
theorem stay_refresh_frame (s : ReconView) :
    (stay_refresh s).cfg = s.cfg ∧ (stay_refresh s).last = s.last ∧
      (stay_refresh s).frequency_list = s.frequency_list ∧
      (stay_refresh s).current_index = s.current_index ∧ (stay_refresh s).freq = s.freq ∧
      (stay_refresh s).minfreq = s.minfreq ∧ (stay_refresh s).maxfreq = s.maxfreq ∧
      (stay_refresh s).step = s.step ∧ (stay_refresh s).recon = s.recon ∧
      (stay_refresh s).stepper = s.stepper ∧
      (stay_refresh s).index_stepper = s.index_stepper ∧ (stay_refresh s).db = s.db ∧
      (stay_refresh s).freq_lock = s.freq_lock ∧ (stay_refresh s).status = s.status ∧
      (stay_refresh s).continuous_lock = s.continuous_lock ∧
      (stay_refresh s).has_looped = s.has_looped ∧
      (stay_refresh s).entry_has_changed = s.entry_has_changed ∧
      (stay_refresh s).is_recording = s.is_recording ∧ (stay_refresh s).effects = s.effects := by
  unfold stay_refresh
  split_ifs <;> simp

@[simp]
theorem timer_decrement_frame (s : ReconView) (n : Nat) :
    (timer_decrement s n).cfg = s.cfg ∧ (timer_decrement s n).last = s.last ∧
      (timer_decrement s n).frequency_list = s.frequency_list ∧
      (timer_decrement s n).current_index = s.current_index ∧
      (timer_decrement s n).freq = s.freq ∧ (timer_decrement s n).minfreq = s.minfreq ∧
      (timer_decrement s n).maxfreq = s.maxfreq ∧ (timer_decrement s n).step = s.step ∧
      (timer_decrement s n).recon = s.recon ∧ (timer_decrement s n).stepper = s.stepper ∧
      (timer_decrement s n).index_stepper = s.index_stepper ∧
      (timer_decrement s n).db = s.db ∧ (timer_decrement s n).freq_lock = s.freq_lock ∧
      (timer_decrement s n).status = s.status ∧
      (timer_decrement s n).continuous_lock = s.continuous_lock ∧
      (timer_decrement s n).has_looped = s.has_looped ∧
      (timer_decrement s n).entry_has_changed = s.entry_has_changed ∧
      (timer_decrement s n).is_recording = s.is_recording ∧
      (timer_decrement s n).effects = s.effects := by
  unfold timer_decrement
  split_ifs <;> simp

@[simp]
theorem timer_floor_frame (s : ReconView) :
    (timer_floor s).cfg = s.cfg ∧ (timer_floor s).last = s.last ∧
      (timer_floor s).frequency_list = s.frequency_list ∧
      (timer_floor s).current_index = s.current_index ∧ (timer_floor s).freq = s.freq ∧
      (timer_floor s).minfreq = s.minfreq ∧ (timer_floor s).maxfreq = s.maxfreq ∧
      (timer_floor s).step = s.step ∧ (timer_floor s).recon = s.recon ∧
      (timer_floor s).stepper = s.stepper ∧
      (timer_floor s).index_stepper = s.index_stepper ∧ (timer_floor s).db = s.db ∧
      (timer_floor s).freq_lock = s.freq_lock ∧ (timer_floor s).status = s.status ∧
      (timer_floor s).continuous_lock = s.continuous_lock ∧
      (timer_floor s).has_looped = s.has_looped ∧
      (timer_floor s).entry_has_changed = s.entry_has_changed ∧
      (timer_floor s).is_recording = s.is_recording ∧ (timer_floor s).effects = s.effects := by
  unfold timer_floor
  split_ifs <;> simp

@[simp]
theorem timer_stage_frame (s : ReconView) (n : Nat) :
    (timer_stage s n).cfg = s.cfg ∧ (timer_stage s n).last = s.last ∧
      (timer_stage s n).frequency_list = s.frequency_list ∧
      (timer_stage s n).current_index = s.current_index ∧ (timer_stage s n).freq = s.freq ∧
      (timer_stage s n).minfreq = s.minfreq ∧ (timer_stage s n).maxfreq = s.maxfreq ∧
      (timer_stage s n).step = s.step ∧ (timer_stage s n).recon = s.recon ∧
      (timer_stage s n).stepper = s.stepper ∧
      (timer_stage s n).index_stepper = s.index_stepper ∧ (timer_stage s n).db = s.db ∧
      (timer_stage s n).freq_lock = s.freq_lock ∧ (timer_stage s n).status = s.status ∧
      (timer_stage s n).continuous_lock = s.continuous_lock ∧
      (timer_stage s n).has_looped = s.has_looped ∧
      (timer_stage s n).entry_has_changed = s.entry_has_changed ∧
      (timer_stage s n).is_recording = s.is_recording ∧
      (timer_stage s n).effects = s.effects := by
  unfold timer_stage
  split_ifs <;> simp

@[simp]
theorem cursor_inc_frame (s : ReconView) :
    (cursor_inc s).cfg = s.cfg ∧ (cursor_inc s).last = s.last ∧
      (cursor_inc s).frequency_list = s.frequency_list ∧ (cursor_inc s).freq = s.freq ∧
      (cursor_inc s).minfreq = s.minfreq ∧ (cursor_inc s).maxfreq = s.maxfreq ∧
      (cursor_inc s).step = s.step ∧ (cursor_inc s).recon = s.recon ∧
      (cursor_inc s).stepper = s.stepper ∧ (cursor_inc s).index_stepper = s.index_stepper ∧
      (cursor_inc s).timer = s.timer ∧ (cursor_inc s).db = s.db ∧
      (cursor_inc s).freq_lock = s.freq_lock ∧ (cursor_inc s).status = s.status ∧
      (cursor_inc s).continuous_lock = s.continuous_lock ∧
      (cursor_inc s).has_looped = s.has_looped ∧
      (cursor_inc s).is_recording = s.is_recording ∧ (cursor_inc s).effects = s.effects := by
  simp [cursor_inc]

@[simp]
theorem cursor_dec_frame (s : ReconView) :
    (cursor_dec s).cfg = s.cfg ∧ (cursor_dec s).last = s.last ∧
      (cursor_dec s).frequency_list = s.frequency_list ∧ (cursor_dec s).freq = s.freq ∧
      (cursor_dec s).minfreq = s.minfreq ∧ (cursor_dec s).maxfreq = s.maxfreq ∧
      (cursor_dec s).step = s.step ∧ (cursor_dec s).recon = s.recon ∧
      (cursor_dec s).stepper = s.stepper ∧ (cursor_dec s).index_stepper = s.index_stepper ∧
      (cursor_dec s).timer = s.timer ∧ (cursor_dec s).db = s.db ∧
      (cursor_dec s).freq_lock = s.freq_lock ∧ (cursor_dec s).status = s.status ∧
      (cursor_dec s).continuous_lock = s.continuous_lock ∧
      (cursor_dec s).has_looped = s.has_looped ∧
      (cursor_dec s).is_recording = s.is_recording ∧ (cursor_dec s).effects = s.effects := by
  simp [cursor_dec]

@[simp]
theorem wrap_high_frame (s : ReconView) :
    (wrap_high s).cfg = s.cfg ∧ (wrap_high s).last = s.last ∧
      (wrap_high s).frequency_list = s.frequency_list ∧ (wrap_high s).freq = s.freq ∧
      (wrap_high s).minfreq = s.minfreq ∧ (wrap_high s).maxfreq = s.maxfreq ∧
      (wrap_high s).step = s.step ∧ (wrap_high s).recon = s.recon ∧
      (wrap_high s).stepper = s.stepper ∧ (wrap_high s).index_stepper = s.index_stepper ∧
      (wrap_high s).timer = s.timer ∧ (wrap_high s).db = s.db ∧
      (wrap_high s).freq_lock = s.freq_lock ∧ (wrap_high s).status = s.status ∧
      (wrap_high s).continuous_lock = s.continuous_lock ∧
      (wrap_high s).entry_has_changed = s.entry_has_changed ∧
      (wrap_high s).is_recording = s.is_recording ∧ (wrap_high s).effects = s.effects := by
  unfold wrap_high
  split_ifs <;> simp

@[simp]
theorem wrap_low_frame (s : ReconView) :
    (wrap_low s).cfg = s.cfg ∧ (wrap_low s).last = s.last ∧
      (wrap_low s).frequency_list = s.frequency_list ∧ (wrap_low s).freq = s.freq ∧
      (wrap_low s).minfreq = s.minfreq ∧ (wrap_low s).maxfreq = s.maxfreq ∧
      (wrap_low s).step = s.step ∧ (wrap_low s).recon = s.recon ∧
      (wrap_low s).stepper = s.stepper ∧ (wrap_low s).index_stepper = s.index_stepper ∧
      (wrap_low s).timer = s.timer ∧ (wrap_low s).db = s.db ∧
      (wrap_low s).freq_lock = s.freq_lock ∧ (wrap_low s).status = s.status ∧
      (wrap_low s).continuous_lock = s.continuous_lock ∧
      (wrap_low s).entry_has_changed = s.entry_has_changed ∧
      (wrap_low s).is_recording = s.is_recording ∧ (wrap_low s).effects = s.effects := by
  unfold wrap_low
  split_ifs <;> simp

@[simp]
theorem cursor_next_frame (s : ReconView) :
    (cursor_next s).cfg = s.cfg ∧ (cursor_next s).last = s.last ∧
      (cursor_next s).frequency_list = s.frequency_list ∧ (cursor_next s).freq = s.freq ∧
      (cursor_next s).minfreq = s.minfreq ∧ (cursor_next s).maxfreq = s.maxfreq ∧
      (cursor_next s).step = s.step ∧ (cursor_next s).recon = s.recon ∧
      (cursor_next s).stepper = s.stepper ∧
      (cursor_next s).index_stepper = s.index_stepper ∧ (cursor_next s).timer = s.timer ∧
      (cursor_next s).db = s.db ∧ (cursor_next s).freq_lock = s.freq_lock ∧
      (cursor_next s).status = s.status ∧
      (cursor_next s).continuous_lock = s.continuous_lock ∧
      (cursor_next s).is_recording = s.is_recording ∧ (cursor_next s).effects = s.effects := by
  simp [cursor_next]

@[simp]
theorem cursor_prev_frame (s : ReconView) :
    (cursor_prev s).cfg = s.cfg ∧ (cursor_prev s).last = s.last ∧
      (cursor_prev s).frequency_list = s.frequency_list ∧ (cursor_prev s).freq = s.freq ∧
      (cursor_prev s).minfreq = s.minfreq ∧ (cursor_prev s).maxfreq = s.maxfreq ∧
      (cursor_prev s).step = s.step ∧ (cursor_prev s).recon = s.recon ∧
      (cursor_prev s).stepper = s.stepper ∧
      (cursor_prev s).index_stepper = s.index_stepper ∧ (cursor_prev s).timer = s.timer ∧
      (cursor_prev s).db = s.db ∧ (cursor_prev s).freq_lock = s.freq_lock ∧
      (cursor_prev s).status = s.status ∧
      (cursor_prev s).continuous_lock = s.continuous_lock ∧
      (cursor_prev s).is_recording = s.is_recording ∧ (cursor_prev s).effects = s.effects := by
  simp [cursor_prev]

@[simp]
theorem range_step_up_frame (s : ReconView) :
    (range_step_up s).cfg = s.cfg ∧ (range_step_up s).last = s.last ∧
      (range_step_up s).frequency_list = s.frequency_list ∧
      (range_step_up s).current_index = s.current_index ∧
      (range_step_up s).minfreq = s.minfreq ∧ (range_step_up s).maxfreq = s.maxfreq ∧
      (range_step_up s).step = s.step ∧ (range_step_up s).recon = s.recon ∧
      (range_step_up s).stepper = s.stepper ∧
      (range_step_up s).index_stepper = s.index_stepper ∧
      (range_step_up s).timer = s.timer ∧ (range_step_up s).db = s.db ∧
      (range_step_up s).freq_lock = s.freq_lock ∧ (range_step_up s).status = s.status ∧
      (range_step_up s).continuous_lock = s.continuous_lock ∧
      (range_step_up s).has_looped = s.has_looped ∧
      (range_step_up s).entry_has_changed = s.entry_has_changed ∧
      (range_step_up s).is_recording = s.is_recording ∧
      (range_step_up s).effects = s.effects := by
  simp [range_step_up]

@[simp]
theorem range_step_down_frame (s : ReconView) :
    (range_step_down s).cfg = s.cfg ∧ (range_step_down s).last = s.last ∧
      (range_step_down s).frequency_list = s.frequency_list ∧
      (range_step_down s).current_index = s.current_index ∧
      (range_step_down s).minfreq = s.minfreq ∧ (range_step_down s).maxfreq = s.maxfreq ∧
      (range_step_down s).step = s.step ∧ (range_step_down s).recon = s.recon ∧
      (range_step_down s).stepper = s.stepper ∧
      (range_step_down s).index_stepper = s.index_stepper ∧
      (range_step_down s).timer = s.timer ∧ (range_step_down s).db = s.db ∧
      (range_step_down s).freq_lock = s.freq_lock ∧ (range_step_down s).status = s.status ∧
      (range_step_down s).continuous_lock = s.continuous_lock ∧
      (range_step_down s).has_looped = s.has_looped ∧
      (range_step_down s).entry_has_changed = s.entry_has_changed ∧
      (range_step_down s).is_recording = s.is_recording ∧
      (range_step_down s).effects = s.effects := by
  simp [range_step_down]

@[simp]
theorem range_check_high_frame (s : ReconView) :
    (range_check_high s).cfg = s.cfg ∧ (range_check_high s).last = s.last ∧
      (range_check_high s).frequency_list = s.frequency_list ∧
      (range_check_high s).freq = s.freq ∧ (range_check_high s).minfreq = s.minfreq ∧
      (range_check_high s).maxfreq = s.maxfreq ∧ (range_check_high s).step = s.step ∧
      (range_check_high s).recon = s.recon ∧ (range_check_high s).stepper = s.stepper ∧
      (range_check_high s).index_stepper = s.index_stepper ∧
      (range_check_high s).timer = s.timer ∧ (range_check_high s).db = s.db ∧
      (range_check_high s).freq_lock = s.freq_lock ∧
      (range_check_high s).status = s.status ∧
      (range_check_high s).continuous_lock = s.continuous_lock ∧
      (range_check_high s).is_recording = s.is_recording ∧
      (range_check_high s).effects = s.effects := by
  unfold range_check_high
  split_ifs <;> simp

@[simp]
theorem range_check_low_frame (s : ReconView) :
    (range_check_low s).cfg = s.cfg ∧ (range_check_low s).last = s.last ∧
      (range_check_low s).frequency_list = s.frequency_list ∧
      (range_check_low s).freq = s.freq ∧ (range_check_low s).minfreq = s.minfreq ∧
      (range_check_low s).maxfreq = s.maxfreq ∧ (range_check_low s).step = s.step ∧
      (range_check_low s).recon = s.recon ∧ (range_check_low s).stepper = s.stepper ∧
      (range_check_low s).index_stepper = s.index_stepper ∧
      (range_check_low s).timer = s.timer ∧ (range_check_low s).db = s.db ∧
      (range_check_low s).freq_lock = s.freq_lock ∧ (range_check_low s).status = s.status ∧
      (range_check_low s).continuous_lock = s.continuous_lock ∧
      (range_check_low s).is_recording = s.is_recording ∧
      (range_check_low s).effects = s.effects := by
  unfold range_check_low
  split_ifs <;> simp

@[simp]
theorem range_forward_frame (s : ReconView) :
    (range_forward s).cfg = s.cfg ∧ (range_forward s).last = s.last ∧
      (range_forward s).frequency_list = s.frequency_list ∧
      (range_forward s).minfreq = s.minfreq ∧ (range_forward s).maxfreq = s.maxfreq ∧
      (range_forward s).step = s.step ∧ (range_forward s).recon = s.recon ∧
      (range_forward s).stepper = s.stepper ∧
      (range_forward s).index_stepper = s.index_stepper ∧
      (range_forward s).timer = s.timer ∧ (range_forward s).db = s.db ∧
      (range_forward s).freq_lock = s.freq_lock ∧ (range_forward s).status = s.status ∧
      (range_forward s).continuous_lock = s.continuous_lock ∧
      (range_forward s).is_recording = s.is_recording ∧
      (range_forward s).effects = s.effects := by
  simp [range_forward]

@[simp]
theorem range_reverse_frame (s : ReconView) :
    (range_reverse s).cfg = s.cfg ∧ (range_reverse s).last = s.last ∧
      (range_reverse s).frequency_list = s.frequency_list ∧
      (range_reverse s).minfreq = s.minfreq ∧ (range_reverse s).maxfreq = s.maxfreq ∧
      (range_reverse s).step = s.step ∧ (range_reverse s).recon = s.recon ∧
      (range_reverse s).stepper = s.stepper ∧
      (range_reverse s).index_stepper = s.index_stepper ∧
      (range_reverse s).timer = s.timer ∧ (range_reverse s).db = s.db ∧
      (range_reverse s).freq_lock = s.freq_lock ∧ (range_reverse s).status = s.status ∧
      (range_reverse s).continuous_lock = s.continuous_lock ∧
      (range_reverse s).is_recording = s.is_recording ∧
      (range_reverse s).effects = s.effects := by
  simp [range_reverse]

@[simp]
theorem advance_range_frame (s : ReconView) :
    (advance_range s).cfg = s.cfg ∧ (advance_range s).last = s.last ∧
      (advance_range s).frequency_list = s.frequency_list ∧
      (advance_range s).minfreq = s.minfreq ∧ (advance_range s).maxfreq = s.maxfreq ∧
      (advance_range s).step = s.step ∧ (advance_range s).recon = s.recon ∧
      (advance_range s).stepper = s.stepper ∧
      (advance_range s).index_stepper = s.index_stepper ∧
      (advance_range s).timer = s.timer ∧ (advance_range s).db = s.db ∧
      (advance_range s).freq_lock = s.freq_lock ∧ (advance_range s).status = s.status ∧
      (advance_range s).continuous_lock = s.continuous_lock ∧
      (advance_range s).is_recording = s.is_recording ∧
      (advance_range s).effects = s.effects := by
  unfold advance_range
  split_ifs <;> simp

@[simp]
theorem advance_single_frame (s : ReconView) :
    (advance_single s).cfg = s.cfg ∧ (advance_single s).last = s.last ∧
      (advance_single s).frequency_list = s.frequency_list ∧
      (advance_single s).freq = s.freq ∧ (advance_single s).minfreq = s.minfreq ∧
      (advance_single s).maxfreq = s.maxfreq ∧ (advance_single s).step = s.step ∧
      (advance_single s).recon = s.recon ∧ (advance_single s).stepper = s.stepper ∧
      (advance_single s).index_stepper = s.index_stepper ∧
      (advance_single s).timer = s.timer ∧ (advance_single s).db = s.db ∧
      (advance_single s).freq_lock = s.freq_lock ∧ (advance_single s).status = s.status ∧
      (advance_single s).continuous_lock = s.continuous_lock ∧
      (advance_single s).is_recording = s.is_recording ∧
      (advance_single s).effects = s.effects := by
  unfold advance_single
  split_ifs <;> simp

@[simp]
theorem hamradio_forward_frame (s : ReconView) :
    (hamradio_forward s).cfg = s.cfg ∧ (hamradio_forward s).last = s.last ∧
      (hamradio_forward s).frequency_list = s.frequency_list ∧
      (hamradio_forward s).minfreq = s.minfreq ∧ (hamradio_forward s).maxfreq = s.maxfreq ∧
      (hamradio_forward s).step = s.step ∧ (hamradio_forward s).recon = s.recon ∧
      (hamradio_forward s).stepper = s.stepper ∧
      (hamradio_forward s).index_stepper = s.index_stepper ∧
      (hamradio_forward s).timer = s.timer ∧ (hamradio_forward s).db = s.db ∧
      (hamradio_forward s).freq_lock = s.freq_lock ∧
      (hamradio_forward s).status = s.status ∧
      (hamradio_forward s).continuous_lock = s.continuous_lock ∧
      (hamradio_forward s).is_recording = s.is_recording ∧
      (hamradio_forward s).effects = s.effects := by
  unfold hamradio_forward
  split_ifs <;> simp

@[simp]
theorem hamradio_reverse_frame (s : ReconView) :
    (hamradio_reverse s).cfg = s.cfg ∧ (hamradio_reverse s).last = s.last ∧
      (hamradio_reverse s).frequency_list = s.frequency_list ∧
      (hamradio_reverse s).minfreq = s.minfreq ∧ (hamradio_reverse s).maxfreq = s.maxfreq ∧
      (hamradio_reverse s).step = s.step ∧ (hamradio_reverse s).recon = s.recon ∧
      (hamradio_reverse s).stepper = s.stepper ∧
      (hamradio_reverse s).index_stepper = s.index_stepper ∧
      (hamradio_reverse s).timer = s.timer ∧ (hamradio_reverse s).db = s.db ∧
      (hamradio_reverse s).freq_lock = s.freq_lock ∧
      (hamradio_reverse s).status = s.status ∧
      (hamradio_reverse s).continuous_lock = s.continuous_lock ∧
      (hamradio_reverse s).is_recording = s.is_recording ∧
      (hamradio_reverse s).effects = s.effects := by
  unfold hamradio_reverse
  split_ifs <;> simp

@[simp]
theorem advance_hamradio_frame (s : ReconView) :
    (advance_hamradio s).cfg = s.cfg ∧ (advance_hamradio s).last = s.last ∧
      (advance_hamradio s).frequency_list = s.frequency_list ∧
      (advance_hamradio s).minfreq = s.minfreq ∧ (advance_hamradio s).maxfreq = s.maxfreq ∧
      (advance_hamradio s).step = s.step ∧ (advance_hamradio s).recon = s.recon ∧
      (advance_hamradio s).stepper = s.stepper ∧
      (advance_hamradio s).index_stepper = s.index_stepper ∧
      (advance_hamradio s).timer = s.timer ∧ (advance_hamradio s).db = s.db ∧
      (advance_hamradio s).freq_lock = s.freq_lock ∧
      (advance_hamradio s).status = s.status ∧
      (advance_hamradio s).continuous_lock = s.continuous_lock ∧
      (advance_hamradio s).is_recording = s.is_recording ∧
      (advance_hamradio s).effects = s.effects := by
  unfold advance_hamradio
  split_ifs <;> simp

@[simp]
theorem boundary_index_frame (s : ReconView) :
    (boundary_index s).cfg = s.cfg ∧ (boundary_index s).last = s.last ∧
      (boundary_index s).frequency_list = s.frequency_list ∧
      (boundary_index s).freq = s.freq ∧ (boundary_index s).minfreq = s.minfreq ∧
      (boundary_index s).maxfreq = s.maxfreq ∧ (boundary_index s).step = s.step ∧
      (boundary_index s).recon = s.recon ∧ (boundary_index s).stepper = s.stepper ∧
      (boundary_index s).index_stepper = s.index_stepper ∧
      (boundary_index s).timer = s.timer ∧ (boundary_index s).db = s.db ∧
      (boundary_index s).freq_lock = s.freq_lock ∧ (boundary_index s).status = s.status ∧
      (boundary_index s).continuous_lock = s.continuous_lock ∧
      (boundary_index s).has_looped = s.has_looped ∧
      (boundary_index s).entry_has_changed = s.entry_has_changed ∧
      (boundary_index s).is_recording = s.is_recording ∧
      (boundary_index s).effects = s.effects := by
  unfold boundary_index
  split_ifs <;> simp

@[simp]
theorem loop_boundary_frame (s : ReconView) :
    (loop_boundary s).cfg = s.cfg ∧ (loop_boundary s).last = s.last ∧
      (loop_boundary s).frequency_list = s.frequency_list ∧
      (loop_boundary s).freq = s.freq ∧ (loop_boundary s).minfreq = s.minfreq ∧
      (loop_boundary s).maxfreq = s.maxfreq ∧ (loop_boundary s).step = s.step ∧
      (loop_boundary s).recon = s.recon ∧ (loop_boundary s).stepper = s.stepper ∧
      (loop_boundary s).index_stepper = s.index_stepper ∧
      (loop_boundary s).timer = s.timer ∧ (loop_boundary s).db = s.db ∧
      (loop_boundary s).freq_lock = s.freq_lock ∧ (loop_boundary s).status = s.status ∧
      (loop_boundary s).continuous_lock = s.continuous_lock ∧
      (loop_boundary s).has_looped = s.has_looped ∧
      (loop_boundary s).is_recording = s.is_recording ∧
      (loop_boundary s).effects = s.effects := by
  unfold loop_boundary
  split_ifs <;> simp

@[simp]
theorem advance_kind_frame (s : ReconView) (k : freqman_entry_type) :
    (advance_kind k s).cfg = s.cfg ∧ (advance_kind k s).last = s.last ∧
      (advance_kind k s).frequency_list = s.frequency_list ∧
      (advance_kind k s).minfreq = s.minfreq ∧ (advance_kind k s).maxfreq = s.maxfreq ∧
      (advance_kind k s).step = s.step ∧ (advance_kind k s).recon = s.recon ∧
      (advance_kind k s).stepper = s.stepper ∧
      (advance_kind k s).index_stepper = s.index_stepper ∧
      (advance_kind k s).timer = s.timer ∧ (advance_kind k s).db = s.db ∧
      (advance_kind k s).freq_lock = s.freq_lock ∧ (advance_kind k s).status = s.status ∧
      (advance_kind k s).continuous_lock = s.continuous_lock ∧
      (advance_kind k s).is_recording = s.is_recording ∧
      (advance_kind k s).effects = s.effects := by
  cases k <;> simp [advance_kind]

@[simp]
theorem jump_add_frame (s : ReconView) :
    (jump_add s).cfg = s.cfg ∧ (jump_add s).last = s.last ∧
      (jump_add s).frequency_list = s.frequency_list ∧ (jump_add s).freq = s.freq ∧
      (jump_add s).minfreq = s.minfreq ∧ (jump_add s).maxfreq = s.maxfreq ∧
      (jump_add s).step = s.step ∧ (jump_add s).recon = s.recon ∧
      (jump_add s).stepper = s.stepper ∧ (jump_add s).index_stepper = s.index_stepper ∧
      (jump_add s).timer = s.timer ∧ (jump_add s).db = s.db ∧
      (jump_add s).freq_lock = s.freq_lock ∧ (jump_add s).status = s.status ∧
      (jump_add s).continuous_lock = s.continuous_lock ∧
      (jump_add s).has_looped = s.has_looped ∧
      (jump_add s).entry_has_changed = s.entry_has_changed ∧
      (jump_add s).is_recording = s.is_recording ∧ (jump_add s).effects = s.effects := by
  simp [jump_add]

@[simp]
theorem jump_wrap_low_frame (s : ReconView) :
    (jump_wrap_low s).cfg = s.cfg ∧ (jump_wrap_low s).last = s.last ∧
      (jump_wrap_low s).frequency_list = s.frequency_list ∧
      (jump_wrap_low s).freq = s.freq ∧ (jump_wrap_low s).minfreq = s.minfreq ∧
      (jump_wrap_low s).maxfreq = s.maxfreq ∧ (jump_wrap_low s).step = s.step ∧
      (jump_wrap_low s).recon = s.recon ∧ (jump_wrap_low s).stepper = s.stepper ∧
      (jump_wrap_low s).index_stepper = s.index_stepper ∧
      (jump_wrap_low s).timer = s.timer ∧ (jump_wrap_low s).db = s.db ∧
      (jump_wrap_low s).freq_lock = s.freq_lock ∧ (jump_wrap_low s).status = s.status ∧
      (jump_wrap_low s).continuous_lock = s.continuous_lock ∧
      (jump_wrap_low s).has_looped = s.has_looped ∧
      (jump_wrap_low s).entry_has_changed = s.entry_has_changed ∧
      (jump_wrap_low s).is_recording = s.is_recording ∧
      (jump_wrap_low s).effects = s.effects := by
  unfold jump_wrap_low
  split_ifs <;> simp

@[simp]
theorem jump_wrap_high_frame (s : ReconView) :
    (jump_wrap_high s).cfg = s.cfg ∧ (jump_wrap_high s).last = s.last ∧
      (jump_wrap_high s).frequency_list = s.frequency_list ∧
      (jump_wrap_high s).freq = s.freq ∧ (jump_wrap_high s).minfreq = s.minfreq ∧
      (jump_wrap_high s).maxfreq = s.maxfreq ∧ (jump_wrap_high s).step = s.step ∧
      (jump_wrap_high s).recon = s.recon ∧ (jump_wrap_high s).stepper = s.stepper ∧
      (jump_wrap_high s).index_stepper = s.index_stepper ∧
      (jump_wrap_high s).timer = s.timer ∧ (jump_wrap_high s).db = s.db ∧
      (jump_wrap_high s).freq_lock = s.freq_lock ∧ (jump_wrap_high s).status = s.status ∧
      (jump_wrap_high s).continuous_lock = s.continuous_lock ∧
      (jump_wrap_high s).has_looped = s.has_looped ∧
      (jump_wrap_high s).entry_has_changed = s.entry_has_changed ∧
      (jump_wrap_high s).is_recording = s.is_recording ∧
      (jump_wrap_high s).effects = s.effects := by
  unfold jump_wrap_high
  split_ifs <;> simp

@[simp]
theorem jump_audio_frame (s : ReconView) :
    (jump_audio s).cfg = s.cfg ∧ (jump_audio s).last = s.last ∧
      (jump_audio s).frequency_list = s.frequency_list ∧
      (jump_audio s).current_index = s.current_index ∧ (jump_audio s).freq = s.freq ∧
      (jump_audio s).minfreq = s.minfreq ∧ (jump_audio s).maxfreq = s.maxfreq ∧
      (jump_audio s).step = s.step ∧ (jump_audio s).recon = s.recon ∧
      (jump_audio s).stepper = s.stepper ∧ (jump_audio s).index_stepper = s.index_stepper ∧
      (jump_audio s).timer = s.timer ∧ (jump_audio s).db = s.db ∧
      (jump_audio s).freq_lock = s.freq_lock ∧ (jump_audio s).status = s.status ∧
      (jump_audio s).continuous_lock = s.continuous_lock ∧
      (jump_audio s).has_looped = s.has_looped ∧
      (jump_audio s).entry_has_changed = s.entry_has_changed ∧
      (jump_audio s).is_recording = s.is_recording := by
  unfold jump_audio
  split_ifs <;> simp

@[simp]
theorem index_jump_frame (s : ReconView) :
    (index_jump s).cfg = s.cfg ∧ (index_jump s).last = s.last ∧
      (index_jump s).frequency_list = s.frequency_list ∧ (index_jump s).freq = s.freq ∧
      (index_jump s).minfreq = s.minfreq ∧ (index_jump s).maxfreq = s.maxfreq ∧
      (index_jump s).step = s.step ∧ (index_jump s).recon = s.recon ∧
      (index_jump s).stepper = s.stepper ∧ (index_jump s).index_stepper = s.index_stepper ∧
      (index_jump s).timer = s.timer ∧ (index_jump s).db = s.db ∧
      (index_jump s).freq_lock = s.freq_lock ∧ (index_jump s).status = s.status ∧
      (index_jump s).continuous_lock = s.continuous_lock ∧
      (index_jump s).has_looped = s.has_looped ∧
      (index_jump s).is_recording = s.is_recording := by
  simp [index_jump]

@[simp]
theorem set_bounds_frame (s : ReconView) (e : freqman_entry) :
    (set_bounds s e).cfg = s.cfg ∧ (set_bounds s e).last = s.last ∧
      (set_bounds s e).frequency_list = s.frequency_list ∧
      (set_bounds s e).current_index = s.current_index ∧ (set_bounds s e).freq = s.freq ∧
      (set_bounds s e).step = s.step ∧ (set_bounds s e).recon = s.recon ∧
      (set_bounds s e).stepper = s.stepper ∧
      (set_bounds s e).index_stepper = s.index_stepper ∧ (set_bounds s e).timer = s.timer ∧
      (set_bounds s e).db = s.db ∧ (set_bounds s e).freq_lock = s.freq_lock ∧
      (set_bounds s e).status = s.status ∧
      (set_bounds s e).continuous_lock = s.continuous_lock ∧
      (set_bounds s e).has_looped = s.has_looped ∧
      (set_bounds s e).entry_has_changed = s.entry_has_changed ∧
      (set_bounds s e).is_recording = s.is_recording ∧ (set_bounds s e).effects = s.effects := by
  simp [set_bounds]

@[simp]
theorem near_bound_frame (s : ReconView) :
    (near_bound s).cfg = s.cfg ∧ (near_bound s).last = s.last ∧
      (near_bound s).frequency_list = s.frequency_list ∧
      (near_bound s).current_index = s.current_index ∧ (near_bound s).minfreq = s.minfreq ∧
      (near_bound s).maxfreq = s.maxfreq ∧ (near_bound s).step = s.step ∧
      (near_bound s).recon = s.recon ∧ (near_bound s).stepper = s.stepper ∧
      (near_bound s).index_stepper = s.index_stepper ∧ (near_bound s).timer = s.timer ∧
      (near_bound s).db = s.db ∧ (near_bound s).freq_lock = s.freq_lock ∧
      (near_bound s).status = s.status ∧
      (near_bound s).continuous_lock = s.continuous_lock ∧
      (near_bound s).has_looped = s.has_looped ∧
      (near_bound s).entry_has_changed = s.entry_has_changed ∧
      (near_bound s).is_recording = s.is_recording ∧ (near_bound s).effects = s.effects := by
  unfold near_bound
  split_ifs <;> simp

@[simp]
theorem reload_bounds_frame (s : ReconView) (e : freqman_entry) :
    (reload_bounds s e).cfg = s.cfg ∧ (reload_bounds s e).last = s.last ∧
      (reload_bounds s e).frequency_list = s.frequency_list ∧
      (reload_bounds s e).current_index = s.current_index ∧
      (reload_bounds s e).step = s.step ∧ (reload_bounds s e).recon = s.recon ∧
      (reload_bounds s e).stepper = s.stepper ∧
      (reload_bounds s e).index_stepper = s.index_stepper ∧
      (reload_bounds s e).timer = s.timer ∧ (reload_bounds s e).db = s.db ∧
      (reload_bounds s e).freq_lock = s.freq_lock ∧ (reload_bounds s e).status = s.status ∧
      (reload_bounds s e).continuous_lock = s.continuous_lock ∧
      (reload_bounds s e).has_looped = s.has_looped ∧
      (reload_bounds s e).entry_has_changed = s.entry_has_changed ∧
      (reload_bounds s e).is_recording = s.is_recording ∧
      (reload_bounds s e).effects = s.effects := by
  simp [reload_bounds]

@[simp]
theorem reload_from_frame (s : ReconView) (e : freqman_entry) :
    (reload_from s e).cfg = s.cfg ∧ (reload_from s e).last = s.last ∧
      (reload_from s e).frequency_list = s.frequency_list ∧
      (reload_from s e).current_index = s.current_index ∧ (reload_from s e).step = s.step ∧
      (reload_from s e).recon = s.recon ∧ (reload_from s e).stepper = s.stepper ∧
      (reload_from s e).index_stepper = s.index_stepper ∧
      (reload_from s e).timer = s.timer ∧ (reload_from s e).db = s.db ∧
      (reload_from s e).freq_lock = s.freq_lock ∧ (reload_from s e).status = s.status ∧
      (reload_from s e).continuous_lock = s.continuous_lock ∧
      (reload_from s e).has_looped = s.has_looped ∧
      (reload_from s e).entry_has_changed = s.entry_has_changed ∧
      (reload_from s e).is_recording = s.is_recording ∧
      (reload_from s e).effects = s.effects := by
  unfold reload_from
  split <;> simp

@[simp]
theorem pause_at_end_frame (s : ReconView) :
    (pause_at_end s).cfg = s.cfg ∧ (pause_at_end s).last = s.last ∧
      (pause_at_end s).frequency_list = s.frequency_list ∧
      (pause_at_end s).current_index = s.current_index ∧ (pause_at_end s).freq = s.freq ∧
      (pause_at_end s).minfreq = s.minfreq ∧ (pause_at_end s).maxfreq = s.maxfreq ∧
      (pause_at_end s).step = s.step ∧ (pause_at_end s).stepper = s.stepper ∧
      (pause_at_end s).index_stepper = s.index_stepper ∧ (pause_at_end s).db = s.db ∧
      (pause_at_end s).status = s.status ∧ (pause_at_end s).has_looped = s.has_looped ∧
      (pause_at_end s).entry_has_changed = s.entry_has_changed ∧
      (pause_at_end s).is_recording = s.is_recording := by
  unfold pause_at_end
  split_ifs <;> simp

@[simp]
theorem stepper_up_frame (s : ReconView) :
    (stepper_up s).cfg = s.cfg ∧ (stepper_up s).last = s.last ∧
      (stepper_up s).frequency_list = s.frequency_list ∧
      (stepper_up s).current_index = s.current_index ∧ (stepper_up s).freq = s.freq ∧
      (stepper_up s).minfreq = s.minfreq ∧ (stepper_up s).maxfreq = s.maxfreq ∧
      (stepper_up s).step = s.step ∧ (stepper_up s).recon = s.recon ∧
      (stepper_up s).index_stepper = s.index_stepper ∧ (stepper_up s).timer = s.timer ∧
      (stepper_up s).db = s.db ∧ (stepper_up s).freq_lock = s.freq_lock ∧
      (stepper_up s).status = s.status ∧
      (stepper_up s).continuous_lock = s.continuous_lock ∧
      (stepper_up s).has_looped = s.has_looped ∧
      (stepper_up s).entry_has_changed = s.entry_has_changed ∧
      (stepper_up s).is_recording = s.is_recording ∧ (stepper_up s).effects = s.effects := by
  unfold stepper_up
  split_ifs <;> simp

@[simp]
theorem stepper_down_frame (s : ReconView) :
    (stepper_down s).cfg = s.cfg ∧ (stepper_down s).last = s.last ∧
      (stepper_down s).frequency_list = s.frequency_list ∧
      (stepper_down s).current_index = s.current_index ∧ (stepper_down s).freq = s.freq ∧
      (stepper_down s).minfreq = s.minfreq ∧ (stepper_down s).maxfreq = s.maxfreq ∧
      (stepper_down s).step = s.step ∧ (stepper_down s).recon = s.recon ∧
      (stepper_down s).index_stepper = s.index_stepper ∧ (stepper_down s).timer = s.timer ∧
      (stepper_down s).db = s.db ∧ (stepper_down s).freq_lock = s.freq_lock ∧
      (stepper_down s).status = s.status ∧
      (stepper_down s).continuous_lock = s.continuous_lock ∧
      (stepper_down s).has_looped = s.has_looped ∧
      (stepper_down s).entry_has_changed = s.entry_has_changed ∧
      (stepper_down s).is_recording = s.is_recording ∧ (stepper_down s).effects = s.effects := by
  unfold stepper_down
  split_ifs <;> simp

@[simp]
theorem finish_motion_frame (s : ReconView) :
    (finish_motion s).cfg = s.cfg ∧ (finish_motion s).last = s.last ∧
      (finish_motion s).frequency_list = s.frequency_list ∧
      (finish_motion s).current_index = s.current_index ∧ (finish_motion s).freq = s.freq ∧
      (finish_motion s).minfreq = s.minfreq ∧ (finish_motion s).maxfreq = s.maxfreq ∧
      (finish_motion s).step = s.step ∧ (finish_motion s).db = s.db ∧
      (finish_motion s).status = s.status ∧ (finish_motion s).has_looped = s.has_looped ∧
      (finish_motion s).entry_has_changed = s.entry_has_changed ∧
      (finish_motion s).is_recording = s.is_recording := by
  simp [finish_motion]

@[simp]
theorem locked_core_frame (s : ReconView) :
    (locked_core s).cfg = s.cfg ∧ (locked_core s).last = s.last ∧
      (locked_core s).frequency_list = s.frequency_list ∧
      (locked_core s).current_index = s.current_index ∧ (locked_core s).freq = s.freq ∧
      (locked_core s).minfreq = s.minfreq ∧ (locked_core s).maxfreq = s.maxfreq ∧
      (locked_core s).step = s.step ∧ (locked_core s).recon = s.recon ∧
      (locked_core s).stepper = s.stepper ∧
      (locked_core s).index_stepper = s.index_stepper ∧ (locked_core s).db = s.db ∧
      (locked_core s).freq_lock = s.freq_lock ∧ (locked_core s).has_looped = s.has_looped ∧
      (locked_core s).entry_has_changed = s.entry_has_changed ∧
      (locked_core s).is_recording = s.is_recording ∧ (locked_core s).effects = s.effects := by
  unfold locked_core
  split_ifs <;> simp

@[simp]
theorem reload_core_frame (s : ReconView) (e : freqman_entry) :
    (reload_core s e).cfg = s.cfg ∧ (reload_core s e).last = s.last ∧
      (reload_core s e).frequency_list = s.frequency_list ∧
      (reload_core s e).current_index = s.current_index ∧ (reload_core s e).step = s.step ∧
      (reload_core s e).recon = s.recon ∧ (reload_core s e).stepper = s.stepper ∧
      (reload_core s e).index_stepper = s.index_stepper ∧ (reload_core s e).db = s.db ∧
      (reload_core s e).freq_lock = s.freq_lock ∧ (reload_core s e).status = s.status ∧
      (reload_core s e).continuous_lock = s.continuous_lock ∧
      (reload_core s e).has_looped = s.has_looped ∧
      (reload_core s e).entry_has_changed = s.entry_has_changed ∧
      (reload_core s e).is_recording = s.is_recording ∧
      (reload_core s e).effects = s.effects := by
  unfold reload_core
  split_ifs <;> simp

@[simp]
theorem lock_core_frame (s : ReconView) (d : Int) :
    (lock_core s d).cfg = s.cfg ∧ (lock_core s d).last = s.last ∧
      (lock_core s d).frequency_list = s.frequency_list ∧
      (lock_core s d).current_index = s.current_index ∧ (lock_core s d).freq = s.freq ∧
      (lock_core s d).minfreq = s.minfreq ∧ (lock_core s d).maxfreq = s.maxfreq ∧
      (lock_core s d).step = s.step ∧ (lock_core s d).recon = s.recon ∧
      (lock_core s d).stepper = s.stepper ∧
      (lock_core s d).index_stepper = s.index_stepper ∧
      (lock_core s d).has_looped = s.has_looped ∧
      (lock_core s d).entry_has_changed = s.entry_has_changed := by
  unfold lock_core
  split_ifs <;> simp

@[simp]
theorem with_io_frame (s : ReconView) (r : Bool) (ef : List Effect) :
    (with_io s r ef).cfg = s.cfg ∧ (with_io s r ef).last = s.last ∧
      (with_io s r ef).frequency_list = s.frequency_list ∧
      (with_io s r ef).current_index = s.current_index ∧ (with_io s r ef).freq = s.freq ∧
      (with_io s r ef).minfreq = s.minfreq ∧ (with_io s r ef).maxfreq = s.maxfreq ∧
      (with_io s r ef).step = s.step ∧ (with_io s r ef).recon = s.recon ∧
      (with_io s r ef).stepper = s.stepper ∧
      (with_io s r ef).index_stepper = s.index_stepper ∧ (with_io s r ef).timer = s.timer ∧
      (with_io s r ef).db = s.db ∧ (with_io s r ef).freq_lock = s.freq_lock ∧
      (with_io s r ef).status = s.status ∧
      (with_io s r ef).continuous_lock = s.continuous_lock ∧
      (with_io s r ef).has_looped = s.has_looped ∧
      (with_io s r ef).entry_has_changed = s.entry_has_changed := by
  simp [with_io]

@[simp]
theorem pre_motion_frame (s : ReconView) (d : Int) (n : Nat) (r : Bool) (ef : List Effect) :
    (pre_motion s d n r ef).cfg = s.cfg ∧ (pre_motion s d n r ef).last = s.last ∧
      (pre_motion s d n r ef).frequency_list = s.frequency_list ∧
      (pre_motion s d n r ef).current_index = s.current_index ∧
      (pre_motion s d n r ef).freq = s.freq ∧ (pre_motion s d n r ef).minfreq = s.minfreq ∧
      (pre_motion s d n r ef).maxfreq = s.maxfreq ∧ (pre_motion s d n r ef).step = s.step ∧
      (pre_motion s d n r ef).recon = s.recon ∧
      (pre_motion s d n r ef).stepper = s.stepper ∧
      (pre_motion s d n r ef).index_stepper = s.index_stepper ∧
      (pre_motion s d n r ef).has_looped = s.has_looped ∧
      (pre_motion s d n r ef).entry_has_changed = s.entry_has_changed := by
  simp [pre_motion]

@[simp]
theorem motion_start_frame (s : ReconView) :
    (motion_start s).cfg = s.cfg ∧ (motion_start s).last = s.last ∧
      (motion_start s).frequency_list = s.frequency_list ∧
      (motion_start s).current_index = s.current_index ∧ (motion_start s).freq = s.freq ∧
      (motion_start s).minfreq = s.minfreq ∧ (motion_start s).maxfreq = s.maxfreq ∧
      (motion_start s).step = s.step ∧ (motion_start s).recon = s.recon ∧
      (motion_start s).stepper = s.stepper ∧
      (motion_start s).index_stepper = s.index_stepper ∧ (motion_start s).timer = s.timer ∧
      (motion_start s).db = s.db ∧ (motion_start s).freq_lock = s.freq_lock ∧
      (motion_start s).status = s.status ∧
      (motion_start s).continuous_lock = s.continuous_lock ∧
      (motion_start s).is_recording = s.is_recording ∧ (motion_start s).effects = s.effects := by
  simp [motion_start]

@[simp]
theorem retune_freq_frame (s : ReconView) :
    (retune_freq s).cfg = s.cfg ∧ (retune_freq s).frequency_list = s.frequency_list ∧
      (retune_freq s).current_index = s.current_index ∧ (retune_freq s).freq = s.freq ∧
      (retune_freq s).minfreq = s.minfreq ∧ (retune_freq s).maxfreq = s.maxfreq ∧
      (retune_freq s).step = s.step ∧ (retune_freq s).recon = s.recon ∧
      (retune_freq s).stepper = s.stepper ∧
      (retune_freq s).index_stepper = s.index_stepper ∧ (retune_freq s).timer = s.timer ∧
      (retune_freq s).db = s.db ∧ (retune_freq s).freq_lock = s.freq_lock ∧
      (retune_freq s).status = s.status ∧
      (retune_freq s).continuous_lock = s.continuous_lock ∧
      (retune_freq s).has_looped = s.has_looped ∧
      (retune_freq s).entry_has_changed = s.entry_has_changed ∧
      (retune_freq s).is_recording = s.is_recording := by
  unfold retune_freq
  split_ifs <;> simp

@[simp]
theorem retune_modulation_frame (s : ReconView) (e : freqman_entry) :
    (retune_modulation s e).cfg = s.cfg ∧
      (retune_modulation s e).frequency_list = s.frequency_list ∧
      (retune_modulation s e).current_index = s.current_index ∧
      (retune_modulation s e).freq = s.freq ∧ (retune_modulation s e).minfreq = s.minfreq ∧
      (retune_modulation s e).maxfreq = s.maxfreq ∧ (retune_modulation s e).step = s.step ∧
      (retune_modulation s e).recon = s.recon ∧
      (retune_modulation s e).stepper = s.stepper ∧
      (retune_modulation s e).index_stepper = s.index_stepper ∧
      (retune_modulation s e).timer = s.timer ∧ (retune_modulation s e).db = s.db ∧
      (retune_modulation s e).freq_lock = s.freq_lock ∧
      (retune_modulation s e).status = s.status ∧
      (retune_modulation s e).continuous_lock = s.continuous_lock ∧
      (retune_modulation s e).has_looped = s.has_looped ∧
      (retune_modulation s e).entry_has_changed = s.entry_has_changed ∧
      (retune_modulation s e).is_recording = s.is_recording := by
  unfold retune_modulation
  split_ifs <;> simp

@[simp]
theorem retune_bandwidth_frame (s : ReconView) (e : freqman_entry) :
    (retune_bandwidth s e).cfg = s.cfg ∧
      (retune_bandwidth s e).frequency_list = s.frequency_list ∧
      (retune_bandwidth s e).current_index = s.current_index ∧
      (retune_bandwidth s e).freq = s.freq ∧ (retune_bandwidth s e).minfreq = s.minfreq ∧
      (retune_bandwidth s e).maxfreq = s.maxfreq ∧ (retune_bandwidth s e).step = s.step ∧
      (retune_bandwidth s e).recon = s.recon ∧ (retune_bandwidth s e).stepper = s.stepper ∧
      (retune_bandwidth s e).index_stepper = s.index_stepper ∧
      (retune_bandwidth s e).timer = s.timer ∧ (retune_bandwidth s e).db = s.db ∧
      (retune_bandwidth s e).freq_lock = s.freq_lock ∧
      (retune_bandwidth s e).status = s.status ∧
      (retune_bandwidth s e).continuous_lock = s.continuous_lock ∧
      (retune_bandwidth s e).has_looped = s.has_looped ∧
      (retune_bandwidth s e).entry_has_changed = s.entry_has_changed ∧
      (retune_bandwidth s e).is_recording = s.is_recording := by
  unfold retune_bandwidth
  split_ifs <;> simp

@[simp]
theorem retune_step_frame (s : ReconView) (sv : Int → Int) (e : freqman_entry) :
    (retune_step sv s e).cfg = s.cfg ∧
      (retune_step sv s e).frequency_list = s.frequency_list ∧
      (retune_step sv s e).current_index = s.current_index ∧
      (retune_step sv s e).freq = s.freq ∧ (retune_step sv s e).minfreq = s.minfreq ∧
      (retune_step sv s e).maxfreq = s.maxfreq ∧ (retune_step sv s e).recon = s.recon ∧
      (retune_step sv s e).stepper = s.stepper ∧
      (retune_step sv s e).index_stepper = s.index_stepper ∧
      (retune_step sv s e).timer = s.timer ∧ (retune_step sv s e).db = s.db ∧
      (retune_step sv s e).freq_lock = s.freq_lock ∧
      (retune_step sv s e).status = s.status ∧
      (retune_step sv s e).continuous_lock = s.continuous_lock ∧
      (retune_step sv s e).has_looped = s.has_looped ∧
      (retune_step sv s e).entry_has_changed = s.entry_has_changed ∧
      (retune_step sv s e).is_recording = s.is_recording ∧
      (retune_step sv s e).effects = s.effects := by
  unfold retune_step
  split_ifs <;> simp

@[simp]
theorem follow_range_frame (s : ReconView) (e : freqman_entry) :
    (follow_range s e).cfg = s.cfg ∧ (follow_range s e).frequency_list = s.frequency_list ∧
      (follow_range s e).current_index = s.current_index ∧
      (follow_range s e).freq = s.freq ∧ (follow_range s e).minfreq = s.minfreq ∧
      (follow_range s e).maxfreq = s.maxfreq ∧ (follow_range s e).step = s.step ∧
      (follow_range s e).recon = s.recon ∧ (follow_range s e).stepper = s.stepper ∧
      (follow_range s e).index_stepper = s.index_stepper ∧
      (follow_range s e).timer = s.timer ∧ (follow_range s e).db = s.db ∧
      (follow_range s e).freq_lock = s.freq_lock ∧ (follow_range s e).status = s.status ∧
      (follow_range s e).continuous_lock = s.continuous_lock ∧
      (follow_range s e).has_looped = s.has_looped ∧
      (follow_range s e).entry_has_changed = s.entry_has_changed ∧
      (follow_range s e).is_recording = s.is_recording ∧
      (follow_range s e).effects = s.effects := by
  unfold follow_range
  split_ifs <;> simp

@[simp]
theorem retune_index_frame (s : ReconView) (e : freqman_entry) :
    (retune_index s e).cfg = s.cfg ∧ (retune_index s e).frequency_list = s.frequency_list ∧
      (retune_index s e).current_index = s.current_index ∧
      (retune_index s e).freq = s.freq ∧ (retune_index s e).minfreq = s.minfreq ∧
      (retune_index s e).maxfreq = s.maxfreq ∧ (retune_index s e).step = s.step ∧
      (retune_index s e).recon = s.recon ∧ (retune_index s e).stepper = s.stepper ∧
      (retune_index s e).index_stepper = s.index_stepper ∧
      (retune_index s e).timer = s.timer ∧ (retune_index s e).db = s.db ∧
      (retune_index s e).freq_lock = s.freq_lock ∧ (retune_index s e).status = s.status ∧
      (retune_index s e).continuous_lock = s.continuous_lock ∧
      (retune_index s e).has_looped = s.has_looped ∧
      (retune_index s e).entry_has_changed = s.entry_has_changed ∧
      (retune_index s e).is_recording = s.is_recording ∧
      (retune_index s e).effects = s.effects := by
  unfold retune_index
  split_ifs <;> simp

@[simp]
theorem retune_entry_frame (s : ReconView) (sv : Int → Int) (e : freqman_entry) :
    (retune_entry sv s e).cfg = s.cfg ∧
      (retune_entry sv s e).frequency_list = s.frequency_list ∧
      (retune_entry sv s e).current_index = s.current_index ∧
      (retune_entry sv s e).freq = s.freq ∧ (retune_entry sv s e).minfreq = s.minfreq ∧
      (retune_entry sv s e).maxfreq = s.maxfreq ∧ (retune_entry sv s e).recon = s.recon ∧
      (retune_entry sv s e).stepper = s.stepper ∧
      (retune_entry sv s e).index_stepper = s.index_stepper ∧
      (retune_entry sv s e).timer = s.timer ∧ (retune_entry sv s e).db = s.db ∧
      (retune_entry sv s e).freq_lock = s.freq_lock ∧
      (retune_entry sv s e).status = s.status ∧
      (retune_entry sv s e).continuous_lock = s.continuous_lock ∧
      (retune_entry sv s e).has_looped = s.has_looped ∧
      (retune_entry sv s e).entry_has_changed = s.entry_has_changed ∧
      (retune_entry sv s e).is_recording = s.is_recording := by
  simp [retune_entry]

/-! ## Reading the list -/

theorem entry_at_ok (l : List freqman_entry) (i : Int) (h0 : 0 ≤ i) (h1 : i < (l.length : Int)) :
    ∃ e, entry_at l i = some e := by
  have h : i.toNat < l.length := by omega
  exact ⟨l.get ⟨i.toNat, h⟩, by simp [entry_at, h0, List.get?_eq_get h]⟩

theorem entry_at_bounds {l : List freqman_entry} {i : Int} {e : freqman_entry}
    (h : entry_at l i = some e) : 0 ≤ i ∧ i < (l.length : Int) := by
  unfold entry_at at h
  split_ifs at h with h0
  refine ⟨h0, ?_⟩
  have := List.get?_eq_some.1 h
  obtain ⟨hlt, -⟩ := this
  omega

theorem entry_at_mem {l : List freqman_entry} {i : Int} {e : freqman_entry}
    (h : entry_at l i = some e) : e ∈ l := by
  unfold entry_at at h
  split_ifs at h
  exact List.get?_mem h

theorem cursor_ok_congr {s t : ReconView} (hl : t.frequency_list = s.frequency_list)
    (hc : t.current_index = s.current_index) (h : cursor_ok s) : cursor_ok t := by
  unfold cursor_ok at *
  rw [hl, hc]; exact h

/-! ## The lock evaluation in closed form -/

theorem recon_save_freq_eq (s : ReconView) (h : cursor_ok s) :
    ∃ ef, recon_save_freq s s.current_index = some { s with effects := ef } := by
  unfold recon_save_freq
  split_ifs with hg
  · exact ⟨s.effects, rfl⟩
  · rcases h with ⟨_, h | ⟨h0, h1⟩⟩
    · simp [h] at hg
    · obtain ⟨e, he⟩ := entry_at_ok _ _ h0 h1
      exact ⟨_, by rw [he]; rfl⟩

theorem autosave_current_eq (s : ReconView) (h : cursor_ok s) :
    ∃ ef, autosave_current s = some { s with effects := ef } := by
  unfold autosave_current
  split_ifs
  · exact recon_save_freq_eq s h
  · exact ⟨s.effects, rfl⟩

theorem lock_effects_eq (s : ReconView) (h : cursor_ok s) :
    ∃ r ef, lock_effects s = some { s with is_recording := r, effects := ef } := by
  unfold lock_effects
  split_ifs
  · have h2 : cursor_ok (record_on_lock (audio_output_start s)) :=
      cursor_ok_congr (by simp) (by simp) h
    obtain ⟨ef, hef⟩ := autosave_current_eq _ h2
    refine ⟨(record_on_lock (audio_output_start s)).is_recording, ef, ?_⟩
    rw [hef]
    congr 1
    simp
  · exact ⟨s.is_recording, s.effects, rfl⟩

theorem lock_transition_eq (s : ReconView) (h : cursor_ok s) :
    ∃ r ef, lock_transition s
      = some { set_wait_timer (mark_locked s) with is_recording := r, effects := ef } := by
  unfold lock_transition
  have h1 : cursor_ok (mark_locked s) := cursor_ok_congr (by simp) (by simp) h
  obtain ⟨ef1, he1⟩ := autosave_current_eq _ h1
  rw [he1]
  have h2 : cursor_ok { mark_locked s with effects := ef1 } := cursor_ok_congr rfl rfl h1
  obtain ⟨r, ef2, he2⟩ := lock_effects_eq _ h2
  refine ⟨r, ef2, ?_⟩
  simp only [Option.some_bind, he2, Option.map_some']
  congr 1
  unfold set_wait_timer
  split_ifs <;> rfl

theorem locked_eq (s : ReconView) (h : cursor_ok s) :
    ∃ r ef, locked s = some { locked_core s with is_recording := r, effects := ef } := by
  unfold locked locked_core
  split_ifs with h1 h2
  · obtain ⟨r, ef, he⟩ := lock_transition_eq s h
    refine ⟨r, ef, ?_⟩
    rw [he, Option.map_some']
    congr 1
    unfold stay_refresh
    split_ifs <;> rfl
  · exact ⟨s.is_recording, s.effects, by simp [stay_refresh]; split_ifs <;> rfl⟩
  · exact ⟨s.is_recording, s.effects, rfl⟩

theorem lock_stage_eq (s : ReconView) (d : Int) (h : cursor_ok s) (hr : s.recon = true) :
    ∃ r ef, lock_stage s d
      = some { locked_core (locking (rearm (store_sample s d))) with
                 is_recording := r, effects := ef } := by
  unfold lock_stage
  rw [if_pos hr]
  exact locked_eq _ (cursor_ok_congr (by simp) (by simp) h)

theorem lock_stage_paused (s : ReconView) (d : Int) (hr : s.recon = false) :
    lock_stage s d = some (store_sample s d) := by
  unfold lock_stage
  simp [hr]

theorem lock_stage_io (s : ReconView) (d : Int) (h : cursor_ok s) :
    ∃ r ef, lock_stage s d = some (with_io (lock_core s d) r ef) := by
  unfold lock_core with_io
  cases hr : s.recon
  · exact ⟨s.is_recording, s.effects, by rw [lock_stage_paused s d hr]; rfl⟩
  · simpa using lock_stage_eq s d h hr

/-! ## What the lock blocks write -/

/-- The conversion to `int32_t` is exact on the values of that type. -/
theorem toI32_of_lt {x : Int} (h0 : -2147483648 ≤ x) (h1 : x < 2147483648) : toI32 x = x := by
  unfold toI32
  omega

/-- The conversion to `int32_t` of an unsigned value below `2 ^ 31`. -/
theorem toI32_natCast {k : Nat} (h : k < 2147483648) : toI32 (k : Int) = (k : Int) := by
  unfold toI32
  omega

@[simp]
theorem store_sample_db (s : ReconView) (d : Int) : (store_sample s d).db = d := rfl

@[simp]
theorem rearm_fields (s : ReconView) :
    (rearm s).timer
      = (if s.timer = 0 then toI32 (s.cfg.recon_lock_duration : Int) else s.timer) ∧
    (rearm s).freq_lock = (if s.timer = 0 then 0 else s.freq_lock) ∧
    (rearm s).status = (if s.timer = 0 then 0 else s.status) ∧
    (rearm s).continuous_lock = (if s.timer = 0 then false else s.continuous_lock) := by
  unfold rearm
  split_ifs <;> simp

@[simp]
theorem locking_enter_status (s : ReconView) : (locking_enter s).status = 1 := by
  unfold locking_enter
  split_ifs with h
  · simp
  · simpa using h

@[simp]
theorem locking_sample_fields (s : ReconView) :
    (locking_sample s).freq_lock = (if s.db > s.cfg.squelch then s.freq_lock + 1 else s.freq_lock) ∧
    (locking_sample s).timer =
      (if s.db > s.cfg.squelch then s.timer
       else if s.cfg.recon_match_mode = RECON_MATCH_CONTINUOUS ∧ s.freq_lock > 0 then 0
       else s.timer) := by
  unfold locking_sample
  split_ifs <;> simp_all

theorem locking_sample_streak (s : ReconView) :
    (s.db > s.cfg.squelch → (locking_sample s).continuous_lock = true) ∧
    (¬ s.db > s.cfg.squelch → s.cfg.recon_match_mode = RECON_MATCH_CONTINUOUS → s.freq_lock > 0 →
      (locking_sample s).continuous_lock = false) ∧
    (¬ s.db > s.cfg.squelch →
      ¬ (s.cfg.recon_match_mode = RECON_MATCH_CONTINUOUS ∧ s.freq_lock > 0) →
      (locking_sample s).continuous_lock = s.continuous_lock) := by
  unfold locking_sample
  refine ⟨?_, ?_, ?_⟩ <;> intros <;> split_ifs <;> simp_all

@[simp]
theorem locking_fields (s : ReconView) :
    (locking s).freq_lock =
      (if s.freq_lock < s.cfg.recon_lock_nb_match ∧ s.db > s.cfg.squelch then s.freq_lock + 1
       else s.freq_lock) ∧
    (locking s).timer =
      (if s.freq_lock < s.cfg.recon_lock_nb_match ∧ ¬ s.db > s.cfg.squelch
          ∧ s.cfg.recon_match_mode = RECON_MATCH_CONTINUOUS ∧ s.freq_lock > 0 then 0
       else s.timer) ∧
    (locking s).status = (if s.freq_lock < s.cfg.recon_lock_nb_match then 1 else s.status) := by
  unfold locking
  split_ifs <;> simp_all

theorem locking_streak (s : ReconView) :
    (s.freq_lock < s.cfg.recon_lock_nb_match → s.db > s.cfg.squelch →
      (locking s).continuous_lock = true) ∧
    (s.freq_lock < s.cfg.recon_lock_nb_match → ¬ s.db > s.cfg.squelch →
      s.cfg.recon_match_mode = RECON_MATCH_CONTINUOUS → s.freq_lock > 0 →
      (locking s).continuous_lock = false) ∧
    (s.freq_lock < s.cfg.recon_lock_nb_match → ¬ s.db > s.cfg.squelch →
      ¬ (s.cfg.recon_match_mode = RECON_MATCH_CONTINUOUS ∧ s.freq_lock > 0) →
      (locking s).continuous_lock = s.continuous_lock) ∧
    (¬ s.freq_lock < s.cfg.recon_lock_nb_match →
      (locking s).continuous_lock = s.continuous_lock) := by
  have h := locking_sample_streak (locking_enter s)
  simp only [locking_enter_frame] at h
  unfold locking
  refine ⟨?_, ?_, ?_, ?_⟩
  · intro h1 h2; rw [if_pos h1]; exact h.1 h2
  · intro h1 h2 h3 h4; rw [if_pos h1]; exact h.2.1 h2 h3 h4
  · intro h1 h2 h3; rw [if_pos h1, h.2.2 h2 h3]
  · intro h1; rw [if_neg h1]

@[simp]
theorem locked_core_fields (s : ReconView) :
    (locked_core s).status = (if s.freq_lock ≥ s.cfg.recon_lock_nb_match then 2 else s.status) ∧
    (locked_core s).timer =
      (if s.freq_lock ≥ s.cfg.recon_lock_nb_match then
         (if s.cfg.wait < 0 then (if s.db > s.cfg.squelch then |s.cfg.wait| else s.timer)
          else if s.status ≠ 2 then s.cfg.wait else s.timer)
       else s.timer) := by
  unfold locked_core stay_refresh set_wait_timer mark_locked
  split_ifs <;> simp_all
  omega

theorem locked_core_streak (s : ReconView) :
    (s.freq_lock ≥ s.cfg.recon_lock_nb_match → s.status ≠ 2 →
      (locked_core s).continuous_lock = false) ∧
    (¬ (s.freq_lock ≥ s.cfg.recon_lock_nb_match ∧ s.status ≠ 2) →
      (locked_core s).continuous_lock = s.continuous_lock) := by
  unfold locked_core stay_refresh set_wait_timer mark_locked
  refine ⟨?_, ?_⟩ <;> intros <;> split_ifs <;> simp_all

@[simp]
theorem timer_stage_timer (s : ReconView) (n : Nat) :
    (timer_stage s n).timer =
      (if s.timer = 0 then 0
       else if s.continuous_lock = false ∨ s.cfg.recon_match_mode = RECON_MATCH_SPARSE then
         (if toI32 (s.timer - (n : Int)) < 0 then 0 else toI32 (s.timer - (n : Int)))
       else if s.timer < 0 then 0 else s.timer) := by
  unfold timer_stage timer_floor timer_decrement
  split_ifs <;> simp_all

/-! ## The lock evaluation, case by case -/

/-- A miss in Continuous mode during a lock attempt with at least one match. -/
theorem lock_core_abort (s : ReconView) (d : Int) (hr : s.recon = true)
    (hm : s.cfg.recon_match_mode = RECON_MATCH_CONTINUOUS) (ht : s.timer ≠ 0)
    (hfl : 0 < s.freq_lock) (hN : s.freq_lock < s.cfg.recon_lock_nb_match)
    (hd : d ≤ s.cfg.squelch) :
    (lock_core s d).timer = 0 ∧ (lock_core s d).freq_lock = s.freq_lock ∧
    (lock_core s d).continuous_lock = false ∧ (lock_core s d).status = 1 := by
  have hnd : ¬ s.cfg.squelch < d := not_lt.mpr hd
  have hcl : (locking (rearm (store_sample s d))).continuous_lock = false := by
    apply (locking_streak _).2.1 <;> simp [ht, hN, hnd, hm, hfl]
  have hlc := (locked_core_streak (locking (rearm (store_sample s d)))).2
    (by simp [ht, hN, hnd, hm, hfl])
  unfold lock_core
  rw [if_pos hr]
  refine ⟨?_, ?_, ?_, ?_⟩
  · simp [ht, hN, hnd, hm, hfl]
  · simp [ht, hN, hnd, hm, hfl]
  · rw [hlc, hcl]
  · simp [ht, hN, hnd, hm, hfl]

/-- A matching sample that does not complete the required count. -/
theorem lock_core_hit (u : ReconView) (d : Int) (i : Nat) (hr : u.recon = true)
    (harm : (u.timer = 0 ∧ i = 0) ∨ (u.timer ≠ 0 ∧ u.freq_lock = i))
    (hd : d > u.cfg.squelch) (hN : i + 1 < u.cfg.recon_lock_nb_match) :
    (lock_core u d).timer
      = (if u.timer = 0 then toI32 (u.cfg.recon_lock_duration : Int) else u.timer) ∧
    (lock_core u d).freq_lock = i + 1 ∧
    (lock_core u d).continuous_lock = true ∧ (lock_core u d).status = 1 := by
  have hd' : u.cfg.squelch < d := hd
  have hfl : (rearm (store_sample u d)).freq_lock = i := by
    rcases harm with ⟨h1, h2⟩ | ⟨h1, h2⟩
    · simp [h1, h2]
    · simp [h1, h2]
  have hcl : (locking (rearm (store_sample u d))).continuous_lock = true := by
    apply (locking_streak _).1
    · rw [hfl]; simp; omega
    · simpa using hd'
  have hlf : (locking (rearm (store_sample u d))).freq_lock = i + 1 := by
    rw [(locking_fields _).1, hfl]
    simp only [rearm_frame, store_sample_frame, store_sample_db]
    rw [if_pos ⟨by omega, hd⟩]
  have hlc := (locked_core_streak (locking (rearm (store_sample u d)))).2
    (by rw [hlf]; simp only [locking_frame, rearm_frame, store_sample_frame]; omega)
  unfold lock_core
  rw [if_pos hr]
  refine ⟨?_, ?_, by rw [hlc, hcl], ?_⟩
  · rw [(locked_core_fields _).2, hlf]
    simp only [locking_frame, rearm_frame, store_sample_frame]
    rw [if_neg (by omega), (locking_fields _).2.1, hfl]
    simp only [rearm_frame, store_sample_frame, store_sample_db]
    rw [if_neg (by intro h; exact h.2.1 hd)]
    simp
  · simp only [locked_core_frame]
    exact hlf
  · rw [(locked_core_fields _).1, hlf]
    simp only [locking_frame, rearm_frame, store_sample_frame]
    rw [if_neg (by omega), (locking_fields _).2.2, hfl]
    simp only [rearm_frame, store_sample_frame]
    rw [if_pos (by omega)]

/-- The matching sample that completes the required count: the lock
transition. -/
theorem lock_core_lock (u : ReconView) (d : Int) (i : Nat) (hr : u.recon = true)
    (harm : (u.timer = 0 ∧ i = 0) ∨ (u.timer ≠ 0 ∧ u.freq_lock = i))
    (hd : d > u.cfg.squelch) (hN : i + 1 = u.cfg.recon_lock_nb_match) :
    (lock_core u d).freq_lock = u.cfg.recon_lock_nb_match ∧ (lock_core u d).status = 2 := by
  have hfl : (rearm (store_sample u d)).freq_lock = i := by
    rcases harm with ⟨h1, h2⟩ | ⟨h1, h2⟩
    · simp [h1, h2]
    · simp [h1, h2]
  have hlf : (locking (rearm (store_sample u d))).freq_lock = i + 1 := by
    rw [(locking_fields _).1, hfl]
    simp only [rearm_frame, store_sample_frame, store_sample_db]
    rw [if_pos ⟨by omega, hd⟩]
  unfold lock_core
  rw [if_pos hr]
  refine ⟨?_, ?_⟩
  · simp only [locked_core_frame]
    rw [hlf, hN]
  · rw [(locked_core_fields _).1, hlf]
    simp only [locking_frame, rearm_frame, store_sample_frame]
    rw [if_pos (by omega)]

/-- A sample that does not exceed the squelch, in Sparse mode, during a lock
attempt: the count and the dwell timer are left as they are. -/
theorem lock_core_miss_sparse (u : ReconView) (d : Int) (c : Nat) (hr : u.recon = true)
    (hm : u.cfg.recon_match_mode = RECON_MATCH_SPARSE)
    (harm : (u.timer = 0 ∧ c = 0) ∨ (u.timer ≠ 0 ∧ u.freq_lock = c))
    (hd : d ≤ u.cfg.squelch) (hN : c < u.cfg.recon_lock_nb_match) :
    (lock_core u d).timer
      = (if u.timer = 0 then toI32 (u.cfg.recon_lock_duration : Int) else u.timer) ∧
    (lock_core u d).freq_lock = c ∧ (lock_core u d).status = 1 := by
  have hnd : ¬ d > u.cfg.squelch := not_lt.mpr hd
  have hfl : (rearm (store_sample u d)).freq_lock = c := by
    rcases harm with ⟨h1, h2⟩ | ⟨h1, h2⟩
    · simp [h1, h2]
    · simp [h1, h2]
  have hlf : (locking (rearm (store_sample u d))).freq_lock = c := by
    rw [(locking_fields _).1, hfl]
    simp only [rearm_frame, store_sample_frame, store_sample_db]
    rw [if_neg (by intro h; exact hnd h.2)]
  unfold lock_core
  rw [if_pos hr]
  refine ⟨?_, ?_, ?_⟩
  · rw [(locked_core_fields _).2, hlf]
    simp only [locking_frame, rearm_frame, store_sample_frame]
    rw [if_neg (by omega), (locking_fields _).2.1, hfl]
    simp only [rearm_frame, store_sample_frame, store_sample_db, hm]
    rw [if_neg (by simp [RECON_MATCH_CONTINUOUS, RECON_MATCH_SPARSE])]
    simp
  · simp only [locked_core_frame]
    exact hlf
  · rw [(locked_core_fields _).1, hlf]
    simp only [locking_frame, rearm_frame, store_sample_frame]
    rw [if_neg (by omega), (locking_fields _).2.2, hfl]
    simp only [rearm_frame, store_sample_frame]
    rw [if_pos hN]

/-! ## What the cursor blocks write -/

@[simp]
theorem cursor_inc_fields (s : ReconView) :
    (cursor_inc s).current_index = s.current_index + 1 ∧
    (cursor_inc s).entry_has_changed = true := by
  simp [cursor_inc]

@[simp]
theorem cursor_dec_fields (s : ReconView) :
    (cursor_dec s).current_index = s.current_index - 1 ∧
    (cursor_dec s).entry_has_changed = true := by
  simp [cursor_dec]

theorem cursor_next_index (s : ReconView) (h0 : 0 ≤ s.current_index)
    (h1 : s.current_index < (s.frequency_list.length : Int))
    (hl : (s.frequency_list.length : Int) < 2147483648) :
    (cursor_next s).current_index =
      (if s.current_index + 1 = (s.frequency_list.length : Int) then 0 else s.current_index + 1) ∧
    ((cursor_next s).has_looped = true ↔
      (s.current_index + 1 = (s.frequency_list.length : Int) ∨ s.has_looped = true)) ∧
    (cursor_next s).entry_has_changed = true := by
  unfold cursor_next wrap_high toU32
  simp only [cursor_inc_fields, cursor_inc_frame]
  split_ifs <;> simp <;> omega

theorem cursor_prev_index (s : ReconView) (h0 : 0 ≤ s.current_index)
    (h1 : s.current_index < (s.frequency_list.length : Int)) :
    (cursor_prev s).current_index =
      (if s.current_index = 0 then (s.frequency_list.length : Int) - 1 else s.current_index - 1) ∧
    ((cursor_prev s).has_looped = true ↔ (s.current_index = 0 ∨ s.has_looped = true)) ∧
    (cursor_prev s).entry_has_changed = true := by
  unfold cursor_prev wrap_low
  simp only [cursor_dec_fields, cursor_dec_frame]
  split_ifs <;> simp <;> omega

theorem moving_cases (s : ReconView) :
    (moving_forward s = true ∧ moving_reverse s = false) ∨
    (moving_forward s = false ∧ moving_reverse s = true) := by
  unfold moving_forward moving_reverse
  rcases lt_trichotomy s.stepper 0 with h | h | h <;> cases hf : s.cfg.fwd <;> simp [h] <;> omega

theorem moving_forward_congr {s a : ReconView} (hcfg : a.cfg = s.cfg) (hst : a.stepper = s.stepper) :
    moving_forward a = moving_forward s ∧ moving_reverse a = moving_reverse s := by
  simp [moving_forward, moving_reverse, hcfg, hst]

@[simp]
theorem motion_start_fields (s : ReconView) :
    (motion_start s).has_looped = false ∧ (motion_start s).entry_has_changed = false := by
  simp [motion_start]

@[simp]
theorem finish_motion_fields (s : ReconView) :
    (finish_motion s).index_stepper = 0 ∧
    (finish_motion s).stepper =
      (if s.stepper < 0 then s.stepper + 1 else if s.stepper > 0 then s.stepper - 1
       else s.stepper) ∧
    (finish_motion s).timer =
      (if s.has_looped = true ∧ s.cfg.continuous = false then 0 else s.timer) ∧
    (finish_motion s).freq_lock =
      (if s.has_looped = true ∧ s.cfg.continuous = false then 0 else s.freq_lock) := by
  unfold finish_motion stepper_down stepper_up pause_at_end recon_pause clear_lock
  split_ifs <;> simp_all <;> omega

theorem finish_motion_pause (s : ReconView) :
    (s.has_looped = true ∧ s.cfg.continuous = false →
      (finish_motion s).recon = false ∧ (finish_motion s).continuous_lock = false) ∧
    (¬ (s.has_looped = true ∧ s.cfg.continuous = false) →
      (finish_motion s).recon = s.recon ∧
      (finish_motion s).continuous_lock = s.continuous_lock) := by
  unfold finish_motion stepper_down stepper_up pause_at_end recon_pause clear_lock
  constructor <;> intro h <;> split_ifs <;> simp_all

@[simp]
theorem reload_core_timer (s : ReconView) (e : freqman_entry) :
    (reload_core s e).timer = (if s.entry_has_changed = true then 0 else s.timer) := by
  unfold reload_core
  split_ifs
  · unfold reload_from
    split <;> simp
  · rfl

@[simp]
theorem index_jump_fields (s : ReconView) :
    (index_jump s).entry_has_changed = true ∧
    (index_jump s).current_index
      = (jump_wrap_high (jump_wrap_low (jump_add s))).current_index := by
  unfold index_jump jump_audio
  split_ifs <;> simp

/-- The cursor after an index jump, lines 1224-1228, as the code computes
it. -/
theorem index_jump_index (s : ReconView) :
    (index_jump s).current_index =
      (if toU32 (if s.current_index + s.index_stepper < 0
                 then s.current_index + s.index_stepper + (s.frequency_list.length : Int)
                 else s.current_index + s.index_stepper) ≥ (s.frequency_list.length : Int)
       then (if s.current_index + s.index_stepper < 0
             then s.current_index + s.index_stepper + (s.frequency_list.length : Int)
             else s.current_index + s.index_stepper) - (s.frequency_list.length : Int)
       else (if s.current_index + s.index_stepper < 0
             then s.current_index + s.index_stepper + (s.frequency_list.length : Int)
             else s.current_index + s.index_stepper)) := by
  rw [(index_jump_fields s).2]
  unfold jump_wrap_high jump_wrap_low jump_add
  split_ifs <;> simp_all

/-- An index jump that the single wrap of lines 1225-1228 brings back into the
list: the new cursor is `(cursor + jump) mod len`. -/
theorem index_jump_in_range (s : ReconView)
    (hlen : (s.frequency_list.length : Int) < 2147483648)
    (hlo : -(s.frequency_list.length : Int) ≤ s.current_index + s.index_stepper)
    (hhi : s.current_index + s.index_stepper < 2 * (s.frequency_list.length : Int)) :
    (index_jump s).current_index
      = (s.current_index + s.index_stepper) % (s.frequency_list.length : Int) ∧
    0 ≤ (index_jump s).current_index ∧
    (index_jump s).current_index < (s.frequency_list.length : Int) := by
  have hpos : (0 : Int) < (s.frequency_list.length : Int) := by omega
  have key : ∀ x : Int, 0 ≤ x → x < (s.frequency_list.length : Int) →
      ∀ y : Int, (y = x ∨ y = x + (s.frequency_list.length : Int)
        ∨ y = x - (s.frequency_list.length : Int)) →
      y % (s.frequency_list.length : Int) = x := by
    intro x hx0 hx1 y hy
    rcases hy with rfl | rfl | rfl
    · exact Int.emod_eq_of_lt hx0 hx1
    · rw [Int.add_emod_self]; exact Int.emod_eq_of_lt hx0 hx1
    · rw [Int.sub_emod, Int.emod_self, sub_zero, Int.emod_emod_of_dvd _ (dvd_refl _)]
      exact Int.emod_eq_of_lt hx0 hx1
  rw [index_jump_index]
  unfold toU32
  split_ifs with h1 h2 h2
  · omega
  · refine ⟨(key _ (by omega) (by omega) _ (Or.inr (Or.inr (by omega)))).symm, by omega, by omega⟩
  · refine ⟨(key _ (by omega) (by omega) _ (Or.inr (Or.inl (by omega)))).symm, by omega, by omega⟩
  · refine ⟨(key _ (by omega) (by omega) _ (Or.inl rfl)).symm, by omega, by omega⟩

theorem on_index_delta_fields (s : ReconView) (v : Int) (hne : s.frequency_list ≠ []) :
    (on_index_delta s v).index_stepper = v ∧ (on_index_delta s v).timer = 0 ∧
    (on_index_delta s v).freq_lock = 0 ∧
    (on_index_delta s v).cfg.squelch = s.cfg.squelch ∧
    (on_index_delta s v).cfg.recon_lock_nb_match = s.cfg.recon_lock_nb_match ∧
    (on_index_delta s v).cfg.recon_match_mode = s.cfg.recon_match_mode ∧
    (on_index_delta s v).cfg.continuous = s.cfg.continuous := by
  have hl : 0 < s.frequency_list.length := List.length_pos.2 hne
  unfold on_index_delta reset_lock set_index_stepper set_direction
  split_ifs <;> simp_all

/-! ## The directional advance, entry kind by entry kind -/

theorem cursor_next_advanced (s u : ReconView) (hcfg : u.cfg = s.cfg)
    (hl : u.frequency_list = s.frequency_list) (hst : u.stepper = s.stepper)
    (hc : u.current_index = s.current_index) (hlp : u.has_looped = false)
    (h0 : 0 ≤ s.current_index)
    (h1 : s.current_index < (s.frequency_list.length : Int))
    (hlen : (s.frequency_list.length : Int) < 2147483648)
    (hf : moving_forward s = true) : Advanced s (cursor_next u) := by
  obtain ⟨a1, a2, a3⟩ := cursor_next_index u (by omega) (by rw [hc, hl]; exact h1) (by rw [hl]; exact hlen)
  have hr : moving_reverse s = false := by
    rcases moving_cases s with h | h
    · exact h.2
    · rw [h.1] at hf; cases hf
  constructor
  · simp [hcfg]
  · simp [hl]
  · simp [hst]
  · rw [a1]; split_ifs <;> omega
  · rw [a1, hl, hc]; split_ifs <;> omega
  · intro h _; rw [a1]; rw [a2] at h; simp [hlp] at h; rw [if_pos h]
  · intro _ h; rw [hr] at h; cases h
  · intro _; exact a3

theorem cursor_prev_advanced (s u : ReconView) (hcfg : u.cfg = s.cfg)
    (hl : u.frequency_list = s.frequency_list) (hst : u.stepper = s.stepper)
    (hc : u.current_index = s.current_index) (hlp : u.has_looped = false)
    (h0 : 0 ≤ s.current_index)
    (h1 : s.current_index < (s.frequency_list.length : Int))
    (hf : moving_reverse s = true) : Advanced s (cursor_prev u) := by
  obtain ⟨a1, a2, a3⟩ := cursor_prev_index u (by omega) (by rw [hc, hl]; exact h1)
  have hr : moving_forward s = false := by
    rcases moving_cases s with h | h
    · rw [h.2] at hf; cases hf
    · exact h.1
  constructor
  · simp [hcfg]
  · simp [hl]
  · simp [hst]
  · rw [a1, hl, hc]; split_ifs <;> omega
  · rw [a1, hl, hc]; split_ifs <;> omega
  · intro _ h; rw [hr] at h; cases h
  · intro h _; rw [a1, hl]; rw [a2] at h; simp [hlp] at h; rw [if_pos h]
  · intro _; exact a3

theorem same_advanced (s u : ReconView) (hcfg : u.cfg = s.cfg)
    (hl : u.frequency_list = s.frequency_list) (hst : u.stepper = s.stepper)
    (hc : u.current_index = s.current_index) (hlp : u.has_looped = false)
    (h0 : 0 ≤ s.current_index)
    (h1 : s.current_index < (s.frequency_list.length : Int)) : Advanced s u := by
  constructor
  · exact hcfg
  · exact hl
  · exact hst
  · omega
  · omega
  · intro h; rw [hlp] at h; cases h
  · intro h; rw [hlp] at h; cases h
  · intro h; rw [hlp] at h; cases h

theorem advance_kind_advanced (k : freqman_entry_type) (s : ReconView)
    (hlp : s.has_looped = false) (h0 : 0 ≤ s.current_index)
    (h1 : s.current_index < (s.frequency_list.length : Int))
    (hlen : (s.frequency_list.length : Int) < 2147483648) :
    Advanced s (advance_kind k s) := by
  rcases moving_cases s with ⟨hf, hr⟩ | ⟨hf, hr⟩
  · cases k
    · simp only [advance_kind, advance_single, hf, if_true]
      exact cursor_next_advanced s s rfl rfl rfl rfl hlp h0 h1 hlen hf
    · simp only [advance_kind, advance_range, hf, if_true, range_forward, range_check_high]
      split_ifs
      · exact cursor_next_advanced s _ (by simp) (by simp) (by simp) (by simp) (by simp [hlp])
          h0 h1 hlen hf
      · exact same_advanced s _ (by simp) (by simp) (by simp) (by simp) (by simp [hlp]) h0 h1
    · simp only [advance_kind, advance_hamradio, hf, if_true, hamradio_forward]
      split_ifs
      · exact same_advanced s _ rfl rfl rfl rfl hlp h0 h1
      · exact cursor_next_advanced s s rfl rfl rfl rfl hlp h0 h1 hlen hf
  · cases k
    · simp only [advance_kind, advance_single, hf, hr, if_true, Bool.false_eq_true, if_false]
      exact cursor_prev_advanced s s rfl rfl rfl rfl hlp h0 h1 hr
    · simp only [advance_kind, advance_range, hf, hr, if_true, Bool.false_eq_true, if_false,
        range_reverse, range_check_low]
      split_ifs
      · exact cursor_prev_advanced s _ (by simp) (by simp) (by simp) (by simp) (by simp [hlp])
          h0 h1 hr
      · exact same_advanced s _ (by simp) (by simp) (by simp) (by simp) (by simp [hlp]) h0 h1
    · simp only [advance_kind, advance_hamradio, hf, hr, if_true, Bool.false_eq_true, if_false,
        hamradio_reverse]
      split_ifs
      · exact same_advanced s _ rfl rfl rfl rfl hlp h0 h1
      · exact cursor_prev_advanced s s rfl rfl rfl rfl hlp h0 h1 hr

/-- The boundary rule of lines 1213-1222 re-asserts what the wrap already
did. -/
theorem loop_boundary_advanced {s a : ReconView} (h : Advanced s a) :
    (loop_boundary a).current_index = a.current_index ∧
    (loop_boundary a).entry_has_changed = a.entry_has_changed := by
  unfold loop_boundary
  split_ifs with hc
  · simp only [Bool.and_eq_true] at hc
    have hl := hc.1
    have hm : moving_forward { a with entry_has_changed := true } = moving_forward s ∧
        moving_reverse { a with entry_has_changed := true } = moving_reverse s :=
      moving_forward_congr h.cfg h.stepper
    unfold boundary_index
    rw [hm.1, hm.2]
    rcases moving_cases s with ⟨hf, hr⟩ | ⟨hf, hr⟩
    · simp [hf, h.fwd_wrap hl hf, h.changed hl]
    · simp [hf, hr, h.rev_wrap hl hr, h.changed hl, h.frequency_list]
  · simp

/-- The directional motion in closed form: the entry under the cursor is read,
the step for its kind is taken, and the entry under the new cursor is
reloaded. -/
theorem motion_eq (s : ReconView) (h0 : 0 ≤ s.current_index)
    (h1 : s.current_index < (s.frequency_list.length : Int))
    (hlen : (s.frequency_list.length : Int) < 2147483648)
    (hi : s.index_stepper = 0) (hg : s.recon = true ∨ s.stepper ≠ 0) :
    ∃ e e', entry_at s.frequency_list s.current_index = some e ∧
      Advanced (motion_start s) (advance_kind e.type (motion_start s)) ∧
      entry_at s.frequency_list
        (advance_kind e.type (motion_start s)).current_index = some e' ∧
      motion s = some (finish_motion
        (reload_core (loop_boundary (advance_kind e.type (motion_start s))) e')) := by
  obtain ⟨e, he⟩ := entry_at_ok _ _ h0 h1
  have hadv : Advanced (motion_start s) (advance_kind e.type (motion_start s)) :=
    advance_kind_advanced e.type (motion_start s) (by simp) (by simpa using h0)
      (by simpa using h1) (by simpa using hlen)
  have hb := loop_boundary_advanced hadv
  have hlo := hadv.lo
  have hhi := hadv.hi
  simp only [motion_start_frame] at hhi
  obtain ⟨e', he'⟩ := entry_at_ok s.frequency_list _ hlo hhi
  refine ⟨e, e', he, hadv, he', ?_⟩
  have hg' : s.recon = true ∨ s.stepper ≠ 0 ∨ s.index_stepper ≠ 0 := by
    rcases hg with h | h
    · exact Or.inl h
    · exact Or.inr (Or.inl h)
  unfold motion
  rw [if_pos hg']
  unfold move_cursor
  rw [if_pos (by simpa using hi)]
  unfold directional_advance
  simp only [motion_start_frame, he, Option.map_some', Option.some_bind]
  unfold reload_entry reload_core
  simp only [loop_boundary_frame, advance_kind_frame, motion_start_frame, hb.1, he']
  split_ifs <;> simp

/-- The index jump in closed form, when the entry under the new cursor can be
read. -/
theorem motion_jump_eq (s : ReconView) (hi : s.index_stepper ≠ 0) (e' : freqman_entry)
    (he' : entry_at s.frequency_list (index_jump (motion_start s)).current_index = some e') :
    motion s = some (finish_motion (reload_core (index_jump (motion_start s)) e')) := by
  unfold motion
  rw [if_pos (Or.inr (Or.inr hi))]
  unfold move_cursor
  rw [if_neg (by simpa using hi)]
  simp only [Option.some_bind]
  unfold reload_entry reload_core
  simp only [index_jump_fields, if_true, index_jump_frame, motion_start_frame]
  simp only [index_jump_fields] at he'
  rw [he']
  rfl

/-- After the reload and the end of the motion, the cursor and the loop flag
are the ones the step left, and so is the frequency when the entry did not
change. -/
theorem motion_result_fields {s a : ReconView} (h : Advanced s a) (e' : freqman_entry) :
    (finish_motion (reload_core (loop_boundary a) e')).current_index = a.current_index ∧
    (finish_motion (reload_core (loop_boundary a) e')).has_looped = a.has_looped ∧
    (finish_motion (reload_core (loop_boundary a) e')).entry_has_changed
      = a.entry_has_changed ∧
    (a.entry_has_changed = false →
      (finish_motion (reload_core (loop_boundary a) e')).freq = a.freq) := by
  have hb := loop_boundary_advanced h
  refine ⟨by simp [hb.1], by simp, by simp [hb.2], fun hc => ?_⟩
  simp only [finish_motion_frame]
  unfold reload_core
  rw [hb.2, hc]
  simp

theorem advance_single_fields (s : ReconView) (hlp : s.has_looped = false)
    (h0 : 0 ≤ s.current_index) (h1 : s.current_index < (s.frequency_list.length : Int))
    (hlen : (s.frequency_list.length : Int) < 2147483648) :
    (moving_forward s = true →
      (advance_single s).current_index =
        (if s.current_index = (s.frequency_list.length : Int) - 1 then 0
         else s.current_index + 1) ∧
      ((advance_single s).has_looped = true ↔
        s.current_index = (s.frequency_list.length : Int) - 1)) ∧
    (moving_reverse s = true →
      (advance_single s).current_index =
        (if s.current_index = 0 then (s.frequency_list.length : Int) - 1
         else s.current_index - 1) ∧
      ((advance_single s).has_looped = true ↔ s.current_index = 0)) := by
  obtain ⟨n1, n2, -⟩ := cursor_next_index s h0 h1 hlen
  obtain ⟨p1, p2, -⟩ := cursor_prev_index s h0 h1
  rcases moving_cases s with ⟨hf, hr⟩ | ⟨hf, hr⟩
  · constructor
    · intro _
      simp only [advance_single, hf, if_true]
      rw [n1, n2]
      simp only [hlp, Bool.false_eq_true, or_false]
      constructor
      · split_ifs <;> omega
      · omega
    · intro h
      rw [hr] at h
      cases h
  · constructor
    · intro h
      rw [hf] at h
      cases h
    · intro _
      simp only [advance_single, hf, hr, if_true, Bool.false_eq_true, if_false]
      rw [p1, p2]
      simp [hlp]

theorem advance_range_fields (s : ReconView)
    (h0 : 0 ≤ s.current_index) (h1 : s.current_index < (s.frequency_list.length : Int))
    (hlen : (s.frequency_list.length : Int) < 2147483648) :
    (moving_forward s = true →
      (s.freq + s.step ≤ s.maxfreq →
        (advance_range s).current_index = s.current_index ∧
        (advance_range s).freq = s.freq + s.step ∧
        (advance_range s).entry_has_changed = s.entry_has_changed) ∧
      (s.freq + s.step > s.maxfreq →
        (advance_range s).current_index =
          (if s.current_index = (s.frequency_list.length : Int) - 1 then 0
           else s.current_index + 1) ∧
        (advance_range s).entry_has_changed = true)) ∧
    (moving_reverse s = true →
      (s.freq - s.step ≥ s.minfreq →
        (advance_range s).current_index = s.current_index ∧
        (advance_range s).freq = s.freq - s.step ∧
        (advance_range s).entry_has_changed = s.entry_has_changed) ∧
      (s.freq - s.step < s.minfreq →
        (advance_range s).current_index =
          (if s.current_index = 0 then (s.frequency_list.length : Int) - 1
           else s.current_index - 1) ∧
        (advance_range s).entry_has_changed = true)) := by
  obtain ⟨n1, -, n3⟩ := cursor_next_index (range_step_up s) (by simpa using h0)
    (by simpa using h1) (by simpa using hlen)
  obtain ⟨p1, -, p3⟩ := cursor_prev_index (range_step_down s) (by simpa using h0)
    (by simpa using h1)
  simp only [range_step_up_frame, range_step_down_frame] at n1 p1
  have hup : (range_step_up s).freq = s.freq + s.step := rfl
  have hdn : (range_step_down s).freq = s.freq - s.step := rfl
  rcases moving_cases s with ⟨hf, hr⟩ | ⟨hf, hr⟩
  · constructor
    · intro _
      simp only [advance_range, hf, if_true, range_forward, range_check_high, hup,
        range_step_up_frame]
      constructor
      · intro h
        rw [if_neg (by omega)]
        simp [hup]
      · intro h
        rw [if_pos h, n1, n3]
        constructor
        · split_ifs <;> omega
        · rfl
    · intro h
      rw [hr] at h
      cases h
  · constructor
    · intro h
      rw [hf] at h
      cases h
    · intro _
      simp only [advance_range, hf, hr, if_true, Bool.false_eq_true, if_false, range_reverse,
        range_check_low, hdn, range_step_down_frame]
      constructor
      · intro h
        rw [if_neg (by omega)]
        simp [hdn]
      · intro h
        rw [if_pos h, p1, p3]
        exact ⟨rfl, rfl⟩

/-- One forward motion from a Single entry, with what it leaves for the next
one. -/
theorem single_forward_step (s : ReconView) (k : Nat)
    (hall : ∀ x ∈ s.frequency_list, x.type = freqman_entry_type.SINGLE)
    (h0 : 0 ≤ s.current_index) (h1 : s.current_index < (s.frequency_list.length : Int))
    (hlen : (s.frequency_list.length : Int) < 2147483648)
    (hi : s.index_stepper = 0) (hfr : forward_run s (k + 1)) :
    ∃ t, motion s = some t ∧ t.frequency_list = s.frequency_list ∧ t.index_stepper = 0 ∧
      forward_run t k ∧
      t.current_index =
        (if s.current_index = (s.frequency_list.length : Int) - 1 then 0
         else s.current_index + 1) ∧
      (t.has_looped = true ↔ s.current_index = (s.frequency_list.length : Int) - 1) := by
  have hg : s.recon = true ∨ s.stepper ≠ 0 := by
    rcases hfr with h | h
    · exact Or.inl h.2.2.1
    · exact Or.inr (by push_cast at h; omega)
  have hf : moving_forward s = true := by
    unfold moving_forward
    rcases hfr with h | h
    · simp [h.1, h.2.1]
    · have : 0 < s.stepper := by push_cast at h; omega
      simp [this]
  obtain ⟨e, e', he, hadv, -, hm⟩ := motion_eq s h0 h1 hlen hi hg
  have hk := hall e (entry_at_mem he)
  obtain ⟨r1, r2, -, -⟩ := motion_result_fields hadv e'
  refine ⟨_, hm, by simp, by simp, ?_, ?_⟩
  · obtain ⟨-, fk⟩ := finish_motion_pause (reload_core (loop_boundary
      (advance_kind e.type (motion_start s))) e')
    simp only [reload_core_frame, loop_boundary_frame, advance_kind_frame,
      motion_start_frame] at fk
    unfold forward_run
    simp only [finish_motion_fields, finish_motion_frame, reload_core_frame,
      loop_boundary_frame, advance_kind_frame, motion_start_frame]
    rcases hfr with h | h
    · left
      refine ⟨by simp [h.1], h.2.1, ?_, h.2.2.2⟩
      rw [(fk (by simp [h.2.2.2])).1]
      exact h.2.2.1
    · right
      push_cast at h
      rw [if_neg (by omega), if_pos (by omega)]
      omega
  · rw [r1, r2, hk]
    have hs := advance_single_fields (motion_start s) (by simp) (by simpa using h0)
      (by simpa using h1) (by simpa using hlen)
    have hmv := moving_forward_congr (s := s) (a := motion_start s) (by simp) (by simp)
    simp only [hmv.1, hmv.2, motion_start_frame] at hs
    exact hs.1 hf

/-- Forward motions over a list of Single entries, at most as many as the list
has entries: the cursor goes up and wraps at most once. -/
theorem single_forward_run (k : Nat) : ∀ (s : ReconView),
    (∀ x ∈ s.frequency_list, x.type = freqman_entry_type.SINGLE) →
    0 ≤ s.current_index → s.current_index < (s.frequency_list.length : Int) →
    (s.frequency_list.length : Int) < 2147483648 →
    s.index_stepper = 0 → forward_run s k → (k : Int) ≤ (s.frequency_list.length : Int) →
    ∃ t, advances k s = some t ∧
      ((s.current_index + k < (s.frequency_list.length : Int) ∧
          t.current_index = s.current_index + k ∧ loops_in k s = 0) ∨
       ((s.frequency_list.length : Int) ≤ s.current_index + k ∧
          t.current_index = s.current_index + k - (s.frequency_list.length : Int) ∧
          loops_in k s = 1)) := by
  induction k with
  | zero =>
    intro s _ h0 h1 _ _ _ _
    exact ⟨s, rfl, Or.inl ⟨by simpa using h1, by simp, rfl⟩⟩
  | succ k ih =>
    intro s hall h0 h1 hlen hi hfr hk
    obtain ⟨s1, hm, hl1, hi1, hfr1, hc1, hlp1⟩ := single_forward_step s k hall h0 h1 hlen hi hfr
    have h01 : 0 ≤ s1.current_index := by rw [hc1]; split_ifs <;> omega
    have h11 : s1.current_index < (s1.frequency_list.length : Int) := by
      rw [hc1, hl1]; split_ifs <;> omega
    push_cast at hk
    obtain ⟨t, ht, hres⟩ := ih s1 (by rw [hl1]; exact hall) h01 h11 (by rw [hl1]; exact hlen)
      hi1 hfr1 (by rw [hl1]; omega)
    refine ⟨t, by simp [advances, hm, ht], ?_⟩
    have hloops : loops_in (k + 1) s = (if s1.has_looped then 1 else 0) + loops_in k s1 := by
      simp [loops_in, hm]
    rw [hloops]
    rw [hl1] at hres
    push_cast
    by_cases hw : s.current_index = (s.frequency_list.length : Int) - 1
    · have hlp : s1.has_looped = true := hlp1.2 hw
      rw [if_pos hw] at hc1
      rw [hlp, hc1] at *
      rcases hres with ⟨a, b, c⟩ | ⟨a, b, c⟩
      · right
        exact ⟨by omega, by omega, by simp [c]⟩
      · omega
    · have hlp : s1.has_looped = false := by
        cases h : s1.has_looped
        · rfl
        · exact absurd (hlp1.1 h) hw
      rw [if_neg hw] at hc1
      rw [hlp, hc1] at *
      rcases hres with ⟨a, b, c⟩ | ⟨a, b, c⟩
      · left
        exact ⟨by omega, by omega, by simp [c]⟩
      · right
        exact ⟨by omega, by omega, by simp [c]⟩

/-! ## The tick in closed form -/

theorem SameEngine.refl (s : ReconView) : SameEngine s s := by
  constructor <;> rfl

theorem SameEngine.trans {a b c : ReconView} (h1 : SameEngine a b) (h2 : SameEngine b c) :
    SameEngine a c := by
  constructor
  · exact h2.cfg.trans h1.cfg
  · exact h2.frequency_list.trans h1.frequency_list
  · exact h2.current_index.trans h1.current_index
  · exact h2.freq.trans h1.freq
  · exact h2.minfreq.trans h1.minfreq
  · exact h2.maxfreq.trans h1.maxfreq
  · exact h2.recon.trans h1.recon
  · exact h2.stepper.trans h1.stepper
  · exact h2.index_stepper.trans h1.index_stepper
  · exact h2.timer.trans h1.timer
  · exact h2.db.trans h1.db
  · exact h2.freq_lock.trans h1.freq_lock
  · exact h2.status.trans h1.status
  · exact h2.continuous_lock.trans h1.continuous_lock
  · exact h2.has_looped.trans h1.has_looped
  · exact h2.entry_has_changed.trans h1.entry_has_changed

theorem retune_freq_same (s : ReconView) : SameEngine s (retune_freq s) := by
  constructor <;> simp

theorem retune_entry_same (sv : Int → Int) (s : ReconView) (e : freqman_entry) :
    SameEngine s (retune_entry sv s e) := by
  constructor <;> simp

theorem handle_retune_eq (sv : Int → Int) (s : ReconView) (h : cursor_ok s) :
    ∃ t, handle_retune sv s = some t ∧ SameEngine s t := by
  unfold handle_retune
  split_ifs with hlen
  · rcases h with ⟨_, h | ⟨h0, h1⟩⟩
    · simp [h] at hlen
    · obtain ⟨e, he⟩ := entry_at_ok _ _ h0 h1
      refine ⟨_, by rw [he]; rfl, ?_⟩
      constructor <;> simp
  · exact ⟨_, rfl, retune_freq_same s⟩

theorem motion_stage_skip (s : ReconView) (h : ¬ motion_guard s) : motion_stage s = some s := by
  unfold motion_stage
  exact if_neg h

theorem motion_stage_run (s : ReconView) (h : motion_guard s) : motion_stage s = motion s := by
  unfold motion_stage
  exact if_pos h

theorem pre_motion_same (s : ReconView) (d : Int) (n : Nat) (r : Bool) (ef : List Effect) :
    SameEngine (timer_stage (lock_core s d) n) (pre_motion s d n r ef) := by
  unfold pre_motion
  constructor <;> simp

theorem motion_guard_congr {a b : ReconView} (h : SameEngine a b) :
    motion_guard b ↔ motion_guard a := by
  unfold motion_guard
  rw [h.recon, h.stepper, h.index_stepper, h.timer, h.frequency_list]

/-- The three shapes of a tick, with the state the lock evaluation hands to the
timer decrement: the motion code is skipped, a directional advance is made, or
an index jump is made.  In each the result is given up to the members that
`handle_retune` writes. -/
theorem tick_cases_io (sv : Int → Int) (s : ReconView) (d : Int) (n : Nat) (hok : cursor_ok s) :
    ∃ r ef, lock_stage s d = some (with_io (lock_core s d) r ef) ∧
      (¬ motion_guard (pre_motion s d n r ef) →
        ∃ t, on_statistics_update sv s d n = some t ∧ SameEngine (pre_motion s d n r ef) t) ∧
      (motion_guard (pre_motion s d n r ef) → s.index_stepper = 0 →
        ∃ e e' t, entry_at s.frequency_list s.current_index = some e ∧
          Advanced (motion_start (pre_motion s d n r ef))
            (advance_kind e.type (motion_start (pre_motion s d n r ef))) ∧
          entry_at s.frequency_list
            (advance_kind e.type (motion_start (pre_motion s d n r ef))).current_index
              = some e' ∧
          on_statistics_update sv s d n = some t ∧
          SameEngine (finish_motion (reload_core (loop_boundary
            (advance_kind e.type (motion_start (pre_motion s d n r ef)))) e')) t) ∧
      (motion_guard (pre_motion s d n r ef) → s.index_stepper ≠ 0 →
        ∀ e', entry_at s.frequency_list
            (index_jump (motion_start (pre_motion s d n r ef))).current_index = some e' →
          ∃ t, on_statistics_update sv s d n = some t ∧
            SameEngine (finish_motion (reload_core
              (index_jump (motion_start (pre_motion s d n r ef))) e')) t) := by
  obtain ⟨r, ef, h1⟩ := lock_stage_io s d hok
  have hp : timer_stage (with_io (lock_core s d) r ef) n = pre_motion s d n r ef := rfl
  have htick : on_statistics_update sv s d n
      = (motion_stage (pre_motion s d n r ef)).bind (handle_retune sv) := by
    unfold on_statistics_update
    rw [h1]
    simp only [Option.some_bind, hp]
  have hok2 : cursor_ok (pre_motion s d n r ef) := cursor_ok_congr (by simp) (by simp) hok
  refine ⟨r, ef, h1, fun hg => ?_, fun hg hi => ?_, fun hg hi e' he' => ?_⟩
  · obtain ⟨t, ht, hs⟩ := handle_retune_eq sv _ hok2
    refine ⟨t, ?_, hs⟩
    rw [htick, motion_stage_skip _ hg]
    exact ht
  · have hne : s.frequency_list ≠ [] := by
      have := hg.2.2
      simp only [pre_motion_frame] at this
      intro h; simp [h] at this
    obtain ⟨hlen, hc⟩ := hok
    rcases hc with hc | ⟨h0, h1'⟩
    · exact absurd hc hne
    · have hgr : (pre_motion s d n r ef).recon = true ∨ (pre_motion s d n r ef).stepper ≠ 0 := by
        rcases hg.1 with h | h | h
        · exact Or.inl h
        · exact Or.inr h
        · simp only [pre_motion_frame] at h; exact absurd hi h
      obtain ⟨e, e', he, hadv, he', hm⟩ := motion_eq (pre_motion s d n r ef)
        (by simpa using h0) (by simpa using h1') (by simpa using hlen) (by simpa using hi) hgr
      simp only [pre_motion_frame] at he he'
      have hb := loop_boundary_advanced hadv
      have hok3 : cursor_ok (finish_motion (reload_core (loop_boundary
          (advance_kind e.type (motion_start (pre_motion s d n r ef)))) e')) := by
        refine ⟨by simpa using hlen, Or.inr ?_⟩
        have hlo := hadv.lo
        have hhi := hadv.hi
        simp only [motion_start_frame, pre_motion_frame] at hhi
        simp only [finish_motion_frame, reload_core_frame, hb.1, loop_boundary_frame,
          advance_kind_frame, motion_start_frame, pre_motion_frame]
        exact ⟨hlo, hhi⟩
      obtain ⟨t, ht, hs⟩ := handle_retune_eq sv _ hok3
      refine ⟨e, e', t, he, hadv, he', ?_, hs⟩
      rw [htick, motion_stage_run _ hg, hm]
      exact ht
  · have hm := motion_jump_eq (pre_motion s d n r ef) (by simpa using hi) e'
      (by simpa using he')
    have hb := entry_at_bounds he'
    have hok3 : cursor_ok (finish_motion (reload_core
        (index_jump (motion_start (pre_motion s d n r ef))) e')) := by
      refine ⟨by simpa using hok.1, Or.inr ?_⟩
      simp only [finish_motion_frame, reload_core_frame, index_jump_frame, motion_start_frame,
        pre_motion_frame]
      exact hb
    obtain ⟨t, ht, hs⟩ := handle_retune_eq sv _ hok3
    refine ⟨t, ?_, hs⟩
    rw [htick, motion_stage_run _ hg, hm]
    exact ht

/-- The three shapes of a tick: the motion code is skipped, a directional
advance is made, or an index jump is made.  In each the result is given up to
the members that `handle_retune` writes. -/
theorem tick_cases (sv : Int → Int) (s : ReconView) (d : Int) (n : Nat) (hok : cursor_ok s) :
    ∃ r ef,
      (¬ motion_guard (pre_motion s d n r ef) →
        ∃ t, on_statistics_update sv s d n = some t ∧ SameEngine (pre_motion s d n r ef) t) ∧
      (motion_guard (pre_motion s d n r ef) → s.index_stepper = 0 →
        ∃ e e' t, entry_at s.frequency_list s.current_index = some e ∧
          Advanced (motion_start (pre_motion s d n r ef))
            (advance_kind e.type (motion_start (pre_motion s d n r ef))) ∧
          entry_at s.frequency_list
            (advance_kind e.type (motion_start (pre_motion s d n r ef))).current_index
              = some e' ∧
          on_statistics_update sv s d n = some t ∧
          SameEngine (finish_motion (reload_core (loop_boundary
            (advance_kind e.type (motion_start (pre_motion s d n r ef)))) e')) t) ∧
      (motion_guard (pre_motion s d n r ef) → s.index_stepper ≠ 0 →
        ∀ e', entry_at s.frequency_list
            (index_jump (motion_start (pre_motion s d n r ef))).current_index = some e' →
          ∃ t, on_statistics_update sv s d n = some t ∧
            SameEngine (finish_motion (reload_core
              (index_jump (motion_start (pre_motion s d n r ef))) e')) t) := by
  obtain ⟨r, ef, -, h⟩ := tick_cases_io sv s d n hok
  exact ⟨r, ef, h⟩

/-- A tick with no index jump pending, summarised: either the motion code is
skipped and the engine is as the lock evaluation and the timer decrement left
it, or a directional advance is made, which ends either with the lock state
kept (the timer possibly zeroed by the reload) or with the end-of-list pause. -/
theorem tick_summary (sv : Int → Int) (s : ReconView) (d : Int) (n : Nat) (hok : cursor_ok s)
    (hi : s.index_stepper = 0) :
    ∃ t, on_statistics_update sv s d n = some t ∧ cursor_ok t ∧ t.cfg = s.cfg ∧
      t.frequency_list = s.frequency_list ∧ t.index_stepper = 0 ∧
      t.status = (lock_core s d).status ∧
      ((¬ motion_guard (timer_stage (lock_core s d) n) ∧
          SameEngine (timer_stage (lock_core s d) n) t) ∨
       (motion_guard (timer_stage (lock_core s d) n) ∧
          ((t.recon = s.recon ∧ t.freq_lock = (lock_core s d).freq_lock ∧
              t.continuous_lock = (lock_core s d).continuous_lock ∧
              (t.timer = (timer_stage (lock_core s d) n).timer ∨ t.timer = 0)) ∨
           (s.cfg.continuous = false ∧ t.has_looped = true ∧ t.recon = false ∧
              t.freq_lock = 0 ∧ t.continuous_lock = false ∧ t.timer = 0)))) := by
  obtain ⟨r, ef, hstill, hmove, -⟩ := tick_cases sv s d n hok
  have hsame := pre_motion_same s d n r ef
  have hgc := motion_guard_congr hsame
  by_cases hg : motion_guard (timer_stage (lock_core s d) n)
  · obtain ⟨e, e', t, he, hadv, he', ht, hs⟩ := hmove (hgc.2 hg) hi
    have hb := entry_at_bounds he'
    obtain ⟨r1, r2, r3, -⟩ := motion_result_fields hadv e'
    have hfp := finish_motion_pause (reload_core (loop_boundary
      (advance_kind e.type (motion_start (pre_motion s d n r ef)))) e')
    simp only [reload_core_frame, loop_boundary_frame, advance_kind_frame,
      motion_start_frame, pre_motion_frame] at hfp
    refine ⟨t, ht, ?_, ?_, ?_, ?_, ?_, Or.inr ⟨hg, ?_⟩⟩
    · refine ⟨by rw [hs.frequency_list]; simpa using hok.1, Or.inr ?_⟩
      rw [hs.current_index, hs.frequency_list, r1]
      simpa using hb
    · rw [hs.cfg]; simp
    · rw [hs.frequency_list]; simp
    · rw [hs.index_stepper]; simp
    · rw [hs.status]
      simp only [finish_motion_frame, reload_core_frame, loop_boundary_frame,
        advance_kind_frame, motion_start_frame]
      exact hsame.status.trans (by simp)
    · by_cases hp : (advance_kind e.type (motion_start (pre_motion s d n r ef))).has_looped
          = true ∧ s.cfg.continuous = false
      · right
        obtain ⟨f1, f2⟩ := hfp.1 hp
        refine ⟨hp.2, ?_, ?_, ?_, ?_, ?_⟩
        · rw [hs.has_looped, r2]; exact hp.1
        · rw [hs.recon]; exact f1
        · rw [hs.freq_lock]; simp [hp]
        · rw [hs.continuous_lock]; exact f2
        · rw [hs.timer]; simp [hp]
      · left
        obtain ⟨f1, f2⟩ := hfp.2 hp
        refine ⟨?_, ?_, ?_, ?_⟩
        · rw [hs.recon]; exact f1
        · rw [hs.freq_lock]
          simp only [finish_motion_fields, reload_core_frame, loop_boundary_frame,
            advance_kind_frame, motion_start_frame, pre_motion_frame, if_neg hp]
          exact hsame.freq_lock.trans (by simp)
        · rw [hs.continuous_lock, f2]
          exact hsame.continuous_lock.trans (by simp)
        · rw [hs.timer]
          simp only [finish_motion_fields, reload_core_frame, loop_boundary_frame,
            advance_kind_frame, motion_start_frame, pre_motion_frame, if_neg hp,
            reload_core_timer]
          split_ifs
          · exact Or.inr rfl
          · exact Or.inl hsame.timer
  · obtain ⟨t, ht, hs⟩ := hstill (fun h => hg (hgc.1 h))
    have hs2 := hsame.trans hs
    refine ⟨t, ht, ?_, ?_, ?_, ?_, ?_, Or.inl ⟨hg, hs2⟩⟩
    · refine cursor_ok_congr ?_ ?_ hok
      · rw [hs2.frequency_list]; simp
      · rw [hs2.current_index]; simp
    · rw [hs2.cfg]; simp
    · rw [hs2.frequency_list]; simp
    · rw [hs2.index_stepper]; simpa using hi
    · rw [hs2.status]; simp

/-! ## Runs of ticks -/

theorem streak_armed {s0 u : ReconView} {i : Nat} (h : Streak s0 u i)
    (hL : 0 < s0.cfg.recon_lock_duration) :
    (u.timer = 0 ∧ i = 0) ∨ (u.timer ≠ 0 ∧ u.freq_lock = i) := by
  rcases h.armed with a | ⟨a, b, -, -⟩
  · exact Or.inl a
  · exact Or.inr ⟨by rw [a]; exact_mod_cast hL.ne', b⟩

/-- One more match of a streak that is not yet long enough: the engine stays
where it is, the dwell timer stays armed. -/
theorem streak_step (sv : Int → Int) (s0 u : ReconView) (i : Nat) (d : Int) (n : Nat)
    (h : Streak s0 u i) (hm : s0.cfg.recon_match_mode = RECON_MATCH_CONTINUOUS)
    (hL : 0 < s0.cfg.recon_lock_duration) (hL2 : s0.cfg.recon_lock_duration < 2147483648)
    (hd : d > s0.cfg.squelch) (hN : i + 1 < s0.cfg.recon_lock_nb_match) :
    ∃ t, on_statistics_update sv u d n = some t ∧ Streak s0 t (i + 1) := by
  obtain ⟨l1, l2, l3, -⟩ := lock_core_hit u d i h.recon (streak_armed h hL)
    (by rw [h.cfg]; exact hd) (by rw [h.cfg]; exact hN)
  have hLt : (lock_core u d).timer = (s0.cfg.recon_lock_duration : Int) := by
    rw [l1]
    rcases h.armed with ⟨a, -⟩ | ⟨a, -, -, -⟩
    · rw [if_pos a, h.cfg, toI32_natCast hL2]
    · rw [a]
      rw [if_neg (by exact_mod_cast hL.ne')]
  have hq : (timer_stage (lock_core u d) n).timer = (s0.cfg.recon_lock_duration : Int) := by
    rw [timer_stage_timer, hLt, l3]
    simp only [lock_core_frame, h.cfg, hm]
    rw [if_neg (by exact_mod_cast hL.ne'), if_neg (by simp [RECON_MATCH_CONTINUOUS,
      RECON_MATCH_SPARSE]), if_neg (by omega)]
  obtain ⟨t, htick, hokt, hcfg, hlist, hit, -, hcase⟩ := tick_summary sv u d n h.ok h.index_stepper
  have hng : ¬ motion_guard (timer_stage (lock_core u d) n) := by
    unfold motion_guard
    rw [hq]
    simp only [timer_stage_frame, lock_core_frame, h.stepper, h.index_stepper]
    intro hcon
    rcases hcon.2.1 with a | a | a
    · have : (0 : Int) < (s0.cfg.recon_lock_duration : Int) := by exact_mod_cast hL
      omega
    · exact a rfl
    · exact a rfl
  rcases hcase with ⟨-, hs⟩ | ⟨hg, -⟩
  · refine ⟨t, htick, ?_⟩
    constructor
    · exact hokt
    · exact hcfg.trans h.cfg
    · exact hlist.trans h.frequency_list
    · rw [hs.recon]; simpa using h.recon
    · rw [hs.stepper]; simpa using h.stepper
    · exact hit
    · rw [hs.current_index]; simpa using h.current_index
    · rw [hs.freq]; simpa using h.freq
    · right
      refine ⟨hs.timer.trans hq, ?_, ?_, by omega⟩
      · rw [hs.freq_lock]; simpa using l2
      · rw [hs.continuous_lock]; simpa using l3
  · exact absurd hg hng

/-- The match that completes the streak: the lock transition fires; the count
is the required one unless the advance of that same tick ends in the
end-of-list pause. -/
theorem streak_final (sv : Int → Int) (s0 u : ReconView) (i : Nat) (d : Int) (n : Nat)
    (h : Streak s0 u i) (hL : 0 < s0.cfg.recon_lock_duration) (hd : d > s0.cfg.squelch)
    (hN : i + 1 = s0.cfg.recon_lock_nb_match) :
    ∃ t, on_statistics_update sv u d n = some t ∧ t.cfg = s0.cfg ∧ t.status = 2 ∧
      (t.freq_lock = s0.cfg.recon_lock_nb_match ∨
        (t.freq_lock = 0 ∧ t.recon = false ∧ t.has_looped = true ∧
          s0.cfg.continuous = false)) := by
  obtain ⟨l1, l2⟩ := lock_core_lock u d i h.recon (streak_armed h hL)
    (by rw [h.cfg]; exact hd) (by rw [h.cfg]; exact hN)
  rw [h.cfg] at l1
  obtain ⟨t, htick, -, hcfg, -, -, hst, hcase⟩ := tick_summary sv u d n h.ok h.index_stepper
  refine ⟨t, htick, hcfg.trans h.cfg, hst.trans l2, ?_⟩
  rcases hcase with ⟨-, hs⟩ | ⟨-, ⟨-, b, -, -⟩ | ⟨a, b, c, e, -, -⟩⟩
  · left
    rw [hs.freq_lock]
    simpa using l1
  · exact Or.inl (b.trans l1)
  · right
    rw [h.cfg] at a
    exact ⟨e, c, b, a⟩

/-- A run of matching samples that completes the required count on its last
sample. -/
theorem streak_run (sv : Int → Int) (s0 : ReconView) (n : Nat)
    (hm : s0.cfg.recon_match_mode = RECON_MATCH_CONTINUOUS)
    (hL : 0 < s0.cfg.recon_lock_duration) (hL2 : s0.cfg.recon_lock_duration < 2147483648) :
    ∀ (samples : List Int) (u : ReconView) (i : Nat), Streak s0 u i →
      samples ≠ [] → i + samples.length = s0.cfg.recon_lock_nb_match →
      (∀ d ∈ samples, d > s0.cfg.squelch) →
      ∃ t, run_ticks sv n u samples = some t ∧ t.cfg = s0.cfg ∧ t.status = 2 ∧
        (t.freq_lock = s0.cfg.recon_lock_nb_match ∨
          (t.freq_lock = 0 ∧ t.recon = false ∧ t.has_looped = true ∧
            s0.cfg.continuous = false)) ∧
        ∀ k, k < samples.length →
          ∃ v, run_ticks sv n u (samples.take k) = some v ∧
            v.current_index = s0.current_index ∧ v.freq = s0.freq := by
  intro samples
  induction samples with
  | nil => intro u i _ hne; exact absurd rfl hne
  | cons d rest ih =>
    intro u i hS _ hlen hall
    have hd : d > s0.cfg.squelch := hall d (List.mem_cons_self _ _)
    by_cases hrest : rest = []
    · subst hrest
      obtain ⟨t, htick, hcfg, hst, hfl⟩ := streak_final sv s0 u i d n hS hL hd
        (by simpa using hlen)
      refine ⟨t, by simp [run_ticks, htick], hcfg, hst, hfl, ?_⟩
      intro k hk
      have hk0 : k = 0 := by simpa using hk
      subst hk0
      exact ⟨u, rfl, hS.current_index, hS.freq⟩
    · have hpos : 0 < rest.length := List.length_pos.2 hrest
      obtain ⟨t1, htick, hS1⟩ := streak_step sv s0 u i d n hS hm hL hL2 hd
        (by simp only [List.length_cons] at hlen; omega)
      obtain ⟨t, hrun, hcfg, hst, hfl, hpre⟩ := ih t1 (i + 1) hS1 hrest
        (by simp only [List.length_cons] at hlen; omega)
        (fun x hx => hall x (List.mem_cons_of_mem _ hx))
      refine ⟨t, by simp [run_ticks, htick, hrun], hcfg, hst, hfl, ?_⟩
      intro k hk
      cases k with
      | zero => exact ⟨u, rfl, hS.current_index, hS.freq⟩
      | succ k =>
        obtain ⟨v, hv, hvc, hvf⟩ := hpre k (by simpa using hk)
        exact ⟨v, by simp [run_ticks, htick, hv], hvc, hvf⟩

theorem sparse_armed {s0 u : ReconView} {i c n : Nat} (h : SparseRun s0 u i c n)
    (hb : (i : Int) * (n : Int) < (s0.cfg.recon_lock_duration : Int))
    (hL2 : s0.cfg.recon_lock_duration < 2147483648) :
    ((u.timer = 0 ∧ c = 0) ∨ (u.timer ≠ 0 ∧ u.freq_lock = c)) ∧
    (if u.timer = 0 then toI32 (u.cfg.recon_lock_duration : Int) else u.timer)
      = (s0.cfg.recon_lock_duration : Int) - (i : Int) * (n : Int) := by
  rcases h.armed with ⟨a, b, c0⟩ | ⟨a, b, -⟩
  · refine ⟨Or.inl ⟨a, c0⟩, ?_⟩
    rw [if_pos a, h.cfg, toI32_natCast hL2, b]
    simp
  · have hne : u.timer ≠ 0 := by rw [a]; omega
    exact ⟨Or.inr ⟨hne, b⟩, by rw [if_neg hne, a]⟩

/-- One tick of a Sparse lock attempt that does not complete the count: the
sample is counted if it matches, the dwell timer loses the elapsed time, the
engine does not move. -/
theorem sparse_step (sv : Int → Int) (s0 u : ReconView) (i c : Nat) (d : Int) (n : Nat)
    (h : SparseRun s0 u i c n) (hm : s0.cfg.recon_match_mode = RECON_MATCH_SPARSE)
    (hb : ((i : Int) + 1) * (n : Int) < (s0.cfg.recon_lock_duration : Int))
    (hL2 : s0.cfg.recon_lock_duration < 2147483648)
    (hN : c + (if d > s0.cfg.squelch then 1 else 0) < s0.cfg.recon_lock_nb_match) :
    ∃ t, on_statistics_update sv u d n = some t ∧
      SparseRun s0 t (i + 1) (c + (if d > s0.cfg.squelch then 1 else 0)) n := by
  have hmul : ((i : Int) + 1) * (n : Int) = (i : Int) * (n : Int) + (n : Int) := by ring
  have hn0 : (0 : Int) ≤ (n : Int) := Int.natCast_nonneg n
  have hin0 : (0 : Int) ≤ (i : Int) * (n : Int) := mul_nonneg (Int.natCast_nonneg i) hn0
  obtain ⟨harm, htm⟩ := sparse_armed h (by omega) hL2
  have hlc : (lock_core u d).timer
        = (s0.cfg.recon_lock_duration : Int) - (i : Int) * (n : Int) ∧
      (lock_core u d).freq_lock = c + (if d > s0.cfg.squelch then 1 else 0) := by
    by_cases hd : d > s0.cfg.squelch
    · rw [if_pos hd] at hN ⊢
      obtain ⟨l1, l2, -, -⟩ := lock_core_hit u d c h.recon
        (by rcases harm with ⟨a, b⟩ | ⟨a, b⟩
            · exact Or.inl ⟨a, b⟩
            · exact Or.inr ⟨a, b⟩)
        (by rw [h.cfg]; exact hd) (by rw [h.cfg]; exact hN)
      exact ⟨l1.trans htm, l2⟩
    · rw [if_neg hd] at hN ⊢
      obtain ⟨l1, l2, -⟩ := lock_core_miss_sparse u d c h.recon (by rw [h.cfg]; exact hm) harm
        (by rw [h.cfg]; exact not_lt.mp hd) (by rw [h.cfg]; exact hN)
      exact ⟨l1.trans htm, l2⟩
  obtain ⟨l1, l2⟩ := hlc
  have hq : (timer_stage (lock_core u d) n).timer
      = (s0.cfg.recon_lock_duration : Int) - ((i + 1 : Nat) : Int) * (n : Int) := by
    have hx : toI32 ((s0.cfg.recon_lock_duration : Int) - (i : Int) * (n : Int) - (n : Int))
        = (s0.cfg.recon_lock_duration : Int) - (i : Int) * (n : Int) - (n : Int) :=
      toI32_of_lt (by omega) (by omega)
    rw [timer_stage_timer, l1, hx]
    simp only [lock_core_frame, h.cfg, hm]
    rw [if_neg (by omega), if_pos (Or.inr trivial), if_neg (by omega)]
    push_cast
    omega
  obtain ⟨t, htick, hokt, hcfg, hlist, hit, -, hcase⟩ := tick_summary sv u d n h.ok h.index_stepper
  have hng : ¬ motion_guard (timer_stage (lock_core u d) n) := by
    unfold motion_guard
    rw [hq]
    simp only [timer_stage_frame, lock_core_frame, h.stepper, h.index_stepper]
    intro hcon
    rcases hcon.2.1 with a | a | a
    · push_cast at a; omega
    · exact a rfl
    · exact a rfl
  rcases hcase with ⟨-, hs⟩ | ⟨hg, -⟩
  · refine ⟨t, htick, ?_⟩
    constructor
    · exact hokt
    · exact hcfg.trans h.cfg
    · exact hlist.trans h.frequency_list
    · rw [hs.recon]; simpa using h.recon
    · rw [hs.stepper]; simpa using h.stepper
    · exact hit
    · right
      refine ⟨hs.timer.trans hq, ?_, by omega⟩
      rw [hs.freq_lock]; simpa using l2
  · exact absurd hg hng

/-- The tick of a Sparse lock attempt whose matching sample completes the
count. -/
theorem sparse_final (sv : Int → Int) (s0 u : ReconView) (i c : Nat) (d : Int) (n : Nat)
    (h : SparseRun s0 u i c n)
    (hb : (i : Int) * (n : Int) < (s0.cfg.recon_lock_duration : Int))
    (hL2 : s0.cfg.recon_lock_duration < 2147483648)
    (hd : d > s0.cfg.squelch) (hN : c + 1 = s0.cfg.recon_lock_nb_match) :
    ∃ t, on_statistics_update sv u d n = some t ∧ t.cfg = s0.cfg ∧ t.status = 2 ∧
      (t.freq_lock = s0.cfg.recon_lock_nb_match ∨
        (t.freq_lock = 0 ∧ t.recon = false ∧ t.has_looped = true ∧
          s0.cfg.continuous = false)) := by
  obtain ⟨harm, -⟩ := sparse_armed h hb hL2
  obtain ⟨l1, l2⟩ := lock_core_lock u d c h.recon
    (by rcases harm with ⟨a, b⟩ | ⟨a, b⟩
        · exact Or.inl ⟨a, b⟩
        · exact Or.inr ⟨a, b⟩)
    (by rw [h.cfg]; exact hd) (by rw [h.cfg]; exact hN)
  rw [h.cfg] at l1
  obtain ⟨t, htick, -, hcfg, -, -, hst, hcase⟩ := tick_summary sv u d n h.ok h.index_stepper
  refine ⟨t, htick, hcfg.trans h.cfg, hst.trans l2, ?_⟩
  rcases hcase with ⟨-, hs⟩ | ⟨-, ⟨-, b, -, -⟩ | ⟨a, b, c, e, -, -⟩⟩
  · left
    rw [hs.freq_lock]
    simpa using l1
  · exact Or.inl (b.trans l1)
  · right
    rw [h.cfg] at a
    exact ⟨e, c, b, a⟩

/-- A Sparse lock attempt run to its end: the samples `pre`, of which all but
the missing matches are counted, then a matching sample that completes the
count. -/
theorem sparse_run (sv : Int → Int) (s0 : ReconView) (n : Nat) (last : Int)
    (hm : s0.cfg.recon_match_mode = RECON_MATCH_SPARSE) (hlast : last > s0.cfg.squelch)
    (hL2 : s0.cfg.recon_lock_duration < 2147483648) :
    ∀ (pre : List Int) (u : ReconView) (i c : Nat), SparseRun s0 u i c n →
      c + pre.countP (fun d => decide (d > s0.cfg.squelch)) + 1 = s0.cfg.recon_lock_nb_match →
      ((i : Int) + (pre.length : Int)) * (n : Int) < (s0.cfg.recon_lock_duration : Int) →
      ∃ t, run_ticks sv n u (pre ++ [last]) = some t ∧ t.cfg = s0.cfg ∧ t.status = 2 ∧
        (t.freq_lock = s0.cfg.recon_lock_nb_match ∨
          (t.freq_lock = 0 ∧ t.recon = false ∧ t.has_looped = true ∧
            s0.cfg.continuous = false)) := by
  intro pre
  induction pre with
  | nil =>
    intro u i c hS hc hb
    obtain ⟨t, htick, hcfg, hst, hfl⟩ := sparse_final sv s0 u i c last n hS
      (by simpa using hb) hL2 hlast (by simpa using hc)
    exact ⟨t, by simp [run_ticks, htick], hcfg, hst, hfl⟩
  | cons d rest ih =>
    intro u i c hS hc hb
    rw [List.countP_cons] at hc
    have hn0 : (0 : Int) ≤ (n : Int) := Int.natCast_nonneg n
    have hr0 : (0 : Int) ≤ (rest.length : Int) := Int.natCast_nonneg _
    have hexp : ((i : Int) + ((d :: rest).length : Int)) * (n : Int)
        = ((i : Int) + 1) * (n : Int) + (rest.length : Int) * (n : Int) := by
      simp only [List.length_cons]
      push_cast
      ring
    have hrn : (0 : Int) ≤ (rest.length : Int) * (n : Int) := mul_nonneg hr0 hn0
    have hdec : (if decide (d > s0.cfg.squelch) = true then 1 else 0)
        = (if d > s0.cfg.squelch then 1 else 0) := by
      by_cases hd : d > s0.cfg.squelch <;> simp [hd]
    rw [hdec] at hc
    obtain ⟨t1, htick, hS1⟩ := sparse_step sv s0 u i c d n hS hm (by omega) hL2 (by omega)
    obtain ⟨t, hrun, hres⟩ := ih t1 (i + 1) _ hS1 (by omega)
      (by
        have h2 : (((i + 1 : Nat) : Int) + (rest.length : Int)) * (n : Int)
            = ((i : Int) + 1) * (n : Int) + (rest.length : Int) * (n : Int) := by
          push_cast
          ring
        rw [h2, ← hexp]
        exact hb)
    exact ⟨t, by simp [run_ticks, htick, hrun], hres⟩

/-! ## The tick, stage by stage -/

/-- The boundary forcing of lines 1213-1222 keeps what the step left. -/
theorem loop_boundary_keeps_advanced {s a : ReconView} (h : Advanced s a) :
    Advanced s (loop_boundary a) := by
  have hb := loop_boundary_advanced h
  constructor
  · simpa using h.cfg
  · simpa using h.frequency_list
  · simpa using h.stepper
  · rw [hb.1]; exact h.lo
  · rw [hb.1]; exact h.hi
  · intro hl hf; rw [hb.1]; exact h.fwd_wrap (by simpa using hl) hf
  · intro hl hf; rw [hb.1]; exact h.rev_wrap (by simpa using hl) hf
  · intro hl; rw [hb.2]; exact h.changed (by simpa using hl)

/-- The directional advance once the entry under the cursor has been read. -/
theorem directional_advance_eq (p : ReconView) (e : freqman_entry)
    (he : entry_at p.frequency_list p.current_index = some e) :
    directional_advance (motion_start p)
      = some (loop_boundary (advance_kind e.type (motion_start p))) := by
  unfold directional_advance
  simp only [motion_start_frame, he, Option.map_some']

/-- The collaborator calls of the lock evaluation leave the engine as it is. -/
theorem with_io_same (s : ReconView) (r : Bool) (ef : List Effect) :
    SameEngine s (with_io s r ef) := by
  constructor <;> simp

/-- A tick with no index jump pending, stage by stage: the state `s1` the lock
evaluation returns, then either the motion code is skipped, or it makes the
directional advance `a` and reloads the entry under the new cursor. -/
theorem tick_stages (sv : Int → Int) (s : ReconView) (d : Int) (n : Nat) (hok : cursor_ok s)
    (hi : s.index_stepper = 0) :
    ∃ s1 t, lock_stage s d = some s1 ∧ SameEngine (lock_core s d) s1 ∧
      on_statistics_update sv s d n = some t ∧ cursor_ok t ∧
      (¬ motion_guard (timer_stage s1 n) → SameEngine (timer_stage s1 n) t) ∧
      (motion_guard (timer_stage s1 n) →
        ∃ a e', directional_advance (motion_start (timer_stage s1 n)) = some a ∧
          Advanced (motion_start (timer_stage s1 n)) a ∧
          entry_at s.frequency_list a.current_index = some e' ∧
          SameEngine (finish_motion (reload_core a e')) t) := by
  obtain ⟨r, ef, hls, hstill, hmove, -⟩ := tick_cases_io sv s d n hok
  obtain ⟨t', ht', hokt, -⟩ := tick_summary sv s d n hok hi
  unfold pre_motion at hstill hmove
  refine ⟨with_io (lock_core s d) r ef, t', hls, with_io_same _ r ef, ht', hokt,
    fun hg => ?_, fun hg => ?_⟩
  · obtain ⟨t, ht, hs⟩ := hstill hg
    rw [ht] at ht'
    cases ht'
    exact hs
  · obtain ⟨e, e', t, he, hadv, he', ht, hs⟩ := hmove hg hi
    rw [ht] at ht'
    cases ht'
    have hb := loop_boundary_advanced hadv
    refine ⟨_, e', directional_advance_eq _ e (by simpa using he),
      loop_boundary_keeps_advanced hadv, ?_, hs⟩
    rw [hb.1]
    exact he'

/-- What the directional advance leaves unchanged: everything but the cursor,
the tuned frequency and the two motion flags. -/
theorem directional_advance_keeps {p a : ReconView} (h : directional_advance p = some a) :
    a.cfg = p.cfg ∧ a.frequency_list = p.frequency_list ∧ a.minfreq = p.minfreq ∧
    a.maxfreq = p.maxfreq ∧ a.recon = p.recon ∧ a.stepper = p.stepper ∧
    a.index_stepper = p.index_stepper ∧ a.timer = p.timer ∧ a.freq_lock = p.freq_lock ∧
    a.status = p.status ∧ a.continuous_lock = p.continuous_lock := by
  unfold directional_advance at h
  cases he : entry_at p.frequency_list p.current_index with
  | none => rw [he] at h; cases h
  | some e =>
    rw [he] at h
    simp only [Option.map_some', Option.some.injEq] at h
    subst h
    simp

/-- A running dwell timer, or a pause, keeps the motion code from running when
no manual motion is pending. -/
theorem motion_guard_auto {p : ReconView} (hst : p.stepper = 0) (hi : p.index_stepper = 0)
    (hg : motion_guard p) : p.recon = true ∧ p.timer = 0 := by
  obtain ⟨h1, h2, -⟩ := hg
  constructor
  · rcases h1 with h | h | h
    · exact h
    · exact absurd hst h
    · exact absurd hi h
  · rcases h2 with h | h | h
    · exact h
    · exact absurd hst h
    · exact absurd hi h

/-- The direction tests of the motion code read members that the lock
evaluation and the timer decrement leave alone. -/
theorem moving_same {s s1 : ReconView} {d : Int} (n : Nat) (hc : SameEngine (lock_core s d) s1) :
    moving_forward (motion_start (timer_stage s1 n)) = moving_forward s ∧
    moving_reverse (motion_start (timer_stage s1 n)) = moving_reverse s :=
  moving_forward_congr (by simp [hc.cfg]) (by simp [hc.stepper])

/-- A step that moves the cursor sets the change flag. -/
theorem advance_kind_changed (k : freqman_entry_type) (s : ReconView)
    (h : (advance_kind k s).current_index ≠ s.current_index) :
    (advance_kind k s).entry_has_changed = true := by
  revert h
  cases k <;>
    simp only [advance_kind, advance_single, advance_range, advance_hamradio, range_forward,
      range_reverse, range_check_high, range_check_low, range_step_up, range_step_down,
      hamradio_forward, hamradio_reverse, cursor_next, cursor_prev, wrap_high, wrap_low,
      cursor_inc, cursor_dec] <;>
    split_ifs <;> simp

/-- A directional advance that moves the cursor sets the change flag. -/
theorem directional_advance_changed {p a : ReconView} (h : directional_advance p = some a)
    (hne : a.current_index ≠ p.current_index) : a.entry_has_changed = true := by
  unfold directional_advance at h
  cases he : entry_at p.frequency_list p.current_index with
  | none => rw [he] at h; cases h
  | some e =>
    rw [he] at h
    simp only [Option.map_some', Option.some.injEq] at h
    subst h
    unfold loop_boundary at hne ⊢
    split_ifs at hne ⊢ with hl
    · unfold boundary_index
      split_ifs <;> simp
    · exact advance_kind_changed e.type p hne

/-- The direction tests of the reload code depend on `fwd`, `stepper` and
`index_stepper` only. -/
theorem reload_forward_congr {s a : ReconView} (hcfg : a.cfg = s.cfg)
    (hst : a.stepper = s.stepper) (hi : a.index_stepper = s.index_stepper) :
    reload_forward a = reload_forward s ∧ reload_reverse a = reload_reverse s := by
  unfold reload_forward reload_reverse
  rw [hcfg, hst, hi]
  exact ⟨rfl, rfl⟩

/-- One of the two tests of the reload code holds. -/
theorem reload_cases (s : ReconView) :
    reload_forward s = true ∨ (reload_forward s = false ∧ reload_reverse s = true) := by
  unfold reload_forward reload_reverse
  cases s.cfg.fwd <;> simp <;> omega

/-- The reload of lines 1236-1264 for an entry that changed: the tuned frequency
and, for a Range or a RepeaterPair, the cached bounds. -/
theorem reload_core_reset (x : ReconView) (e : freqman_entry)
    (hch : x.entry_has_changed = true) :
    (e.type = freqman_entry_type.SINGLE → (reload_core x e).freq = e.frequency_a) ∧
    (e.type ≠ freqman_entry_type.SINGLE →
      (reload_core x e).minfreq = e.frequency_a ∧ (reload_core x e).maxfreq = e.frequency_b ∧
      (reload_forward x = true → (reload_core x e).freq = e.frequency_a) ∧
      (reload_forward x = false → (reload_core x e).freq = e.frequency_b)) := by
  have hc := reload_cases x
  unfold reload_core
  rw [if_pos hch]
  unfold reload_from reload_bounds near_bound set_bounds
  have hf : ∀ m M : Int, reload_forward { x with timer := 0, minfreq := m, maxfreq := M }
      = reload_forward x := fun _ _ => rfl
  have hr : ∀ m M : Int, reload_reverse { x with timer := 0, minfreq := m, maxfreq := M }
      = reload_reverse x := fun _ _ => rfl
  cases hk : e.type <;> simp only [hf, hr] <;> rcases hc with h | ⟨h, h'⟩ <;>
    first | simp [h, h'] | simp [h]

/-- The lock evaluation on an engine that is already Locked with a running
timer: only the refresh of lines 1107-1112 can write. -/
theorem lock_core_hold (u : ReconView) (d : Int) (hr : u.recon = true) (ht : u.timer ≠ 0)
    (hfl : u.freq_lock ≥ u.cfg.recon_lock_nb_match) (h2 : u.status = 2) :
    (lock_core u d).freq_lock = u.freq_lock ∧ (lock_core u d).status = 2 ∧
    (lock_core u d).continuous_lock = u.continuous_lock ∧
    (lock_core u d).timer =
      (if u.cfg.wait < 0 then (if d > u.cfg.squelch then |u.cfg.wait| else u.timer)
       else u.timer) := by
  have hnl : ¬ u.freq_lock < u.cfg.recon_lock_nb_match := not_lt.mpr hfl
  have hs := locking_streak (rearm (store_sample u d))
  have hl := locked_core_streak (locking (rearm (store_sample u d)))
  simp only [locking_fields, rearm_fields, store_sample_frame, if_neg ht, locking_frame,
    rearm_frame, store_sample_db] at hs hl
  unfold lock_core
  rw [if_pos hr]
  refine ⟨?_, ?_, ?_, ?_⟩
  · simp [ht, hnl]
  · simp [ht, hnl, h2, hfl]
  · rw [hl.2 (by simp [hnl, h2]), hs.2.2.2 hnl]
  · simp [ht, hnl, h2, hfl]

/-- The lock evaluation on the tick of the lock transition. -/
theorem lock_core_transition (s : ReconView) (d : Int) (h : lock_transition_tick s d) :
    (lock_core s d).status = 2 ∧ (lock_core s d).freq_lock ≥ s.cfg.recon_lock_nb_match ∧
    (lock_core s d).continuous_lock = false ∧
    (s.cfg.wait ≥ 0 → (lock_core s d).timer = s.cfg.wait) ∧
    (s.cfg.wait < 0 → d > s.cfg.squelch → (lock_core s d).timer = |s.cfg.wait|) := by
  obtain ⟨hr, hfl, h2⟩ := h
  have hl := locked_core_streak (locking (rearm (store_sample s d)))
  have hf := locked_core_fields (locking (rearm (store_sample s d)))
  simp only [locking_frame, rearm_frame, store_sample_frame, store_sample_db] at hl hf
  unfold lock_core
  rw [if_pos hr]
  refine ⟨?_, ?_, hl.1 hfl h2, fun hw => ?_, fun hw hd => ?_⟩
  · rw [hf.1, if_pos hfl]
  · simpa using hfl
  · rw [hf.2, if_pos hfl, if_neg (not_lt.mpr hw), if_pos h2]
  · rw [hf.2, if_pos hfl, if_pos hw, if_pos hd]

/-- A tick with no manual motion pending: the motion code runs exactly when
scanning is active, the dwell timer is at zero after the decrement and the list
is not empty, and it is then a directional advance that leaves the timer at
zero. -/
theorem auto_tick (sv : Int → Int) (u : ReconView) (d : Int) (n : Nat) (hok : cursor_ok u)
    (hst : u.stepper = 0) (hi : u.index_stepper = 0) :
    ∃ s1 t, lock_stage u d = some s1 ∧ SameEngine (lock_core u d) s1 ∧
      on_statistics_update sv u d n = some t ∧ cursor_ok t ∧ t.stepper = 0 ∧
      (¬ (u.recon = true ∧ (timer_stage s1 n).timer = 0 ∧ u.frequency_list ≠ []) →
        SameEngine (timer_stage s1 n) t) ∧
      (u.recon = true → (timer_stage s1 n).timer = 0 → u.frequency_list ≠ [] →
        motion_guard (timer_stage s1 n) ∧
        ∃ a, directional_advance (motion_start (timer_stage s1 n)) = some a ∧
          t.current_index = a.current_index ∧ t.has_looped = a.has_looped ∧
          t.entry_has_changed = a.entry_has_changed ∧
          (a.entry_has_changed = false → t.freq = a.freq) ∧ t.timer = 0) := by
  obtain ⟨s1, t, hls, hsc, ht, hokt, hstill, hmove⟩ := tick_stages sv u d n hok hi
  have hgi : motion_guard (timer_stage s1 n) ↔
      (u.recon = true ∧ (timer_stage s1 n).timer = 0 ∧ u.frequency_list ≠ []) := by
    unfold motion_guard
    simp only [timer_stage_frame, hsc.recon, hsc.stepper, hsc.index_stepper,
      hsc.frequency_list, lock_core_frame, hst, hi]
    simp [List.length_pos]
  have hstep : t.stepper = 0 := by
    by_cases hg : motion_guard (timer_stage s1 n)
    · obtain ⟨a, e', ha, -, -, hs⟩ := hmove hg
      obtain ⟨-, -, -, -, -, k2, -⟩ := directional_advance_keeps ha
      rw [hs.stepper]
      simp [k2, hsc.stepper, hst]
    · rw [(hstill hg).stepper]
      simp [hsc.stepper, hst]
  refine ⟨s1, t, hls, hsc, ht, hokt, hstep, fun h => hstill (fun hg => h (hgi.1 hg)),
    fun h1 h2 h3 => ?_⟩
  have hg := hgi.2 ⟨h1, h2, h3⟩
  obtain ⟨a, e', ha, -, -, hs⟩ := hmove hg
  have hk := (directional_advance_keeps ha).2.2.2.2.2.2.2.1
  refine ⟨hg, a, ha, ?_, ?_, ?_, fun hch => ?_, ?_⟩
  · rw [hs.current_index]; simp
  · rw [hs.has_looped]; simp
  · rw [hs.entry_has_changed]; simp
  · rw [hs.freq]
    simp only [finish_motion_frame]
    unfold reload_core
    rw [hch]
    simp
  · rw [hs.timer]
    simp only [finish_motion_fields, reload_core_timer, reload_core_frame, hk,
      motion_start_frame, h2]
    split_ifs <;> rfl

/-- The dwell timer after the decrement, when it started above the elapsed
time (and within the range of its type): it is still running. -/
theorem timer_stage_running (s1 : ReconView) (n : Nat) (h : (n : Int) < s1.timer)
    (hmax : s1.timer < 2147483648) :
    0 < (timer_stage s1 n).timer ∧
    (s1.continuous_lock = false → (timer_stage s1 n).timer = s1.timer - (n : Int)) := by
  have hx : toI32 (s1.timer - (n : Int)) = s1.timer - (n : Int) :=
    toI32_of_lt (by omega) (by omega)
  rw [timer_stage_timer, hx]
  constructor
  · split_ifs <;> omega
  · intro hc
    rw [if_neg (by omega), if_pos (Or.inl hc), if_neg (by omega)]

/-- A tick that leaves the dwell timer running, on an engine holding a lock with
nothing manual pending, keeps the lock, the cursor and the frequency. -/
theorem holding_tick (sv : Int → Int) (s0 u : ReconView) (d : Int) (n : Nat)
    (h : Holding s0 u) (hrun : (n : Int) < (lock_core u d).timer)
    (hmax : (lock_core u d).timer < 2147483648) :
    ∃ s1 t, lock_stage u d = some s1 ∧ s1.timer = (lock_core u d).timer ∧
      on_statistics_update sv u d n = some t ∧ Holding s0 t ∧
      t.continuous_lock = u.continuous_lock ∧
      (u.continuous_lock = false → t.timer = (lock_core u d).timer - (n : Int)) := by
  have hfl : u.freq_lock ≥ u.cfg.recon_lock_nb_match := by rw [h.cfg]; exact h.freq_lock
  obtain ⟨c1, c2, c3, -⟩ := lock_core_hold u d h.recon (ne_of_gt h.timer) hfl h.status
  obtain ⟨s1, t, hls, hsc, ht, hokt, hst, hstill, -⟩ :=
    auto_tick sv u d n h.ok h.stepper h.index_stepper
  have hrun1 : (n : Int) < s1.timer := by rw [hsc.timer]; exact hrun
  obtain ⟨r1, r2⟩ := timer_stage_running s1 n hrun1 (by rw [hsc.timer]; exact hmax)
  have hs := hstill (fun hh => by omega)
  refine ⟨s1, t, hls, hsc.timer, ht, ?_, ?_, fun hc => ?_⟩
  · constructor
    · exact hokt
    · rw [hs.cfg]; simp [hsc.cfg, h.cfg]
    · rw [hs.frequency_list]; simp [hsc.frequency_list, h.frequency_list]
    · rw [hs.recon]; simp [hsc.recon, h.recon]
    · exact hst
    · rw [hs.index_stepper]; simp [hsc.index_stepper, h.index_stepper]
    · rw [hs.status]; simp [hsc.status, c2]
    · rw [hs.freq_lock]; simp only [timer_stage_frame, hsc.freq_lock, c1]; exact h.freq_lock
    · rw [hs.timer]; exact r1
    · rw [hs.current_index]; simp [hsc.current_index, h.current_index]
    · rw [hs.freq]; simp [hsc.freq, h.freq]
  · rw [hs.continuous_lock]; simp [hsc.continuous_lock, c3]
  · rw [hs.timer, r2 (by rw [hsc.continuous_lock, c3, hc]), hsc.timer]

/-- The tick on which a dwell timer of at most the elapsed time runs out (the
difference being in the range of the timer's type), with nothing manual pending
and a list to scan: the motion code runs and makes a directional advance. -/
theorem release_tick (sv : Int → Int) (u : ReconView) (d : Int) (n : Nat) (hok : cursor_ok u)
    (hst : u.stepper = 0) (hi : u.index_stepper = 0) (hr : u.recon = true)
    (hne : u.frequency_list ≠ []) (hc : (lock_core u d).timer ≤ (n : Int))
    (hmin : (n : Int) - 2147483648 ≤ (lock_core u d).timer)
    (hcl : (lock_core u d).continuous_lock = false) :
    ∃ s1 t a, lock_stage u d = some s1 ∧ s1.timer = (lock_core u d).timer ∧
      on_statistics_update sv u d n = some t ∧ motion_guard (timer_stage s1 n) ∧
      directional_advance (motion_start (timer_stage s1 n)) = some a ∧
      t.current_index = a.current_index ∧ t.has_looped = a.has_looped ∧
      t.entry_has_changed = a.entry_has_changed ∧
      (a.entry_has_changed = false → t.freq = a.freq) ∧ t.timer = 0 := by
  obtain ⟨s1, t, hls, hsc, ht, -, -, -, hmove⟩ := auto_tick sv u d n hok hst hi
  have hx : toI32 ((lock_core u d).timer - (n : Int)) = (lock_core u d).timer - (n : Int) :=
    toI32_of_lt (by omega) (by omega)
  have hz : (timer_stage s1 n).timer = 0 := by
    rw [timer_stage_timer, hsc.timer, hsc.continuous_lock, hcl, hx]
    split_ifs <;> first | rfl | omega | simp_all
  obtain ⟨hg, a, ha, r⟩ := hmove hr hz hne
  exact ⟨s1, t, a, hls, hsc.timer, ht, hg, ha, r⟩

/-- The tick of the lock transition with `0 <= wait` and more than the elapsed
time to wait: the countdown has started and nothing moved. -/
theorem lock_tick_countdown (sv : Int → Int) (s : ReconView) (d : Int) (n : Nat)
    (hok : cursor_ok s) (hst : s.stepper = 0) (hi : s.index_stepper = 0)
    (hlock : lock_transition_tick s d) (hw : 0 ≤ s.cfg.wait) (hn : (n : Int) < s.cfg.wait)
    (hmax : s.cfg.wait < 2147483648) :
    ∃ t, on_statistics_update sv s d n = some t ∧ Countdown s t 1 n := by
  obtain ⟨c1, c2, c3, c4, -⟩ := lock_core_transition s d hlock
  have c4' := c4 hw
  obtain ⟨s1, t, hls, hsc, ht, hokt, hstp, hstill, -⟩ := auto_tick sv s d n hok hst hi
  obtain ⟨r1, r2⟩ := timer_stage_running s1 n (by rw [hsc.timer, c4']; exact hn)
    (by rw [hsc.timer, c4']; exact hmax)
  have hs := hstill (fun hh => by omega)
  refine ⟨t, ht, ⟨?_, ?_, ?_⟩⟩
  · constructor
    · exact hokt
    · rw [hs.cfg]; simp [hsc.cfg]
    · rw [hs.frequency_list]; simp [hsc.frequency_list]
    · rw [hs.recon]; simp [hsc.recon, hlock.1]
    · exact hstp
    · rw [hs.index_stepper]; simp [hsc.index_stepper, hi]
    · rw [hs.status]; simp [hsc.status, c1]
    · rw [hs.freq_lock]; simp only [timer_stage_frame, hsc.freq_lock]; exact c2
    · rw [hs.timer]; exact r1
    · rw [hs.current_index]; simp [hsc.current_index]
    · rw [hs.freq]; simp [hsc.freq]
  · rw [hs.continuous_lock]; simp [hsc.continuous_lock, c3]
  · rw [hs.timer, r2 (by rw [hsc.continuous_lock, c3]), hsc.timer, c4']
    push_cast
    ring

/-- One more tick of a countdown that has more than the elapsed time left. -/
theorem countdown_step (sv : Int → Int) (s0 u : ReconView) (k : Nat) (d : Int) (n : Nat)
    (h : Countdown s0 u k n) (hw : 0 ≤ s0.cfg.wait)
    (hn : ((k : Int) + 1) * (n : Int) < s0.cfg.wait) (hmax : s0.cfg.wait < 2147483648) :
    ∃ t, on_statistics_update sv u d n = some t ∧ Countdown s0 t (k + 1) n := by
  have hfl : u.freq_lock ≥ u.cfg.recon_lock_nb_match := by
    rw [h.hold.cfg]; exact h.hold.freq_lock
  obtain ⟨-, -, -, c4⟩ := lock_core_hold u d h.hold.recon (ne_of_gt h.hold.timer) hfl
    h.hold.status
  rw [h.hold.cfg, if_neg (not_lt.mpr hw), h.left] at c4
  have hkn : (0 : Int) ≤ (k : Int) * (n : Int) :=
    mul_nonneg (Int.natCast_nonneg k) (Int.natCast_nonneg n)
  obtain ⟨s1, t, -, -, ht, hh, q1, q2⟩ := holding_tick sv s0 u d n h.hold
    (by rw [c4]; linarith) (by rw [c4]; linarith)
  refine ⟨t, ht, ⟨hh, q1.trans h.streak, ?_⟩⟩
  rw [q2 h.streak, c4]
  push_cast
  ring

/-- A countdown runs on as long as more than the elapsed time is left. -/
theorem countdown_run (sv : Int → Int) (s0 : ReconView) (n : Nat) (hw : 0 ≤ s0.cfg.wait)
    (hmax : s0.cfg.wait < 2147483648) :
    ∀ (l : List Int) (u : ReconView) (j : Nat), Countdown s0 u j n →
      ∀ k, k ≤ l.length → ((j : Int) + (k : Int)) * (n : Int) < s0.cfg.wait →
      ∃ v, run_ticks sv n u (l.take k) = some v ∧ Countdown s0 v (j + k) n := by
  intro l
  induction l with
  | nil =>
    intro u j h k hk _
    have : k = 0 := by simpa using hk
    subst this
    exact ⟨u, by simp [run_ticks], h⟩
  | cons d ds ih =>
    intro u j h k hk hb
    cases k with
    | zero => exact ⟨u, by simp [run_ticks], h⟩
    | succ k =>
      have hnn : (0 : Int) ≤ (n : Int) := Int.ofNat_nonneg n
      have hkk : (0 : Int) ≤ (k : Int) := Int.ofNat_nonneg k
      push_cast at hb
      obtain ⟨t, ht, hc⟩ := countdown_step sv s0 u j d n h hw (by nlinarith) hmax
      obtain ⟨v, hv, hcv⟩ := ih t (j + 1) hc k (by simpa using hk)
        (by push_cast; linarith)
      refine ⟨v, ?_, ?_⟩
      · simp only [List.take_succ_cons, run_ticks, ht, Option.some_bind]
        exact hv
      · have : j + (k + 1) = j + 1 + k := by omega
        rw [this]
        exact hcv

/-- A run over one more sample is the run so far followed by one tick. -/
theorem run_ticks_take_succ (sv : Int → Int) (n : Nat) :
    ∀ (l : List Int) (s u : ReconView) (k : Nat) (x : Int),
      run_ticks sv n s (l.take k) = some u → l.get? k = some x →
      run_ticks sv n s (l.take (k + 1)) = on_statistics_update sv u x n := by
  intro l
  induction l with
  | nil => intro s u k x _ hx; simp at hx
  | cons d ds ih =>
    intro s u k x hu hx
    cases k with
    | zero =>
      simp only [List.take_zero, run_ticks, Option.some.injEq] at hu
      simp only [List.get?_cons_zero, Option.some.injEq] at hx
      subst hu hx
      simp only [List.take_succ_cons, List.take_zero, run_ticks]
      cases on_statistics_update sv s d n <;> rfl
    | succ k =>
      simp only [List.take_succ_cons, run_ticks] at hu ⊢
      cases h : on_statistics_update sv s d n with
      | none => rw [h] at hu; simp at hu
      | some s1 =>
        rw [h] at hu
        simp only [Option.some_bind] at hu ⊢
        exact ih s1 u k x hu (by simpa using hx)

/-- The index jump whose new cursor is outside the list: line 1239 reads
outside the vector. -/
theorem motion_jump_none (s : ReconView) (hi : s.index_stepper ≠ 0)
    (he : entry_at s.frequency_list (index_jump (motion_start s)).current_index = none) :
    motion s = none := by
  unfold motion
  rw [if_pos (Or.inr (Or.inr hi))]
  unfold move_cursor
  rw [if_neg (by simpa using hi)]
  simp only [Option.some_bind]
  unfold reload_entry
  simp only [index_jump_fields, if_true, index_jump_frame, motion_start_frame]
  simp only [index_jump_fields] at he
  rw [he]
  rfl

/-- A tick that returns with an index jump pending: the motion code was skipped,
or the jump landed on an entry of the list, which was reloaded. -/
theorem tick_jump_inv (sv : Int → Int) (s t : ReconView) (d : Int) (n : Nat) (hok : cursor_ok s)
    (hi : s.index_stepper ≠ 0) (ht : on_statistics_update sv s d n = some t) :
    ∃ s1, lock_stage s d = some s1 ∧ SameEngine (lock_core s d) s1 ∧
      ((¬ motion_guard (timer_stage s1 n) ∧ SameEngine (timer_stage s1 n) t) ∨
       (motion_guard (timer_stage s1 n) ∧
          ∃ e', entry_at s.frequency_list
              (index_jump (motion_start (timer_stage s1 n))).current_index = some e' ∧
            SameEngine (finish_motion (reload_core
              (index_jump (motion_start (timer_stage s1 n))) e')) t)) := by
  obtain ⟨r, ef, hls, hstill, -, hjump⟩ := tick_cases_io sv s d n hok
  unfold pre_motion at hstill hjump
  refine ⟨_, hls, with_io_same _ r ef, ?_⟩
  by_cases hg : motion_guard (timer_stage (with_io (lock_core s d) r ef) n)
  · right
    refine ⟨hg, ?_⟩
    cases he : entry_at s.frequency_list
        (index_jump (motion_start (timer_stage (with_io (lock_core s d) r ef) n))).current_index with
    | none =>
      exfalso
      have hm := motion_jump_none (timer_stage (with_io (lock_core s d) r ef) n)
        (by simpa using hi) (by simpa using he)
      unfold on_statistics_update at ht
      rw [hls] at ht
      simp only [Option.some_bind] at ht
      rw [motion_stage_run _ hg, hm] at ht
      cases ht
    | some e' =>
      obtain ⟨t', ht', hs⟩ := hjump hg hi e' he
      rw [ht] at ht'
      cases ht'
      exact ⟨e', rfl, hs⟩
  · left
    obtain ⟨t', ht', hs⟩ := hstill hg
    rw [ht] at ht'
    cases ht'
    exact ⟨hg, hs⟩

/-- The tick of the lock transition with `wait < 0`, a value on which `abs`
is defined, on a sample above the squelch and with `abs(wait)` greater than the
elapsed time: the engine holds the lock it has just taken. -/
theorem lock_tick_holding (sv : Int → Int) (s : ReconView) (d : Int) (n : Nat)
    (hok : cursor_ok s) (hst : s.stepper = 0) (hi : s.index_stepper = 0)
    (hlock : lock_transition_tick s d) (hw : s.cfg.wait < 0)
    (hmin : -2147483648 < s.cfg.wait) (hd : d > s.cfg.squelch)
    (hn : (n : Int) < |s.cfg.wait|) :
    ∃ t, on_statistics_update sv s d n = some t ∧ Holding s t := by
  obtain ⟨c1, c2, c3, -, c5⟩ := lock_core_transition s d hlock
  have c5' := c5 hw hd
  have habs : |s.cfg.wait| < 2147483648 := by
    rw [abs_of_neg hw]
    omega
  obtain ⟨s1, t, hls, hsc, ht, hokt, hstp, hstill, -⟩ := auto_tick sv s d n hok hst hi
  obtain ⟨r1, -⟩ := timer_stage_running s1 n (by rw [hsc.timer, c5']; exact hn)
    (by rw [hsc.timer, c5']; exact habs)
  have hs := hstill (fun hh => by omega)
  refine ⟨t, ht, ?_⟩
  constructor
  · exact hokt
  · rw [hs.cfg]; simp [hsc.cfg]
  · rw [hs.frequency_list]; simp [hsc.frequency_list]
  · rw [hs.recon]; simp [hsc.recon, hlock.1]
  · exact hstp
  · rw [hs.index_stepper]; simp [hsc.index_stepper, hi]
  · rw [hs.status]; simp [hsc.status, c1]
  · rw [hs.freq_lock]; simp only [timer_stage_frame, hsc.freq_lock]; exact c2
  · rw [hs.timer]; exact r1
  · rw [hs.current_index]; simp [hsc.current_index]
  · rw [hs.freq]; simp [hsc.freq]

/-! ## The removal in closed form -/

/-- The clamp of lines 592-594 and 596-598 on a list shorter than `2 ^ 31`. -/
theorem remove_clamp_fields (s : ReconView)
    (hlen : (s.frequency_list.length : Int) < 2147483648) :
    (remove_clamp s).frequency_list = s.frequency_list ∧
    (remove_clamp s).current_index =
      (if s.current_index ≥ (s.frequency_list.length : Int) then
        (s.frequency_list.length : Int) - 1 else s.current_index) ∧
    (remove_clamp s).recon = s.recon ∧ (remove_clamp s).cfg = s.cfg ∧
    (remove_clamp s).timer = s.timer ∧ (remove_clamp s).freq_lock = s.freq_lock ∧
    (remove_clamp s).effects = s.effects := by
  have hn : (0 : Int) ≤ (s.frequency_list.length : Int) := Int.ofNat_nonneg _
  unfold remove_clamp
  rw [toI32_of_lt (by omega) hlen, toI32_of_lt (by omega) (by omega)]
  split_ifs <;> simp

/-- The removal of lines 592-598 in closed form, for a cursor that is not
negative on a non-empty list: the cursor is clamped, the entry under it erased,
and the cursor clamped again. -/
theorem remove_at_cursor_eq (s : ReconView) (h0 : 0 ≤ s.current_index)
    (hne : s.frequency_list ≠ []) (hlen : (s.frequency_list.length : Int) < 2147483648) :
    ∃ u, remove_at_cursor s = some u ∧
      u.frequency_list = s.frequency_list.eraseIdx
        (min s.current_index ((s.frequency_list.length : Int) - 1)).toNat ∧
      (u.frequency_list.length : Int) = (s.frequency_list.length : Int) - 1 ∧
      u.current_index = min s.current_index ((s.frequency_list.length : Int) - 2) ∧
      u.recon = s.recon ∧ u.cfg = s.cfg ∧ u.timer = s.timer ∧ u.freq_lock = s.freq_lock ∧
      u.effects = s.effects := by
  have hpos : 0 < s.frequency_list.length := List.length_pos.2 hne
  obtain ⟨c1, c2, c3, c4, c5, c6, c7⟩ := remove_clamp_fields s hlen
  have hc : (remove_clamp s).current_index
      = min s.current_index ((s.frequency_list.length : Int) - 1) := by
    rw [c2]
    split_ifs <;> omega
  have hin : 0 ≤ (remove_clamp s).current_index ∧
      (remove_clamp s).current_index < ((remove_clamp s).frequency_list.length : Int) := by
    rw [c1, hc]
    omega
  have hi : (min s.current_index ((s.frequency_list.length : Int) - 1)).toNat
      < s.frequency_list.length := by omega
  have hl : ((s.frequency_list.eraseIdx
      (min s.current_index ((s.frequency_list.length : Int) - 1)).toNat).length : Int)
      = (s.frequency_list.length : Int) - 1 := by
    rw [List.length_eraseIdx, if_pos hi]
    omega
  unfold remove_at_cursor remove_erase
  rw [if_pos hin]
  simp only [Option.map_some']
  refine ⟨_, rfl, ?_⟩
  have he : (erase_at_cursor (remove_clamp s)).frequency_list
      = s.frequency_list.eraseIdx
        (min s.current_index ((s.frequency_list.length : Int) - 1)).toNat := by
    unfold erase_at_cursor
    simp only [c1, hc]
  have he2 : (erase_at_cursor (remove_clamp s)).current_index
      = min s.current_index ((s.frequency_list.length : Int) - 1) := by
    unfold erase_at_cursor
    simp only [hc]
  obtain ⟨k1, k2, k3, k4, k5, k6, k7⟩ := remove_clamp_fields (erase_at_cursor (remove_clamp s))
    (by rw [he, hl]; omega)
  rw [he] at k1
  rw [he, hl, he2] at k2
  refine ⟨k1, by rw [k1]; exact hl, ?_, k3.trans c3, k4.trans c4, k5.trans c5, k6.trans c6,
    k7.trans c7⟩
  rw [k2]
  split_ifs <;> omega

/-- The handler after the removal proper, outside the manual range mode: with
an entry left the handler retunes to the entry under the cursor and zeroes the
timer and the match count; with none left, line 678 indexes the empty vector. -/
theorem button_remove_after (s u : ReconView) (hne : s.frequency_list ≠ [])
    (hm : s.cfg.manual_mode = false) (hu : remove_at_cursor s = some u) :
    (∀ e, entry_at u.frequency_list u.current_index = some e → u.frequency_list ≠ [] →
      ∃ t, button_remove_on_select s = some t ∧ t.frequency_list = u.frequency_list ∧
        t.current_index = u.current_index ∧ t.recon = u.recon ∧ t.timer = 0 ∧
        t.freq_lock = 0 ∧ t.effects = u.effects ++ [Effect.retune e.frequency_a]) ∧
    (u.frequency_list = [] → remove_retune u = none ∧ button_remove_on_select s = none) := by
  have hpos : s.frequency_list.length > 0 := List.length_pos.2 hne
  have hb : button_remove_on_select s = ((remove_show u).bind remove_retune).map reset_lock := by
    unfold button_remove_on_select remove_body remove_from_list
    rw [if_pos hpos, hm, hu]
    rfl
  constructor
  · intro e he hne'
    have hpos' : u.frequency_list.length > 0 := List.length_pos.2 hne'
    refine ⟨reset_lock { u with effects := u.effects ++ [Effect.retune e.frequency_a] }, ?_, ?_⟩
    · rw [hb]
      unfold remove_show remove_retune
      rw [if_pos hpos', he]
      simp only [Option.map_some', Option.some_bind, he]
    · simp [reset_lock]
  · intro hnil
    have hr : remove_retune u = none := by
      unfold remove_retune entry_at
      rw [hnil]
      split_ifs <;> simp
    refine ⟨hr, ?_⟩
    rw [hb]
    unfold remove_show
    rw [if_neg (by simp [hnil])]
    simp [hr]

/-- Nothing in the handler writes `recon`. -/
theorem button_remove_keeps_recon (s t : ReconView) (h : button_remove_on_select s = some t) :
    t.recon = s.recon := by
  have hc : ∀ x : ReconView, (remove_clamp x).recon = x.recon := by
    intro x; unfold remove_clamp; split_ifs <;> rfl
  have hrt : ∀ x y : ReconView, remove_retune x = some y → y.recon = x.recon := by
    intro x y hxy
    unfold remove_retune at hxy
    cases he : entry_at x.frequency_list x.current_index with
    | none => rw [he] at hxy; cases hxy
    | some e => rw [he] at hxy; cases hxy; rfl
  have hsh : ∀ x y : ReconView, remove_show x = some y → y = x := by
    intro x y hxy
    unfold remove_show at hxy
    split_ifs at hxy
    · cases he : entry_at x.frequency_list x.current_index with
      | none => rw [he] at hxy; cases hxy
      | some e => rw [he] at hxy; cases hxy; rfl
    · cases hxy; rfl
  have hat : ∀ x y : ReconView, remove_at_cursor x = some y → y.recon = x.recon := by
    intro x y hxy
    unfold remove_at_cursor remove_erase at hxy
    split_ifs at hxy
    · simp only [Option.map_some', Option.some.injEq] at hxy
      subst hxy
      rw [hc]
      exact hc x
    · cases hxy
  unfold button_remove_on_select at h
  split_ifs at h with hpos
  · unfold remove_body at h
    cases hb : (if (!s.cfg.manual_mode) = true then remove_from_list s
        else remove_from_output s) with
    | none => rw [hb] at h; cases h
    | some x =>
      rw [hb] at h
      simp only [Option.some_bind] at h
      cases hr : remove_retune x with
      | none => rw [hr] at h; cases h
      | some y =>
        rw [hr] at h
        simp only [Option.map_some', Option.some.injEq] at h
        subst h
        have hx : x.recon = s.recon := by
          split_ifs at hb
          · unfold remove_from_list at hb
            cases ha : remove_at_cursor s with
            | none => rw [ha] at hb; cases hb
            | some z =>
              rw [ha] at hb
              simp only [Option.some_bind] at hb
              rw [hsh z x hb]
              exact hat s z ha
          · unfold remove_from_output at hb
            cases he : entry_at s.frequency_list s.current_index with
            | none => rw [he] at hb; cases hb
            | some e => rw [he] at hb; cases hb; rfl
        show (reset_lock y).recon = s.recon
        rw [← hx, ← hrt x y hr]
        rfl
  · simp only [Option.map_some', Option.some.injEq] at h
    subst h
    rfl

/-! ## What every tick keeps -/

/-- The match count after the lock evaluation: it is incremented by a match
below the required count, zeroed by the re-arm, and never goes past the required
count when it was not past it. -/
theorem lock_core_freq_lock_le (s : ReconView) (d : Int)
    (h : s.freq_lock ≤ s.cfg.recon_lock_nb_match) :
    (lock_core s d).freq_lock ≤ s.cfg.recon_lock_nb_match := by
  unfold lock_core
  split_ifs
  · simp only [locked_core_frame, locking_fields, rearm_fields, rearm_frame, store_sample_frame,
      store_sample_db]
    split_ifs <;> omega
  · simpa using h

/-- What every tick that returns keeps, for a valid cursor: the settings, the
list, the validity of the cursor; and the match count is the one of the lock
evaluation, or zero. -/
theorem tick_returns_inv (sv : Int → Int) (s t : ReconView) (d : Int) (n : Nat)
    (hok : cursor_ok s) (ht : on_statistics_update sv s d n = some t) :
    cursor_ok t ∧ t.cfg = s.cfg ∧ t.frequency_list = s.frequency_list ∧
    (t.freq_lock = (lock_core s d).freq_lock ∨ t.freq_lock = 0) := by
  by_cases hi : s.index_stepper = 0
  · obtain ⟨t', ht', hokt, hcfg, hlist, -, -, hcase⟩ := tick_summary sv s d n hok hi
    rw [ht] at ht'
    cases ht'
    refine ⟨hokt, hcfg, hlist, ?_⟩
    rcases hcase with ⟨-, hs⟩ | ⟨-, ⟨-, h, -⟩ | ⟨-, -, -, h, -⟩⟩
    · left; rw [hs.freq_lock]; simp
    · exact Or.inl h
    · exact Or.inr h
  · obtain ⟨s1, -, hsc, hcase⟩ := tick_jump_inv sv s t d n hok hi ht
    rcases hcase with ⟨-, hs⟩ | ⟨-, e', he', hs⟩
    · refine ⟨?_, ?_, ?_, ?_⟩
      · exact cursor_ok_congr (by rw [hs.frequency_list]; simp [hsc.frequency_list])
          (by rw [hs.current_index]; simp [hsc.current_index]) hok
      · rw [hs.cfg]; simp [hsc.cfg]
      · rw [hs.frequency_list]; simp [hsc.frequency_list]
      · left; rw [hs.freq_lock]; simp [hsc.freq_lock]
    · have hb := entry_at_bounds he'
      have hl : t.frequency_list = s.frequency_list := by
        rw [hs.frequency_list]; simp [hsc.frequency_list]
      refine ⟨⟨by rw [hl]; exact hok.1, Or.inr ?_⟩, ?_, hl, ?_⟩
      · rw [hl, hs.current_index]
        simpa using hb
      · rw [hs.cfg]; simp [hsc.cfg]
      · rw [hs.freq_lock]
        simp only [finish_motion_fields, reload_core_frame, index_jump_frame, motion_start_frame,
          timer_stage_frame, hsc.freq_lock]
        split_ifs
        · exact Or.inr rfl
        · exact Or.inl rfl

/-! ## The tick on an empty list -/

theorem save_count_append_one (l : List Effect) (x : Effect) (hx : is_save x = false) :
    save_count (l ++ [x]) = save_count l := by
  unfold save_count
  simp [List.countP_append, hx]

/-- None of the audio, recording and radio calls is a save request. -/
theorem calls_keep_save_count (s : ReconView) :
    save_count (recon_stop_recording s).effects = save_count s.effects ∧
    save_count (audio_output_stop s).effects = save_count s.effects ∧
    save_count (audio_output_start s).effects = save_count s.effects ∧
    save_count (record_on_lock s).effects = save_count s.effects ∧
    save_count (retune_freq s).effects = save_count s.effects := by
  refine ⟨?_, ?_, ?_, ?_, ?_⟩
  · unfold recon_stop_recording
    split_ifs
    · exact save_count_append_one _ _ rfl
    · rfl
  · unfold audio_output_stop
    split_ifs
    · rfl
    · exact save_count_append_one _ _ rfl
  · unfold audio_output_start
    split_ifs
    · rfl
    · exact save_count_append_one _ _ rfl
  · unfold record_on_lock
    split_ifs
    · exact save_count_append_one _ _ rfl
    · rfl
  · unfold retune_freq
    split_ifs
    · exact save_count_append_one _ _ rfl
    · rfl

theorem locking_keeps_save_count (s : ReconView) :
    save_count (locking s).effects = save_count s.effects := by
  have hm : ∀ x : ReconView, save_count (locking_mute x).effects = save_count x.effects := by
    intro x
    unfold locking_mute
    split_ifs
    · rw [(calls_keep_save_count _).2.1, (calls_keep_save_count _).1]
    · rfl
  unfold locking
  split_ifs
  · simp only [locking_sample_frame]
    unfold locking_enter
    split_ifs
    · rw [hm]
    · rfl
  · rfl

theorem lock_calls_keep_save_count (s : ReconView) :
    save_count (lock_calls s).effects = save_count s.effects := by
  unfold lock_calls
  split_ifs
  · rw [(calls_keep_save_count _).2.2.2.1, (calls_keep_save_count _).2.2.1]
  · rfl

/-- On an empty list the guarded save is skipped. -/
theorem autosave_current_empty (s : ReconView) (he : s.frequency_list = []) :
    autosave_current s = some s := by
  unfold autosave_current
  simp [he]

/-- On an empty list the lock transition makes its audio and recording calls
only. -/
theorem lock_transition_empty (s : ReconView) (he : s.frequency_list = []) :
    lock_transition s = some (set_wait_timer (lock_calls (mark_locked s))) := by
  unfold lock_transition
  rw [autosave_current_empty _ (by simpa using he)]
  simp only [Option.some_bind]
  unfold lock_effects lock_calls
  split_ifs
  · rw [autosave_current_empty _ (by simpa using he)]
    rfl
  · rfl

/-- On an empty list the lock evaluation returns, and requests no save. -/
theorem lock_stage_empty (s : ReconView) (d : Int) (he : s.frequency_list = []) :
    ∃ s1, lock_stage s d = some s1 ∧ save_count s1.effects = save_count s.effects := by
  unfold lock_stage
  split_ifs
  · have hl : (locking (rearm (store_sample s d))).frequency_list = [] := by simpa using he
    have hs : save_count (locking (rearm (store_sample s d))).effects = save_count s.effects := by
      rw [locking_keeps_save_count]
      simp
    unfold locked
    split_ifs
    · rw [lock_transition_empty _ hl]
      refine ⟨_, rfl, ?_⟩
      simp only [stay_refresh_frame, set_wait_timer_frame]
      rw [lock_calls_keep_save_count]
      simpa using hs
    · refine ⟨_, rfl, ?_⟩
      simpa using hs
    · exact ⟨_, rfl, hs⟩
  · exact ⟨_, rfl, by simp⟩

/-- A tick on an empty list: the lock evaluation and the timer decrement run,
the motion code is skipped and `handle_retune` only compares the frequency. -/
theorem tick_empty (sv : Int → Int) (s : ReconView) (d : Int) (n : Nat)
    (he : s.frequency_list = []) :
    ∃ s1, lock_stage s d = some s1 ∧ SameEngine (lock_core s d) s1 ∧
      save_count s1.effects = save_count s.effects ∧
      on_statistics_update sv s d n = some (retune_freq (timer_stage s1 n)) := by
  obtain ⟨s1, hls, hsv⟩ := lock_stage_empty s d he
  have hok : cursor_ok s := ⟨by rw [he]; decide, Or.inl he⟩
  obtain ⟨r, ef, hio⟩ := lock_stage_io s d hok
  have hsc : SameEngine (lock_core s d) s1 := by
    rw [hls] at hio
    cases hio
    exact with_io_same _ r ef
  have hl1 : s1.frequency_list = [] := by rw [hsc.frequency_list]; simpa using he
  refine ⟨s1, hls, hsc, hsv, ?_⟩
  unfold on_statistics_update
  rw [hls]
  simp only [Option.some_bind]
  have hg : ¬ motion_guard (timer_stage s1 n) := by
    unfold motion_guard
    simp [hl1]
  rw [motion_stage_skip _ hg]
  simp only [Option.some_bind]
  unfold handle_retune
  rw [if_neg (by simp [hl1])]

/-! ## The cached state and the load -/

theorem cache_ok_iff (s : ReconView) (e : freqman_entry)
    (he : entry_at s.frequency_list s.current_index = some e) :
    cache_ok s ↔
      ((e.type = freqman_entry_type.SINGLE → s.freq = e.frequency_a) ∧
       (e.type ≠ freqman_entry_type.SINGLE →
          s.minfreq = e.frequency_a ∧ s.maxfreq = e.frequency_b)) := by
  unfold cache_ok
  rw [he]
  simp only
  split_ifs with h
  · simp [h]
  · simp [h]

/-- A step from a Single entry always sets the change flag. -/
theorem directional_advance_single_changed {p a : ReconView} {e : freqman_entry}
    (h : directional_advance p = some a)
    (he : entry_at p.frequency_list p.current_index = some e)
    (hk : e.type = freqman_entry_type.SINGLE) : a.entry_has_changed = true := by
  unfold directional_advance at h
  rw [he] at h
  simp only [Option.map_some', Option.some.injEq] at h
  subst h
  rw [hk]
  have hs : (advance_single p).entry_has_changed = true := by
    unfold advance_single
    rcases moving_cases p with ⟨hf, -⟩ | ⟨hf, hr⟩
    · rw [if_pos hf]
      unfold cursor_next
      simp
    · rw [if_neg (by simp [hf]), if_pos hr]
      unfold cursor_prev
      simp
  unfold loop_boundary
  split_ifs
  · unfold boundary_index
    split_ifs <;> simp
  · exact hs

/-- The reload of lines 1236-1264 leaves the cached state in agreement with the
entry it read. -/
theorem reload_keeps_cache (s x t : ReconView) (e' : freqman_entry)
    (hl : t.frequency_list = s.frequency_list)
    (he' : entry_at s.frequency_list x.current_index = some e')
    (hs : SameEngine (finish_motion (reload_core x e')) t)
    (hch : x.entry_has_changed = true) : cache_ok t := by
  have hci : t.current_index = x.current_index := by rw [hs.current_index]; simp
  obtain ⟨r1, r2⟩ := reload_core_reset x e' hch
  rw [cache_ok_iff t e' (by rw [hl, hci]; exact he')]
  refine ⟨fun hk => ?_, fun hk => ?_⟩
  · rw [hs.freq]; simpa using r1 hk
  · obtain ⟨m1, m2, -⟩ := r2 hk
    rw [hs.minfreq, hs.maxfreq]
    exact ⟨by simpa using m1, by simpa using m2⟩

/-- A tick that returns, from a valid cursor, keeps the agreement of the cached
state with the entry under the cursor. -/
theorem tick_keeps_cache (sv : Int → Int) (s t : ReconView) (d : Int) (n : Nat)
    (hok : cursor_ok s) (hc : cache_ok s) (ht : on_statistics_update sv s d n = some t) :
    cache_ok t := by
  obtain ⟨-, -, hl, -⟩ := tick_returns_inv sv s t d n hok ht
  have still : ∀ s1 : ReconView, SameEngine (lock_core s d) s1 →
      SameEngine (timer_stage s1 n) t → cache_ok t := by
    intro s1 hsc hs
    unfold cache_ok at hc ⊢
    have e1 : t.current_index = s.current_index := by
      rw [hs.current_index]; simp [hsc.current_index]
    have e2 : t.freq = s.freq := by rw [hs.freq]; simp [hsc.freq]
    have e3 : t.minfreq = s.minfreq := by rw [hs.minfreq]; simp [hsc.minfreq]
    have e4 : t.maxfreq = s.maxfreq := by rw [hs.maxfreq]; simp [hsc.maxfreq]
    rw [hl, e1, e2, e3, e4]
    exact hc
  by_cases hi : s.index_stepper = 0
  · obtain ⟨s1, t', -, hsc, ht', -, hstill, hmove⟩ := tick_stages sv s d n hok hi
    rw [ht] at ht'
    cases ht'
    by_cases hg : motion_guard (timer_stage s1 n)
    · obtain ⟨a, e', ha, -, he', hs⟩ := hmove hg
      by_cases hch : a.entry_has_changed = true
      · exact reload_keeps_cache s a t e' hl he' hs hch
      · have hch' : a.entry_has_changed = false := by simpa using hch
        have hidx : a.current_index = s.current_index := by
          by_contra hne
          exact hch (directional_advance_changed ha (by simpa [hsc.current_index] using hne))
        obtain ⟨-, -, k3, k4, -⟩ := directional_advance_keeps ha
        rw [hidx] at he'
        have hpe : entry_at (motion_start (timer_stage s1 n)).frequency_list
            (motion_start (timer_stage s1 n)).current_index = some e' := by
          simpa [hsc.frequency_list, hsc.current_index] using he'
        have hci : t.current_index = s.current_index := by
          rw [hs.current_index]; simpa using hidx
        obtain ⟨c1, c2⟩ := (cache_ok_iff s e' he').1 hc
        rw [cache_ok_iff t e' (by rw [hl, hci]; exact he')]
        refine ⟨fun hk => ?_, fun hk => ?_⟩
        · exact absurd (directional_advance_single_changed ha hpe hk) hch
        · obtain ⟨m1, m2⟩ := c2 hk
          have hrc : reload_core a e' = a := by
            unfold reload_core
            rw [hch']
            rfl
          rw [hs.minfreq, hs.maxfreq]
          simp only [finish_motion_frame, hrc, k3, k4, motion_start_frame, timer_stage_frame,
            hsc.minfreq, hsc.maxfreq, lock_core_frame]
          exact ⟨m1, m2⟩
    · exact still s1 hsc (hstill hg)
  · obtain ⟨s1, -, hsc, hcase⟩ := tick_jump_inv sv s t d n hok hi ht
    rcases hcase with ⟨-, hs⟩ | ⟨-, e', he', hs⟩
    · exact still s1 hsc hs
    · exact reload_keeps_cache s _ t e' hl he' hs (by simp)

theorem load_step_keeps (sv : Int → Int) (ds : Int) (s : ReconView) (e : freqman_entry) :
    (load_step sv ds s e).cfg = s.cfg ∧ (load_step sv ds s e).frequency_list = s.frequency_list ∧
    (load_step sv ds s e).freq = s.freq ∧ (load_step sv ds s e).minfreq = s.minfreq ∧
    (load_step sv ds s e).maxfreq = s.maxfreq := by
  unfold load_step
  split_ifs <;> simp

theorem load_near_bound_fields (s : ReconView) :
    (load_near_bound s).cfg = s.cfg ∧ (load_near_bound s).frequency_list = s.frequency_list ∧
    (load_near_bound s).minfreq = s.minfreq ∧ (load_near_bound s).maxfreq = s.maxfreq ∧
    (load_near_bound s).freq = (if s.cfg.fwd = true then s.minfreq else s.maxfreq) := by
  unfold load_near_bound
  split_ifs <;> simp

theorem load_range_step_keeps (sv : Int → Int) (s : ReconView) (e : freqman_entry) :
    (load_range_step sv s e).cfg = s.cfg ∧
    (load_range_step sv s e).frequency_list = s.frequency_list ∧
    (load_range_step sv s e).freq = s.freq ∧ (load_range_step sv s e).minfreq = s.minfreq ∧
    (load_range_step sv s e).maxfreq = s.maxfreq := by
  unfold load_range_step
  split_ifs <;> simp

/-- What the switch of lines 962-988 leaves in the cached state. -/
theorem load_first_fields (sv : Int → Int) (s : ReconView) (e : freqman_entry) :
    (load_first sv s e).cfg = s.cfg ∧ (load_first sv s e).frequency_list = s.frequency_list ∧
    (e.type = freqman_entry_type.SINGLE → (load_first sv s e).freq = e.frequency_a) ∧
    (e.type ≠ freqman_entry_type.SINGLE →
      (load_first sv s e).minfreq = e.frequency_a ∧
      (load_first sv s e).maxfreq = e.frequency_b ∧
      (load_first sv s e).freq = (if s.cfg.fwd = true then e.frequency_a else e.frequency_b)) := by
  unfold load_first
  cases hk : e.type
  · simp
  · simp only [load_range_step_keeps, load_near_bound_fields, set_bounds_frame]
    simp [set_bounds]
  · simp only [load_near_bound_fields, set_bounds_frame]
    simp [set_bounds]

theorem reset_indexes_fields (s : ReconView) :
    (reset_indexes s).cfg = s.cfg ∧ (reset_indexes s).frequency_list = s.frequency_list ∧
    (reset_indexes s).current_index = 0 ∧ (reset_indexes s).freq = s.freq ∧
    (reset_indexes s).minfreq = s.minfreq ∧ (reset_indexes s).maxfreq = s.maxfreq := by
  simp [reset_indexes]

theorem load_follow_range_keeps (s : ReconView) (e : freqman_entry) :
    (load_follow_range s e).cfg = s.cfg ∧
    (load_follow_range s e).frequency_list = s.frequency_list ∧
    (load_follow_range s e).current_index = s.current_index ∧
    (load_follow_range s e).freq = s.freq ∧ (load_follow_range s e).minfreq = s.minfreq ∧
    (load_follow_range s e).maxfreq = s.maxfreq := by
  unfold load_follow_range
  split_ifs <;> simp

/-- The load of a list with a first entry `e`, in closed form: the list is the
loaded one, the cursor is 0 and the cached state comes from `e`. -/
theorem frequency_file_load_eq (sv : Int → Int) (ds : Int) (s : ReconView) (e : freqman_entry)
    (rest : List freqman_entry) (hlen : ((e :: rest).length : Int) < 2147483648) :
    ∃ t, frequency_file_load sv ds s (e :: rest) = some t ∧ t.frequency_list = e :: rest ∧
      t.current_index = 0 ∧ t.cfg = s.cfg ∧
      (e.type = freqman_entry_type.SINGLE → t.freq = e.frequency_a) ∧
      (e.type ≠ freqman_entry_type.SINGLE →
        t.minfreq = e.frequency_a ∧ t.maxfreq = e.frequency_b ∧
        t.freq = (if s.cfg.fwd = true then e.frequency_a else e.frequency_b)) := by
  have h0 : entry_at (load_freqman_file (audio_output_stop s) (e :: rest)).frequency_list 0
      = some e := by
    simp [load_freqman_file, entry_at]
  obtain ⟨f1, f2, f3, f4⟩ := load_first_fields sv
    (load_step sv ds (load_freqman_file (audio_output_stop s) (e :: rest)) e) e
  simp only [load_step_keeps] at f1 f2 f4
  have hcfg0 : (load_freqman_file (audio_output_stop s) (e :: rest)).cfg = s.cfg := by
    simp [load_freqman_file]
  have hl0 : (load_freqman_file (audio_output_stop s) (e :: rest)).frequency_list = e :: rest := by
    simp [load_freqman_file]
  rw [hcfg0] at f1 f4
  rw [hl0] at f2
  obtain ⟨r1, r2, r3, r4, r5, r6⟩ := reset_indexes_fields (load_first sv
    (load_step sv ds (load_freqman_file (audio_output_stop s) (e :: rest)) e) e)
  rw [f1] at r1
  rw [f2] at r2
  obtain ⟨u, hdef⟩ : ∃ u, u = reset_indexes (load_first sv
      (load_step sv ds (load_freqman_file (audio_output_stop s) (e :: rest)) e) e) := ⟨_, rfl⟩
  rw [← hdef] at r1 r2 r3 r4 r5 r6
  have hu : entry_at u.frequency_list u.current_index = some e := by
    rw [r2, r3]
    simp [entry_at]
  obtain ⟨g1, g2, g3, g4, g5, g6⟩ := load_follow_range_keeps u e
  have hok : cursor_ok (load_follow_range u e) := by
    refine ⟨by rw [g2, r2]; exact hlen, Or.inr ?_⟩
    rw [g2, g3, r2, r3]
    simp
  obtain ⟨t, ht, hs⟩ := handle_retune_eq sv _ hok
  refine ⟨t, ?_, ?_, ?_, ?_, fun hk => ?_, fun hk => ?_⟩
  · unfold frequency_file_load
    rw [h0]
    simp only [Option.some_bind]
    unfold load_apply
    rw [← hdef]
    unfold load_show
    rw [if_pos (by rw [r2]; simp), hu]
    simp only [Option.map_some', Option.some_bind]
    exact ht
  · rw [hs.frequency_list, g2, r2]
  · rw [hs.current_index, g3, r3]
  · rw [hs.cfg, g1, r1]
  · rw [hs.freq, g4, r4]; exact f3 hk
  · obtain ⟨m1, m2, m3⟩ := f4 hk
    rw [hs.minfreq, hs.maxfreq, hs.freq, g4, g5, g6, r4, r5, r6]
    exact ⟨m1, m2, m3⟩

/-! ## The scan of the output file -/

/-- Without a line feed the scan compares nothing. -/
theorem scan_file_no_line_feed (record : List Int) :
    ∀ (content line : List Int), (∀ c ∈ content, c ≠ 10) →
      scan_file record line content = false := by
  intro content
  induction content with
  | nil => intro line _; rfl
  | cons c rest ih =>
    intro line h
    have hc : c ≠ 10 := h c (List.mem_cons_self _ _)
    have hr : ∀ x ∈ rest, x ≠ 10 := fun x hx => h x (List.mem_cons_of_mem _ hx)
    unfold scan_file
    split_ifs
    · exact ih _ hr
    · exact ih _ hr

/-- The scan of one line ended by a line feed: the line is compared, without
its characters below 32. -/
theorem scan_file_line (record : List Int) :
    ∀ (l line post : List Int), (∀ c ∈ l, c ≠ 10) →
      scan_file record line (l ++ 10 :: post) =
        (if (line ++ l.filter (fun c => decide (c > 31))).take record.length = record then true
         else scan_file record [] post) := by
  intro l
  induction l with
  | nil =>
    intro line post _
    simp [scan_file]
  | cons c rest ih =>
    intro line post h
    have hc : c ≠ 10 := h c (List.mem_cons_self _ _)
    have hr : ∀ x ∈ rest, x ≠ 10 := fun x hx => h x (List.mem_cons_of_mem _ hx)
    by_cases h1 : c > 31
    · have hf : (c :: rest).filter (fun c => decide (c > 31))
          = c :: rest.filter (fun c => decide (c > 31)) := by
        simp [List.filter_cons, h1]
      rw [List.cons_append, scan_file, if_pos h1, ih _ post hr, hf, List.append_assoc,
        List.singleton_append]
    · have hf : (c :: rest).filter (fun c => decide (c > 31))
          = rest.filter (fun c => decide (c > 31)) := by
        simp [List.filter_cons, h1]
      rw [List.cons_append, scan_file, if_neg h1, if_neg hc, ih _ post hr, hf]

/-- The scan of whole lines followed by more text: the record is found in the
whole lines, or in what follows them. -/
theorem scan_file_split (record : List Int) :
    ∀ (q line rest : List Int),
      scan_file record line (q ++ 10 :: rest) =
        (scan_file record line (q ++ [10]) || scan_file record [] rest) := by
  intro q
  induction q with
  | nil =>
    intro line rest
    by_cases hcmp : line.take record.length = record
    · simp [scan_file, hcmp]
    · simp [scan_file, hcmp]
  | cons c q ih =>
    intro line rest
    rw [List.cons_append, List.cons_append, scan_file, scan_file]
    split_ifs
    · exact ih _ rest
    · rfl
    · rw [ih]
    · exact ih _ rest

/-! ## The settings inherited from the entry -/

theorem retune_modulation_settings (s : ReconView) (e : freqman_entry) :
    (retune_modulation s e).last.last_entry_modulation =
      (if e.modulation ≥ 0 then e.modulation else s.last.last_entry_modulation) ∧
    (retune_modulation s e).last.last_entry_bandwidth =
      (if e.modulation ≥ 0 ∧ e.modulation ≠ s.last.last_entry_modulation then -1
       else s.last.last_entry_bandwidth) ∧
    (retune_modulation s e).last.last_entry_step = s.last.last_entry_step := by
  unfold retune_modulation
  refine ⟨?_, ?_, ?_⟩ <;> split_ifs <;> simp_all

theorem retune_bandwidth_settings (s : ReconView) (e : freqman_entry) :
    (retune_bandwidth s e).last.last_entry_modulation = s.last.last_entry_modulation ∧
    (retune_bandwidth s e).last.last_entry_bandwidth =
      (if e.bandwidth ≥ 0 then e.bandwidth else s.last.last_entry_bandwidth) ∧
    (retune_bandwidth s e).last.last_entry_step = s.last.last_entry_step := by
  unfold retune_bandwidth
  refine ⟨?_, ?_, ?_⟩ <;> split_ifs <;> simp_all

theorem retune_step_settings (sv : Int → Int) (s : ReconView) (e : freqman_entry) :
    (retune_step sv s e).last.last_entry_modulation = s.last.last_entry_modulation ∧
    (retune_step sv s e).last.last_entry_bandwidth = s.last.last_entry_bandwidth ∧
    (retune_step sv s e).last.last_entry_step =
      (if e.step ≥ 0 then e.step else s.last.last_entry_step) ∧
    (retune_step sv s e).step =
      (if e.step ≥ 0 ∧ e.step ≠ s.last.last_entry_step then sv e.step else s.step) := by
  unfold retune_step
  refine ⟨?_, ?_, ?_, ?_⟩ <;> split_ifs <;> simp_all

theorem retune_index_settings (s : ReconView) (e : freqman_entry) :
    (retune_index s e).last.last_entry_modulation = s.last.last_entry_modulation ∧
    (retune_index s e).last.last_entry_bandwidth = s.last.last_entry_bandwidth ∧
    (retune_index s e).last.last_entry_step = s.last.last_entry_step := by
  unfold retune_index follow_range
  refine ⟨?_, ?_, ?_⟩ <;> split_ifs <;> rfl

theorem retune_freq_settings (s : ReconView) :
    (retune_freq s).last.last_entry_modulation = s.last.last_entry_modulation ∧
    (retune_freq s).last.last_entry_bandwidth = s.last.last_entry_bandwidth ∧
    (retune_freq s).last.last_entry_step = s.last.last_entry_step := by
  unfold retune_freq
  refine ⟨?_, ?_, ?_⟩ <;> split_ifs <;> rfl

/-- The caches of the three inherited settings after `retune_entry`. -/
theorem retune_entry_settings (sv : Int → Int) (s : ReconView) (e : freqman_entry) :
    (retune_entry sv s e).last.last_entry_modulation =
      (if e.modulation ≥ 0 then e.modulation else s.last.last_entry_modulation) ∧
    (retune_entry sv s e).last.last_entry_bandwidth =
      (if e.bandwidth ≥ 0 then e.bandwidth
       else if e.modulation ≥ 0 ∧ e.modulation ≠ s.last.last_entry_modulation then -1
       else s.last.last_entry_bandwidth) ∧
    (retune_entry sv s e).last.last_entry_step =
      (if e.step ≥ 0 then e.step else s.last.last_entry_step) ∧
    (retune_entry sv s e).step =
      (if e.step ≥ 0 ∧ e.step ≠ s.last.last_entry_step then sv e.step else s.step) := by
  obtain ⟨m1, m2, m3⟩ := retune_modulation_settings s e
  obtain ⟨b1, b2, b3⟩ := retune_bandwidth_settings (retune_modulation s e) e
  obtain ⟨s1, s2, s3, s4⟩ := retune_step_settings sv (retune_bandwidth (retune_modulation s e) e) e
  obtain ⟨i1, i2, i3⟩ :=
    retune_index_settings (retune_step sv (retune_bandwidth (retune_modulation s e) e) e) e
  unfold retune_entry
  refine ⟨?_, ?_, ?_, ?_⟩
  · rw [i1, s1, b1, m1]
  · rw [i2, s2, b2, m2]
  · rw [i3, s3, b3, m3]
  · simp only [retune_index_frame]
    rw [s4, b3, m3]
    simp only [retune_bandwidth_frame, retune_modulation_frame]

/-! ## The range of the dwell timer -/

/-- The conversion to `int32_t` gives a value of that type. -/
theorem toI32_range (x : Int) : -2147483648 ≤ toI32 x ∧ toI32 x < 2147483648 := by
  unfold toI32
  omega

/-- The dwell timer after the lock evaluation: the timer before it, the lock
duration stored by the re-arm, zero, `wait` or `abs(wait)`. -/
theorem lock_core_timer_cases (s : ReconView) (d : Int) :
    (lock_core s d).timer = s.timer ∨
    (lock_core s d).timer = toI32 (s.cfg.recon_lock_duration : Int) ∨
    (lock_core s d).timer = 0 ∨
    (0 ≤ s.cfg.wait ∧ (lock_core s d).timer = s.cfg.wait) ∨
    (s.cfg.wait < 0 ∧ (lock_core s d).timer = |s.cfg.wait|) := by
  unfold lock_core
  split_ifs
  · simp only [locked_core_fields, locking_fields, rearm_fields, locking_frame, rearm_frame,
      store_sample_frame]
    split_ifs <;> simp_all
  · simp

/-! ## The reload after a cursor change -/

/-- A tick that changes the cursor (by a directional advance, or by an index
jump that the single wrap brings back into the list) reloads the entry under the
new cursor: `freq` for a Single entry; the cached bounds for a Range or a
RepeaterPair, with `freq` on `frequency_a` when the test `reload_forward` of the
reload code holds and on `frequency_b` otherwise.  That test is the direction of
the advance when no jump is pending, and the sign of the jump when no manual
step is pending. -/
theorem reload_after_cursor_change (sv : Int → Int) (s : ReconView) (d : Int) (n : Nat)
    (hok : cursor_ok s)
    (hj : s.index_stepper ≠ 0 →
      -(s.frequency_list.length : Int) ≤ s.current_index + s.index_stepper ∧
      s.current_index + s.index_stepper < 2 * (s.frequency_list.length : Int)) :
    ∃ t, on_statistics_update sv s d n = some t ∧
      (s.index_stepper = 0 → reload_forward s = moving_forward s) ∧
      (s.stepper = 0 → s.index_stepper ≠ 0 →
        (reload_forward s = true ↔ s.index_stepper > 0)) ∧
      (t.current_index ≠ s.current_index →
        ∃ e', entry_at s.frequency_list t.current_index = some e' ∧
          (e'.type = freqman_entry_type.SINGLE → t.freq = e'.frequency_a) ∧
          (e'.type = freqman_entry_type.RANGE ∨ e'.type = freqman_entry_type.HAMRADIO →
            t.minfreq = e'.frequency_a ∧ t.maxfreq = e'.frequency_b ∧
            (reload_forward s = true → t.freq = e'.frequency_a) ∧
            (reload_forward s = false → t.freq = e'.frequency_b))) := by
  have hdir : s.index_stepper = 0 → reload_forward s = moving_forward s := by
    intro h
    unfold reload_forward moving_forward
    simp [h]
  have hjdir : s.stepper = 0 → s.index_stepper ≠ 0 →
      (reload_forward s = true ↔ s.index_stepper > 0) := by
    intro h1 h2
    unfold reload_forward
    simp [h1, h2]
  have fin : ∀ (x t : ReconView) (e' : freqman_entry),
      entry_at s.frequency_list x.current_index = some e' →
      SameEngine (finish_motion (reload_core x e')) t →
      x.cfg = s.cfg → x.stepper = s.stepper → x.index_stepper = s.index_stepper →
      (x.current_index ≠ s.current_index → x.entry_has_changed = true) →
      (t.current_index ≠ s.current_index →
        ∃ e', entry_at s.frequency_list t.current_index = some e' ∧
          (e'.type = freqman_entry_type.SINGLE → t.freq = e'.frequency_a) ∧
          (e'.type = freqman_entry_type.RANGE ∨ e'.type = freqman_entry_type.HAMRADIO →
            t.minfreq = e'.frequency_a ∧ t.maxfreq = e'.frequency_b ∧
            (reload_forward s = true → t.freq = e'.frequency_a) ∧
            (reload_forward s = false → t.freq = e'.frequency_b))) := by
    intro x t e' he' hs h1 h2 h3 hch hne
    have hci : t.current_index = x.current_index := by rw [hs.current_index]; simp
    rw [hci] at hne ⊢
    obtain ⟨r1, r2⟩ := reload_core_reset x e' (hch hne)
    have hrf := (reload_forward_congr h1 h2 h3).1
    refine ⟨e', he', fun hk => ?_, fun hk => ?_⟩
    · rw [hs.freq]; simpa using r1 hk
    · have hk' : e'.type ≠ freqman_entry_type.SINGLE := by
        rcases hk with h | h <;> rw [h] <;> decide
      obtain ⟨m1, m2, m3, m4⟩ := r2 hk'
      rw [hs.minfreq, hs.maxfreq, hs.freq, ← hrf]
      exact ⟨by simpa using m1, by simpa using m2, fun h => by simpa using m3 h,
        fun h => by simpa using m4 h⟩
  by_cases hi : s.index_stepper = 0
  · obtain ⟨s1, t, -, hsc, ht, -, hstill, hmove⟩ := tick_stages sv s d n hok hi
    refine ⟨t, ht, hdir, hjdir, ?_⟩
    by_cases hg : motion_guard (timer_stage s1 n)
    · obtain ⟨a, e', ha, -, he', hs⟩ := hmove hg
      obtain ⟨k1, -, -, -, -, k2, k3, -⟩ := directional_advance_keeps ha
      refine fin a t e' he' hs (k1.trans (by simp [hsc.cfg])) (k2.trans (by simp [hsc.stepper]))
        (k3.trans (by simp [hsc.index_stepper])) (fun hne => ?_)
      refine directional_advance_changed ha ?_
      simpa [hsc.current_index] using hne
    · intro hne
      exfalso
      apply hne
      rw [(hstill hg).current_index]
      simp [hsc.current_index]
  · obtain ⟨r, ef, -, hstill, -, hjump⟩ := tick_cases_io sv s d n hok
    by_cases hg : motion_guard (pre_motion s d n r ef)
    · obtain ⟨hlo, hhi⟩ := hj hi
      have hr := index_jump_in_range (motion_start (pre_motion s d n r ef))
        (by simpa using hok.1) (by simpa using hlo) (by simpa using hhi)
      simp only [motion_start_frame, pre_motion_frame] at hr
      obtain ⟨e', he'⟩ := entry_at_ok s.frequency_list _ hr.2.1 hr.2.2
      obtain ⟨t, ht, hs⟩ := hjump hg hi e' he'
      exact ⟨t, ht, hdir, hjdir, fin _ t e' he' hs (by simp) (by simp) (by simp) (fun _ => by simp)⟩
    · obtain ⟨t, ht, hs⟩ := hstill hg
      refine ⟨t, ht, hdir, hjdir, fun hne => ?_⟩
      exfalso
      apply hne
      rw [hs.current_index]
      simp

/-! ## The reading loop of the settings file -/

/-- A block that holds neither a line feed nor a NUL byte gives no line: the
search runs to the end of the bytes read and the loop leaves its variables as
they are. -/
theorem read_block_lines_no_feed (r : ReadState) :
    ∀ (block line : List Nat) (offset : Nat), (∀ c ∈ block, c ≠ 0 ∧ c ≠ 10) →
      read_block_lines block line offset r = some r := by
  intro block
  induction block with
  | nil => intro line offset _; rfl
  | cons c rest ih =>
    intro line offset h
    obtain ⟨h0, h10⟩ := h c (List.mem_cons_self _ _)
    rw [read_block_lines, if_neg h0, if_neg h10]
    exact ih _ _ (fun x hx => h x (List.mem_cons_of_mem _ hx))

/-- A file whose first 256 bytes hold neither a line feed nor a NUL byte: the
loop reads the same block again and again, whatever the bound on the number of
blocks. -/
theorem read_blocks_spin (content : List Nat) (hlen : (read_block content 0).length = 256)
    (hno : ∀ c ∈ read_block content 0, c ≠ 0 ∧ c ≠ 10) :
    ∀ fuel, read_blocks content fuel 0 { it := 0, params := [], line_start := 0 } = none := by
  intro fuel
  induction fuel with
  | zero => rfl
  | succ fuel ih =>
    rw [read_blocks, if_pos (by decide),
      read_block_lines_no_feed _ (read_block content 0) [] 0 hno]
    simp only [hlen, ne_eq, not_true_eq_false, if_false, Nat.add_zero]
    exact ih

/-- A file of fewer than 256 bytes is read as one block. -/
theorem read_blocks_short (content : List Nat) (hlen : content.length < 256) (fuel : Nat) :
    read_blocks content (fuel + 1) 0 { it := 0, params := [], line_start := 0 }
      = read_block_lines content [] 0 { it := 0, params := [], line_start := 0 } := by
  have hb : read_block content 0 = content := by
    unfold read_block
    rw [List.drop_zero, List.take_of_length_le (by omega)]
  rw [read_blocks, if_pos (by decide), hb]
  cases h : read_block_lines content [] 0 { it := 0, params := [], line_start := 0 } with
  | none => rfl
  | some r1 =>
    simp only
    rw [if_pos (by omega)]

/-! # The claims -/

/-! ## C1: a miss in Continuous mode -/

/-- C1 as stated fails: with squelch -20 and three matches required, the
samples -10, -10, -30 from a fresh re-arm leave, after the third sample, a dwell
timer at 0 but a match count of 2, not 0 (after the first two samples the engine
is Locking with the count at 2 and the timer armed). -/
theorem continuous_miss_counterexample :
    (run_ticks (fun _ => 0) 100 c1_state [-10, -10]).map
        (fun t => (t.status, t.freq_lock, t.timer)) = some (1, 2, 100) ∧
    (run_ticks (fun _ => 0) 100 c1_state [-10, -10, -30]).map
        (fun t => (t.timer, t.freq_lock)) = some (0, 2) ∧
    ¬ (∃ t, run_ticks (fun _ => 0) 100 c1_state [-10, -10, -30] = some t ∧
        t.timer = 0 ∧ t.freq_lock = 0) := by
  refine ⟨by decide, by decide, ?_⟩
  rintro ⟨t, ht, -, h⟩
  have h2 : (run_ticks (fun _ => 0) 100 c1_state [-10, -10, -30]).map
      (fun t => t.freq_lock) = some 2 := by decide
  rw [ht] at h2
  simp only [Option.map_some', Option.some.injEq] at h2
  omega

/-- C1, amended. In Continuous match mode, a tick in the Locking phase (scanning
active, dwell timer running, `0 < freq_lock < recon_lock_nb_match`) whose sample
does not exceed the squelch aborts the lock attempt on that very tick: after the
tick the dwell timer is 0 and the match streak is ended.  The match count keeps
its value through that tick (it is zeroed on it only by an end-of-list pause);
it is the re-arm opening the next tick that resets it to 0, so that after the
next tick the count is 0, or 1 if that tick's sample matches. -/
theorem continuous_miss_aborts (sv : Int → Int) (s : ReconView) (d : Int) (n : Nat)
    (hok : cursor_ok s) (hi : s.index_stepper = 0) (hr : s.recon = true)
    (hm : s.cfg.recon_match_mode = RECON_MATCH_CONTINUOUS) (ht : s.timer ≠ 0)
    (hfl : 0 < s.freq_lock) (hN : s.freq_lock < s.cfg.recon_lock_nb_match)
    (hd : d ≤ s.cfg.squelch) :
    ∃ t, on_statistics_update sv s d n = some t ∧ t.timer = 0 ∧ t.continuous_lock = false ∧
      (t.freq_lock = s.freq_lock ∨
        (t.freq_lock = 0 ∧ t.recon = false ∧ t.has_looped = true ∧ s.cfg.continuous = false)) ∧
      (∀ d2, (rearm (store_sample t d2)).freq_lock = 0) ∧
      (∀ d2 n2, ∃ t2, on_statistics_update sv t d2 n2 = some t2 ∧
        (t2.freq_lock = 0 ∨ (d2 > s.cfg.squelch ∧ t2.freq_lock = 1))) := by
  obtain ⟨l1, l2, l3, -⟩ := lock_core_abort s d hr hm ht hfl hN hd
  obtain ⟨t, htick, hokt, hcfg, hlist, hit, -, hcase⟩ := tick_summary sv s d n hok hi
  have hq : (timer_stage (lock_core s d) n).timer = 0 := by simp [l1]
  have key : t.timer = 0 ∧ t.continuous_lock = false ∧
      (t.freq_lock = s.freq_lock ∧ t.recon = true ∨
        (t.freq_lock = 0 ∧ t.recon = false ∧ t.has_looped = true ∧ s.cfg.continuous = false)) := by
    rcases hcase with ⟨-, hs⟩ | ⟨-, ⟨a, b, c, e⟩ | ⟨a, b, c, e, f, g⟩⟩
    · refine ⟨hs.timer.trans hq, ?_, Or.inl ⟨?_, ?_⟩⟩
      · rw [hs.continuous_lock]; simpa using l3
      · rw [hs.freq_lock]; simpa using l2
      · rw [hs.recon]; simpa using hr
    · refine ⟨?_, c.trans l3, Or.inl ⟨b.trans l2, a.trans hr⟩⟩
      rcases e with e | e
      · exact e.trans hq
      · exact e
    · exact ⟨g, f, Or.inr ⟨e, c, b, a⟩⟩
  obtain ⟨k1, k2, k3⟩ := key
  refine ⟨t, htick, k1, k2, ?_, ?_, ?_⟩
  · rcases k3 with h | h
    · exact Or.inl h.1
    · exact Or.inr h
  · intro d2
    simp [k1]
  · intro d2 n2
    obtain ⟨t2, htick2, -, -, -, -, -, hcase2⟩ := tick_summary sv t d2 n2 hokt hit
    refine ⟨t2, htick2, ?_⟩
    have hlc : (lock_core t d2).freq_lock = 0 ∨
        (d2 > s.cfg.squelch ∧ (lock_core t d2).freq_lock = 1) := by
      unfold lock_core
      rcases k3 with h | h
      · rw [if_pos h.2]
        by_cases hd2 : s.cfg.squelch < d2
        · right
          refine ⟨hd2, ?_⟩
          simp [k1, hcfg, hd2]
          omega
        · left
          simp [k1, hcfg, hd2]
      · left
        simp [h.2.1, h.1]
    rcases hcase2 with ⟨-, hs⟩ | ⟨-, ⟨-, b, -, -⟩ | ⟨-, -, -, e, -, -⟩⟩
    · rw [hs.freq_lock]
      simpa using hlc
    · rw [b]; exact hlc
    · exact Or.inl e

/-- Witness of the amended C1: the Locking state reached after two matching
samples (count 2 of 3, timer armed), hit by the sample -30 under squelch -20. -/
theorem continuous_miss_aborts_witness :
    ∃ t, on_statistics_update (fun _ => 0) c1_locking (-30) 100 = some t ∧ t.timer = 0 ∧
      t.continuous_lock = false ∧ (∀ d2, (rearm (store_sample t d2)).freq_lock = 0) := by
  obtain ⟨t, h1, h2, h3, -, h5, -⟩ :=
    continuous_miss_aborts (fun _ => 0) c1_locking (-30) 100 (by decide) rfl rfl rfl
      (by decide) (by decide) (by decide) (by decide)
  exact ⟨t, h1, h2, h3, h5⟩

/-! ## C2: a streak of matches in Continuous mode -/

/-- C2 as stated fails when the tick of the lock also ends the list with looping
disabled: on a one-entry list with `wait` = 0, the samples -10, -10, -10 (squelch
-20, three matches required) leave the engine paused with a match count of 0,
not Locked with a count of 3.  It also fails for a lock duration that the signed
32-bit dwell timer cannot hold: with 3000000000 the re-arm leaves a negative
timer, which the first tick floors to 0, and that tick advances the cursor. -/
theorem continuous_streak_counterexample :
    (run_ticks (fun _ => 0) 100 c2_stop_at_end [-10, -10, -10]).map
        (fun t => (t.freq_lock, t.recon, decide (is_locked t))) = some (0, false, false) ∧
    ¬ (∃ t, run_ticks (fun _ => 0) 100 c2_stop_at_end [-10, -10, -10] = some t ∧
        t.freq_lock = c2_stop_at_end.cfg.recon_lock_nb_match ∧ is_locked t) ∧
    (c2_long_duration.current_index, c2_long_duration.freq) = (0, 100) ∧
    (on_statistics_update (fun _ => 0) c2_long_duration (-10) 100).map
        (fun t => (t.current_index, t.freq, t.timer)) = some (1, 200, 0) := by
  refine ⟨by decide, ?_, by decide, by decide⟩
  rintro ⟨t, ht, h, -⟩
  have h2 : (run_ticks (fun _ => 0) 100 c2_stop_at_end [-10, -10, -10]).map
      (fun t => t.freq_lock) = some 0 := by decide
  rw [ht] at h2
  simp only [Option.map_some', Option.some.injEq] at h2
  rw [h2] at h
  revert h
  decide

/-- C2, amended. In Continuous match mode, for every required count `N >= 1`
and every lock duration `> 0` that the signed 32-bit dwell timer can hold (below
`2 ^ 31`), from a tick where scanning is active, the dwell timer is 0 and no
manual motion is pending, `N` consecutive ticks whose samples all exceed the
squelch fire the lock transition on the `N`-th tick (status Locked), the cursor
and the tuned frequency being unchanged during the first `N - 1` ticks, whatever
the lock duration is relative to the tick period and whatever that period.  After
the `N`-th tick the match count is `N`, unless the advance made by that same
tick wrapped past the end of the list with looping disabled, in which case the
end-of-list pause has zeroed the count and stopped scanning; with looping
enabled the engine is Locked with a count of `N`. -/
theorem continuous_streak_locks (sv : Int → Int) (s : ReconView) (samples : List Int)
    (n : Nat) (hok : cursor_ok s) (hr : s.recon = true) (ht : s.timer = 0)
    (hst : s.stepper = 0) (hi : s.index_stepper = 0)
    (hm : s.cfg.recon_match_mode = RECON_MATCH_CONTINUOUS)
    (hN : 1 ≤ s.cfg.recon_lock_nb_match) (hL : 0 < s.cfg.recon_lock_duration)
    (hL2 : s.cfg.recon_lock_duration < 2147483648)
    (hlen : samples.length = s.cfg.recon_lock_nb_match)
    (hall : ∀ d ∈ samples, d > s.cfg.squelch) :
    ∃ t, run_ticks sv n s samples = some t ∧ t.status = 2 ∧
      (t.freq_lock = s.cfg.recon_lock_nb_match ∨
        (t.freq_lock = 0 ∧ t.recon = false ∧ t.has_looped = true ∧
          s.cfg.continuous = false)) ∧
      (s.cfg.continuous = true → is_locked t ∧ t.freq_lock = s.cfg.recon_lock_nb_match) ∧
      ∀ k, k < s.cfg.recon_lock_nb_match →
        ∃ v, run_ticks sv n s (samples.take k) = some v ∧
          v.current_index = s.current_index ∧ v.freq = s.freq := by
  have hS : Streak s s 0 :=
    { ok := hok, cfg := rfl, frequency_list := rfl, recon := hr, stepper := hst,
      index_stepper := hi, current_index := rfl, freq := rfl, armed := Or.inl ⟨ht, rfl⟩ }
  have hne : samples ≠ [] := by
    intro h
    rw [h] at hlen
    simp at hlen
    omega
  obtain ⟨t, hrun, hcfg, hstat, hfl, hpre⟩ := streak_run sv s n hm hL hL2 samples s 0 hS hne
    (by omega) hall
  refine ⟨t, hrun, hstat, hfl, ?_, ?_⟩
  · intro hc
    rcases hfl with h | ⟨-, -, -, h⟩
    · exact ⟨⟨hstat, by rw [h, hcfg]⟩, h⟩
    · rw [hc] at h; cases h
  · intro k hk
    exact hpre k (by omega)

/-- Witness of the amended C2: squelch -20, three matches required, the samples
-10, -10, -10 on a two-entry list with looping enabled. -/
theorem continuous_streak_locks_witness :
    ∃ t, run_ticks (fun _ => 0) 100 c2_state [-10, -10, -10] = some t ∧ is_locked t ∧
      t.freq_lock = 3 := by
  obtain ⟨t, h1, -, -, h4, -⟩ :=
    continuous_streak_locks (fun _ => 0) c2_state [-10, -10, -10] 100 (by decide) rfl rfl rfl
      rfl rfl (by decide) (by decide) (by decide) rfl (by decide)
  exact ⟨t, h1, (h4 rfl).1, (h4 rfl).2⟩

/-! ## C3: misses in Sparse mode -/

/-- C3 as stated fails when the tick of the lock also ends the list with looping
disabled: on a one-entry list with `wait` = 0 and a lock duration of 1000, the
samples -10, -10, -30, -10 at 100 time units a tick (squelch -20, three matches
required) leave the engine paused with a match count of 0, not Locked.  It also
fails for a lock duration that the signed 32-bit dwell timer cannot hold: with
3000000000 every tick floors the timer to 0 and advances, the next re-arm zeroes
the count, and after the four samples the engine is Locking with one match. -/
theorem sparse_lock_counterexample :
    (run_ticks (fun _ => 0) 100 c3_stop_at_end [-10, -10, -30, -10]).map
        (fun t => (t.freq_lock, t.recon, decide (is_locked t))) = some (0, false, false) ∧
    ¬ (∃ t, run_ticks (fun _ => 0) 100 c3_stop_at_end [-10, -10, -30, -10] = some t ∧
        is_locked t) ∧
    (run_ticks (fun _ => 0) 100 c3_long_duration [-10, -10, -30, -10]).map
        (fun t => (t.freq_lock, t.status, decide (is_locked t))) = some (1, 1, false) := by
  refine ⟨by decide, ?_, by decide⟩
  rintro ⟨t, ht, h⟩
  have h2 : (run_ticks (fun _ => 0) 100 c3_stop_at_end [-10, -10, -30, -10]).map
      (fun t => decide (is_locked t)) = some false := by decide
  rw [ht] at h2
  simp only [Option.map_some', Option.some.injEq, decide_eq_false_iff_not] at h2
  exact h2 h

/-- C3, amended. In Sparse match mode a sample that does not exceed the squelch
never aborts a lock attempt: the lock evaluation leaves the match count and the
dwell timer as they are, and the tick only takes the elapsed time off the timer
(a timer within its 32-bit range, with more than the elapsed time left and
nothing manual pending).  Consequently, for every run of `k` ticks from a fresh re-arm whose
samples hold exactly `N = recon_lock_nb_match` values above the squelch, the
last sample being one of them, with a lock duration above `(k - 1)` times the
elapsed time per tick, below `2 ^ 31` (the range of the signed 32-bit dwell
timer), and no manual motion pending, the lock transition fires on tick `k`
(status Locked).  After tick `k` the match count is `N`, unless the
advance made by that same tick wrapped past the end of the list with looping
disabled, in which case the end-of-list pause has zeroed the count and stopped
scanning; with looping enabled the engine is Locked. -/
theorem sparse_misses_tolerated (sv : Int → Int) (s : ReconView) (pre : List Int)
    (last : Int) (n : Nat) (hok : cursor_ok s) (hr : s.recon = true) (ht : s.timer = 0)
    (hst : s.stepper = 0) (hi : s.index_stepper = 0)
    (hm : s.cfg.recon_match_mode = RECON_MATCH_SPARSE)
    (hN : pre.countP (fun d => decide (d > s.cfg.squelch)) + 1 = s.cfg.recon_lock_nb_match)
    (hlast : last > s.cfg.squelch)
    (hL : (pre.length : Int) * (n : Int) < (s.cfg.recon_lock_duration : Int))
    (hL2 : s.cfg.recon_lock_duration < 2147483648) :
    (∀ (u : ReconView) (d : Int) (m : Nat), cursor_ok u → u.recon = true →
      u.cfg.recon_match_mode = RECON_MATCH_SPARSE → u.timer ≠ 0 →
      u.freq_lock < u.cfg.recon_lock_nb_match → d ≤ u.cfg.squelch →
      (∃ u1, lock_stage u d = some u1 ∧ u1.freq_lock = u.freq_lock ∧ u1.timer = u.timer) ∧
      (u.stepper = 0 → u.index_stepper = 0 → (m : Int) < u.timer → u.timer < 2147483648 →
        ∃ t, on_statistics_update sv u d m = some t ∧ t.freq_lock = u.freq_lock ∧
          t.timer = u.timer - (m : Int))) ∧
    ∃ t, run_ticks sv n s (pre ++ [last]) = some t ∧ t.status = 2 ∧
      (t.freq_lock = s.cfg.recon_lock_nb_match ∨
        (t.freq_lock = 0 ∧ t.recon = false ∧ t.has_looped = true ∧
          s.cfg.continuous = false)) ∧
      (s.cfg.continuous = true → is_locked t) := by
  constructor
  · intro u d m huok hur hum hut hufl hud
    obtain ⟨l1, l2, -⟩ := lock_core_miss_sparse u d u.freq_lock hur hum (Or.inr ⟨hut, rfl⟩)
      hud hufl
    rw [if_neg hut] at l1
    constructor
    · obtain ⟨r, ef, hls⟩ := lock_stage_io u d huok
      exact ⟨_, hls, by simpa using l2, by simpa using l1⟩
    · intro hus hui hmt hmax
      have hm0 : (0 : Int) ≤ (m : Int) := Int.natCast_nonneg m
      have hx : toI32 (u.timer - (m : Int)) = u.timer - (m : Int) :=
        toI32_of_lt (by omega) (by omega)
      have hq : (timer_stage (lock_core u d) m).timer = u.timer - (m : Int) := by
        rw [timer_stage_timer, l1, hx]
        simp only [lock_core_frame, hum]
        rw [if_neg hut, if_pos (Or.inr trivial), if_neg (by omega)]
      obtain ⟨t, htick, -, -, -, -, -, hcase⟩ := tick_summary sv u d m huok hui
      have hng : ¬ motion_guard (timer_stage (lock_core u d) m) := by
        unfold motion_guard
        rw [hq]
        simp only [timer_stage_frame, lock_core_frame, hus, hui]
        intro hcon
        rcases hcon.2.1 with a | a | a
        · omega
        · exact a rfl
        · exact a rfl
      rcases hcase with ⟨-, hs⟩ | ⟨hg, -⟩
      · exact ⟨t, htick, by rw [hs.freq_lock]; simpa using l2, hs.timer.trans hq⟩
      · exact absurd hg hng
  · have hS : SparseRun s s 0 0 n :=
      { ok := hok, cfg := rfl, frequency_list := rfl, recon := hr, stepper := hst,
        index_stepper := hi, armed := Or.inl ⟨ht, rfl, rfl⟩ }
    obtain ⟨t, hrun, hcfg, hstat, hfl⟩ := sparse_run sv s n last hm hlast hL2 pre s 0 0 hS
      (by omega) (by push_cast; simpa using hL)
    refine ⟨t, hrun, hstat, hfl, ?_⟩
    intro hc
    rcases hfl with h | ⟨-, -, -, h⟩
    · exact ⟨hstat, by rw [h, hcfg]⟩
    · rw [hc] at h; cases h

/-- Witness of the amended C3: squelch -20, three matches required, lock
duration 400, the samples -10, -10, -30, -10 at 100 time units a tick, on a
two-entry list with looping enabled. -/
theorem sparse_misses_tolerated_witness :
    ∃ t, run_ticks (fun _ => 0) 100 c3_state [-10, -10, -30, -10] = some t ∧ is_locked t := by
  obtain ⟨-, t, h1, -, -, h4⟩ :=
    sparse_misses_tolerated (fun _ => 0) c3_state [-10, -10, -30] (-10) 100 (by decide) rfl
      rfl rfl rfl rfl (by decide) (by decide) (by decide) (by decide)
  exact ⟨t, h1, h4 rfl⟩

/-! ## C4: a full forward cycle -/

/-- C4 as stated fails on a list that holds a Range entry: from the Single
entry at index 0, two forward advances (the list has two entries) leave the
cursor on the Range entry at index 1, and no advance has set `has_looped`. -/
theorem forward_cycle_counterexample :
    c4_state.frequency_list.length = 2 ∧
    (advances 2 c4_state).map (fun t => t.current_index) = some 1 ∧
    loops_in 2 c4_state = 0 ∧
    ¬ (∃ t, advances c4_state.frequency_list.length c4_state = some t ∧
        t.current_index = c4_state.current_index ∧
        loops_in c4_state.frequency_list.length c4_state = 1) := by
  refine ⟨rfl, by decide, by decide, ?_⟩
  rintro ⟨t, -, -, h⟩
  revert h
  decide

/-- C4, amended. For every non-empty list of Single entries and every valid
starting cursor, performing exactly `len` forward advances (scanning forward on
its own with looping enabled, or `len` pending manual forward steps) returns the
cursor to its starting index, and `has_looped` is set in exactly one of those
`len` advances. -/
theorem forward_cycle_over_singles (s : ReconView)
    (hall : ∀ x ∈ s.frequency_list, x.type = freqman_entry_type.SINGLE)
    (h0 : 0 ≤ s.current_index) (h1 : s.current_index < (s.frequency_list.length : Int))
    (hlen : (s.frequency_list.length : Int) < 2147483648)
    (hi : s.index_stepper = 0) (hfr : forward_run s s.frequency_list.length) :
    ∃ t, advances s.frequency_list.length s = some t ∧
      t.current_index = s.current_index ∧
      loops_in s.frequency_list.length s = 1 := by
  obtain ⟨t, ht, hres⟩ :=
    single_forward_run s.frequency_list.length s hall h0 h1 hlen hi hfr (le_refl _)
  refine ⟨t, ht, ?_⟩
  rcases hres with ⟨a, -, -⟩ | ⟨-, b, c⟩
  · omega
  · exact ⟨by omega, c⟩

/-- Witness of the amended C4: three Single entries, the cursor on the second
one: three forward advances bring it back there with one loop. -/
theorem forward_cycle_over_singles_witness :
    ∃ t, advances 3 c4_singles = some t ∧ t.current_index = 1 ∧ loops_in 3 c4_singles = 1 :=
  forward_cycle_over_singles c4_singles (by decide) (by decide) (by decide) (by decide) rfl
    (Or.inl ⟨rfl, rfl, rfl, rfl⟩)

/-! ## C5: a Single entry -/

/-- C5. When the entry under the cursor is a Single and no index jump is
pending, one directional advance (the motion of lines 1131-1271, made because
scanning is active or a manual step is pending) moves the cursor by exactly one
with wraparound: forward to `cursor + 1`, or to 0 from the last index; reverse
to `cursor - 1`, or to the last index from 0; and `has_looped` is true after
the advance exactly when the wraparound happened. -/
theorem single_advance_moves_cursor_by_one (s : ReconView) (e : freqman_entry)
    (hlen : (s.frequency_list.length : Int) < 2147483648)
    (he : entry_at s.frequency_list s.current_index = some e)
    (hk : e.type = freqman_entry_type.SINGLE)
    (hi : s.index_stepper = 0) (hg : s.recon = true ∨ s.stepper ≠ 0) :
    ∃ t, motion s = some t ∧
      (moving_forward s = true →
        t.current_index =
          (if s.current_index = (s.frequency_list.length : Int) - 1 then 0
           else s.current_index + 1)) ∧
      (moving_reverse s = true →
        t.current_index =
          (if s.current_index = 0 then (s.frequency_list.length : Int) - 1
           else s.current_index - 1)) ∧
      (t.has_looped = true ↔
        (moving_forward s = true ∧ s.current_index = (s.frequency_list.length : Int) - 1) ∨
        (moving_reverse s = true ∧ s.current_index = 0)) := by
  obtain ⟨h0, h1⟩ := entry_at_bounds he
  obtain ⟨e0, e', he0, hadv, -, hm⟩ := motion_eq s h0 h1 hlen hi hg
  rw [he] at he0
  cases he0
  refine ⟨_, hm, ?_⟩
  obtain ⟨r1, r2, -, -⟩ := motion_result_fields hadv e'
  rw [r1, r2, hk]
  have hs := advance_single_fields (motion_start s) (by simp) (by simpa using h0)
    (by simpa using h1) (by simpa using hlen)
  have hmv := moving_forward_congr (s := s) (a := motion_start s) (by simp) (by simp)
  simp only [hmv.1, hmv.2, motion_start_frame] at hs
  simp only [advance_kind]
  rcases moving_cases s with ⟨hf, hr⟩ | ⟨hf, hr⟩
  · obtain ⟨a1, a2⟩ := hs.1 hf
    refine ⟨fun _ => a1, fun h => ?_, ?_⟩
    · rw [hr] at h; cases h
    · rw [a2]; simp [hf, hr]
  · obtain ⟨a1, a2⟩ := hs.2 hr
    refine ⟨fun h => ?_, fun _ => a1, ?_⟩
    · rw [hf] at h; cases h
    · rw [a2]; simp [hf, hr]

/-- Witness of C5: from the last of three Single entries a forward advance
wraps to index 0 and sets `has_looped`. -/
theorem single_advance_moves_cursor_by_one_witness :
    ∃ t, motion c5_state = some t ∧ t.current_index = 0 ∧ t.has_looped = true := by
  obtain ⟨t, ht, hf, -, hl⟩ :=
    single_advance_moves_cursor_by_one c5_state (single_entry 300) (by decide) (by decide)
      rfl rfl (Or.inl rfl)
  exact ⟨t, ht, hf (by decide), hl.2 (Or.inl ⟨by decide, by decide⟩)⟩

/-! ## C6: a Range entry -/

/-- C6. When the entry under the cursor is a Range whose cached bounds are
`[freq_a, freq_b]`, a forward advance sets `freq` to `freq + step` and leaves
the cursor where it is whenever `freq + step <= freq_b`, and moves the cursor to
the next entry (with wraparound) exactly when `freq + step > freq_b`; a reverse
advance does the same with `freq - step` and `freq_a`, towards the previous
entry.  `entry_has_changed` tells whether the cursor moved on. -/
theorem range_advance_steps_inside_bounds (s : ReconView) (e : freqman_entry)
    (hlen : (s.frequency_list.length : Int) < 2147483648)
    (he : entry_at s.frequency_list s.current_index = some e)
    (hk : e.type = freqman_entry_type.RANGE)
    (hmin : s.minfreq = e.frequency_a) (hmax : s.maxfreq = e.frequency_b)
    (hi : s.index_stepper = 0) (hg : s.recon = true ∨ s.stepper ≠ 0) :
    ∃ t, motion s = some t ∧
      (moving_forward s = true →
        (s.freq + s.step ≤ e.frequency_b →
          t.current_index = s.current_index ∧ t.freq = s.freq + s.step ∧
          t.entry_has_changed = false) ∧
        (s.freq + s.step > e.frequency_b →
          t.current_index =
            (if s.current_index = (s.frequency_list.length : Int) - 1 then 0
             else s.current_index + 1) ∧
          t.entry_has_changed = true)) ∧
      (moving_reverse s = true →
        (s.freq - s.step ≥ e.frequency_a →
          t.current_index = s.current_index ∧ t.freq = s.freq - s.step ∧
          t.entry_has_changed = false) ∧
        (s.freq - s.step < e.frequency_a →
          t.current_index =
            (if s.current_index = 0 then (s.frequency_list.length : Int) - 1
             else s.current_index - 1) ∧
          t.entry_has_changed = true)) := by
  obtain ⟨h0, h1⟩ := entry_at_bounds he
  obtain ⟨e0, e', he0, hadv, -, hm⟩ := motion_eq s h0 h1 hlen hi hg
  rw [he] at he0
  cases he0
  refine ⟨_, hm, ?_⟩
  obtain ⟨r1, -, r3, r4⟩ := motion_result_fields hadv e'
  rw [r1, r3]
  rw [hk] at r4 ⊢
  have hs := advance_range_fields (motion_start s) (by simpa using h0)
    (by simpa using h1) (by simpa using hlen)
  have hmv := moving_forward_congr (s := s) (a := motion_start s) (by simp) (by simp)
  simp only [hmv.1, hmv.2, motion_start_frame, motion_start_fields, hmin, hmax] at hs
  simp only [advance_kind] at r4 ⊢
  constructor
  · intro hf
    obtain ⟨a1, a2⟩ := hs.1 hf
    constructor
    · intro h
      obtain ⟨b1, b2, b3⟩ := a1 h
      exact ⟨b1, by rw [r4 b3, b2], b3⟩
    · exact a2
  · intro hr
    obtain ⟨a1, a2⟩ := hs.2 hr
    constructor
    · intro h
      obtain ⟨b1, b2, b3⟩ := a1 h
      exact ⟨b1, by rw [r4 b3, b2], b3⟩
    · exact a2

/-- Witness of C6: on the range 1 MHz to 2 MHz with a 100 kHz step, the
first forward advance from 1 MHz tunes 1.1 MHz on the same entry; ten advances
end on 2 MHz with the cursor unchanged, and the eleventh moves the cursor. -/
theorem range_advance_steps_inside_bounds_witness :
    (∃ t, motion c6_state = some t ∧ t.current_index = 0 ∧ t.freq = 1100000) ∧
    (advances 10 c6_state).map (fun t => (t.current_index, t.freq)) = some (0, 2000000) ∧
    (advances 11 c6_state).map (fun t => t.current_index) = some 1 := by
  refine ⟨?_, by decide, by decide⟩
  obtain ⟨t, ht, hf, -⟩ :=
    range_advance_steps_inside_bounds c6_state (range_entry 1000000 2000000) (by decide)
      (by decide) rfl rfl rfl rfl (Or.inl rfl)
  obtain ⟨a1, a2, -⟩ := (hf (by decide)).1 (by decide)
  exact ⟨t, ht, a1, a2⟩

/-! ## C7: a RepeaterPair entry -/

/-- C8 fails on the code: the wrap of lines 1225-1228 adds or subtracts the list
length once only.  On a one-entry list with the cursor at 0, a pending jump of 2
gives the cursor 1, not `(0 + 2) mod 1 = 0`, and the reload of line 1239 then
reads `frequency_list[1]` outside the vector (the tick has no defined result);
on a three-entry list a pending jump of -5 from 0 gives the cursor -5. -/
theorem index_jump_single_wrap :
    c8_state.frequency_list.length = 1 ∧ c8_state.current_index = 0 ∧
    c8_state.index_stepper = 2 ∧
    (index_jump (motion_start c8_state)).current_index = 1 ∧
    (c8_state.current_index + c8_state.index_stepper) % 1 = 0 ∧
    (on_statistics_update (fun _ => 0) c8_state (-50) 100).isSome = false ∧
    (index_jump (motion_start c8_reverse)).current_index = -5 := by
  decide

/-! ## C9: the lock state after an index jump -/

/-- C9 as stated fails: the tick evaluates its sample before it resolves the
jump.  With scanning active and squelch -20, a jump of +1 followed by a tick
with the sample -10 ends with a match count of 1, not 0; if one match is enough
for a lock the engine is Locked after that tick. -/
theorem index_jump_tick_counterexample :
    (on_statistics_update (fun _ => 0) (on_index_delta c9_state 1) (-10) 100).map
        (fun t => (t.freq_lock, t.timer, t.index_stepper, t.current_index))
      = some (1, 0, 0, 1) ∧
    (on_statistics_update (fun _ => 0) (on_index_delta c9_one_match 1) (-10) 100).map
        (fun t => decide (is_locked t)) = some true ∧
    ¬ (∃ t, on_statistics_update (fun _ => 0) (on_index_delta c9_state 1) (-10) 100 = some t ∧
        t.freq_lock = 0) := by
  refine ⟨by decide, by decide, ?_⟩
  rintro ⟨t, ht, h⟩
  have h2 : (on_statistics_update (fun _ => 0) (on_index_delta c9_state 1) (-10) 100).map
      (fun t => t.freq_lock) = some 1 := by decide
  rw [ht] at h2
  simp only [Option.map_some', Option.some.injEq] at h2
  omega

/-- C9, amended. For every non-empty list, valid cursor and index jump `v`
requested through `on_index_delta` that the single wrap brings back into the
list (`-len <= cursor + v < 2 * len`), and for every sample: after the tick that
resolves the jump the dwell timer is 0, the pending jump is consumed and the
cursor is `(cursor + v) mod len`.  The sample of that tick is evaluated before
the jump.  With `N` the required count: the match count after the tick is 1 when
scanning is active, the sample exceeds the squelch and `N >= 1`, and 0
otherwise.  When scanning is active the status after the tick is Locked (2) if
`N = 0`, or if `N = 1` and the sample exceeds the squelch, and the engine is then
Locked; otherwise it is Locking (1) and the engine is not Locked.  When scanning
is paused the status is left as it was, and with `N >= 1` the engine is not
Locked. -/
theorem index_jump_tick (sv : Int → Int) (s : ReconView) (v d : Int) (n : Nat)
    (hne : s.frequency_list ≠ [])
    (h0 : 0 ≤ s.current_index) (h1 : s.current_index < (s.frequency_list.length : Int))
    (hlen : (s.frequency_list.length : Int) < 2147483648) (hv : v ≠ 0)
    (hlo : -(s.frequency_list.length : Int) ≤ s.current_index + v)
    (hhi : s.current_index + v < 2 * (s.frequency_list.length : Int)) :
    ∃ t, on_statistics_update sv (on_index_delta s v) d n = some t ∧
      t.timer = 0 ∧ t.index_stepper = 0 ∧
      t.current_index = (s.current_index + v) % (s.frequency_list.length : Int) ∧
      t.freq_lock =
        (if s.recon = true ∧ d > s.cfg.squelch ∧ 0 < s.cfg.recon_lock_nb_match then 1 else 0) ∧
      t.status =
        (if s.recon = true then
          (if s.cfg.recon_lock_nb_match = 0
              ∨ (s.cfg.recon_lock_nb_match = 1 ∧ d > s.cfg.squelch) then 2 else 1)
         else s.status) ∧
      (s.recon = true →
        (is_locked t ↔ s.cfg.recon_lock_nb_match = 0
          ∨ (s.cfg.recon_lock_nb_match = 1 ∧ d > s.cfg.squelch))) ∧
      (s.recon = false → 0 < s.cfg.recon_lock_nb_match → ¬ is_locked t) := by
  obtain ⟨u1, u2, u3, u4, u5, u6, u7⟩ := on_index_delta_fields s v hne
  have hokU : cursor_ok (on_index_delta s v) :=
    ⟨by simpa using hlen, Or.inr ⟨by simpa using h0, by simpa using h1⟩⟩
  obtain ⟨r, ef, -, -, hjump⟩ := tick_cases sv (on_index_delta s v) d n hokU
  have hg : motion_guard (pre_motion (on_index_delta s v) d n r ef) := by
    unfold motion_guard
    simp only [pre_motion_frame, on_index_delta_frame, u1]
    exact ⟨Or.inr (Or.inr hv), Or.inr (Or.inr hv), List.length_pos.2 hne⟩
  have hr := index_jump_in_range (motion_start (pre_motion (on_index_delta s v) d n r ef))
    (by simpa using hlen) (by simpa [u1] using hlo) (by simpa [u1] using hhi)
  simp only [motion_start_frame, pre_motion_frame, on_index_delta_frame, u1] at hr
  obtain ⟨e', he'⟩ := entry_at_ok s.frequency_list _ hr.2.1 hr.2.2
  obtain ⟨t, ht, hs⟩ := hjump hg (by rw [u1]; exact hv) e' (by simpa using he')
  have hlp : (index_jump (motion_start (pre_motion (on_index_delta s v) d n r ef))).has_looped
      = false := by simp
  have hsame := pre_motion_same (on_index_delta s v) d n r ef
  have hfl : (pre_motion (on_index_delta s v) d n r ef).freq_lock
      = (lock_core (on_index_delta s v) d).freq_lock := hsame.freq_lock.trans (by simp)
  have hst : (pre_motion (on_index_delta s v) d n r ef).status
      = (lock_core (on_index_delta s v) d).status := hsame.status.trans (by simp)
  have hcfg : t.cfg.recon_lock_nb_match = s.cfg.recon_lock_nb_match := by
    rw [hs.cfg]
    simp only [finish_motion_frame, reload_core_frame, index_jump_frame, motion_start_frame,
      pre_motion_frame, on_index_delta_frame, u5]
  have hflv : t.freq_lock =
      (if s.recon = true ∧ d > s.cfg.squelch ∧ 0 < s.cfg.recon_lock_nb_match then 1 else 0) := by
    rw [hs.freq_lock]
    simp only [finish_motion_fields, reload_core_frame, hlp, Bool.false_eq_true, false_and,
      if_false, index_jump_frame, motion_start_frame, hfl]
    unfold lock_core
    simp only [on_index_delta_frame]
    cases hrc : s.recon
    · simp [u3]
    · simp [u2, u4, u5]
      by_cases hd : s.cfg.squelch < d <;> by_cases hN : 0 < s.cfg.recon_lock_nb_match <;>
        simp [hd, hN]
  have hstv : t.status =
      (if s.recon = true then
        (if s.cfg.recon_lock_nb_match = 0
            ∨ (s.cfg.recon_lock_nb_match = 1 ∧ d > s.cfg.squelch) then 2 else 1)
       else s.status) := by
    rw [hs.status]
    simp only [finish_motion_frame, reload_core_frame, index_jump_frame, motion_start_frame,
      hst]
    unfold lock_core
    simp only [on_index_delta_frame]
    cases hrc : s.recon
    · simp
    · simp only [if_true]
      rw [(locked_core_fields _).1]
      simp only [locking_frame, rearm_frame, store_sample_frame, on_index_delta_frame, u5,
        (locking_fields _).1, (locking_fields _).2.2, (rearm_fields _).2.1,
        (rearm_fields _).2.2.1, store_sample_db, u2, u4, if_true]
      by_cases hd : d > s.cfg.squelch
      · by_cases hN0 : s.cfg.recon_lock_nb_match = 0
        · simp [hd, hN0]
        · by_cases hN1 : s.cfg.recon_lock_nb_match = 1
          · simp [hd, hN1]
          · have h2 : 2 ≤ s.cfg.recon_lock_nb_match := by omega
            have h3 : 0 < s.cfg.recon_lock_nb_match := by omega
            simp [hd, hN0, hN1, h3]
            omega
      · by_cases hN0 : s.cfg.recon_lock_nb_match = 0
        · simp [hd, hN0]
        · have h3 : 0 < s.cfg.recon_lock_nb_match := by omega
          simp [hd, hN0, h3]
  refine ⟨t, ht, ?_, ?_, ?_, hflv, hstv, fun hrc => ?_, fun hrc hN => ?_⟩
  · rw [hs.timer]
    simp [hlp]
  · rw [hs.index_stepper]
    simp
  · rw [hs.current_index]
    simp only [finish_motion_frame, reload_core_frame]
    exact hr.1
  · unfold is_locked
    rw [hstv, hflv, hcfg, if_pos hrc]
    by_cases hN0 : s.cfg.recon_lock_nb_match = 0
    · simp [hN0]
    · by_cases hN1 : s.cfg.recon_lock_nb_match = 1
      · by_cases hd : d > s.cfg.squelch
        · simp [hN1, hd, hrc]
        · simp [hN1, hd]
      · simp [hN0, hN1]
  · unfold is_locked
    rw [hflv, hcfg]
    simp [hrc]
    intro _
    omega

/-- Witness of the amended C9: the jump of +1 from the first of two Single
entries, resolved by a tick whose sample exceeds the squelch; with three matches
required the engine is Locking with a count of 1, with one match required it is
Locked. -/
theorem index_jump_tick_witness :
    (∃ t, on_statistics_update (fun _ => 0) (on_index_delta c9_state 1) (-10) 100 = some t ∧
      t.timer = 0 ∧ t.index_stepper = 0 ∧ t.current_index = 1 ∧ t.freq_lock = 1 ∧
      t.status = 1) ∧
    (∃ t, on_statistics_update (fun _ => 0) (on_index_delta c9_one_match 1) (-10) 100 = some t ∧
      is_locked t) := by
  obtain ⟨t, h1, h2, h3, h4, h5, h6, -⟩ :=
    index_jump_tick (fun _ => 0) c9_state 1 (-10) 100 (by decide) (by decide) (by decide)
      (by decide) (by decide) (by decide) (by decide)
  obtain ⟨u, g1, -, -, -, -, -, g7, -⟩ :=
    index_jump_tick (fun _ => 0) c9_one_match 1 (-10) 100 (by decide) (by decide) (by decide)
      (by decide) (by decide) (by decide) (by decide)
  exact ⟨⟨t, h1, h2, h3, h4, h5, h6.trans (by decide)⟩,
    ⟨u, g1, (g7 (by decide)).2 (Or.inr (by decide))⟩⟩

/-! ## C10: the side effects of the lock transition -/

/-- C10 fails on the code when `wait != 0`: on the tick of the lock transition
(recon role, autosave enabled, non-empty list, `wait` = 300) the save of the
current entry is requested twice, by lines 1085-1087 and again by lines
1099-1101, around the audio start; with `wait` = 0 it is requested once.  The
next tick, which stays Locked, requests nothing more. -/
theorem lock_transition_saves_twice :
    (on_statistics_update (fun _ => 0) c10_state (-10) 100).map
        (fun t => (decide (is_locked t), t.effects))
      = some (true, [Effect.audio_stop, Effect.save_freq (single_entry 100),
          Effect.audio_start, Effect.save_freq (single_entry 100)]) ∧
    (on_statistics_update (fun _ => 0) c10_state (-10) 100).map
        (fun t => save_count t.effects) = some 2 ∧
    (on_statistics_update (fun _ => 0) c10_no_wait (-10) 100).map
        (fun t => save_count t.effects) = some 1 ∧
    (run_ticks (fun _ => 0) 100 c10_state [-10, -10]).map
        (fun t => (decide (is_locked t), t.effects.length)) = some (true, 4) := by
  decide

/-! ## C11: the fixed dwell after a lock -/

/-- C11 as stated fails for an elapsed time that takes the signed 32-bit dwell
timer out of its range: with `wait` = 100 and 3000000000 time units a tick, the
release is due on the lock tick itself (`max 1 (ceil (100 / 3000000000)) = 1`),
but `timer -= time_interval` wraps and leaves 1294967396 on the timer, and the
cursor has not moved. -/
theorem fixed_dwell_counterexample :
    lock_transition_tick c11_short_wait (-10) ∧ c11_short_wait.cfg.wait = 100 ∧
    (on_statistics_update (fun _ => 0) c11_short_wait (-10) 3000000000).map
        (fun t => (t.timer, t.current_index, t.freq)) = some (1294967396, 0, 100) ∧
    ¬ (∃ t, on_statistics_update (fun _ => 0) c11_short_wait (-10) 3000000000 = some t ∧
        t.timer = 0) := by
  refine ⟨by decide, by decide, by decide, ?_⟩
  rintro ⟨t, ht, h⟩
  have h2 : (on_statistics_update (fun _ => 0) c11_short_wait (-10) 3000000000).map
      (fun t => t.timer) = some 1294967396 := by decide
  rw [ht] at h2
  simp only [Option.map_some', Option.some.injEq] at h2
  omega

/-- C11, amended. On the tick of the lock transition with `0 <= wait` (a signed
32-bit value, `wait < 2 ^ 31`), the lock evaluation sets the dwell timer to
`wait`.  With nothing manual pending, a valid
cursor on a non-empty list and the same elapsed time `0 < n <= 2 ^ 31` for every
tick (so that the decrement stays in the range of the signed 32-bit timer), let
`K = max 1 (ceil (wait / n))`, the lock tick counting as tick 1.  Whatever the
later samples are, after each tick `k < K` the timer is `wait - k * n`, still
positive, and the cursor and the tuned frequency are the ones of the lock tick;
on tick `K` the timer reaches 0, the motion code runs and makes the directional
advance.  With `wait = 0`, `K = 1`: the advance is made on the lock tick. -/
theorem fixed_dwell_release (sv : Int → Int) (s : ReconView) (d : Int) (n K : Nat)
    (samples : List Int)
    (hok : cursor_ok s) (hne : s.frequency_list ≠ []) (hst : s.stepper = 0)
    (hi : s.index_stepper = 0) (hw : 0 ≤ s.cfg.wait) (hwmax : s.cfg.wait < 2147483648)
    (hn : 0 < n) (hnmax : n ≤ 2147483648)
    (hlock : lock_transition_tick s d)
    (hK : (K : Int) = max 1 ⌈(s.cfg.wait : ℚ) / (n : ℚ)⌉)
    (hlen : K ≤ samples.length + 1) :
    (∃ s1, lock_stage s d = some s1 ∧ s1.timer = s.cfg.wait) ∧
    (s.cfg.wait = 0 → K = 1) ∧
    (∀ k, 1 ≤ k → k < K →
      ∃ v, run_ticks sv n s ((d :: samples).take k) = some v ∧
        v.timer = s.cfg.wait - (k : Int) * (n : Int) ∧ 0 < v.timer ∧
        v.current_index = s.current_index ∧ v.freq = s.freq) ∧
    (∃ u dK s1 t a, run_ticks sv n s ((d :: samples).take (K - 1)) = some u ∧
      (d :: samples).get? (K - 1) = some dK ∧
      lock_stage u dK = some s1 ∧ on_statistics_update sv u dK n = some t ∧
      run_ticks sv n s ((d :: samples).take K) = some t ∧
      motion_guard (timer_stage s1 n) ∧
      directional_advance (motion_start (timer_stage s1 n)) = some a ∧
      t.current_index = a.current_index ∧ t.has_looped = a.has_looped ∧
      t.entry_has_changed = a.entry_has_changed ∧
      (a.entry_has_changed = false → t.freq = a.freq) ∧ t.timer = 0) := by
  have hnq : (0 : ℚ) < (n : ℚ) := by exact_mod_cast hn
  have hK1 : 1 ≤ K := by
    have : (1 : Int) ≤ (K : Int) := by rw [hK]; exact le_max_left _ _
    exact_mod_cast this
  -- before tick `K` more than the elapsed time is left
  have hbefore : ∀ k : Nat, 1 ≤ k → k < K → (k : Int) * (n : Int) < s.cfg.wait := by
    intro k hk1 hkK
    have h1 : (k : Int) < max 1 ⌈(s.cfg.wait : ℚ) / (n : ℚ)⌉ := by rw [← hK]; exact_mod_cast hkK
    have h2 : (k : Int) < ⌈(s.cfg.wait : ℚ) / (n : ℚ)⌉ := by
      rcases lt_max_iff.1 h1 with h | h
      · have : (1 : Int) ≤ (k : Int) := by exact_mod_cast hk1
        omega
      · exact h
    have h3 := Int.lt_ceil.1 h2
    rw [lt_div_iff₀ hnq] at h3
    exact_mod_cast h3
  -- on tick `K` at most the elapsed time is left
  have hat : s.cfg.wait ≤ (K : Int) * (n : Int) := by
    have h1 : ⌈(s.cfg.wait : ℚ) / (n : ℚ)⌉ ≤ (K : Int) := by rw [hK]; exact le_max_right _ _
    have h2 := Int.ceil_le.1 h1
    rw [div_le_iff₀ hnq] at h2
    exact_mod_cast h2
  obtain ⟨c1, c2, c3, c4, -⟩ := lock_core_transition s d hlock
  have c4' := c4 hw
  have hcount : ∀ k, 1 ≤ k → k < K →
      ∃ v, run_ticks sv n s ((d :: samples).take k) = some v ∧ Countdown s v k n := by
    intro k hk1 hkK
    obtain ⟨j, rfl⟩ : ∃ j, k = j + 1 := ⟨k - 1, by omega⟩
    have hb := hbefore (j + 1) hk1 hkK
    push_cast at hb
    have hnn : (0 : Int) ≤ (n : Int) := Int.ofNat_nonneg n
    have hjj : (0 : Int) ≤ (j : Int) := Int.ofNat_nonneg j
    obtain ⟨t, ht, hc⟩ := lock_tick_countdown sv s d n hok hst hi hlock hw (by nlinarith)
      hwmax
    obtain ⟨v, hv, hcv⟩ := countdown_run sv s n hw hwmax samples t 1 hc j (by omega)
      (by push_cast; linarith)
    refine ⟨v, ?_, ?_⟩
    · simp only [List.take_succ_cons, run_ticks, ht, Option.some_bind]
      exact hv
    · have : j + 1 = 1 + j := by omega
      rw [this]
      exact hcv
  refine ⟨?_, ?_, fun k hk1 hkK => ?_, ?_⟩
  · obtain ⟨s1, -, hls, hsc, -⟩ := auto_tick sv s d n hok hst hi
    exact ⟨s1, hls, by rw [hsc.timer, c4']⟩
  · intro h0
    have : (K : Int) = 1 := by rw [hK, h0]; simp
    exact_mod_cast this
  · obtain ⟨v, hv, hc⟩ := hcount k hk1 hkK
    exact ⟨v, hv, hc.left, hc.hold.timer, hc.hold.current_index, hc.hold.freq⟩
  · by_cases hK2 : K = 1
    · subst hK2
      have hle : (lock_core s d).timer ≤ (n : Int) := by rw [c4']; simpa using hat
      have hnm : (n : Int) ≤ 2147483648 := by exact_mod_cast hnmax
      obtain ⟨s1, t, a, hls, -, ht, hg, ha, r⟩ :=
        release_tick sv s d n hok hst hi hlock.1 hne hle (by rw [c4']; omega) c3
      refine ⟨s, d, s1, t, a, by simp [run_ticks], by simp, hls, ht, ?_, hg, ha, r⟩
      simp [run_ticks, ht]
    · obtain ⟨j, rfl⟩ : ∃ j, K = j + 2 := ⟨K - 2, by omega⟩
      obtain ⟨u, hu, hc⟩ := hcount (j + 1) (by omega) (by omega)
      obtain ⟨dK, hdK⟩ : ∃ dK, samples.get? j = some dK := by
        have : j < samples.length := by omega
        exact ⟨samples.get ⟨j, this⟩, List.get?_eq_get this⟩
      have hfl : u.freq_lock ≥ u.cfg.recon_lock_nb_match := by
        rw [hc.hold.cfg]; exact hc.hold.freq_lock
      obtain ⟨-, -, q3, q4⟩ := lock_core_hold u dK hc.hold.recon (ne_of_gt hc.hold.timer) hfl
        hc.hold.status
      rw [hc.hold.cfg, if_neg (not_lt.mpr hw), hc.left] at q4
      have hle : (lock_core u dK).timer ≤ (n : Int) := by
        rw [q4]
        push_cast at hat ⊢
        linarith
      have hnm : (n : Int) ≤ 2147483648 := by exact_mod_cast hnmax
      have hpos : 0 < (lock_core u dK).timer := by
        rw [q4, ← hc.left]
        exact hc.hold.timer
      obtain ⟨s1, t, a, hls, -, ht, hg, ha, r⟩ :=
        release_tick sv u dK n hc.hold.ok hc.hold.stepper hc.hold.index_stepper hc.hold.recon
          (by rw [hc.hold.frequency_list]; exact hne) hle (by omega) (q3.trans hc.streak)
      refine ⟨u, dK, s1, t, a, hu, ?_, hls, ht, ?_, hg, ha, r⟩
      · simpa using hdK
      · rw [run_ticks_take_succ sv n (d :: samples) s u (j + 1) dK hu (by simpa using hdK)]
        exact ht

/-- Witness of the amended C11: `wait` = 250 and ticks of 100 give `K = 3`.
After the lock tick and one more tick the timer is at 50 with the cursor still
on the first entry; the third tick brings the timer to 0 and the cursor to the
second entry, although both later samples are below the squelch. -/
theorem fixed_dwell_release_witness :
    (∃ v, run_ticks (fun _ => 0) 100 c11_state [-10, -30] = some v ∧ v.timer = 50 ∧
      v.current_index = 0) ∧
    (∃ t, run_ticks (fun _ => 0) 100 c11_state [-10, -30, -30] = some t ∧ t.timer = 0 ∧
      t.current_index = 1) := by
  have hK : ((3 : Nat) : Int)
      = max 1 ⌈((c11_state.cfg.wait : Int) : ℚ) / ((100 : Nat) : ℚ)⌉ := by
    have h : ⌈((c11_state.cfg.wait : Int) : ℚ) / ((100 : Nat) : ℚ)⌉ = 3 := by
      rw [Int.ceil_eq_iff]
      norm_num [c11_state, blank, blank_settings]
    rw [h]
    rfl
  obtain ⟨-, -, h3, u, dK, s1, t, a, -, -, -, -, h4, -, -, -, -, -, -, h5⟩ :=
    fixed_dwell_release (fun _ => 0) c11_state (-10) 100 3 [-30, -30] (by decide) (by decide)
      (by decide) (by decide) (by decide) (by decide) (by decide) (by decide) (by decide) hK
      (by decide)
  obtain ⟨v, hv, hvt, -, hvc, -⟩ := h3 2 (by decide) (by decide)
  refine ⟨⟨v, hv, ?_, hvc⟩, ⟨t, h4, h5, ?_⟩⟩
  · rw [hvt]; decide
  · have hc : (run_ticks (fun _ => 0) 100 c11_state [-10, -30, -30]).map
        (fun t => t.current_index) = some 1 := by decide
    have h4' : run_ticks (fun _ => 0) 100 c11_state [-10, -30, -30] = some t := h4
    rw [h4'] at hc
    simpa using hc

/-! ## C12: the stay after the last activity -/

/-- C12. With `wait < 0` (a 32-bit value on which `abs` is defined, `-2 ^ 31 <
wait`), `abs(wait)` greater than the elapsed time `n` of a tick and nothing
manual pending, take a run of ticks whose samples all exceed the squelch,
starting either on an engine that is Locked (scanning active,
`status == 2`, match count at least the required one, dwell timer running) or
with the tick of the lock transition itself.  The lock evaluation of the first
tick leaves the dwell timer at `abs(wait)`, before the decrement; after every
tick of the run the engine is Locked with a running timer, the cursor and the
tuned frequency are the ones the run started with, and the lock evaluation of a
further tick whose sample exceeds the squelch would again leave the timer at
`abs(wait)` before the decrement. -/
theorem stay_keeps_lock (sv : Int → Int) (s : ReconView) (n : Nat) (d0 : Int)
    (samples : List Int)
    (hok : cursor_ok s) (hst : s.stepper = 0) (hi : s.index_stepper = 0)
    (hw : s.cfg.wait < 0) (hmin : -2147483648 < s.cfg.wait) (hn : (n : Int) < |s.cfg.wait|)
    (hstart : (s.recon = true ∧ is_locked s ∧ 0 < s.timer) ∨ lock_transition_tick s d0)
    (hd0 : d0 > s.cfg.squelch) (hd : ∀ d ∈ samples, d > s.cfg.squelch) :
    (∃ s1, lock_stage s d0 = some s1 ∧ s1.timer = |s.cfg.wait|) ∧
    ∀ k, k ≤ samples.length →
      ∃ v, run_ticks sv n s (d0 :: samples.take k) = some v ∧
        v.recon = true ∧ is_locked v ∧ 0 < v.timer ∧
        v.current_index = s.current_index ∧ v.freq = s.freq ∧
        (∀ d, d > s.cfg.squelch →
          ∃ s1, lock_stage v d = some s1 ∧ s1.timer = |s.cfg.wait|) := by
  have habs : |s.cfg.wait| < 2147483648 := by
    rw [abs_of_neg hw]
    omega
  have hrefresh : ∀ (u : ReconView) (d : Int), Holding s u → d > s.cfg.squelch →
      (lock_core u d).timer = |s.cfg.wait| := by
    intro u d h hd'
    have hfl : u.freq_lock ≥ u.cfg.recon_lock_nb_match := by rw [h.cfg]; exact h.freq_lock
    obtain ⟨-, -, -, c4⟩ := lock_core_hold u d h.recon (ne_of_gt h.timer) hfl h.status
    rw [c4, h.cfg, if_pos hw, if_pos hd']
  have hfin : ∀ v, Holding s v → v.recon = true ∧ is_locked v ∧ 0 < v.timer ∧
      v.current_index = s.current_index ∧ v.freq = s.freq ∧
      (∀ d, d > s.cfg.squelch →
        ∃ s1, lock_stage v d = some s1 ∧ s1.timer = |s.cfg.wait|) := by
    intro v h
    refine ⟨h.recon, ⟨h.status, by rw [h.cfg]; exact h.freq_lock⟩, h.timer, h.current_index,
      h.freq, fun d hd' => ?_⟩
    obtain ⟨s1, -, hls, hsc, -⟩ := auto_tick sv v d n h.ok h.stepper h.index_stepper
    exact ⟨s1, hls, by rw [hsc.timer]; exact hrefresh v d h hd'⟩
  have run : ∀ (l : List Int) (u : ReconView), Holding s u → (∀ d ∈ l, d > s.cfg.squelch) →
      ∀ k, k ≤ l.length → ∃ v, run_ticks sv n u (l.take k) = some v ∧ Holding s v := by
    intro l
    induction l with
    | nil =>
      intro u h _ k _
      exact ⟨u, by simp [run_ticks], h⟩
    | cons d ds ih =>
      intro u h hall k hk
      cases k with
      | zero => exact ⟨u, by simp [run_ticks], h⟩
      | succ k =>
        have hd' : d > s.cfg.squelch := hall d (List.mem_cons_self _ _)
        obtain ⟨s1, t, -, -, htick, hh, -, -⟩ := holding_tick sv s u d n h
          (by rw [hrefresh u d h hd']; exact hn) (by rw [hrefresh u d h hd']; exact habs)
        obtain ⟨v, hv, hhv⟩ := ih t hh (fun x hx => hall x (List.mem_cons_of_mem _ hx)) k
          (by simpa using hk)
        refine ⟨v, ?_, hhv⟩
        simp only [List.take_succ_cons, run_ticks, htick, Option.some_bind]
        exact hv
  -- the first tick, from a Locked engine or through the lock transition
  have hfirst : (lock_core s d0).timer = |s.cfg.wait| ∧
      ∃ t, on_statistics_update sv s d0 n = some t ∧ Holding s t := by
    rcases hstart with ⟨hr, hl, ht⟩ | hlock
    · have hh : Holding s s := ⟨hok, rfl, rfl, hr, hst, hi, hl.1, hl.2, ht, rfl, rfl⟩
      have hre := hrefresh s d0 hh hd0
      obtain ⟨-, t, -, -, htick, hht, -, -⟩ := holding_tick sv s s d0 n hh
        (by rw [hre]; exact hn) (by rw [hre]; exact habs)
      exact ⟨hre, t, htick, hht⟩
    · exact ⟨(lock_core_transition s d0 hlock).2.2.2.2 hw hd0,
        lock_tick_holding sv s d0 n hok hst hi hlock hw hmin hd0 hn⟩
  obtain ⟨hre, t, htick, hht⟩ := hfirst
  constructor
  · obtain ⟨s1, -, hls, hsc, -⟩ := auto_tick sv s d0 n hok hst hi
    exact ⟨s1, hls, by rw [hsc.timer]; exact hre⟩
  · intro k hk
    obtain ⟨v, hv, hh⟩ := run samples t hht hd k hk
    refine ⟨v, ?_, hfin v hh⟩
    simp only [run_ticks, htick, Option.some_bind]
    exact hv

/-- Witness of C12: `wait` = -300, ticks of 100 and one match required; the
first matching sample takes the lock on the first of two entries, and after
three more matching samples the engine is still Locked on it. -/
theorem stay_keeps_lock_witness :
    ∃ v, run_ticks (fun _ => 0) 100 c12_state [-10, -10, -10, -10] = some v ∧
      is_locked v ∧ v.current_index = 0 ∧ v.freq = 100 := by
  obtain ⟨-, h⟩ :=
    stay_keeps_lock (fun _ => 0) c12_state 100 (-10) [-10, -10, -10] (by decide) (by decide)
      (by decide) (by decide) (by decide) (by decide) (Or.inr (by decide)) (by decide)
      (by decide)
  obtain ⟨v, hv, -, hl, -, hc, hf, -⟩ := h 3 (by decide)
  exact ⟨v, hv, hl, hc, hf⟩

/-! ## C13: the decrement of the dwell timer -/

/-- C13 as stated fails where the value is outside the range of the signed
32-bit dwell timer.  With a lock duration of 3000000000 in Continuous mode, a
matching sample on a fresh re-arm leaves the timer at -1294967296 after the lock
evaluation with the streak holding, and the tick leaves 0, not that value.  In
Sparse mode with 100 on the timer, a tick with an elapsed time of 3000000000
leaves 1294967396, not `max (100 - 3000000000) 0 = 0`. -/
theorem dwell_timer_counterexample :
    (lock_stage c2_long_duration (-10)).map
        (fun s1 => (s1.timer, s1.continuous_lock, (timer_stage s1 100).timer))
      = some (-1294967296, true, 0) ∧
    (lock_stage c13_sparse (-10)).map
        (fun s1 => (s1.timer, (timer_stage s1 3000000000).timer))
      = some (100, 1294967396) ∧
    ¬ (∃ s1, lock_stage c13_sparse (-10) = some s1 ∧
        (timer_stage s1 3000000000).timer = max (s1.timer - 3000000000) 0) := by
  refine ⟨by decide, by decide, ?_⟩
  rintro ⟨s1, h1, h2⟩
  have h : (lock_stage c13_sparse (-10)).map
      (fun s1 => (s1.timer, (timer_stage s1 3000000000).timer)) = some (100, 1294967396) := by
    decide
  rw [h1] at h
  simp only [Option.map_some', Option.some.injEq, Prod.mk.injEq] at h
  rw [h.1, h.2] at h2
  revert h2
  decide

/-- C13, amended. In every tick (valid cursor), let `s1` be the state after the
lock evaluation and `e` the elapsed time.  When the timer of `s1` is not zero and
`timer - e` is in the range of the signed 32-bit timer (`e - 2 ^ 31 <= timer <
2 ^ 31`), the decrement of lines 1119-1126 leaves `max (timer - e) 0` in Sparse
mode, and also in Continuous mode unless the match streak is holding
(`continuous_lock`, set by a match of the current Locking attempt and cleared by
the re-arm, by the miss that ends the streak and by the lock transition); while
the streak holds in Continuous mode the timer is not decremented: it keeps its
value when that is not negative, and is floored to 0 otherwise.  The timer of
`s1` is not negative when the timer was not negative before the tick and the
lock duration is below `2 ^ 31`, and it is in the range of its type when the
timer before the tick and `wait` are.  The timer is never negative after the
decrement, nor after any tick that returns; with no index jump pending the tick
returns, and with no manual step pending either it ends on the timer that the
decrement left. -/
theorem dwell_timer_decrement (sv : Int → Int) (s : ReconView) (d : Int) (e : Nat)
    (hok : cursor_ok s) :
    ∃ s1, lock_stage s d = some s1 ∧
      (s1.timer ≠ 0 →
        (s.cfg.recon_match_mode = RECON_MATCH_SPARSE →
          (e : Int) - 2147483648 ≤ s1.timer → s1.timer < 2147483648 →
          (timer_stage s1 e).timer = max (s1.timer - (e : Int)) 0) ∧
        (s.cfg.recon_match_mode = RECON_MATCH_CONTINUOUS → s1.continuous_lock = false →
          (e : Int) - 2147483648 ≤ s1.timer → s1.timer < 2147483648 →
          (timer_stage s1 e).timer = max (s1.timer - (e : Int)) 0) ∧
        (s.cfg.recon_match_mode = RECON_MATCH_CONTINUOUS → s1.continuous_lock = true →
          (timer_stage s1 e).timer = max s1.timer 0 ∧
          (0 ≤ s1.timer → (timer_stage s1 e).timer = s1.timer))) ∧
      (0 ≤ s.timer → s.cfg.recon_lock_duration < 2147483648 → 0 ≤ s1.timer) ∧
      (-2147483648 ≤ s.timer → s.timer < 2147483648 → -2147483648 < s.cfg.wait →
        s.cfg.wait < 2147483648 → -2147483648 ≤ s1.timer ∧ s1.timer < 2147483648) ∧
      0 ≤ (timer_stage s1 e).timer ∧
      (s.index_stepper = 0 →
        ∃ t, on_statistics_update sv s d e = some t ∧
          (s.stepper = 0 → t.timer = (timer_stage s1 e).timer)) ∧
      (∀ t, on_statistics_update sv s d e = some t → 0 ≤ t.timer) := by
  obtain ⟨r, ef, hls⟩ := lock_stage_io s d hok
  have hc : SameEngine (lock_core s d) (with_io (lock_core s d) r ef) := with_io_same _ r ef
  generalize with_io (lock_core s d) r ef = s1 at hls hc
  have hcfg : s1.cfg = s.cfg := hc.cfg.trans (by simp)
  have hcases := lock_core_timer_cases s d
  rw [← hc.timer] at hcases
  have hab : 0 ≤ |s.cfg.wait| := abs_nonneg _
  have h1 : 0 ≤ s.timer → s.cfg.recon_lock_duration < 2147483648 → 0 ≤ s1.timer := by
    intro h0 hL2
    have hL := toI32_natCast hL2
    rcases hcases with h | h | h | ⟨hw, h⟩ | ⟨-, h⟩ <;> rw [h] <;> omega
  have h2 : -2147483648 ≤ s.timer → s.timer < 2147483648 → -2147483648 < s.cfg.wait →
      s.cfg.wait < 2147483648 → -2147483648 ≤ s1.timer ∧ s1.timer < 2147483648 := by
    intro a b c e'
    have hr := toI32_range (s.cfg.recon_lock_duration : Int)
    rcases hcases with h | h | h | ⟨hw, h⟩ | ⟨hw, h⟩
    · rw [h]; exact ⟨a, b⟩
    · rw [h]; exact hr
    · rw [h]; omega
    · rw [h]; omega
    · rw [h, abs_of_neg hw]; omega
  have hr := toI32_range (s1.timer - (e : Int))
  have hstage : 0 ≤ (timer_stage s1 e).timer := by
    rw [timer_stage_timer]
    split_ifs <;> omega
  have hdec : s1.timer ≠ 0 →
      (s1.continuous_lock = false ∨ s1.cfg.recon_match_mode = RECON_MATCH_SPARSE) →
      (e : Int) - 2147483648 ≤ s1.timer → s1.timer < 2147483648 →
      (timer_stage s1 e).timer = max (s1.timer - (e : Int)) 0 := by
    intro hnz hor hlo hhi
    have hx : toI32 (s1.timer - (e : Int)) = s1.timer - (e : Int) :=
      toI32_of_lt (by omega) (by omega)
    rw [timer_stage_timer, if_neg hnz, if_pos hor, hx]
    split_ifs with h <;> [rw [max_eq_right (le_of_lt h)]; rw [max_eq_left (not_lt.mp h)]]
  -- a tick with no index jump pending ends on the timer of the decrement, or on zero
  have hend : s.index_stepper = 0 →
      ∃ t, on_statistics_update sv s d e = some t ∧
        (t.timer = (timer_stage s1 e).timer ∨ t.timer = 0) ∧
        (s.stepper = 0 → t.timer = (timer_stage s1 e).timer) := by
    intro hi
    obtain ⟨s1', t, hls', -, ht, -, hstill, hmove⟩ := tick_stages sv s d e hok hi
    rw [hls] at hls'
    cases hls'
    by_cases hg : motion_guard (timer_stage s1 e)
    · obtain ⟨a, e', ha, -, -, hs⟩ := hmove hg
      have hk := (directional_advance_keeps ha).2.2.2.2.2.2.2.1
      have hor : t.timer = (timer_stage s1 e).timer ∨ t.timer = 0 := by
        rw [hs.timer]
        simp only [finish_motion_fields, reload_core_timer, reload_core_frame]
        split_ifs
        · exact Or.inr rfl
        · exact Or.inr rfl
        · exact Or.inl (by simpa using hk)
      refine ⟨t, ht, hor, fun hst => ?_⟩
      rcases hor with h | h
      · exact h
      · rw [h, (motion_guard_auto (by simp [hc.stepper, hst]) (by simp [hc.index_stepper, hi])
          hg).2]
    · exact ⟨t, ht, Or.inl (hstill hg).timer, fun _ => (hstill hg).timer⟩
  refine ⟨s1, hls, fun hnz => ⟨fun hm => ?_, fun hm hcl => ?_, fun hm hcl => ?_⟩, h1, h2,
    hstage, fun hi => ?_, fun t ht => ?_⟩
  · exact hdec hnz (Or.inr (by rw [hcfg]; exact hm))
  · exact hdec hnz (Or.inl hcl)
  · have hne : ¬ (s1.continuous_lock = false ∨ s1.cfg.recon_match_mode = RECON_MATCH_SPARSE) := by
      rw [hcfg, hm, hcl]
      decide
    have hv : (timer_stage s1 e).timer = max s1.timer 0 := by
      rw [timer_stage_timer, if_neg hnz, if_neg hne]
      split_ifs with h <;> [rw [max_eq_right (le_of_lt h)]; rw [max_eq_left (not_lt.mp h)]]
    exact ⟨hv, fun h0 => by rw [hv, max_eq_left h0]⟩
  · obtain ⟨t, ht, -, h⟩ := hend hi
    exact ⟨t, ht, h⟩
  · by_cases hi : s.index_stepper = 0
    · obtain ⟨t', ht', hor, -⟩ := hend hi
      rw [ht] at ht'
      cases ht'
      rcases hor with h | h
      · rw [h]; exact hstage
      · rw [h]
    · obtain ⟨s1', hls', -, hcase⟩ := tick_jump_inv sv s t d e hok hi ht
      rw [hls] at hls'
      cases hls'
      rcases hcase with ⟨-, hs⟩ | ⟨-, e', -, hs⟩
      · rw [hs.timer]; exact hstage
      · rw [hs.timer]
        simp

/-- Witness of the amended C13: Continuous mode, one match counted and the
streak holding with 100 on the timer; a matching sample keeps the streak, and
the tick of 100 time units leaves the timer at 100. -/
theorem dwell_timer_decrement_witness :
    ∃ s1 t, lock_stage c13_state (-10) = some s1 ∧
      on_statistics_update (fun _ => 0) c13_state (-10) 100 = some t ∧
      s1.timer = 100 ∧ s1.continuous_lock = true ∧ t.timer = 100 := by
  obtain ⟨s1, hls, h1, -, -, -, h2, -⟩ :=
    dwell_timer_decrement (fun _ => 0) c13_state (-10) 100 (by decide)
  obtain ⟨t, ht, h3⟩ := h2 (by decide)
  have hv : (lock_stage c13_state (-10)).map (fun x => (x.timer, x.continuous_lock))
      = some (100, true) := by decide
  rw [hls] at hv
  simp only [Option.map_some', Option.some.injEq, Prod.mk.injEq] at hv
  obtain ⟨hv1, hv2⟩ := hv
  refine ⟨s1, t, hls, ht, hv1, hv2, ?_⟩
  rw [h3 (by decide), ((h1 (by rw [hv1]; decide)).2.2 (by decide) hv2).2 (by rw [hv1]; decide),
    hv1]

/-! ## C14: no advance while paused or dwelling -/

/-- C14. In a tick with no index jump and no manual step pending, if scanning
is paused, or if the dwell timer is not zero after the decrement of that tick,
the cursor and the tuned frequency are unchanged by the tick; conversely a tick
that changes one of them has scanning active and the dwell timer at zero after
its decrement. -/
theorem no_advance_before_release (sv : Int → Int) (s : ReconView) (d : Int) (n : Nat)
    (hok : cursor_ok s) (hi : s.index_stepper = 0) (hst : s.stepper = 0) :
    ∃ s1 t, lock_stage s d = some s1 ∧ on_statistics_update sv s d n = some t ∧
      (s.recon = false ∨ (timer_stage s1 n).timer ≠ 0 →
        t.current_index = s.current_index ∧ t.freq = s.freq) ∧
      (t.current_index ≠ s.current_index ∨ t.freq ≠ s.freq →
        s.recon = true ∧ (timer_stage s1 n).timer = 0) := by
  obtain ⟨s1, t, hls, hc, ht, -, hstill, -⟩ := tick_stages sv s d n hok hi
  have key : s.recon = false ∨ (timer_stage s1 n).timer ≠ 0 →
      t.current_index = s.current_index ∧ t.freq = s.freq := by
    intro h
    have hng : ¬ motion_guard (timer_stage s1 n) := by
      intro hg
      obtain ⟨g1, g2⟩ := motion_guard_auto (p := timer_stage s1 n)
        (by simp [hc.stepper, hst]) (by simp [hc.index_stepper, hi]) hg
      rcases h with h | h
      · simp [hc.recon, h] at g1
      · exact h g2
    have hs := hstill hng
    exact ⟨by rw [hs.current_index]; simp [hc.current_index],
      by rw [hs.freq]; simp [hc.freq]⟩
  refine ⟨s1, t, hls, ht, key, fun h => ?_⟩
  by_contra hn
  have : s.recon = false ∨ (timer_stage s1 n).timer ≠ 0 := by
    by_cases hr : s.recon = true
    · right
      intro h0
      exact hn ⟨hr, h0⟩
    · left
      simpa using hr
  obtain ⟨k1, k2⟩ := key this
  rcases h with h | h
  · exact h k1
  · exact h k2

/-- Witness of C14: with scanning paused a tick leaves the cursor and the tuned
frequency where they were. -/
theorem no_advance_before_release_witness :
    ∃ t, on_statistics_update (fun _ => 0) c14_state (-10) 100 = some t ∧
      t.current_index = 0 ∧ t.freq = 100 := by
  obtain ⟨s1, t, -, ht, h, -⟩ :=
    no_advance_before_release (fun _ => 0) c14_state (-10) 100 (by decide) (by decide)
      (by decide)
  obtain ⟨h1, h2⟩ := h (Or.inl (by decide))
  exact ⟨t, ht, h1, h2⟩

/-! ## C15: the manual step -/

/-- C15. In a tick on a non-empty list with a valid cursor and a manual step
pending (`stepper != 0`), the motion code runs whatever the dwell timer is, and
the pending step moves exactly one unit toward zero.  When no index jump is
pending, the tick makes exactly the directional advance, forward when the step
is positive and reverse when it is negative whatever `fwd` is: the cursor and
the motion flags after the tick are the ones the advance left, and so is the
tuned frequency unless the entry changed.  When an index jump is pending as well
(one the single wrap brings back into the list), the manual step is not
performed: only the jump is made, the cursor is `(cursor + jump) mod len` and no
wrap is flagged. -/
theorem manual_step_advances_once (sv : Int → Int) (s : ReconView) (d : Int) (n : Nat)
    (hok : cursor_ok s) (hne : s.frequency_list ≠ []) (hst : s.stepper ≠ 0)
    (hj : s.index_stepper ≠ 0 →
      -(s.frequency_list.length : Int) ≤ s.current_index + s.index_stepper ∧
      s.current_index + s.index_stepper < 2 * (s.frequency_list.length : Int)) :
    ∃ s1 t, lock_stage s d = some s1 ∧ on_statistics_update sv s d n = some t ∧
      motion_guard (timer_stage s1 n) ∧ t.index_stepper = 0 ∧
      (s.stepper > 0 → t.stepper = s.stepper - 1) ∧
      (s.stepper < 0 → t.stepper = s.stepper + 1) ∧
      (s.index_stepper = 0 →
        ∃ a, directional_advance (motion_start (timer_stage s1 n)) = some a ∧
          (moving_forward (motion_start (timer_stage s1 n)) = true ↔ s.stepper > 0) ∧
          (moving_reverse (motion_start (timer_stage s1 n)) = true ↔ s.stepper < 0) ∧
          t.current_index = a.current_index ∧ t.has_looped = a.has_looped ∧
          t.entry_has_changed = a.entry_has_changed ∧
          (a.entry_has_changed = false → t.freq = a.freq)) ∧
      (s.index_stepper ≠ 0 →
        t.current_index
          = (s.current_index + s.index_stepper) % (s.frequency_list.length : Int) ∧
        t.has_looped = false) := by
  have hlen : s.frequency_list.length > 0 := List.length_pos.2 hne
  have hstep : ∀ (x t : ReconView), SameEngine (finish_motion x) t → x.stepper = s.stepper →
      t.index_stepper = 0 ∧ (s.stepper > 0 → t.stepper = s.stepper - 1) ∧
      (s.stepper < 0 → t.stepper = s.stepper + 1) := by
    intro x t hs hx
    refine ⟨by rw [hs.index_stepper]; simp, fun h => ?_, fun h => ?_⟩
    · rw [hs.stepper]
      simp only [finish_motion_fields, hx]
      rw [if_neg (by omega), if_pos h]
    · rw [hs.stepper]
      simp only [finish_motion_fields, hx]
      rw [if_pos h]
  by_cases hi : s.index_stepper = 0
  · obtain ⟨s1, t, hls, hsc, ht, -, -, hmove⟩ := tick_stages sv s d n hok hi
    have hg : motion_guard (timer_stage s1 n) := by
      unfold motion_guard
      simp only [timer_stage_frame, hsc.stepper, hsc.frequency_list, lock_core_frame]
      exact ⟨Or.inr (Or.inl hst), Or.inr (Or.inl hst), hlen⟩
    obtain ⟨a, e', ha, -, -, hs⟩ := hmove hg
    obtain ⟨-, -, -, -, -, k2, -⟩ := directional_advance_keeps ha
    have hmv := moving_same n hsc
    obtain ⟨q1, q2, q3⟩ := hstep (reload_core a e') t hs
      (by simp [k2, hsc.stepper])
    refine ⟨s1, t, hls, ht, hg, q1, q2, q3, fun _ => ⟨a, ha, ?_, ?_, ?_, ?_, ?_, ?_⟩,
      fun h => absurd hi h⟩
    · rw [hmv.1]; unfold moving_forward; simp [hst]
    · rw [hmv.2]; unfold moving_reverse; simp [hst]
    · rw [hs.current_index]; simp
    · rw [hs.has_looped]; simp
    · rw [hs.entry_has_changed]; simp
    · intro hch
      rw [hs.freq]
      simp only [finish_motion_frame]
      unfold reload_core
      rw [hch]
      simp
  · obtain ⟨r, ef, hls, -, -, hjump⟩ := tick_cases_io sv s d n hok
    have hg : motion_guard (pre_motion s d n r ef) := by
      unfold motion_guard
      simp only [pre_motion_frame]
      exact ⟨Or.inr (Or.inl hst), Or.inr (Or.inl hst), hlen⟩
    obtain ⟨hlo, hhi⟩ := hj hi
    have hr := index_jump_in_range (motion_start (pre_motion s d n r ef))
      (by simpa using hok.1) (by simpa using hlo) (by simpa using hhi)
    simp only [motion_start_frame, pre_motion_frame] at hr
    obtain ⟨e', he'⟩ := entry_at_ok s.frequency_list _ hr.2.1 hr.2.2
    obtain ⟨t, ht, hs⟩ := hjump hg hi e' he'
    obtain ⟨q1, q2, q3⟩ := hstep (reload_core
      (index_jump (motion_start (pre_motion s d n r ef))) e') t hs (by simp)
    refine ⟨_, t, hls, ht, hg, q1, q2, q3, fun h => absurd h hi, fun _ => ⟨?_, ?_⟩⟩
    · rw [hs.current_index]
      simp only [finish_motion_frame, reload_core_frame]
      exact hr.1
    · rw [hs.has_looped]
      simp

/-- Witness of C15: four Single entries, the cursor on the second.  With a
pending step of -1 and no jump, the tick moves the cursor to the first entry and
leaves no step pending; with a jump of +2 pending as well, the tick makes the
jump to the fourth entry only. -/
theorem manual_step_advances_once_witness :
    (∃ t, on_statistics_update (fun _ => 0) (on_stepper_delta c15_list (-1)) (-30) 100
        = some t ∧
      t.stepper = 0 ∧ t.index_stepper = 0 ∧ t.current_index = 0) ∧
    (∃ t, on_statistics_update (fun _ => 0) c15_state (-30) 100 = some t ∧
      t.stepper = 0 ∧ t.index_stepper = 0 ∧ t.current_index = 3) := by
  obtain ⟨s1, t, hls, ht, -, h1, -, h2, h3, -⟩ :=
    manual_step_advances_once (fun _ => 0) (on_stepper_delta c15_list (-1)) (-30) 100
      (by decide) (by decide) (by decide) (fun h => absurd (by decide) h)
  obtain ⟨s2, u, -, hu, -, g1, -, g2, -, g4⟩ :=
    manual_step_advances_once (fun _ => 0) c15_state (-30) 100
      (by decide) (by decide) (by decide) (fun _ => ⟨by decide, by decide⟩)
  obtain ⟨a, ha, -, -, hc, -⟩ := h3 (by decide)
  have hv : ((lock_stage (on_stepper_delta c15_list (-1)) (-30)).bind fun s1 =>
      directional_advance (motion_start (timer_stage s1 100))).map
      (fun a => a.current_index) = some 0 := by decide
  rw [hls] at hv
  simp only [Option.some_bind, ha, Option.map_some', Option.some.injEq] at hv
  refine ⟨⟨t, ht, ?_, h1, hc.trans hv⟩, ⟨u, hu, ?_, g1, ?_⟩⟩
  · rw [h2 (by decide)]
    decide
  · rw [g2 (by decide)]
    decide
  · rw [(g4 (by decide)).1]
    decide

/-! ## C16: the end of the list with looping disabled -/

/-- C16. In a tick with no index jump pending, with continuous looping disabled:
when the motion code runs and its directional advance wraps past the list
boundary (`has_looped` set by the advance, which is also the value of the flag
after the tick), then after the tick the cursor is on the boundary index for the
direction of the motion, 0 when it went forward and `len - 1` when it went in
reverse, and the engine is paused and zeroed: `recon` false, dwell timer 0,
match count 0. -/
theorem wrap_without_looping_pauses (sv : Int → Int) (s : ReconView) (d : Int) (n : Nat)
    (hok : cursor_ok s) (hi : s.index_stepper = 0) (hc : s.cfg.continuous = false) :
    ∃ s1 t, lock_stage s d = some s1 ∧ on_statistics_update sv s d n = some t ∧
      (motion_guard (timer_stage s1 n) →
        ∃ a, directional_advance (motion_start (timer_stage s1 n)) = some a ∧
          t.has_looped = a.has_looped ∧
          (a.has_looped = true →
            (moving_forward s = true → t.current_index = 0) ∧
            (moving_reverse s = true →
              t.current_index = (s.frequency_list.length : Int) - 1) ∧
            t.recon = false ∧ t.timer = 0 ∧ t.freq_lock = 0)) := by
  obtain ⟨s1, t, hls, hsc, ht, -, -, hmove⟩ := tick_stages sv s d n hok hi
  refine ⟨s1, t, hls, ht, fun hg => ?_⟩
  obtain ⟨a, e', ha, hadv, -, hs⟩ := hmove hg
  obtain ⟨k1, -⟩ := directional_advance_keeps ha
  have hmv := moving_same n hsc
  have hcfg : a.cfg.continuous = false := by
    rw [k1]
    simp [hsc.cfg, hc]
  refine ⟨a, ha, by rw [hs.has_looped]; simp, fun hl => ?_⟩
  have hp := (finish_motion_pause (reload_core a e')).1 ⟨by simpa using hl, by simpa using hcfg⟩
  have hlist : (motion_start (timer_stage s1 n)).frequency_list = s.frequency_list := by
    simp [hsc.frequency_list]
  refine ⟨fun hf => ?_, fun hr => ?_, ?_, ?_, ?_⟩
  · rw [hs.current_index]
    simpa using hadv.fwd_wrap hl (hmv.1.trans hf)
  · rw [hs.current_index, ← hlist]
    simpa using hadv.rev_wrap hl (hmv.2.trans hr)
  · rw [hs.recon]; exact hp.1
  · rw [hs.timer]; simp [hl, hcfg]
  · rw [hs.freq_lock]; simp [hl, hcfg]

/-- Witness of C16: three Single entries, the cursor on the last one, scanning
forward with looping disabled; the tick that advances wraps, puts the cursor on
index 0 and pauses the engine. -/
theorem wrap_without_looping_pauses_witness :
    ∃ t, on_statistics_update (fun _ => 0) c16_state (-30) 100 = some t ∧
      t.has_looped = true ∧ t.current_index = 0 ∧ t.recon = false ∧ t.timer = 0 ∧
      t.freq_lock = 0 := by
  obtain ⟨s1, t, hls, ht, h⟩ :=
    wrap_without_looping_pauses (fun _ => 0) c16_state (-30) 100 (by decide) (by decide)
      (by decide)
  have hg : (lock_stage c16_state (-30)).map
      (fun s1 => decide (motion_guard (timer_stage s1 100))) = some true := by decide
  have hv : ((lock_stage c16_state (-30)).bind fun s1 =>
      directional_advance (motion_start (timer_stage s1 100))).map
      (fun a => a.has_looped) = some true := by decide
  rw [hls] at hg hv
  simp only [Option.map_some', Option.some.injEq, decide_eq_true_eq] at hg
  obtain ⟨a, ha, hl, hrest⟩ := h hg
  simp only [Option.some_bind, ha, Option.map_some', Option.some.injEq] at hv
  obtain ⟨r1, -, r2, r3, r4⟩ := hrest hv
  exact ⟨t, ht, hl.trans hv, r1 (by decide), r2, r3, r4⟩

/-! ## C17: the reload of the entry -/

/-- C17 fails on the code when a manual step and an index jump of opposite signs
are pending in the same tick.  Whenever a tick changes the cursor (by a
directional advance, or by an index jump that the single wrap brings back into
the list), the entry under the new cursor is reloaded: `freq` is `frequency_a`
for a Single entry; for a Range or a RepeaterPair the cached bounds become
`frequency_a`, `frequency_b`, and `freq` is put on `frequency_a` when the test
`(fwd && !stepper && !index_stepper) || stepper > 0 || index_stepper > 0` holds
and on `frequency_b` otherwise.  That test is the direction of the motion when
the motion is a directional advance, and when it is an index jump with no manual
step pending.  But with a step of +1 still pending, the jump of -1 from the third
entry to the Range entry 1000..2000 is a reverse motion, and the reload tunes
`frequency_a` = 1000 because `stepper > 0` is tested first; the same jump with
no step pending tunes `frequency_b` = 2000. -/
theorem reload_bound_ignores_jump_direction :
    (∀ (sv : Int → Int) (s : ReconView) (d : Int) (n : Nat), cursor_ok s →
      (s.index_stepper ≠ 0 →
        -(s.frequency_list.length : Int) ≤ s.current_index + s.index_stepper ∧
        s.current_index + s.index_stepper < 2 * (s.frequency_list.length : Int)) →
      ∃ t, on_statistics_update sv s d n = some t ∧
        (s.index_stepper = 0 → reload_forward s = moving_forward s) ∧
        (s.stepper = 0 → s.index_stepper ≠ 0 →
          (reload_forward s = true ↔ s.index_stepper > 0)) ∧
        (t.current_index ≠ s.current_index →
          ∃ e', entry_at s.frequency_list t.current_index = some e' ∧
            (e'.type = freqman_entry_type.SINGLE → t.freq = e'.frequency_a) ∧
            (e'.type = freqman_entry_type.RANGE ∨ e'.type = freqman_entry_type.HAMRADIO →
              t.minfreq = e'.frequency_a ∧ t.maxfreq = e'.frequency_b ∧
              (reload_forward s = true → t.freq = e'.frequency_a) ∧
              (reload_forward s = false → t.freq = e'.frequency_b)))) ∧
    (c17_mixed.current_index, c17_mixed.stepper, c17_mixed.index_stepper) = (2, 1, -1) ∧
    (on_statistics_update (fun _ => 0) c17_mixed (-30) 100).map
        (fun t => (t.current_index, t.minfreq, t.maxfreq, t.freq))
      = some (1, 1000, 2000, 1000) ∧
    (on_statistics_update (fun _ => 0) (on_index_delta c17_list (-1)) (-30) 100).map
        (fun t => (t.current_index, t.minfreq, t.maxfreq, t.freq))
      = some (1, 1000, 2000, 2000) ∧
    (on_statistics_update (fun _ => 0) c17_state (-30) 100).map
        (fun t => (t.current_index, t.minfreq, t.maxfreq, t.freq))
      = some (0, 1000000, 2000000, 2000000) := by
  refine ⟨fun sv s d n hok hj => reload_after_cursor_change sv s d n hok hj, by decide,
    by decide, by decide, by decide⟩

/-! ## C18: the removal at a valid cursor -/

/-- C18. Outside the manual range mode, on a list shorter than `2 ^ 31` with a
valid cursor, the removal of lines 592-598 erases exactly the entry under the
cursor and keeps the others in their order (the new list is the entries before
the cursor followed by the entries after it, one entry shorter).  When entries
are left the cursor becomes `min cursor (len' - 1)`, `len'` being the new
length, and the handler `button_remove.on_select` returns with that list and
that cursor; when the list became empty the cursor becomes -1, which is neither
0 nor an index of the list. -/
theorem remove_at_valid_cursor (s : ReconView) (h0 : 0 ≤ s.current_index)
    (h1 : s.current_index < (s.frequency_list.length : Int))
    (hlen : (s.frequency_list.length : Int) < 2147483648)
    (hm : s.cfg.manual_mode = false) :
    ∃ u, remove_at_cursor s = some u ∧
      u.frequency_list = s.frequency_list.take s.current_index.toNat
        ++ s.frequency_list.drop (s.current_index.toNat + 1) ∧
      (u.frequency_list.length : Int) = (s.frequency_list.length : Int) - 1 ∧
      (u.frequency_list ≠ [] →
        u.current_index = min s.current_index ((u.frequency_list.length : Int) - 1) ∧
        ∃ t, button_remove_on_select s = some t ∧ t.frequency_list = u.frequency_list ∧
          t.current_index = u.current_index) ∧
      (u.frequency_list = [] → u.current_index = -1) := by
  have hne : s.frequency_list ≠ [] := by
    intro h; rw [h] at h1; simp at h1; omega
  obtain ⟨u, hu, u1, u2, u3, -⟩ := remove_at_cursor_eq s h0 hne hlen
  have hmin : min s.current_index ((s.frequency_list.length : Int) - 1) = s.current_index := by
    omega
  rw [hmin] at u1
  refine ⟨u, hu, ?_, u2, fun hne' => ?_, fun hnil => ?_⟩
  · rw [u1, List.eraseIdx_eq_take_drop_succ]
  · have hpos : 0 < u.frequency_list.length := List.length_pos.2 hne'
    have hci : u.current_index = min s.current_index ((u.frequency_list.length : Int) - 1) := by
      rw [u3, u2]
      omega
    obtain ⟨e, he⟩ := entry_at_ok u.frequency_list u.current_index (by omega) (by omega)
    obtain ⟨t, ht, t1, t2, -⟩ := (button_remove_after s u hne hm hu).1 e he hne'
    exact ⟨hci, t, ht, t1, t2⟩
  · have : (u.frequency_list.length : Int) = 0 := by rw [hnil]; rfl
    rw [u3]
    omega

/-- Witness of C18: three Single entries, the cursor on the second; the handler
leaves the first and the third, the cursor still at index 1. -/
theorem remove_at_valid_cursor_witness :
    ∃ t, button_remove_on_select c18_state = some t ∧
      t.frequency_list = [single_entry 100, single_entry 300] ∧ t.current_index = 1 := by
  obtain ⟨u, -, hl, -, h, -⟩ :=
    remove_at_valid_cursor c18_state (by decide) (by decide) (by decide) (by decide)
  have hl2 : u.frequency_list = [single_entry 100, single_entry 300] := by
    rw [hl]; decide
  obtain ⟨hc, t, ht, t1, t2⟩ := h (by rw [hl2]; decide)
  refine ⟨t, ht, t1.trans hl2, ?_⟩
  rw [t2, hc, hl2]
  decide

/-! ## C19: the removal at an invalid cursor -/

/-- C19 as stated fails for a cursor past the end of a non-empty list: with
three Single entries and the cursor at 5, the handler clamps the cursor to the
last index and removes the last entry, leaving two entries and the cursor at
1. -/
theorem remove_past_end_counterexample :
    (remove_at_cursor c19_state).map (fun t => (t.frequency_list, t.current_index))
      = some ([single_entry 100, single_entry 200], 1) ∧
    (button_remove_on_select c19_state).map (fun t => (t.frequency_list, t.current_index))
      = some ([single_entry 100, single_entry 200], 1) ∧
    ¬ (∃ t, button_remove_on_select c19_state = some t ∧
        t.frequency_list = c19_state.frequency_list) := by
  refine ⟨by decide, by decide, ?_⟩
  rintro ⟨t, ht, h⟩
  have h1 : (button_remove_on_select c19_state).map (fun t => t.frequency_list.length)
      = some 2 := by decide
  rw [ht] at h1
  simp only [Option.map_some', Option.some.injEq, h] at h1
  revert h1
  decide

/-- C19, amended. Outside the manual range mode, on a list shorter than
`2 ^ 31`: when the list is empty the handler removes nothing and signals
nothing; it leaves the list empty and the cursor as it was, and zeroes the dwell
timer and the match count.  When the list is not empty and the cursor is past
its end (`cursor >= len`), the cursor is clamped to the last index and the last
entry is removed: the new list is the old one without its last entry, the
cursor is `len - 2` (the last index of the new list, or -1 when it is empty),
and the handler returns with that list and that cursor when entries are left. -/
theorem remove_past_end_clamps (s : ReconView)
    (hlen : (s.frequency_list.length : Int) < 2147483648)
    (hm : s.cfg.manual_mode = false)
    (hbad : s.frequency_list = [] ∨ s.current_index ≥ (s.frequency_list.length : Int)) :
    (s.frequency_list = [] →
      ∃ t, button_remove_on_select s = some t ∧ t.frequency_list = [] ∧
        t.current_index = s.current_index ∧ t.timer = 0 ∧ t.freq_lock = 0) ∧
    (s.frequency_list ≠ [] →
      ∃ u, remove_at_cursor s = some u ∧ u.frequency_list = s.frequency_list.dropLast ∧
        u.current_index = (s.frequency_list.length : Int) - 2 ∧
        (u.frequency_list ≠ [] →
          ∃ t, button_remove_on_select s = some t ∧ t.frequency_list = u.frequency_list ∧
            t.current_index = u.current_index)) := by
  constructor
  · intro hnil
    refine ⟨reset_lock s, ?_, ?_⟩
    · unfold button_remove_on_select
      rw [if_neg (by simp [hnil])]
      rfl
    · simp [reset_lock, hnil]
  · intro hne
    have hge : s.current_index ≥ (s.frequency_list.length : Int) := by
      rcases hbad with h | h
      · exact absurd h hne
      · exact h
    have hpos : 0 < s.frequency_list.length := List.length_pos.2 hne
    obtain ⟨u, hu, u1, u2, u3, -⟩ := remove_at_cursor_eq s (by omega) hne hlen
    have hmin : (min s.current_index ((s.frequency_list.length : Int) - 1)).toNat
        = s.frequency_list.length - 1 := by omega
    rw [hmin] at u1
    have hci : u.current_index = (s.frequency_list.length : Int) - 2 := by rw [u3]; omega
    refine ⟨u, hu, ?_, hci, fun hne' => ?_⟩
    · rw [u1]
      exact (List.dropLast_eq_eraseIdx (by omega)).symm
    · have hpos' : 0 < u.frequency_list.length := List.length_pos.2 hne'
      obtain ⟨e, he⟩ := entry_at_ok u.frequency_list u.current_index (by omega) (by omega)
      obtain ⟨t, ht, t1, t2, -⟩ := (button_remove_after s u hne hm hu).1 e he hne'
      exact ⟨t, ht, t1, t2⟩

/-- Witness of the amended C19: three Single entries and the cursor at 5; the
handler leaves the first two entries and the cursor at 1. -/
theorem remove_past_end_clamps_witness :
    ∃ t, button_remove_on_select c19_state = some t ∧
      t.frequency_list = [single_entry 100, single_entry 200] ∧ t.current_index = 1 := by
  obtain ⟨-, h⟩ :=
    remove_past_end_clamps c19_state (by decide) (by decide) (Or.inr (by decide))
  obtain ⟨u, -, hl, hc, ht⟩ := h (by decide)
  have hl2 : u.frequency_list = [single_entry 100, single_entry 200] := by
    rw [hl]; decide
  obtain ⟨t, ht, t1, t2⟩ := ht (by rw [hl2]; decide)
  refine ⟨t, ht, t1.trans hl2, ?_⟩
  rw [t2, hc]
  decide

/-! ## C20: the removal of the only entry -/

/-- C20 fails on the code. Outside the manual range mode, on a one-entry list
with a cursor that is not negative, lines 592-598 empty the list and put the
cursor at -1 without touching `recon`, the dwell timer or the match count; the
display code is skipped, and line 678 then reads `frequency_list[current_index]`
on the empty vector with the cursor at -1, outside its bounds: the handler has
no defined result.  Nor does the handler pause the engine: whenever it returns,
`recon` is what it was, so scanning stays active. -/
theorem remove_only_entry_reads_out_of_bounds (s : ReconView) (e : freqman_entry)
    (hl : s.frequency_list = [e]) (h0 : 0 ≤ s.current_index)
    (hm : s.cfg.manual_mode = false) :
    (∃ u, remove_at_cursor s = some u ∧ u.frequency_list = [] ∧ u.current_index = -1 ∧
      u.recon = s.recon ∧ u.timer = s.timer ∧ u.freq_lock = s.freq_lock ∧
      remove_show u = some u ∧
      entry_at u.frequency_list u.current_index = none ∧ remove_retune u = none) ∧
    button_remove_on_select s = none ∧
    (∀ x t, button_remove_on_select x = some t → t.recon = x.recon) := by
  have hne : s.frequency_list ≠ [] := by rw [hl]; simp
  have hlen : (s.frequency_list.length : Int) < 2147483648 := by rw [hl]; simp
  obtain ⟨u, hu, u1, u2, u3, u4, -, u5, u6, -⟩ := remove_at_cursor_eq s h0 hne hlen
  have hnil : u.frequency_list = [] := by
    have : (u.frequency_list.length : Int) = 0 := by rw [u2, hl]; simp
    exact List.length_eq_zero.1 (by exact_mod_cast this)
  have hci : u.current_index = -1 := by
    rw [u3, hl]
    simp
    omega
  obtain ⟨r1, r2⟩ := (button_remove_after s u hne hm hu).2 hnil
  refine ⟨⟨u, hu, hnil, hci, u4, u5, u6, ?_, ?_, r1⟩, r2, button_remove_keeps_recon⟩
  · unfold remove_show
    rw [if_neg (by simp [hnil])]
  · unfold entry_at
    rw [hci]
    simp

/-- Witness of C20: one Single entry while scanning is active, in the Locking
phase; after the removal proper the list is empty, the cursor at -1 and scanning
still active, and the handler reads outside the vector. -/
theorem remove_only_entry_reads_out_of_bounds_witness :
    (∃ u, remove_at_cursor c20_state = some u ∧ u.frequency_list = [] ∧
      u.current_index = -1 ∧ u.recon = true ∧
      entry_at u.frequency_list u.current_index = none) ∧
    (button_remove_on_select c20_state).isSome = false := by
  obtain ⟨⟨u, hu, u1, u2, u3, -, -, -, u4, -⟩, h, -⟩ :=
    remove_only_entry_reads_out_of_bounds c20_state (single_entry 100) (by decide) (by decide)
      (by decide)
  exact ⟨⟨u, hu, u1, u2, u3.trans (by decide), u4⟩, by rw [h]; rfl⟩

/-! ## C21: ticks on an empty list -/

/-- C21 as stated fails while scanning is active: on an empty list, with `wait`
= 300, one match required and recording on lock enabled, a tick with a sample
above the squelch re-arms the dwell timer, counts the match, takes the lock and
leaves the timer at 200, and it requests an audio stop, an audio start and a
recording start. -/
theorem empty_list_tick_counterexample :
    (c21_state.frequency_list, c21_state.timer, c21_state.freq_lock, c21_state.status,
      c21_state.effects) = ([], 0, 0, -1, []) ∧
    (on_statistics_update (fun _ => 0) c21_state 10 100).map
        (fun t => (t.timer, t.freq_lock, t.status, t.effects))
      = some (200, 1, 2, [Effect.audio_stop, Effect.audio_start, Effect.record_start]) ∧
    ¬ (∃ t, on_statistics_update (fun _ => 0) c21_state 10 100 = some t ∧
        t.timer = c21_state.timer ∧ t.freq_lock = c21_state.freq_lock ∧
        t.effects = c21_state.effects) := by
  refine ⟨by decide, by decide, ?_⟩
  rintro ⟨t, ht, -, h, -⟩
  have h2 : (on_statistics_update (fun _ => 0) c21_state 10 100).map
      (fun t => t.freq_lock) = some 1 := by decide
  rw [ht] at h2
  simp only [Option.map_some', Option.some.injEq, h] at h2
  revert h2
  decide

/-- C21, amended. On an empty list every tick returns, for every sample and
configuration; it leaves the list empty, the cursor, the tuned frequency and the
cached bounds unchanged and `recon` as it was, makes no motion, and requests no
save.  When scanning is paused the tick also leaves the match count, the phase
and the recording flag unchanged, the only request it can make is a retune to
the frequency that is already the tuned one, and a dwell timer at 0 stays at 0.
While scanning is active the lock evaluation still runs on the empty list: the
timer is re-armed and decremented, matches are counted, and audio and recording
requests can be made. -/
theorem empty_list_tick (sv : Int → Int) (s : ReconView) (d : Int) (n : Nat)
    (he : s.frequency_list = []) :
    ∃ t, on_statistics_update sv s d n = some t ∧ t.frequency_list = [] ∧
      t.current_index = s.current_index ∧ t.freq = s.freq ∧ t.minfreq = s.minfreq ∧
      t.maxfreq = s.maxfreq ∧ t.recon = s.recon ∧ t.has_looped = s.has_looped ∧
      t.entry_has_changed = s.entry_has_changed ∧
      save_count t.effects = save_count s.effects ∧
      (s.recon = false →
        t.freq_lock = s.freq_lock ∧ t.status = s.status ∧
        t.continuous_lock = s.continuous_lock ∧ t.is_recording = s.is_recording ∧
        (t.effects = s.effects ∨ t.effects = s.effects ++ [Effect.retune s.freq]) ∧
        (s.timer = 0 → t.timer = 0)) := by
  obtain ⟨s1, hls, hsc, hsv, ht⟩ := tick_empty sv s d n he
  refine ⟨_, ht, ?_, ?_, ?_, ?_, ?_, ?_, ?_, ?_, ?_, fun hr => ?_⟩
  · simp [hsc.frequency_list, he]
  · simp [hsc.current_index]
  · simp [hsc.freq]
  · simp [hsc.minfreq]
  · simp [hsc.maxfreq]
  · simp [hsc.recon]
  · simp [hsc.has_looped]
  · simp [hsc.entry_has_changed]
  · rw [(calls_keep_save_count _).2.2.2.2]
    simpa using hsv
  · have hp := lock_stage_paused s d hr
    rw [hls] at hp
    cases hp
    refine ⟨by simp, by simp, by simp, by simp, ?_, fun h0 => ?_⟩
    · unfold retune_freq
      split_ifs
      · right; simp
      · left; simp
    · simp [h0]

/-- Witness of the amended C21: the empty list of `blank` with scanning paused;
a tick changes neither the match count nor the timer and requests nothing. -/
theorem empty_list_tick_witness :
    ∃ t, on_statistics_update (fun _ => 0) (recon_pause blank) 10 100 = some t ∧
      t.frequency_list = [] ∧ t.freq_lock = 0 ∧ t.timer = 0 ∧
      save_count t.effects = 0 := by
  obtain ⟨t, ht, h1, -, -, -, -, -, -, -, h2, h3⟩ :=
    empty_list_tick (fun _ => 0) (recon_pause blank) 10 100 (by decide)
  obtain ⟨a, -, -, -, -, b⟩ := h3 (by decide)
  refine ⟨t, ht, h1, ?_, b (by decide), ?_⟩
  · rw [a]; decide
  · rw [h2]; decide

/-! ## C22: the cursor after a load -/

/-- C22 as stated fails for an empty loaded list: no statement of the load puts
the cursor on a sentinel.  `reset_indexes` sets it to 0 whatever the list is,
and before that line 957 reads `frequency_list[0]`, which the empty vector does
not have, so that the load has no defined result. -/
theorem load_empty_counterexample :
    (frequency_file_load (fun _ => 0) 0 blank []).isSome = false ∧
    (reset_indexes (load_freqman_file blank [])).current_index = 0 ∧
    ¬ (∃ t, frequency_file_load (fun _ => 0) 0 blank [] = some t ∧ t.frequency_list = [] ∧
        t.current_index ≠ 0) := by
  refine ⟨by decide, by decide, ?_⟩
  rintro ⟨t, ht, -⟩
  have h : (frequency_file_load (fun _ => 0) 0 blank []).isSome = false := by decide
  rw [ht] at h
  cases h

/-- C22, amended. Loading a non-empty list (shorter than `2 ^ 31`) replaces all
the entries by the loaded ones and resets the cursor to 0.  The load has no
sentinel for an empty list: `reset_indexes` sets the cursor to 0 for every list
(and the load of an empty list reads `frequency_list[0]` first). -/
theorem load_resets_cursor (sv : Int → Int) (def_step : Int) (s : ReconView)
    (loaded : List freqman_entry) (hne : loaded ≠ [])
    (hlen : (loaded.length : Int) < 2147483648) :
    (∃ t, frequency_file_load sv def_step s loaded = some t ∧ t.frequency_list = loaded ∧
      t.current_index = 0) ∧
    (∀ x, (reset_indexes x).current_index = 0) := by
  constructor
  · cases loaded with
    | nil => exact absurd rfl hne
    | cons e rest =>
      obtain ⟨t, ht, h1, h2, -⟩ := frequency_file_load_eq sv def_step s e rest hlen
      exact ⟨t, ht, h1, h2⟩
  · intro x
    exact (reset_indexes_fields x).2.2.1

/-- Witness of the amended C22: on a view whose cursor is on the third of three
entries, the load of two entries leaves these two and the cursor at 0. -/
theorem load_resets_cursor_witness :
    ∃ t, frequency_file_load (fun _ => 0) 0 c5_state [single_entry 700, single_entry 800]
        = some t ∧
      t.frequency_list = [single_entry 700, single_entry 800] ∧ t.current_index = 0 := by
  obtain ⟨h, -⟩ :=
    load_resets_cursor (fun _ => 0) 0 c5_state [single_entry 700, single_entry 800]
      (by decide) (by decide)
  exact h

/-! ## C23: the load of an empty list -/

/-- C23 fails on the code. Whatever the view, the step table and the default
step, the load of a list that turns out empty reads `frequency_list[0]` on the
empty vector (line 957, before the emptiness test of line 993): the vector left
by the loader has no element at index 0, and the load has no defined result. -/
theorem load_empty_reads_first_entry (sv : Int → Int) (def_step : Int) (s : ReconView) :
    (load_freqman_file (audio_output_stop s) []).frequency_list = [] ∧
    entry_at (load_freqman_file (audio_output_stop s) []).frequency_list 0 = none ∧
    frequency_file_load sv def_step s [] = none := by
  have h1 : (load_freqman_file (audio_output_stop s) []).frequency_list = [] := rfl
  have h2 : entry_at (load_freqman_file (audio_output_stop s) []).frequency_list 0 = none := by
    rw [h1]
    rfl
  refine ⟨h1, h2, ?_⟩
  unfold frequency_file_load
  rw [h2]
  rfl

/-! ## C24: the settings inherited from the entry -/

/-- C24 as stated fails for the bandwidth: when the tick moves the cursor from
an entry with modulation 0 and bandwidth 2 to an entry with modulation 1 and no
bandwidth of its own, `handle_retune` sets the modulation and resets the cached
bandwidth to -1 (line 312); the bandwidth 2 is not kept. -/
theorem bandwidth_reset_counterexample :
    (c24_state.last.last_entry_modulation, c24_state.last.last_entry_bandwidth) = (0, 2) ∧
    (on_statistics_update (fun _ => 0) c24_state (-30) 100).map
        (fun t => (t.current_index, t.last.last_entry_modulation, t.last.last_entry_bandwidth,
          t.effects))
      = some (1, 1, -1, [Effect.retune 200, Effect.set_modulation 1]) ∧
    ¬ (∃ t, on_statistics_update (fun _ => 0) c24_state (-30) 100 = some t ∧
        t.last.last_entry_bandwidth = c24_state.last.last_entry_bandwidth) := by
  refine ⟨by decide, by decide, ?_⟩
  rintro ⟨t, ht, h⟩
  have h2 : (on_statistics_update (fun _ => 0) c24_state (-30) 100).map
      (fun t => t.last.last_entry_bandwidth) = some (-1) := by decide
  rw [ht] at h2
  simp only [Option.map_some', Option.some.injEq, h] at h2
  revert h2
  decide

/-- C24, amended. When `handle_retune` applies the entry `e` under the cursor:
the active modulation becomes the one of `e` when that is set (`>= 0`) and is
kept when it is the sentinel; likewise the active step, the member `step` taking
the value of the step table when the step changes; the active bandwidth becomes
the one of `e` when that is set, and when it is the sentinel it is kept only if
the entry does not change the modulation: an entry that sets a modulation
different from the active one resets the active bandwidth to unset (-1). -/
theorem retune_inherits_settings (sv : Int → Int) (s : ReconView) (e : freqman_entry)
    (he : entry_at s.frequency_list s.current_index = some e) :
    ∃ t, handle_retune sv s = some t ∧
      t.last.last_entry_modulation =
        (if e.modulation ≥ 0 then e.modulation else s.last.last_entry_modulation) ∧
      t.last.last_entry_step = (if e.step ≥ 0 then e.step else s.last.last_entry_step) ∧
      t.step = (if e.step ≥ 0 ∧ e.step ≠ s.last.last_entry_step then sv e.step else s.step) ∧
      t.last.last_entry_bandwidth =
        (if e.bandwidth ≥ 0 then e.bandwidth
         else if e.modulation ≥ 0 ∧ e.modulation ≠ s.last.last_entry_modulation then -1
         else s.last.last_entry_bandwidth) := by
  have hpos : s.frequency_list.length > 0 := by
    have := entry_at_bounds he
    omega
  obtain ⟨f1, f2, f3⟩ := retune_freq_settings s
  obtain ⟨r1, r2, r3, r4⟩ := retune_entry_settings sv (retune_freq s) e
  rw [f1] at r1
  rw [f1, f2] at r2
  rw [f3] at r3 r4
  simp only [retune_freq_frame] at r4
  refine ⟨retune_entry sv (retune_freq s) e, ?_, r1, r3, r4, r2⟩
  unfold handle_retune
  rw [if_pos hpos, he]
  rfl

/-- Witness of the amended C24: the active modulation is 0 and the active
bandwidth 2; an entry with modulation 1 and no bandwidth sets the modulation and
resets the bandwidth, while an entry with no modulation and no bandwidth keeps
both. -/
theorem retune_inherits_settings_witness :
    (∃ t, handle_retune (fun _ => 0) { c24_state with current_index := 1 } = some t ∧
      t.last.last_entry_modulation = 1 ∧ t.last.last_entry_bandwidth = -1) ∧
    (∃ t, handle_retune (fun _ => 0)
        { c24_state with frequency_list := [single_entry 100] } = some t ∧
      t.last.last_entry_modulation = 0 ∧ t.last.last_entry_bandwidth = 2) := by
  obtain ⟨t, ht, h1, -, -, h2⟩ :=
    retune_inherits_settings (fun _ => 0) { c24_state with current_index := 1 }
      { single_entry 200 with modulation := 1 } (by decide)
  obtain ⟨u, hu, g1, -, -, g2⟩ :=
    retune_inherits_settings (fun _ => 0) { c24_state with frequency_list := [single_entry 100] }
      (single_entry 100) (by decide)
  exact ⟨⟨t, ht, h1.trans (by decide), h2.trans (by decide)⟩,
    ⟨u, hu, g1.trans (by decide), g2.trans (by decide)⟩⟩

/-! ## C25: the cached state after an operation -/

/-- C25 fails on the code for two of its four operations.  A load of a
non-empty list leaves the cache in agreement with the entry under the cursor,
and a tick that returns keeps the agreement.  The removal does not: after the
load of two Single entries at 100 and 200, removing the entry under the cursor
leaves the entry at 200 under the cursor, the radio is retuned to it, and `freq`
is still 100.  Starting a manual range does not either: after the load of a
Range from 430 MHz to 440 MHz, starting the manual range from 144 MHz to 146 MHz
leaves that Range as the only entry with `freq` on its first bound, and
`minfreq`, `maxfreq` still 430 MHz and 440 MHz; started on fresh bounds (0 and
0) with looping disabled, the first tick finds `freq` outside the bounds, wraps
and pauses the scan without having stepped through the range. -/
theorem cache_stale_after_remove_and_manual_start :
    (∀ (sv : Int → Int) (ds : Int) (s : ReconView) (e : freqman_entry)
        (rest : List freqman_entry), ((e :: rest).length : Int) < 2147483648 →
      ∃ t, frequency_file_load sv ds s (e :: rest) = some t ∧ cache_ok t) ∧
    (∀ (sv : Int → Int) (s t : ReconView) (d : Int) (n : Nat), cursor_ok s → cache_ok s →
      on_statistics_update sv s d n = some t → cache_ok t) ∧
    ((frequency_file_load (fun _ => 0) 0 blank [single_entry 100, single_entry 200]).bind
        button_remove_on_select).map
        (fun t => (decide (cache_ok t), t.frequency_list.map (fun e => e.frequency_a),
          t.current_index, t.freq, t.effects.getLast?))
      = some (false, [200], 0, 100, some (Effect.retune 200)) ∧
    ((frequency_file_load (fun _ => 0) 0 blank [range_entry 430000000 440000000]).bind
        (fun t => button_manual_recon_on_select (fun _ => 0) 0 "" (c25_range t))).map
        (fun t => (decide (cache_ok t),
          t.frequency_list.map (fun e => (e.frequency_a, e.frequency_b)),
          t.current_index, t.freq, t.minfreq, t.maxfreq))
      = some (false, [(144000000, 146000000)], 0, 144000000, 430000000, 440000000) ∧
    ((button_manual_recon_on_select (fun _ => 25000) 0 ""
        (c25_range { blank with cfg.continuous := false })).bind
        (fun u => on_statistics_update (fun _ => 25000) u (-30) 100)).map
        (fun t => (t.freq, t.has_looped, t.recon))
      = some (144000000, true, false) := by
  refine ⟨?_, ?_, by decide, by decide, by decide⟩
  · intro sv ds s e rest hlen
    obtain ⟨t, ht, h1, h2, -, h4, h5⟩ := frequency_file_load_eq sv ds s e rest hlen
    refine ⟨t, ht, ?_⟩
    have he : entry_at t.frequency_list t.current_index = some e := by
      rw [h1, h2]
      rfl
    rw [cache_ok_iff t e he]
    exact ⟨h4, fun h => ⟨(h5 h).1, (h5 h).2.1⟩⟩
  · intro sv s t d n hok hc ht
    exact tick_keeps_cache sv s t d n hok hc ht

/-! ## C26: the scan of the output file before a save -/

/-- C26 fails on the code for a last line that no line feed terminates.  For
every record and every content of the output file: when a line that a line feed
terminates begins with the record (a text of characters above 31), nothing is
written; when the scan finds nothing, or when there is no file, exactly the
record and the line terminator are written at the end.  But the scan compares a
line only when it reads its line feed: when the terminated lines hold no match,
the text after the last line feed is never compared, and the record is appended
even when that text begins with the record. -/
theorem save_misses_unterminated_line (eol record : List Int) :
    (∀ pre tail post : List Int, (pre = [] ∨ ∃ q, pre = q ++ [10]) → (∀ c ∈ record, c > 31) →
      (∀ c ∈ tail, c ≠ 10) →
      save_to_file eol (some (pre ++ ((record ++ tail) ++ 10 :: post))) record
        = pre ++ ((record ++ tail) ++ 10 :: post)) ∧
    (∀ content : List Int, scan_file record [] content = false →
      save_to_file eol (some content) record = content ++ record ++ eol) ∧
    save_to_file eol none record = record ++ eol ∧
    (∀ pre tail : List Int, (pre = [] ∨ ∃ q, pre = q ++ [10]) →
      scan_file record [] pre = false → (∀ c ∈ record ++ tail, c ≠ 10) →
      save_to_file eol (some (pre ++ (record ++ tail))) record
        = pre ++ (record ++ tail) ++ record ++ eol) := by
  refine ⟨?_, ?_, ?_, ?_⟩
  · intro pre tail post hpre hrec htail
    have hl : ∀ c ∈ record ++ tail, c ≠ 10 := by
      intro c hc
      rcases List.mem_append.mp hc with h | h
      · have := hrec c h
        omega
      · exact htail c h
    have hf : (record ++ tail).filter (fun c => decide (c > 31))
        = record ++ tail.filter (fun c => decide (c > 31)) := by
      rw [List.filter_append]
      congr 1
      rw [List.filter_eq_self]
      intro c hc
      exact decide_eq_true (hrec c hc)
    have hline : scan_file record [] ((record ++ tail) ++ 10 :: post) = true := by
      rw [scan_file_line record (record ++ tail) [] post hl, List.nil_append, hf,
        List.take_left, if_pos rfl]
    have hfound : scan_file record [] (pre ++ ((record ++ tail) ++ 10 :: post)) = true := by
      rcases hpre with h | ⟨q, h⟩
      · rw [h, List.nil_append]
        exact hline
      · rw [h, List.append_assoc, List.singleton_append, scan_file_split, hline,
          Bool.or_true]
    unfold save_to_file
    simp only [hfound, if_true]
  · intro content h
    unfold save_to_file write_line
    simp only [h, Bool.false_eq_true, if_false]
  · unfold save_to_file write_line
    rw [List.nil_append]
  · intro pre tail hpre hscan hl
    have hlast : scan_file record [] (record ++ tail) = false :=
      scan_file_no_line_feed record (record ++ tail) [] hl
    have hnot : scan_file record [] (pre ++ (record ++ tail)) = false := by
      rcases hpre with h | ⟨q, h⟩
      · rw [h, List.nil_append]
        exact hlast
      · rw [h] at hscan
        rw [h, List.append_assoc, List.singleton_append, scan_file_split, hscan, hlast]
        rfl
    unfold save_to_file write_line
    simp only [hnot, Bool.false_eq_true, if_false]

/-- Witness for C26: the file holds the text `145` and no line feed; saving the
record `145` appends it, with the terminator CR LF, after that text. -/
theorem save_misses_unterminated_line_witness :
    save_to_file [13, 10] (some [49, 52, 53]) [49, 52, 53]
      = [49, 52, 53, 49, 52, 53, 13, 10] := by
  have h := (save_misses_unterminated_line [13, 10] [49, 52, 53]).2.2.2 [] [] (Or.inl rfl)
    (by decide) (by decide)
  simpa using h

/-! ## C27: the settings file -/

/-- C27 fails on the code in the reading loop of lines 159-189.  Whenever the
function returns, it returns false exactly when fewer than 7 lines were read and
then sets all the settings to their defaults, and with 7 lines it returns true
and takes the settings from `params[0]`, ..., `params[6]` in the order input,
output, lock duration, match count, squelch, match mode, wait; with no file it
returns false; a file of fewer than 256 bytes is read as one block, and seven
lines ended by CR LF give their seven values.  But `length = line_end -
line_start - 1` leaves out the last byte before the line feed, which is the CR
only when the line ends with CR LF: the same seven lines ended by LF alone give
the names `MYI`, `MYOU` and the numbers 20, 0, -1, 0, 50 for 200, 3, -14, 0,
500.  And a file whose first 256 bytes hold no line feed makes the loop read the
same block for ever: the block is full, the search finds no line and leaves the
variables of the loop as they were, the next block starts at the same position,
and the function does not return, whatever the bound on the number of blocks. -/
theorem settings_load_reading_loop :
    (∀ (k : Defaults) (strtoll : String → Int) (fuel : Nat) (file : Option (List Nat))
        (c : Settings) (out : LoadedConfig),
      recon_load_config_from_sd k strtoll fuel file c = some out →
      ∃ r, read_params fuel file = some r ∧
        (out.result = false ↔ r.it < 7) ∧
        (r.it < 7 →
          out.input_file = "RECON" ∧ out.output_file = "RECON_RESULTS" ∧
          out.cfg.recon_lock_duration = k.RECON_MIN_LOCK_DURATION ∧
          out.cfg.recon_lock_nb_match = k.RECON_DEF_NB_MATCH ∧
          out.cfg.squelch = -14 ∧
          out.cfg.recon_match_mode = RECON_MATCH_CONTINUOUS ∧
          out.cfg.wait = k.RECON_DEF_WAIT_DURATION) ∧
        (7 ≤ r.it →
          out.result = true ∧
          out.input_file = r.params.getD 0 "" ∧
          out.output_file = r.params.getD 1 "" ∧
          out.cfg.recon_lock_duration = (toU32 (strtoll (r.params.getD 2 ""))).toNat ∧
          out.cfg.recon_lock_nb_match = (toU32 (strtoll (r.params.getD 3 ""))).toNat ∧
          out.cfg.squelch = toI32 (strtoll (r.params.getD 4 "")) ∧
          out.cfg.recon_match_mode = (toU32 (strtoll (r.params.getD 5 ""))).toNat ∧
          out.cfg.wait = toI32 (strtoll (r.params.getD 6 "")))) ∧
    (∀ (k : Defaults) (strtoll : String → Int) (fuel : Nat) (c : Settings),
      (recon_load_config_from_sd k strtoll fuel none c).map (fun out => out.result)
        = some false) ∧
    (∀ (k : Defaults) (strtoll : String → Int) (fuel : Nat) (content : List Nat) (c : Settings),
      content.length < 256 →
      recon_load_config_from_sd k strtoll (fuel + 1) (some content) c
        = (read_block_lines content [] 0 { it := 0, params := [], line_start := 0 }).map
            (fun r => config_from k strtoll r c)) ∧
    (recon_load_config_from_sd c27_defaults decimal_value 1 (some c27_crlf_file)
        blank_settings).map (fun out => (out.result, out.input_file, out.output_file))
      = some (true, "MYIN", "MYOUT") ∧
    (recon_load_config_from_sd c27_defaults decimal_value 1 (some c27_crlf_file)
        blank_settings).map (fun out => (out.cfg.recon_lock_duration,
          out.cfg.recon_lock_nb_match, out.cfg.squelch, out.cfg.recon_match_mode, out.cfg.wait))
      = some (200, 3, -14, 0, 500) ∧
    (recon_load_config_from_sd c27_defaults decimal_value 1 (some c27_short_file)
        blank_settings).map (fun out => (out.result, out.input_file, out.output_file,
          out.cfg.recon_lock_duration, out.cfg.wait))
      = some (false, "RECON", "RECON_RESULTS", 50, 5000) ∧
    (recon_load_config_from_sd c27_defaults decimal_value 1 (some c27_lf_file)
        blank_settings).map (fun out => (out.result, out.input_file, out.output_file))
      = some (true, "MYI", "MYOU") ∧
    (recon_load_config_from_sd c27_defaults decimal_value 1 (some c27_lf_file)
        blank_settings).map (fun out => (out.cfg.recon_lock_duration,
          out.cfg.recon_lock_nb_match, out.cfg.squelch, out.cfg.recon_match_mode, out.cfg.wait))
      = some (20, 0, -1, 0, 50) ∧
    (read_block c27_long_line 0).length = 256 ∧
    read_block_lines (read_block c27_long_line 0) [] 0 { it := 0, params := [], line_start := 0 }
      = some { it := 0, params := [], line_start := 0 } ∧
    (∀ (k : Defaults) (strtoll : String → Int) (fuel : Nat) (c : Settings),
      recon_load_config_from_sd k strtoll fuel (some c27_long_line) c = none) := by
  have hlen : (read_block c27_long_line 0).length = 256 := by
    unfold read_block c27_long_line
    rw [List.drop_zero, List.length_take, List.length_replicate]
    rfl
  have hno : ∀ x ∈ read_block c27_long_line 0, x ≠ 0 ∧ x ≠ 10 := by
    intro x hx
    have h65 : x = 65 :=
      List.eq_of_mem_replicate (List.mem_of_mem_drop (List.mem_of_mem_take hx))
    omega
  refine ⟨?_, ?_, ?_, by decide, by decide, by decide, by decide, by decide, hlen,
    read_block_lines_no_feed _ _ [] 0 hno, ?_⟩
  · intro k strtoll fuel file c out h
    unfold recon_load_config_from_sd at h
    cases hr : read_params fuel file with
    | none => rw [hr] at h; cases h
    | some r =>
      rw [hr] at h
      simp only [Option.map_some', Option.some.injEq] at h
      subst h
      refine ⟨r, rfl, ?_, ?_, ?_⟩
      · by_cases h7 : r.it < 7
        · simp [config_from, RECON_SETTINGS_NB_PARAMS, h7, config_defaults]
        · simp [config_from, RECON_SETTINGS_NB_PARAMS, h7, config_parsed]
      · intro h7
        simp [config_from, RECON_SETTINGS_NB_PARAMS, h7, config_defaults]
      · intro h
        have h7 : ¬ r.it < 7 := by omega
        have g0 : r.it > 0 := by omega
        have g1 : r.it > 1 := by omega
        have g2 : r.it > 2 := by omega
        have g3 : r.it > 3 := by omega
        have g4 : r.it > 4 := by omega
        have g5 : r.it > 5 := by omega
        have g6 : r.it > 6 := by omega
        simp only [config_from, RECON_SETTINGS_NB_PARAMS, if_neg h7, config_parsed,
          if_pos g0, if_pos g1, if_pos g2, if_pos g3, if_pos g4, if_pos g5, if_pos g6, and_self]
  · intro k strtoll fuel c
    rfl
  · intro k strtoll fuel content c hlen
    simp only [recon_load_config_from_sd, read_params]
    rw [read_blocks_short content hlen fuel]
  · intro k strtoll fuel c
    simp only [recon_load_config_from_sd, read_params]
    rw [read_blocks_spin c27_long_line hlen hno fuel]
    rfl

/-! ## C28: the substitution of the wait of -100 -/

/-- C28. The setter `field_wait.on_change` called with -100 stores -200, and
called with any other value `v` stores `v`; after it has run `wait` is not
-100, and it is still not -100 after any tick that follows (a tick writes no
setting). -/
theorem wait_minus_100_substituted (s : ReconView) :
    (field_wait_on_change s (-100)).cfg.wait = -200 ∧
    (∀ v, v ≠ -100 → (field_wait_on_change s v).cfg.wait = v) ∧
    (∀ v, (field_wait_on_change s v).cfg.wait ≠ -100) ∧
    (∀ v sv d n t, cursor_ok s →
      on_statistics_update sv (field_wait_on_change s v) d n = some t →
      t.cfg.wait ≠ -100) := by
  have h1 : (field_wait_on_change s (-100)).cfg.wait = -200 := by
    simp [field_wait_on_change, wait_substitute]
  have h2 : ∀ v, v ≠ -100 → (field_wait_on_change s v).cfg.wait = v := by
    intro v hv
    simp [field_wait_on_change, wait_substitute, hv]
  have h3 : ∀ v, (field_wait_on_change s v).cfg.wait ≠ -100 := by
    intro v
    by_cases hv : v = -100
    · subst hv; rw [h1]; decide
    · rw [h2 v hv]; exact hv
  refine ⟨h1, h2, h3, fun v sv d n t hok ht => ?_⟩
  have hok2 : cursor_ok (field_wait_on_change s v) := by
    refine cursor_ok_congr ?_ ?_ hok
    · unfold field_wait_on_change wait_substitute; split_ifs <;> rfl
    · unfold field_wait_on_change wait_substitute; split_ifs <;> rfl
  rw [(tick_returns_inv sv _ t d n hok2 ht).2.1]
  exact h3 v

/-! ## C29: the bounds of the cursor -/

/-- C29. For every non-empty list shorter than `2 ^ 31` with a valid cursor
`0 <= cursor < len`: a tick with no index jump pending (so that the motion it
resolves, if any, is an automatic advance or a manual step, for any entry kind,
direction and looping setting) returns with the same list and `0 <= cursor' <
len`; and, outside the manual range mode, `button_remove.on_select` on a list of
at least two entries returns with a list one entry shorter and `0 <= cursor' <
len'`. -/
theorem cursor_stays_in_bounds (sv : Int → Int) (s : ReconView) (d : Int) (n : Nat)
    (h0 : 0 ≤ s.current_index) (h1 : s.current_index < (s.frequency_list.length : Int))
    (hlen : (s.frequency_list.length : Int) < 2147483648) :
    (s.index_stepper = 0 →
      ∃ t, on_statistics_update sv s d n = some t ∧ t.frequency_list = s.frequency_list ∧
        0 ≤ t.current_index ∧ t.current_index < (s.frequency_list.length : Int)) ∧
    (s.cfg.manual_mode = false → 2 ≤ s.frequency_list.length →
      ∃ t, button_remove_on_select s = some t ∧
        (t.frequency_list.length : Int) = (s.frequency_list.length : Int) - 1 ∧
        0 ≤ t.current_index ∧ t.current_index < (t.frequency_list.length : Int)) := by
  have hne : s.frequency_list ≠ [] := by
    intro h; rw [h] at h1; simp at h1; omega
  constructor
  · intro hi
    obtain ⟨t, ht, hokt, -, hlist, -⟩ :=
      tick_summary sv s d n ⟨hlen, Or.inr ⟨h0, h1⟩⟩ hi
    refine ⟨t, ht, hlist, ?_⟩
    rcases hokt.2 with h | h
    · rw [hlist] at h; exact absurd h hne
    · rw [hlist] at h; exact h
  · intro hm h2
    obtain ⟨u, hu, -, u2, u3, -⟩ := remove_at_cursor_eq s h0 hne hlen
    have hb : 0 ≤ u.current_index ∧ u.current_index < (u.frequency_list.length : Int) := by
      rw [u3, u2]
      omega
    have hne' : u.frequency_list ≠ [] := by
      intro h; rw [h] at hb; simp at hb; omega
    obtain ⟨e, he⟩ := entry_at_ok u.frequency_list u.current_index hb.1 hb.2
    obtain ⟨t, ht, t1, t2, -⟩ := (button_remove_after s u hne hm hu).1 e he hne'
    refine ⟨t, ht, by rw [t1]; exact u2, ?_⟩
    rw [t1, t2]
    exact hb

/-- Witness for C29: three Single entries with the cursor on the last one; the
tick wraps the cursor to 0 and the removal of the last entry leaves the cursor
on the new last entry. -/
theorem cursor_stays_in_bounds_witness :
    (∃ t, on_statistics_update (fun _ => 0) c5_state (-30) 100 = some t ∧
        t.frequency_list = c5_state.frequency_list ∧
        0 ≤ t.current_index ∧ t.current_index < (c5_state.frequency_list.length : Int)) ∧
    (∃ t, button_remove_on_select c5_state = some t ∧
        (t.frequency_list.length : Int) = (c5_state.frequency_list.length : Int) - 1 ∧
        0 ≤ t.current_index ∧ t.current_index < (t.frequency_list.length : Int)) :=
  ⟨(cursor_stays_in_bounds (fun _ => 0) c5_state (-30) 100 (by decide) (by decide)
      (by decide)).1 (by decide),
   (cursor_stays_in_bounds (fun _ => 0) c5_state (-30) 100 (by decide) (by decide)
      (by decide)).2 (by decide) (by decide)⟩


/-! ## C30: the match count and the required count -/

/-- C30. The inequality `freq_lock <= recon_lock_nb_match` holds when the match
count is 0, and when it holds for a state with a valid cursor it holds again:
after every tick that returns (every tick with no index jump pending returns),
for every sample, mode and wait, and so after every run of ticks; after
`recon_pause` and `recon_resume`; after `on_stepper_delta` and `on_index_delta`;
and after `field_nblocks.on_change` with any `0 <= v < 2 ^ 31`, which stores `v`
as the required count and leaves `min freq_lock v` as the match count. -/
theorem match_count_bounded (sv : Int → Int) (s : ReconView) (n : Nat)
    (hok : cursor_ok s) (hinv : s.freq_lock ≤ s.cfg.recon_lock_nb_match) :
    (∀ d t, on_statistics_update sv s d n = some t →
      t.freq_lock ≤ t.cfg.recon_lock_nb_match) ∧
    (∀ d, s.index_stepper = 0 → ∃ t, on_statistics_update sv s d n = some t) ∧
    (∀ samples t, run_ticks sv n s samples = some t →
      t.freq_lock ≤ t.cfg.recon_lock_nb_match) ∧
    (recon_pause s).freq_lock ≤ (recon_pause s).cfg.recon_lock_nb_match ∧
    (recon_resume s).freq_lock ≤ (recon_resume s).cfg.recon_lock_nb_match ∧
    (∀ v, (on_stepper_delta s v).freq_lock ≤ (on_stepper_delta s v).cfg.recon_lock_nb_match) ∧
    (∀ v, (on_index_delta s v).freq_lock ≤ (on_index_delta s v).cfg.recon_lock_nb_match) ∧
    (∀ v : Int, 0 ≤ v → v < 2147483648 →
      ((field_nblocks_on_change s v).cfg.recon_lock_nb_match : Int) = v ∧
      ((field_nblocks_on_change s v).freq_lock : Int) = min (s.freq_lock : Int) v ∧
      (field_nblocks_on_change s v).freq_lock
        ≤ (field_nblocks_on_change s v).cfg.recon_lock_nb_match) := by
  have tick : ∀ (u : ReconView) (d : Int) (t : ReconView), cursor_ok u →
      u.freq_lock ≤ u.cfg.recon_lock_nb_match → on_statistics_update sv u d n = some t →
      cursor_ok t ∧ t.freq_lock ≤ t.cfg.recon_lock_nb_match := by
    intro u d t hu hiu ht
    obtain ⟨hokt, hcfg, -, hfl⟩ := tick_returns_inv sv u t d n hu ht
    refine ⟨hokt, ?_⟩
    rw [hcfg]
    rcases hfl with h | h
    · rw [h]; exact lock_core_freq_lock_le u d hiu
    · rw [h]; exact Nat.zero_le _
  have run : ∀ (samples : List Int) (u t : ReconView), cursor_ok u →
      u.freq_lock ≤ u.cfg.recon_lock_nb_match → run_ticks sv n u samples = some t →
      t.freq_lock ≤ t.cfg.recon_lock_nb_match := by
    intro samples
    induction samples with
    | nil =>
      intro u t _ hiu ht
      simp only [run_ticks, Option.some.injEq] at ht
      subst ht
      exact hiu
    | cons d ds ih =>
      intro u t hu hiu ht
      simp only [run_ticks] at ht
      cases h1 : on_statistics_update sv u d n with
      | none => rw [h1] at ht; simp at ht
      | some u1 =>
        rw [h1] at ht
        simp only [Option.some_bind] at ht
        obtain ⟨a, b⟩ := tick u d u1 hu hiu h1
        exact ih u1 t a b ht
  refine ⟨fun d t ht => (tick s d t hok hinv ht).2, fun d hi => ?_,
    fun samples t ht => run samples s t hok hinv ht, ?_, ?_, ?_, ?_, ?_⟩
  · obtain ⟨t, ht, -⟩ := tick_summary sv s d n hok hi
    exact ⟨t, ht⟩
  · simp [recon_pause, clear_lock]
  · simp [recon_resume, clear_lock]
  · intro v; simp [on_stepper_delta, reset_lock]
  · intro v; simp [on_index_delta, reset_lock]
  · intro v hv0 hv1
    have hu : toU32 v = v := by unfold toU32; omega
    unfold field_nblocks_on_change nblocks_clamp
    simp only [hu]
    split_ifs with h
    · simp only [Int.toNat_of_nonneg hv0]
      refine ⟨trivial, ?_, le_refl _⟩
      omega
    · simp only [Int.toNat_of_nonneg hv0]
      refine ⟨trivial, ?_, ?_⟩
      · omega
      · omega

/-- Witness for C30: Locking with one match counted out of three required; a
tick keeps the inequality, and lowering the required count to 0 clamps the match
count to 0. -/
theorem match_count_bounded_witness :
    c13_state.freq_lock ≤ c13_state.cfg.recon_lock_nb_match ∧
    (∃ t, on_statistics_update (fun _ => 0) c13_state (-10) 100 = some t ∧
      t.freq_lock ≤ t.cfg.recon_lock_nb_match) ∧
    (field_nblocks_on_change c13_state 0).cfg.recon_lock_nb_match = 0 ∧
    (field_nblocks_on_change c13_state 0).freq_lock = 0 := by
  have h := match_count_bounded (fun _ => 0) c13_state 100 (by decide) (by decide)
  obtain ⟨t, ht⟩ := h.2.1 (-10) (by decide)
  obtain ⟨a, b, -⟩ := h.2.2.2.2.2.2.2 0 (by decide) (by decide)
  refine ⟨by decide, ⟨t, ht, h.1 (-10) t ht⟩, ?_, ?_⟩
  · exact_mod_cast a
  · have hb : ((field_nblocks_on_change c13_state 0).freq_lock : Int) = 0 := by
      rw [b]
      decide
    exact_mod_cast hb

end Recon
